import Mathlib

/-!
Wavefront OBJ mesh package: `readObj`, `writeObj` and `meshBarycenter`

A shallow embedding of `src/readObj.cc`, `src/writeObj.cc` and
`src/meshBarycenter.cc`.

* Text is a list of characters (one per byte of a `std::string`).
* `sscanf` is embedded as an interpreter of the format strings the source
  uses: literal characters, white space and one kind of conversion per call
  (`%d` or `%f`).  It returns the values converted, in order; the caller
  stores them into its variables, and a variable that no conversion reached
  keeps the value it had.
* `%d` is embedded on the integers with the 32-bit wrap of the C library
  made explicit.  Floating point is not embedded: the conversions between
  text and `double`, and between `double`, `float` and `int`, are taken as
  the parameter `NumOps`; the arithmetic of `meshBarycenter` is taken as the
  parameter `BaryOps`.
-/

namespace WavefrontObj

/-! ## Text and the C library -/

/-- One line of text, or any other character string. -/
abbrev Line := List Char

/-- The string seen through `c_str()`: it ends before the first NUL. -/
def cstr : Line → Line
  | [] => []
  | c :: cs => if c = '\x00' then [] else c :: cstr cs

/-- The character `line[i]` of a `std::string`; reading at the end yields NUL. -/
def charAt (line : Line) (i : Nat) : Char := line.getD i '\x00'

/-- The predicate `isspace` of the C locale. -/
def isspace (c : Char) : Bool :=
  c = ' ' || c = '\t' || c = '\n' || c = '\x0b' || c = '\x0c' || c = '\r'

/-- The predicate `isdigit`. -/
def isdigit (c : Char) : Bool := decide ('0'.toNat ≤ c.toNat) && decide (c.toNat ≤ '9'.toNat)

/-- Drops leading white space. -/
def skipSpace : Line → Line
  | [] => []
  | c :: cs => if isspace c then skipSpace cs else c :: cs

/-- Reads the longest run of decimal digits, accumulating its value. -/
def readDigits : Line → Nat → Nat × Line
  | [], acc => (acc, [])
  | c :: cs, acc =>
    if isdigit c then readDigits cs (10 * acc + (c.toNat - '0'.toNat)) else (acc, c :: cs)

/-- The value clamped to the range of a 64-bit `long`, as `strtol` does. -/
def clampLong (x : Int) : Int := max (-(2 : Int) ^ 63) (min x ((2 : Int) ^ 63 - 1))

/-- The conversion of a `long` to a 32-bit `int`: two's complement wrap. -/
def toInt32 (x : Int) : Int := (x + (2 : Int) ^ 31) % (2 : Int) ^ 32 - (2 : Int) ^ 31

/-- The conversion `%d` at the first character that is not white space: an
optional sign and at least one digit.  The value is read as a `long` and
stored into an `int`. -/
def scanInt (s : Line) : Option (Int × Line) :=
  let body (neg : Bool) (t : Line) : Option (Int × Line) :=
    match t with
    | [] => none
    | c :: _ =>
      if isdigit c then
        let r := readDigits t 0
        some (toInt32 (clampLong (if neg then -(r.1 : Int) else (r.1 : Int))), r.2)
      else none
  match s with
  | '-' :: t => body true t
  | '+' :: t => body false t
  | t => body false t

/-- A directive of a `scanf` format. -/
inductive Dir where
  | lit (c : Char)
  | space
  | conv
  deriving DecidableEq, Repr

/-- The directives of a format string: `%` and the letter after it are one
conversion, white space is one white-space directive, any other character
stands for itself. -/
def format : Line → List Dir
  | [] => []
  | '%' :: _ :: cs => Dir.conv :: format cs
  | c :: cs => if isspace c then Dir.space :: format cs else Dir.lit c :: format cs

/-- The call `sscanf (s, fmt, ...)` with the conversion `conv`: the values
converted before the first directive that fails, in order. -/
def sscanf {α : Type} (conv : Line → Option (α × Line)) : List Dir → Line → List α
  | [], _ => []
  | Dir.lit _ :: _, [] => []
  | Dir.lit c :: fmt, x :: s => if x = c then sscanf conv fmt s else []
  | Dir.space :: fmt, s => sscanf conv fmt (skipSpace s)
  | Dir.conv :: fmt, s =>
    match conv (skipSpace s) with
    | some (v, rest) => v :: sscanf conv fmt rest
    | none => []

/-- The lines `std::getline` yields in turn: the text between line feeds; the
end of the text ends the last line, and no line follows a final line feed. -/
def getlinesFrom : Line → Line → List Line
  | [], acc => if acc.isEmpty then [] else [acc.reverse]
  | c :: cs, acc => if c = '\n' then acc.reverse :: getlinesFrom cs [] else getlinesFrom cs (c :: acc)

/-- All lines of a file. -/
def getlines (content : Line) : List Line := getlinesFrom content []

/-- The decimal digits of a natural number, most significant first. -/
def showDigits : Nat → Nat → Line → Line
  | 0, _, acc => acc
  | fuel + 1, n, acc =>
    if n < 10 then Char.ofNat (n + 48) :: acc
    else showDigits fuel (n / 10) (Char.ofNat (n % 10 + 48) :: acc)

/-- The text `ostream << n` writes for a non-negative integer. -/
def showNat (n : Nat) : Line := showDigits (n + 1) n []

/-- The text `ostream << i` writes for an `int`. -/
def showInt (i : Int) : Line :=
  if i < 0 then '-' :: showNat i.natAbs else showNat i.natAbs

/-! ## `readObj`: the face line -/

/-- The twelve `int` variables the face scans store into. -/
structure FaceVars where
  v1 : Int := 0
  v2 : Int := 0
  v3 : Int := 0
  v4 : Int := 0
  vt1 : Int := 0
  vt2 : Int := 0
  vt3 : Int := 0
  vt4 : Int := 0
  vn1 : Int := 0
  vn2 : Int := 0
  vn3 : Int := 0
  vn4 : Int := 0
  deriving DecidableEq, Repr

/-- The name of one of the twelve variables. -/
inductive Var where
  | v1 | v2 | v3 | v4 | vt1 | vt2 | vt3 | vt4 | vn1 | vn2 | vn3 | vn4
  deriving DecidableEq, Repr

/-- Assignment to one variable. -/
def FaceVars.set (s : FaceVars) : Var → Int → FaceVars
  | Var.v1, x => { s with v1 := x }
  | Var.v2, x => { s with v2 := x }
  | Var.v3, x => { s with v3 := x }
  | Var.v4, x => { s with v4 := x }
  | Var.vt1, x => { s with vt1 := x }
  | Var.vt2, x => { s with vt2 := x }
  | Var.vt3, x => { s with vt3 := x }
  | Var.vt4, x => { s with vt4 := x }
  | Var.vn1, x => { s with vn1 := x }
  | Var.vn2, x => { s with vn2 := x }
  | Var.vn3, x => { s with vn3 := x }
  | Var.vn4, x => { s with vn4 := x }

/-- The values a scan converted go to its pointer arguments, in order; the
arguments beyond them are left as they were. -/
def FaceVars.store (s : FaceVars) : List Var → List Int → FaceVars
  | p :: ps, x :: xs => (s.set p x).store ps xs
  | _, _ => s

/-- The call `sscanf (line.c_str (), fmt, &p1, &p2, ...)` on the face variables. -/
def scanFace (s : FaceVars) (line : Line) (fmt : String) (ptrs : List Var) : FaceVars :=
  s.store ptrs (sscanf scanInt (format fmt.toList) (cstr line))

/-- Three indices of a face: the struct `Faces`. -/
structure Faces where
  a : Int
  b : Int
  c : Int
  deriving DecidableEq, Repr

/-- What the scan of one face line ends in. -/
inductive FaceScan where
  | quad
  | bare (v : Faces)
  | tex (v vt : Faces)
  | texNorm (v vt vn : Faces)
  | norm (v vn : Faces)
  | unrecognized
  deriving DecidableEq, Repr

/-- The four checks for a face of four vertices (lines 161-192): the
variables after them, or `none` when a check reported a mesh that is not
triangular. -/
def quadScans (line : Line) : Option FaceVars :=
  let s : FaceVars := {}
  let s := scanFace s line "f %d %d %d %d" [Var.v1, Var.v2, Var.v3, Var.v4]
  if s.v1 > 0 ∧ s.v2 > 0 ∧ s.v3 > 0 ∧ s.v4 > 0 then none else
  let s := scanFace s line "f %d/%d %d/%d %d/%d %d/%d"
    [Var.v1, Var.vt1, Var.v2, Var.vt2, Var.v3, Var.vt3, Var.v4, Var.vt4]
  if s.v1 > 0 ∧ s.v2 > 0 ∧ s.v3 > 0 ∧ s.v4 > 0
      ∧ s.vt1 > 0 ∧ s.vt2 > 0 ∧ s.vt3 > 0 ∧ s.vt4 > 0 then none else
  let s := scanFace s line "f %d/%d/%d %d/%d/%d %d/%d/%d %d/%d/%d"
    [Var.v1, Var.vt1, Var.vn1, Var.v2, Var.vt2, Var.vn2,
     Var.v3, Var.vt3, Var.vn3, Var.v4, Var.vt4, Var.vn4]
  if s.v1 > 0 ∧ s.v2 > 0 ∧ s.v3 > 0 ∧ s.v4 > 0 ∧ s.vt1 > 0 ∧ s.vt2 > 0
      ∧ s.vt3 > 0 ∧ s.vt4 > 0 ∧ s.vn1 > 0 ∧ s.vn2 > 0 ∧ s.vn3 > 0 ∧ s.vn4 > 0 then none else
  let s := scanFace s line "f %d//%d %d//%d %d//%d %d//%d"
    [Var.v1, Var.vn1, Var.v2, Var.vn2, Var.v3, Var.vn3, Var.v4, Var.vn4]
  if s.v1 > 0 ∧ s.v2 > 0 ∧ s.v3 > 0 ∧ s.v4 > 0 ∧ s.vn1 > 0
      ∧ s.vn2 > 0 ∧ s.vn3 > 0 ∧ s.vn4 > 0 then none else
  some s

/-- The reset of the temporary face variables (line 197); `v4`, `vt4` and
`vn4` are not among them. -/
def resetTemps (s : FaceVars) : FaceVars :=
  { s with v1 := 0, v2 := 0, v3 := 0, vt1 := 0, vt2 := 0, vt3 := 0, vn1 := 0, vn2 := 0, vn3 := 0 }

/-- The four scans for a triangle (lines 199-256), nested as in the source. -/
def triScans (s : FaceVars) (line : Line) : FaceScan :=
  let s := scanFace s line "f %d %d %d" [Var.v1, Var.v2, Var.v3]
  if s.v1 > 0 ∧ s.v2 > 0 ∧ s.v3 > 0 then
    FaceScan.bare ⟨s.v1, s.v2, s.v3⟩
  else
    let s := scanFace s line "f %d/%d %d/%d %d/%d"
      [Var.v1, Var.vt1, Var.v2, Var.vt2, Var.v3, Var.vt3]
    if s.v1 > 0 ∧ s.v2 > 0 ∧ s.v3 > 0 ∧ s.vt1 > 0 ∧ s.vt2 > 0 ∧ s.vt3 > 0 then
      FaceScan.tex ⟨s.v1, s.v2, s.v3⟩ ⟨s.vt1, s.vt2, s.vt3⟩
    else
      let s := scanFace s line "f %d/%d/%d %d/%d/%d %d/%d/%d"
        [Var.v1, Var.vt1, Var.vn1, Var.v2, Var.vt2, Var.vn2, Var.v3, Var.vt3, Var.vn3]
      if s.v1 > 0 ∧ s.v2 > 0 ∧ s.v3 > 0 ∧ s.vt1 > 0 ∧ s.vt2 > 0
          ∧ s.vt3 > 0 ∧ s.vn1 > 0 ∧ s.vn2 > 0 ∧ s.vn3 > 0 then
        FaceScan.texNorm ⟨s.v1, s.v2, s.v3⟩ ⟨s.vt1, s.vt2, s.vt3⟩ ⟨s.vn1, s.vn2, s.vn3⟩
      else
        let s := scanFace s line "f %d//%d %d//%d %d//%d"
          [Var.v1, Var.vn1, Var.v2, Var.vn2, Var.v3, Var.vn3]
        if s.v1 > 0 ∧ s.v2 > 0 ∧ s.v3 > 0 ∧ s.vn1 > 0 ∧ s.vn2 > 0 ∧ s.vn3 > 0 then
          FaceScan.norm ⟨s.v1, s.v2, s.v3⟩ ⟨s.vn1, s.vn2, s.vn3⟩
        else
          FaceScan.unrecognized

/-- The scan of a line that begins with `f` and a blank (lines 158-257). -/
def classifyFace (line : Line) : FaceScan :=
  match quadScans line with
  | none => FaceScan.quad
  | some s => triScans (resetTemps s) line

/-! ## `readObj`: the scan of the file -/

/-- The numeric conversions the source leaves to the C and C++ libraries, on
a type `D` that stands for the values of a `double`. -/
structure NumOps (D : Type) where
  /-- The conversion `%f` at the first character that is not white space, its
  `float` result widened to a `double`; `none` when no number is there. -/
  scanFloat : Line → Option (D × Line)
  /-- The text `ostream << x` writes for a `double`. -/
  showDouble : D → Line
  /-- The value a `double` has after it went through a `float` variable. -/
  toFloat : D → D
  /-- The conversion of a `double` to an `int`. -/
  toInt : D → Int

/-- Three coordinates: the struct `Coord`. -/
structure Coord (α : Type) where
  x : α
  y : α
  z : α
  deriving DecidableEq, Repr

/-- Two texture coordinates: the struct `TCoord`. -/
structure TCoord (α : Type) where
  u : α
  v : α
  deriving DecidableEq, Repr

/-- The index of the last occurrence of `c` at or after position `i` of the
text, given the last one seen so far. -/
def rfindFrom (c : Char) : Line → Nat → Option Nat → Option Nat
  | [], _, last => last
  | x :: xs, i, last => rfindFrom c xs (i + 1) (if x = c then some i else last)

/-- The index `line.rfind (c)` of the last occurrence of a character. -/
def rfind (c : Char) (line : Line) : Option Nat := rfindFrom c line 0 none

/-- The index of the first occurrence of the two characters `a b`, counted from `i`. -/
def find2From (a b : Char) : Line → Nat → Option Nat
  | x :: y :: rest, i => if x = a ∧ y = b then some i else find2From a b (y :: rest) (i + 1)
  | _, _ => none

/-- The index `line.find` yields for a string of two characters. -/
def find2 (a b : Char) (line : Line) : Option Nat := find2From a b line 0

/-- The material library named on a line (lines 116-120): the text after the
first `./` when there is one, else the text after the last blank, else the
whole line. -/
def mtlName (line : Line) : Line :=
  let str_start : Nat := match rfind ' ' line with
    | some i => i + 1
    | none => 0
  let str_start : Nat := match find2 '.' '/' line with
    | some i => i + 2
    | none => str_start
  line.drop str_start

/-- The variables of the scan: the vectors, their counters and the name of
the material library.  A coordinate no conversion reached is `none`: the
source leaves it uninitialised. -/
structure ReadState (D : Type) where
  mtl_filename : Line := []
  vertex : List (Coord (Option D)) := []
  face : List Faces := []
  normals : List (Coord (Option D)) := []
  texture : List (TCoord (Option D)) := []
  face_normals : List Faces := []
  face_texture : List Faces := []
  vertex_counter : Nat := 0
  normals_counter : Nat := 0
  texture_counter : Nat := 0
  face_counter : Nat := 0
  faceT_counter : Nat := 0
  faceN_counter : Nat := 0

/-- How a call of `readObj` ends without a result, named after the message
the source prints before it returns the empty list. -/
inductive ReadError where
  | invalidNargout
  | openFailure
  | notTriangular
  | noVertices
  | noFaces
  | outOfRange
  deriving DecidableEq, Repr

/-- The three values of a line scanned with `%f %f %f`. -/
def coordOf {D : Type} (vals : List D) : Coord (Option D) := ⟨vals.get? 0, vals.get? 1, vals.get? 2⟩

/-- The two values of a line scanned with `%f %f`. -/
def tcoordOf {D : Type} (vals : List D) : TCoord (Option D) := ⟨vals.get? 0, vals.get? 1⟩

/-- The `if` on a line that begins with `mtl` (lines 114-121). -/
def mtlStep {D : Type} (st : ReadState D) (line : Line) : ReadState D :=
  if charAt line 0 = 'm' ∧ charAt line 1 = 't' ∧ charAt line 2 = 'l' then
    { st with mtl_filename := mtlName line }
  else st

/-- The `if` on a line that begins with `v` and a blank (lines 122-133). -/
def vertexStep {D : Type} (ops : NumOps D) (st : ReadState D) (line : Line) : ReadState D :=
  if charAt line 0 = 'v' ∧ charAt line 1 = ' ' then
    { st with
      vertex := st.vertex
        ++ [coordOf (sscanf ops.scanFloat (format "v %f %f %f".toList) (cstr line))]
      vertex_counter := st.vertex_counter + 1 }
  else st

/-- The `if` on a line that begins with `vn` and a blank (lines 134-145). -/
def normalStep {D : Type} (ops : NumOps D) (st : ReadState D) (line : Line) : ReadState D :=
  if charAt line 0 = 'v' ∧ charAt line 1 = 'n' ∧ charAt line 2 = ' ' then
    { st with
      normals := st.normals
        ++ [coordOf (sscanf ops.scanFloat (format "vn %f %f %f".toList) (cstr line))]
      normals_counter := st.normals_counter + 1 }
  else st

/-- The `if` on a line that begins with `vt` and a blank (lines 146-157). -/
def textureStep {D : Type} (ops : NumOps D) (st : ReadState D) (line : Line) : ReadState D :=
  if charAt line 0 = 'v' ∧ charAt line 1 = 't' ∧ charAt line 2 = ' ' then
    { st with
      texture := st.texture
        ++ [tcoordOf (sscanf ops.scanFloat (format "vt %f %f".toList) (cstr line))]
      texture_counter := st.texture_counter + 1 }
  else st

/-- The `if` on a line that begins with `f` and a blank (lines 158-257): the
state with the face stored, or the error the line ends the call with. -/
def faceStep {D : Type} (st : ReadState D) (line : Line) : Except ReadError (ReadState D) :=
  if charAt line 0 = 'f' ∧ charAt line 1 = ' ' then
    match classifyFace line with
    | FaceScan.quad => Except.error ReadError.notTriangular
    | FaceScan.bare v =>
      Except.ok { st with face_counter := st.face_counter + 1, face := st.face ++ [v] }
    | FaceScan.tex v vt =>
      Except.ok { st with
        face_counter := st.face_counter + 1
        face := st.face ++ [v]
        face_texture := st.face_texture ++ [vt]
        faceT_counter := st.faceT_counter + 1 }
    | FaceScan.texNorm v vt vn =>
      Except.ok { st with
        face_counter := st.face_counter + 1
        face := st.face ++ [v]
        face_texture := st.face_texture ++ [vt]
        face_normals := st.face_normals ++ [vn]
        faceT_counter := st.faceT_counter + 1
        faceN_counter := st.faceN_counter + 1 }
    | FaceScan.norm v vn =>
      Except.ok { st with
        face_counter := st.face_counter + 1
        face := st.face ++ [v]
        face_normals := st.face_normals ++ [vn]
        faceN_counter := st.faceN_counter + 1 }
    | FaceScan.unrecognized => Except.error ReadError.notTriangular
  else Except.ok st

/-- The body of the loop over the lines (lines 114-257): its five `if`
statements in turn. -/
def readLine {D : Type} (ops : NumOps D) (st : ReadState D) (line : Line) :
    Except ReadError (ReadState D) :=
  faceStep (textureStep ops (normalStep ops (vertexStep ops (mtlStep st line) line) line) line) line

/-- The loop over the lines of the file: it stops at the first line that ends
the call. -/
def readLines {D : Type} (ops : NumOps D) : ReadState D → List Line → Except ReadError (ReadState D)
  | st, [] => Except.ok st
  | st, line :: rest =>
    match readLine ops st line with
    | Except.error e => Except.error e
    | Except.ok st1 => readLines ops st1 rest

/-- The loop that fills an array of `n` rows from a vector, row `i` from
element `i`: the first `n` elements, and no result when the vector has fewer. -/
def copyRows {α : Type} (n : Nat) (xs : List α) : Option (List α) :=
  if n ≤ xs.length then some (xs.take n) else none

/-- The six arrays and the name of the material library at line 380, with the
counters that gave the arrays their row counts. -/
structure ObjData (D : Type) where
  V : List (Coord (Option D))
  F : List Faces
  VT : List (TCoord (Option D))
  FT : List Faces
  VN : List (Coord (Option D))
  FN : List Faces
  mtl_filename : Line
  vertex_counter : Nat
  normals_counter : Nat
  texture_counter : Nat
  face_counter : Nat
  faceT_counter : Nat
  faceN_counter : Nat

/-- The arrays built from the vectors once the scan is over (lines 270-363). -/
def toArrays {D : Type} (st : ReadState D) : Except ReadError (ObjData D) :=
  if st.vertex_counter > 0 then
    match copyRows st.vertex_counter st.vertex with
    | none => Except.error ReadError.outOfRange
    | some V =>
    match copyRows st.texture_counter st.texture with
    | none => Except.error ReadError.outOfRange
    | some VT =>
    match copyRows st.normals_counter st.normals with
    | none => Except.error ReadError.outOfRange
    | some VN =>
    if st.face_counter > 0 then
      match copyRows st.face_counter st.face with
      | none => Except.error ReadError.outOfRange
      | some F =>
      match copyRows st.faceT_counter st.face_texture with
      | none => Except.error ReadError.outOfRange
      | some FT =>
      match copyRows st.faceN_counter st.face_normals with
      | none => Except.error ReadError.outOfRange
      | some FN =>
        Except.ok
          { V := V, F := F, VT := VT, FT := FT, VN := VN, FN := FN
            mtl_filename := st.mtl_filename
            vertex_counter := st.vertex_counter
            normals_counter := st.normals_counter
            texture_counter := st.texture_counter
            face_counter := st.face_counter
            faceT_counter := st.faceT_counter
            faceN_counter := st.faceN_counter }
    else Except.error ReadError.noFaces
  else Except.error ReadError.noVertices

/-- The part of `readObj` between the test of `nargout` and the choice of
the return values (lines 82-363); `file` is the content of the file, `none`
when it cannot be opened. -/
def readMesh {D : Type} (ops : NumOps D) (file : Option Line) : Except ReadError (ObjData D) :=
  match file with
  | none => Except.error ReadError.openFailure
  | some content =>
    match readLines ops {} (getlines content) with
    | Except.error e => Except.error e
    | Except.ok st => toArrays st

/-- A value of the list `readObj` returns. -/
inductive OctValue (D : Type) where
  | coords (rows : List (Coord (Option D)))
  | tcoords (rows : List (TCoord (Option D)))
  | faces (rows : List Faces)
  | str (s : Line)

/-- The return list chosen by the number of output arguments (lines 380-449). -/
def retval {D : Type} (nargout : Int) (m : ObjData D) : List (OctValue D) :=
  let V := OctValue.coords m.V
  let F := OctValue.faces m.F
  let VT := OctValue.tcoords m.VT
  let FT := OctValue.faces m.FT
  let VN := OctValue.coords m.VN
  let FN := OctValue.faces m.FN
  let mtl := OctValue.str (cstr m.mtl_filename)
  let r : List (OctValue D) := []
  let r := if nargout = 2 then [V, F] else r
  let r := if nargout = 3 then [V, F, mtl] else r
  let r := if nargout = 4 ∧ m.faceT_counter > 0 ∧ m.texture_counter > 0 then [V, F, VT, FT] else r
  let r := if nargout = 4 ∧ m.faceT_counter = 0 ∧ m.texture_counter = 0
      ∧ m.faceN_counter > 0 ∧ m.normals_counter > 0 then [V, F, VN, FN] else r
  let r := if nargout = 5 ∧ m.faceT_counter > 0 ∧ m.texture_counter > 0 then [V, F, VT, FT, mtl] else r
  let r := if nargout = 5 ∧ m.faceT_counter = 0 ∧ m.texture_counter = 0
      ∧ m.faceN_counter > 0 ∧ m.normals_counter > 0 then [V, F, VN, FN, mtl] else r
  let r := if nargout = 6 then [V, F, VT, FT, VN, FN] else r
  let r := if nargout = 7 then [V, F, VT, FT, VN, FN, mtl] else r
  r

/-- The function `readObj`: the values returned, or the error the call ends with. -/
def readObj {D : Type} (ops : NumOps D) (nargout : Int) (file : Option Line) :
    Except ReadError (List (OctValue D)) :=
  if nargout < 2 ∨ nargout > 7 then Except.error ReadError.invalidNargout
  else
    match readMesh ops file with
    | Except.error e => Except.error e
    | Except.ok m => Except.ok (retval nargout m)

/-! ## `writeObj` -/

/-- What `writeObj` observes of one input argument: the answers of
`is_string`, `is_matrix_type`, `rows` and `columns`, the elements of
`array_value` and the characters of `string_value`. -/
structure OctArg (D : Type) where
  is_string : Bool
  is_matrix_type : Bool
  rows : Nat
  columns : Nat
  array_value : Nat → Nat → D
  string_value : Line

/-- What `writeObj` observes of its surroundings: whether a file of a given
name exists, the lines typed at the console, and whether a file of a given
name can be opened for writing. -/
structure Host where
  file_exists : Line → Bool
  console : List Line
  can_open : Line → Bool

/-- The checks of `writeObj`, named after the messages the source prints. -/
inductive WriteError where
  | invalidArgCount
  | thirdNotString
  | firstTwoNotMatrices
  | fifthNotString
  | firstFourNotMatrices
  | seventhNotString
  | firstSixNotMatrices
  | fewVertices
  | vertexColumns
  | noFaces
  | faceColumns
  | textureColumns
  | textureFaceColumns
  | normalColumns
  | faceNormalColumns
  | textureFaceCount
  | faceNormalCount
  | faceCounts
  deriving DecidableEq, Repr

/-- How a call of `writeObj` ends.  `rejected`: a check failed before the
overwrite dialogue, nothing was opened.  `noAnswer`: the console never
answers yes or no.  `openError`: the file could not be opened.  `threw`: the
file was opened and the replacement that derives the material library name
was out of range.  `undefined`: an element was read beyond the end of its
vector or of the argument list.  `written`: the file of that name received
that text. -/
inductive WriteOutcome where
  | rejected (e : WriteError)
  | noAnswer
  | openError (name : Line)
  | threw (name : Line)
  | undefined
  | written (name : Line) (text : Line)
  deriving DecidableEq, Repr

/-- The loop that reads the console until the line is `yes` or `no`: that
line and the lines left, or `none` when the console ends first. -/
def askYesNo : List Line → Option (Line × List Line)
  | [] => none
  | l :: ls => if l = "yes".toList ∨ l = "no".toList then some (l, ls) else askYesNo ls

/-- The overwrite dialogue (lines 161-180): the name the file is opened under. -/
def dialogue (host : Host) (filename : Line) : Option Line :=
  if host.file_exists (cstr filename) then
    match askYesNo host.console with
    | none => none
    | some (yes_or_no, rest) =>
      if yes_or_no ≠ "yes".toList then some (cstr (rest.headD [])) else some filename
  else some filename

/-- The name written after `mtllib ./`: `mtlfilename.replace (i, 3, "mtl")`
with `i = filename.length () - 3`; `none` when the position is out of range. -/
def mtlFileName (filename : Line) : Option Line :=
  let mtlfilename := cstr filename
  if filename.length < 3 then none
  else
    let i := filename.length - 3
    if i > mtlfilename.length then none
    else some (mtlfilename.take i ++ "mtl".toList ++ mtlfilename.drop (i + 3))

/-- The comment lines at the head of the file. -/
def headerText (filename : Line) (V_rows F_rows : Nat) : Line :=
  "#\n# OBJ File generated by GNU Octave\n# using \x27writeObj\x27 function\n".toList
    ++ "#\n# Object ".toList ++ cstr filename ++ "\n#\n".toList
    ++ "# Vertices: ".toList ++ showNat V_rows ++ "\n".toList
    ++ "# Faces: ".toList ++ showNat F_rows ++ "\n#\n#\n".toList

/-- The line of the material library and the empty line after it. -/
def mtllibText (mtlname : Line) : Line := "mtllib ./".toList ++ mtlname ++ "\n\n".toList

/-- The vector `vertex`, or `vertex_normals`: each coordinate goes through a `float`. -/
def stageCoords {D : Type} (ops : NumOps D) (rows : Nat) (M : Nat → Nat → D) : List (Coord D) :=
  (List.range rows).map fun i => ⟨ops.toFloat (M i 0), ops.toFloat (M i 1), ops.toFloat (M i 2)⟩

/-- The vector `texture_coord`. -/
def stageTCoords {D : Type} (ops : NumOps D) (rows : Nat) (M : Nat → Nat → D) : List (TCoord D) :=
  (List.range rows).map fun i => ⟨ops.toFloat (M i 0), ops.toFloat (M i 1)⟩

/-- The vector `face`, `face_texture` or `face_normals`: each entry goes into an `int`. -/
def stageFaces {D : Type} (ops : NumOps D) (rows : Nat) (M : Nat → Nat → D) : List Faces :=
  (List.range rows).map fun i => ⟨ops.toInt (M i 0), ops.toInt (M i 1), ops.toInt (M i 2)⟩

/-- A line of three numbers after a key word `v` or `vn`. -/
def coordLine {D : Type} (ops : NumOps D) (key : String) (c : Coord D) : Line :=
  key.toList ++ ' ' :: ops.showDouble c.x ++ ' ' :: ops.showDouble c.y ++ ' ' :: ops.showDouble c.z

/-- A line `vt u v`. -/
def tcoordLine {D : Type} (ops : NumOps D) (c : TCoord D) : Line :=
  'v' :: 't' :: ' ' :: ops.showDouble c.u ++ ' ' :: ops.showDouble c.v

/-- The face line `f a b c`. -/
def faceLineBare (f : Faces) : Line :=
  'f' :: ' ' :: showInt f.a ++ ' ' :: showInt f.b ++ ' ' :: showInt f.c

/-- The face line `f a/ta b/tb c/tc`. -/
def faceLineTex (f ft : Faces) : Line :=
  'f' :: ' ' :: showInt f.a ++ '/' :: showInt ft.a ++ ' ' :: showInt f.b ++ '/' :: showInt ft.b
    ++ ' ' :: showInt f.c ++ '/' :: showInt ft.c

/-- The face line `f a//na b//nb c//nc`. -/
def faceLineNorm (f fn : Faces) : Line :=
  'f' :: ' ' :: showInt f.a ++ '/' :: '/' :: showInt fn.a ++ ' ' :: showInt f.b ++ '/' :: '/' :: showInt fn.b
    ++ ' ' :: showInt f.c ++ '/' :: '/' :: showInt fn.c

/-- The face line `f a/ta/na b/tb/nb c/tc/nc`. -/
def faceLineTexNorm (f ft fn : Faces) : Line :=
  'f' :: ' ' :: showInt f.a ++ '/' :: showInt ft.a ++ '/' :: showInt fn.a
    ++ ' ' :: showInt f.b ++ '/' :: showInt ft.b ++ '/' :: showInt fn.b
    ++ ' ' :: showInt f.c ++ '/' :: showInt ft.c ++ '/' :: showInt fn.c

/-- Lines written one after the other, a line feed after each. -/
def putLines : List Line → Line
  | [] => []
  | l :: ls => l ++ '\n' :: putLines ls

/-- The loop over two vectors of faces.  Its condition is a comma
expression, so only the test of the second iterator decides; `none` when the
first vector ends before the second. -/
def faceLoop2 (line : Faces → Faces → Line) : List Faces → List Faces → Option Line
  | _, [] => some []
  | [], _ :: _ => none
  | f :: fs, g :: gs => (faceLoop2 line fs gs).map fun rest => line f g ++ '\n' :: rest

/-- The loop over three vectors of faces.  Only the test of the third
iterator decides; `none` when one of the other vectors ends before it. -/
def faceLoop3 (line : Faces → Faces → Faces → Line) :
    List Faces → List Faces → List Faces → Option Line
  | _, _, [] => some []
  | f :: fs, g :: gs, h :: hs => (faceLoop3 line fs gs hs).map fun rest => line f g h ++ '\n' :: rest
  | _, _, _ :: _ => none

/-- The part common to the four variants from the overwrite dialogue on: the
file is opened, the head is written, then the lines `body` of the variant. -/
def writeFile (host : Host) (filename : Line) (V_rows F_rows : Nat) (body : Option Line) :
    WriteOutcome :=
  match dialogue host filename with
  | none => WriteOutcome.noAnswer
  | some filename =>
    if host.can_open (cstr filename) then
      match mtlFileName filename with
      | none => WriteOutcome.threw (cstr filename)
      | some mtlname =>
        match body with
        | none => WriteOutcome.undefined
        | some lines =>
          WriteOutcome.written (cstr filename)
            (headerText filename V_rows F_rows ++ mtllibText mtlname ++ lines)
    else WriteOutcome.openError (cstr filename)

/-- The variant of three arguments: vertices and faces (lines 98-219). -/
def write3 {D : Type} (ops : NumOps D) (host : Host) (V F name : OctArg D) : WriteOutcome :=
  if V.rows < 3 then WriteOutcome.rejected WriteError.fewVertices
  else if V.columns ≠ 3 then WriteOutcome.rejected WriteError.vertexColumns
  else if F.rows < 1 then WriteOutcome.rejected WriteError.noFaces
  else if F.columns ≠ 3 then WriteOutcome.rejected WriteError.faceColumns
  else
    let vertex := stageCoords ops V.rows V.array_value
    let face := stageFaces ops F.rows F.array_value
    writeFile host name.string_value V.rows F.rows
      (some (putLines (vertex.map (coordLine ops "v")) ++ putLines (face.map faceLineBare)))

/-- The variant of five arguments with texture (lines 243-415). -/
def write5t {D : Type} (ops : NumOps D) (host : Host) (V F VT FT name : OctArg D) : WriteOutcome :=
  if V.rows < 3 then WriteOutcome.rejected WriteError.fewVertices
  else if V.columns ≠ 3 then WriteOutcome.rejected WriteError.vertexColumns
  else if F.rows < 1 then WriteOutcome.rejected WriteError.noFaces
  else if F.columns ≠ 3 then WriteOutcome.rejected WriteError.faceColumns
  else if FT.columns ≠ 3 then WriteOutcome.rejected WriteError.textureFaceColumns
  else
    let vertex := stageCoords ops V.rows V.array_value
    let face := stageFaces ops F.rows F.array_value
    let texture_coord := stageTCoords ops VT.rows VT.array_value
    let face_texture := stageFaces ops FT.rows FT.array_value
    if F.rows ≠ FT.rows then WriteOutcome.rejected WriteError.textureFaceCount
    else
      writeFile host name.string_value V.rows F.rows
        ((faceLoop2 faceLineTex face face_texture).map fun faces =>
          putLines (vertex.map (coordLine ops "v"))
            ++ putLines (texture_coord.map (tcoordLine ops)) ++ faces)

/-- The variant of five arguments with normals (lines 419-590). -/
def write5n {D : Type} (ops : NumOps D) (host : Host) (V F VN FN name : OctArg D) : WriteOutcome :=
  if V.rows < 3 then WriteOutcome.rejected WriteError.fewVertices
  else if V.columns ≠ 3 then WriteOutcome.rejected WriteError.vertexColumns
  else if F.rows < 1 then WriteOutcome.rejected WriteError.noFaces
  else if F.columns ≠ 3 then WriteOutcome.rejected WriteError.faceColumns
  else if FN.columns ≠ 3 then WriteOutcome.rejected WriteError.faceNormalColumns
  else
    let vertex := stageCoords ops V.rows V.array_value
    let face := stageFaces ops F.rows F.array_value
    let vertex_normals := stageCoords ops VN.rows VN.array_value
    let face_normals := stageFaces ops FN.rows FN.array_value
    if F.rows ≠ FN.rows then WriteOutcome.rejected WriteError.faceNormalCount
    else
      writeFile host name.string_value V.rows F.rows
        ((faceLoop2 faceLineNorm face face_normals).map fun faces =>
          putLines (vertex.map (coordLine ops "v"))
            ++ putLines (vertex_normals.map (coordLine ops "vn")) ++ faces)

/-- The variant of seven arguments (lines 612-840). -/
def write7 {D : Type} (ops : NumOps D) (host : Host) (V F VT FT VN FN name : OctArg D) :
    WriteOutcome :=
  if V.rows < 3 then WriteOutcome.rejected WriteError.fewVertices
  else if V.columns ≠ 3 then WriteOutcome.rejected WriteError.vertexColumns
  else if F.rows < 1 then WriteOutcome.rejected WriteError.noFaces
  else if F.columns ≠ 3 then WriteOutcome.rejected WriteError.faceColumns
  else if VT.columns ≠ 2 then WriteOutcome.rejected WriteError.textureColumns
  else if FT.columns ≠ 3 then WriteOutcome.rejected WriteError.textureFaceColumns
  else if VN.columns ≠ 3 then WriteOutcome.rejected WriteError.normalColumns
  else if FN.columns ≠ 3 then WriteOutcome.rejected WriteError.faceNormalColumns
  else
    let vertex := stageCoords ops V.rows V.array_value
    let face := stageFaces ops F.rows F.array_value
    let texture_coord := stageTCoords ops VT.rows VT.array_value
    let face_texture := stageFaces ops FT.rows FT.array_value
    let vertex_normals := stageCoords ops VN.rows VN.array_value
    let face_normals := stageFaces ops FN.rows FN.array_value
    if F.rows ≠ FT.rows ∧ F.rows ≠ FN.rows then WriteOutcome.rejected WriteError.faceCounts
    else
      writeFile host name.string_value V.rows F.rows
        ((faceLoop3 faceLineTexNorm face face_texture face_normals).map fun faces =>
          putLines (vertex.map (coordLine ops "v"))
            ++ putLines (texture_coord.map (tcoordLine ops))
            ++ putLines (vertex_normals.map (coordLine ops "vn")) ++ faces)

/-- The function `writeObj` on its list of arguments.  The tests of the
source are taken in its order for each number of arguments.  With five
arguments and a third argument of neither two nor three columns no variant is
entered: the source goes on to the test of the first six arguments (line
600), which ends the call when the fifth is not of matrix type and otherwise
reads `args (5)`, an element beyond the end of the list. -/
def writeObj {D : Type} (ops : NumOps D) (host : Host) (args : List (OctArg D)) : WriteOutcome :=
  match args with
  | [a0, a1, a2] =>
    if !a2.is_string then WriteOutcome.rejected WriteError.thirdNotString
    else if !a0.is_matrix_type || !a1.is_matrix_type then
      WriteOutcome.rejected WriteError.firstTwoNotMatrices
    else write3 ops host a0 a1 a2
  | [a0, a1, a2, a3, a4] =>
    if !a0.is_matrix_type || !a1.is_matrix_type then
      WriteOutcome.rejected WriteError.firstTwoNotMatrices
    else if !a4.is_string then WriteOutcome.rejected WriteError.fifthNotString
    else if !a0.is_matrix_type || !a1.is_matrix_type || !a2.is_matrix_type
        || !a3.is_matrix_type then
      WriteOutcome.rejected WriteError.firstFourNotMatrices
    else if a2.columns = 2 then write5t ops host a0 a1 a2 a3 a4
    else if a2.columns = 3 then write5n ops host a0 a1 a2 a3 a4
    else if !a4.is_matrix_type then WriteOutcome.rejected WriteError.firstSixNotMatrices
    else WriteOutcome.undefined
  | [a0, a1, a2, a3, a4, a5, a6] =>
    if !a0.is_matrix_type || !a1.is_matrix_type then
      WriteOutcome.rejected WriteError.firstTwoNotMatrices
    else if !a0.is_matrix_type || !a1.is_matrix_type || !a2.is_matrix_type
        || !a3.is_matrix_type then
      WriteOutcome.rejected WriteError.firstFourNotMatrices
    else if !a6.is_string then WriteOutcome.rejected WriteError.seventhNotString
    else if !a0.is_matrix_type || !a1.is_matrix_type || !a2.is_matrix_type
        || !a3.is_matrix_type || !a4.is_matrix_type || !a5.is_matrix_type then
      WriteOutcome.rejected WriteError.firstSixNotMatrices
    else write7 ops host a0 a1 a2 a3 a4 a5 a6
  | _ => WriteOutcome.rejected WriteError.invalidArgCount

/-! ## `meshBarycenter` -/

/-- The arithmetic `meshBarycenter` leaves to the machine, on a type `D` that
stands for the values of a `double`.  Floating point is not embedded: each
operation the result goes through is a parameter. -/
structure BaryOps (D : Type) where
  /-- The value a `double` has after it went through a `float` variable. -/
  toFloat : D → D
  /-- The `int` the value of `x - 1` is converted to (lines 118-120); `none`
  when that value is not one of an `int`. -/
  toIndex : D → Option Int
  /-- The sum of two values. -/
  add : D → D → D
  /-- The quotient of a value by a whole number: by 3, and by the number of faces. -/
  divNat : D → Nat → D
  /-- The content of element `(0, k)` of the matrix `mesh_barycenter` once it
  is constructed (line 169): the constructor of a matrix from its two
  dimensions does not set the elements. -/
  fresh : Nat → D

/-- The checks of `meshBarycenter`, named after the messages the source prints. -/
inductive BaryError where
  | invalidArgCount
  | notMatrices
  | fewVertices
  | vertexColumns
  | noFaces
  | faceColumns
  deriving DecidableEq, Repr

/-- How a call of `meshBarycenter` ends.  `rejected`: a check failed.
`undefined`: an index had no `int`, or a row was read outside the matrix of
the vertices.  `returned`: with one output argument the point is returned.
`printed`: with any other number of output arguments the point is printed
and nothing is returned. -/
inductive BaryOutcome (D : Type) where
  | rejected (e : BaryError)
  | undefined
  | returned (p : Coord D)
  | printed (p : Coord D)
  deriving DecidableEq, Repr

/-- The row `V (idx, 0)`, `V (idx, 1)`, `V (idx, 2)`, each element through a
`float` variable (lines 122-125); `none` when the row is outside the matrix. -/
def vertexAt {D : Type} (ops : BaryOps D) (V : OctArg D) (idx : Int) : Option (Coord D) :=
  if 0 ≤ idx ∧ idx < V.rows then
    some ⟨ops.toFloat (V.array_value idx.toNat 0), ops.toFloat (V.array_value idx.toNat 1),
      ops.toFloat (V.array_value idx.toNat 2)⟩
  else none

/-- One pass of the first loop (lines 113-138): the three vertices of face `i`. -/
def faceVertices {D : Type} (ops : BaryOps D) (V F : OctArg D) (i : Nat) :
    Option (Coord D × Coord D × Coord D) :=
  match ops.toIndex (F.array_value i 0), ops.toIndex (F.array_value i 1),
      ops.toIndex (F.array_value i 2) with
  | some vert_idx_A, some vert_idx_B, some vert_idx_C =>
    match vertexAt ops V vert_idx_A, vertexAt ops V vert_idx_B, vertexAt ops V vert_idx_C with
    | some a, some b, some c => some (a, b, c)
    | _, _, _ => none
  | _, _, _ => none

/-- The list of the values when every one is there. -/
def allSome {α : Type} : List (Option α) → Option (List α)
  | [] => some []
  | none :: _ => none
  | some x :: xs => (allSome xs).map fun r => x :: r

/-- The centroid of a face (lines 147-151): each coordinate is the sum of
those of the three vertices divided by 3, through a `float` variable. -/
def centroid {D : Type} (ops : BaryOps D) (t : Coord D × Coord D × Coord D) : Coord D :=
  ⟨ops.toFloat (ops.divNat (ops.add (ops.add t.1.x t.2.1.x) t.2.2.x) 3),
   ops.toFloat (ops.divNat (ops.add (ops.add t.1.y t.2.1.y) t.2.2.y) 3),
   ops.toFloat (ops.divNat (ops.add (ops.add t.1.z t.2.1.z) t.2.2.z) 3)⟩

/-- The third loop (lines 170-175): the centroids are added, one after the
other, onto the elements of `mesh_barycenter`. -/
def accumulate {D : Type} (ops : BaryOps D) : Coord D → List (Coord D) → Coord D
  | acc, [] => acc
  | acc, c :: cs => accumulate ops ⟨ops.add acc.x c.x, ops.add acc.y c.y, ops.add acc.z c.z⟩ cs

/-- The function `meshBarycenter` on its list of arguments.  The area of each
face (lines 152-164) goes into the vector `face_area`, which nothing reads:
it is left out. -/
def meshBarycenter {D : Type} (ops : BaryOps D) (nargout : Int) (args : List (OctArg D)) :
    BaryOutcome D :=
  match args with
  | [a0, a1] =>
    if !a0.is_matrix_type || !a1.is_matrix_type then BaryOutcome.rejected BaryError.notMatrices
    else if a0.rows < 3 then BaryOutcome.rejected BaryError.fewVertices
    else if a0.columns ≠ 3 then BaryOutcome.rejected BaryError.vertexColumns
    else if a1.rows < 1 then BaryOutcome.rejected BaryError.noFaces
    else if a1.columns ≠ 3 then BaryOutcome.rejected BaryError.faceColumns
    else
      match allSome ((List.range a1.rows).map (faceVertices ops a0 a1)) with
      | none => BaryOutcome.undefined
      | some vertices =>
        let face_barycenter := vertices.map (centroid ops)
        let sum := accumulate ops ⟨ops.fresh 0, ops.fresh 1, ops.fresh 2⟩ face_barycenter
        let mesh_barycenter : Coord D :=
          ⟨ops.divNat sum.x a1.rows, ops.divNat sum.y a1.rows, ops.divNat sum.z a1.rows⟩
        if nargout = 1 then BaryOutcome.returned mesh_barycenter
        else BaryOutcome.printed mesh_barycenter
  | _ => BaryOutcome.rejected BaryError.invalidArgCount

/-! ## A model of the numeric conversions on whole numbers -/

/-- The text without its trailing zeros. -/
def stripZeros (s : Line) : Line :=
  (s.reverse.dropWhile fun c => c = '0').reverse

/-- The text `ostream << x` writes, with its default precision of six
significant digits, for a whole number of seven digits or more: the six
digits nearest to it (ties to even), a point after the first, trailing zeros
dropped, and the decimal exponent with at least two digits. -/
def showScientific (n : Nat) : Line :=
  let e := (showNat n).length - 1
  let unit := 10 ^ (e - 5)
  let q := n / unit
  let r := n % unit
  let up : Bool := decide (unit < 2 * r) || (decide (2 * r = unit) && decide (q % 2 = 1))
  let m := if up then q + 1 else q
  let e := if m = 1000000 then e + 1 else e
  let m := if m = 1000000 then 100000 else m
  let digits := showNat m
  let frac := stripZeros (digits.drop 1)
  digits.take 1 ++ (if frac.isEmpty then [] else '.' :: frac)
    ++ 'e' :: '+' :: (if e < 10 then '0' :: showNat e else showNat e)

/-- The text `ostream << x` writes for a `double` that is a whole number:
plain digits up to six of them, else the scientific form. -/
def showWhole (x : Int) : Line :=
  if x.natAbs < 1000000 then showInt x
  else if x < 0 then '-' :: showScientific x.natAbs else showScientific x.natAbs

/-- The fraction after the digits of a number: its digits as a number, how
many they are, and the text left. -/
def scanFraction (s : Line) : Nat × Nat × Line :=
  match s with
  | '.' :: t => ((readDigits t 0).1, t.length - (readDigits t 0).2.length, (readDigits t 0).2)
  | _ => (0, 0, s)

/-- The exponent after the digits of a number, zero when there is none, and
the text left. -/
def scanExponent (s : Line) : Int × Line :=
  let digitsOf (neg : Bool) (t : Line) : Int × Line :=
    match t with
    | d :: _ =>
      if isdigit d then
        (if neg then -((readDigits t 0).1 : Int) else ((readDigits t 0).1 : Int), (readDigits t 0).2)
      else (0, s)
    | [] => (0, s)
  match s with
  | c :: t =>
    if c = 'e' ∨ c = 'E' then
      match t with
      | '-' :: u => digitsOf true u
      | '+' :: u => digitsOf false u
      | u => digitsOf false u
    else (0, s)
  | [] => (0, s)

/-- The conversion `%f` on the text of a whole number: an optional sign,
digits, an optional fraction and an optional exponent.  A text whose value is
not a whole number is outside this model and is not converted. -/
def scanWhole (s : Line) : Option (Int × Line) :=
  let body (neg : Bool) (t : Line) : Option (Int × Line) :=
    match t with
    | [] => none
    | c :: _ =>
      if isdigit c then
        let ip := readDigits t 0
        let fr := scanFraction ip.2
        let ex := scanExponent fr.2.2
        let m : Int := (ip.1 : Int) * 10 ^ fr.2.1 + (fr.1 : Int)
        let e : Int := ex.1 - (fr.2.1 : Int)
        if 0 ≤ e then some (if neg then -(m * 10 ^ e.toNat) else m * 10 ^ e.toNat, ex.2)
        else if m % 10 ^ (-e).toNat = 0 then
          some (if neg then -(m / 10 ^ (-e).toNat) else m / 10 ^ (-e).toNat, ex.2)
        else none
      else none
  match s with
  | '-' :: t => body true t
  | '+' :: t => body false t
  | t => body false t

/-- The numeric conversions on whole numbers: a model of `NumOps` for the
values that are whole numbers below 2^24 in magnitude, which a `float` holds
exactly, and for the texts of such numbers.  The theorems below hold for
every `NumOps`; this one instantiates them at concrete inputs. -/
def wholeOps : NumOps Int where
  scanFloat := scanWhole
  showDouble := showWhole
  toFloat := fun x => x
  toInt := fun x => x

/-! ## Inputs for the examples -/

/-- A matrix argument of whole numbers, given by its rows and its number of columns. -/
def matrixArg (rows : List (List Int)) (columns : Nat) : OctArg Int where
  is_string := false
  is_matrix_type := true
  rows := rows.length
  columns := columns
  array_value := fun i j => (rows.getD i []).getD j 0
  string_value := []

/-- A string argument: a character matrix of one row, so it is of matrix
type as well. -/
def stringArg (s : String) : OctArg Int where
  is_string := true
  is_matrix_type := true
  rows := 1
  columns := s.length
  array_value := fun _ _ => 0
  string_value := s.toList

/-- Surroundings in which no file exists yet and every file can be opened. -/
def freshHost : Host where
  file_exists := fun _ => false
  console := []
  can_open := fun _ => true

/-- The head of the file `writeObj` writes under the name `m.obj` for three
vertices and one face. -/
def sampleHead : Line :=
  ("#\n# OBJ File generated by GNU Octave\n# using \x27writeObj\x27 function\n"
    ++ "#\n# Object m.obj\n#\n# Vertices: 3\n# Faces: 1\n#\n#\n"
    ++ "mtllib ./m.mtl\n\n").toList

/-- The file `writeObj` writes for three vertices and the face (1, 2, 3)
under a name that has a line feed after its first character and goes on with
`f 1 2 3 4.obj`. -/
def brokenText : Line :=
  ("#\n# OBJ File generated by GNU Octave\n# using \x27writeObj\x27 function\n"
    ++ "#\n# Object a\nf 1 2 3 4.obj\n#\n# Vertices: 3\n# Faces: 1\n#\n#\n"
    ++ "mtllib ./a\nf 1 2 3 4.mtl\n\n"
    ++ "v 0 0 0\nv 1 0 0\nv 0 1 0\nf 1 2 3\n").toList

/-- The head of the file `writeObj` writes under the name `m.obj` for three
vertices and two faces. -/
def sampleHeadTwoFaces : Line :=
  ("#\n# OBJ File generated by GNU Octave\n# using \x27writeObj\x27 function\n"
    ++ "#\n# Object m.obj\n#\n# Vertices: 3\n# Faces: 2\n#\n#\n"
    ++ "mtllib ./m.mtl\n\n").toList

/-- A matrix argument of rational numbers, given by its rows and its number of columns. -/
def ratArg (rows : List (List ℚ)) (columns : Nat) : OctArg ℚ where
  is_string := false
  is_matrix_type := true
  rows := rows.length
  columns := columns
  array_value := fun i j => (rows.getD i []).getD j 0
  string_value := []

/-- The file `writeObj` writes for three vertices and the face (1, 2, 3)
under the name `a ./b.obj`. -/
def spacedNameText : Line :=
  ("#\n# OBJ File generated by GNU Octave\n# using \x27writeObj\x27 function\n"
    ++ "#\n# Object a ./b.obj\n#\n# Vertices: 3\n# Faces: 1\n#\n#\n"
    ++ "mtllib ./a ./b.mtl\n\n"
    ++ "v 0 0 0\nv 1 0 0\nv 0 1 0\nf 1 2 3\n").toList

/-- The file `writeObj` writes under the name `m.obj` for three vertices and
one face, given the line of the face. -/
def sampleTriangleText (faceLine : String) : Line :=
  sampleHead ++ "v 0 0 0\nv 1 0 0\nv 0 1 0\n".toList ++ faceLine.toList ++ ['\n']

/-- The binary floating-point number of `p` significant digits nearest to a
value, ties to the even significand.  The unit of the last digit is
`2 ^ (e - (p - 1))` for a magnitude from `2 ^ e` up to `2 ^ (e + 1)`, and that
of `2 ^ emin` below it.  A magnitude beyond the largest number of the format
has no such number, and is outside this function. -/
def roundBits (p : Nat) (emin : Int) (x : ℚ) : ℚ :=
  if x = 0 then 0
  else
    let e : Int := max (Int.log 2 |x|) emin
    let u : ℚ := (2 : ℚ) ^ (e - ((p : Int) - 1))
    let f : Int := ⌊x / u⌋
    let r : ℚ := x / u - f
    let m : Int := if r < 1 / 2 then f else if 1 / 2 < r then f + 1
      else if f % 2 = 0 then f else f + 1
    (m : ℚ) * u

/-- The `float` nearest to a value: the conversion of a `double` to a
`float`, for magnitudes below `2 ^ 128`. -/
def roundFloat (x : ℚ) : ℚ := roundBits 24 (-126) x

/-- The `double` nearest to a value: the result of an operation on values of
a `double`, for magnitudes below `2 ^ 1024`. -/
def roundDouble (x : ℚ) : ℚ := roundBits 53 (-1022) x

/-- The arithmetic of `meshBarycenter` on the rational numbers, with the
rounding of the machine: `toFloat` is the `float` nearest to the value, a sum
and a quotient are the `double` nearest to the exact one, and the `int` of
`x - 1` is its whole part when that is one of an `int`.  The elements of a
matrix just constructed hold `fresh`.  In the source the three coordinates of
a face are added as `float` values: this instance stands for the source on
the inputs where the sum of the first two and the sum of the three are values
of a `float`, as they are for whole numbers below `2 ^ 24` in magnitude; the
quotient by 3, rounded to a `double` and then to a `float`, is then the
`float` quotient of the source.  The theorems hold for every `BaryOps`; this
one instantiates them at concrete inputs. -/
def floatOps (fresh : ℚ) : BaryOps ℚ where
  toFloat := roundFloat
  toIndex := fun x =>
    let t : Int := Int.tdiv (x - 1).num (x - 1).den
    if -(2 : Int) ^ 31 ≤ t ∧ t < (2 : Int) ^ 31 then some t else none
  add := fun x y => roundDouble (x + y)
  divNat := fun x n => roundDouble (x / n)
  fresh := fun _ => fresh

/-! ## The notions the claims are stated with -/

/-- The value is that of a 32-bit `int`. -/
def IntRange (i : Int) : Prop := -(2 : Int) ^ 31 ≤ i ∧ i < (2 : Int) ^ 31

/-- A value of an `int` that is strictly positive. -/
def IsIndex (i : Int) : Prop := 0 < i ∧ i < (2 : Int) ^ 31

/-- The three indices of a face are strictly positive values of an `int`. -/
def Faces.Positive (f : Faces) : Prop := IsIndex f.a ∧ IsIndex f.b ∧ IsIndex f.c

instance (i : Int) : Decidable (IsIndex i) := by
  unfold IsIndex; infer_instance

instance (f : Faces) : Decidable f.Positive := by
  unfold Faces.Positive; infer_instance

/-- The four syntaxes of a face line. -/
inductive Variant where
  | bare | tex | texNorm | norm
  deriving DecidableEq, Repr

/-- The four ways a face line writes a reference to a vertex. -/
inductive VRef where
  | bare (v : Int)
  | tex (v vt : Int)
  | texNorm (v vt vn : Int)
  | norm (v vn : Int)

/-- The syntax of a reference. -/
def VRef.variant : VRef → Variant
  | VRef.bare _ => Variant.bare
  | VRef.tex _ _ => Variant.tex
  | VRef.texNorm _ _ _ => Variant.texNorm
  | VRef.norm _ _ => Variant.norm

/-- The text of a reference: `v`, `v/vt`, `v/vt/vn` or `v//vn`. -/
def VRef.text : VRef → Line
  | VRef.bare v => showInt v
  | VRef.tex v vt => showInt v ++ '/' :: showInt vt
  | VRef.texNorm v vt vn => showInt v ++ '/' :: showInt vt ++ '/' :: showInt vn
  | VRef.norm v vn => showInt v ++ '/' :: '/' :: showInt vn

/-- Every index of the reference is a strictly positive value of an `int`. -/
def VRef.Positive : VRef → Prop
  | VRef.bare v => IsIndex v
  | VRef.tex v vt => IsIndex v ∧ IsIndex vt
  | VRef.texNorm v vt vn => IsIndex v ∧ IsIndex vt ∧ IsIndex vn
  | VRef.norm v vn => IsIndex v ∧ IsIndex vn

/-- A face line of four references, one blank between them. -/
def quadLine (r1 r2 r3 r4 : VRef) : Line :=
  'f' :: ' ' :: r1.text ++ ' ' :: r2.text ++ ' ' :: r3.text ++ ' ' :: r4.text

/-- The values of a scan when it converted all `n` fields of its pattern and
every field is strictly positive. -/
def matchOf (n : Nat) (vals : List Int) : Option (List Int) :=
  if vals.length = n ∧ ∀ v ∈ vals, 0 < v then some vals else none

/-- A pattern of `n` fields fully matches a line: all its fields are present
and strictly positive.  The result is the list of the fields. -/
def fullMatch (fmt : String) (n : Nat) (line : Line) : Option (List Int) :=
  matchOf n (sscanf scanInt (format fmt.toList) (cstr line))

/-- The fields of the pattern `f v v v` as a bare face. -/
def asBare : Option (List Int) → Option FaceScan
  | some [a, b, c] => some (FaceScan.bare ⟨a, b, c⟩)
  | _ => none

/-- The fields of the pattern `f v/vt v/vt v/vt` as a face with texture. -/
def asTex : Option (List Int) → Option FaceScan
  | some [a, ta, b, tb, c, tc] => some (FaceScan.tex ⟨a, b, c⟩ ⟨ta, tb, tc⟩)
  | _ => none

/-- The fields of the pattern `f v/vt/vn v/vt/vn v/vt/vn` as a face with texture and normals. -/
def asTexNorm : Option (List Int) → Option FaceScan
  | some [a, ta, na, b, tb, nb, c, tc, nc] =>
    some (FaceScan.texNorm ⟨a, b, c⟩ ⟨ta, tb, tc⟩ ⟨na, nb, nc⟩)
  | _ => none

/-- The fields of the pattern `f v//vn v//vn v//vn` as a face with normals. -/
def asNorm : Option (List Int) → Option FaceScan
  | some [a, na, b, nb, c, nc] => some (FaceScan.norm ⟨a, b, c⟩ ⟨na, nb, nc⟩)
  | _ => none

/-- The classifier as the specification words it (section 4.1): the first
of the four patterns of three elements, in the order bare, `v/vt`,
`v/vt/vn`, `v//vn`, that fully matches the line, with its indices; `none`
when no pattern fully matches. -/
def firstMatch (line : Line) : Option FaceScan :=
  match asBare (fullMatch "f %d %d %d" 3 line) with
  | some r => some r
  | none =>
  match asTex (fullMatch "f %d/%d %d/%d %d/%d" 6 line) with
  | some r => some r
  | none =>
  match asTexNorm (fullMatch "f %d/%d/%d %d/%d/%d %d/%d/%d" 9 line) with
  | some r => some r
  | none => asNorm (fullMatch "f %d//%d %d//%d %d//%d" 6 line)

/-- The line has a texture part. -/
def FaceScan.hasTex : FaceScan → Bool
  | FaceScan.tex _ _ => true
  | FaceScan.texNorm _ _ _ => true
  | _ => false

/-- The line has a normal part. -/
def FaceScan.hasNorm : FaceScan → Bool
  | FaceScan.norm _ _ => true
  | FaceScan.texNorm _ _ _ => true
  | _ => false

/-- The line begins with `f` and a blank. -/
def isFaceLine (line : Line) : Bool := charAt line 0 = 'f' && charAt line 1 = ' '

/-- The line begins with `v` and a blank. -/
def isVertexLine (line : Line) : Bool := charAt line 0 = 'v' && charAt line 1 = ' '

/-- The line begins with `vn` and a blank. -/
def isNormalLine (line : Line) : Bool :=
  charAt line 0 = 'v' && charAt line 1 = 'n' && charAt line 2 = ' '

/-- The line begins with `vt` and a blank. -/
def isTextureLine (line : Line) : Bool :=
  charAt line 0 = 'v' && charAt line 1 = 't' && charAt line 2 = ' '

/-- Every index lies between 1 and the number of rows of the array it points
into: the invariant of the data model. -/
def IndexValid {D : Type} (m : ObjData D) : Prop :=
  (∀ f ∈ m.F, (1 ≤ f.a ∧ f.a ≤ m.V.length) ∧ (1 ≤ f.b ∧ f.b ≤ m.V.length)
      ∧ (1 ≤ f.c ∧ f.c ≤ m.V.length))
    ∧ (∀ f ∈ m.FT, (1 ≤ f.a ∧ f.a ≤ m.VT.length) ∧ (1 ≤ f.b ∧ f.b ≤ m.VT.length)
      ∧ (1 ≤ f.c ∧ f.c ≤ m.VT.length))
    ∧ (∀ f ∈ m.FN, (1 ≤ f.a ∧ f.a ≤ m.VN.length) ∧ (1 ≤ f.b ∧ f.b ≤ m.VN.length)
      ∧ (1 ≤ f.c ∧ f.c ≤ m.VN.length))

/-- The texture faces are as many as the faces when there is a texture
coordinate and none otherwise, and so for the normals: the invariant of the
data model. -/
def CountsAligned {D : Type} (m : ObjData D) : Prop :=
  (0 < m.VT.length → m.FT.length = m.F.length) ∧ (m.VT.length = 0 → m.FT.length = 0)
    ∧ (0 < m.VN.length → m.FN.length = m.F.length) ∧ (m.VN.length = 0 → m.FN.length = 0)

/-- The coordinates as the reader holds them: each one converted. -/
def Coord.some {D : Type} (c : Coord D) : Coord (Option D) :=
  ⟨Option.some c.x, Option.some c.y, Option.some c.z⟩

/-- The texture coordinates as the reader holds them: each one converted. -/
def TCoord.some {D : Type} (c : TCoord D) : TCoord (Option D) :=
  ⟨Option.some c.u, Option.some c.v⟩

/-- The text written for `x` is read back as `x`: it has no line feed and no
NUL, and `%f` converts it to `x` and stops at its end, be it the end of the
line or a blank. -/
def Exact {D : Type} (ops : NumOps D) (x : D) : Prop :=
  (∀ c ∈ ops.showDouble x, c ≠ '\n' ∧ c ≠ '\x00')
    ∧ ∀ rest : Line, (rest = [] ∨ ∃ r, rest = ' ' :: r) →
        ops.scanFloat (skipSpace (ops.showDouble x ++ rest)) = Option.some (x, rest)

/-- Each of the three coordinates is read back as it is written. -/
def Coord.Exact {D : Type} (ops : NumOps D) (c : Coord D) : Prop :=
  WavefrontObj.Exact ops c.x ∧ WavefrontObj.Exact ops c.y ∧ WavefrontObj.Exact ops c.z

/-- Each of the two texture coordinates is read back as it is written. -/
def TCoord.Exact {D : Type} (ops : NumOps D) (c : TCoord D) : Prop :=
  WavefrontObj.Exact ops c.u ∧ WavefrontObj.Exact ops c.v

/-- Reading `text` yields these six arrays. -/
def ReadsBack {D : Type} (ops : NumOps D) (text : Line) (vertex : List (Coord D))
    (face : List Faces) (texture_coord : List (TCoord D)) (face_texture : List Faces)
    (vertex_normals : List (Coord D)) (face_normals : List Faces) : Prop :=
  ∃ m, readMesh ops (Option.some text) = Except.ok m
    ∧ m.V = vertex.map Coord.some ∧ m.F = face
    ∧ m.VT = texture_coord.map TCoord.some ∧ m.FT = face_texture
    ∧ m.VN = vertex_normals.map Coord.some ∧ m.FN = face_normals

/-! ## Definitions for the proofs -/

/-- A piece of a line: the decimal text of an integer, or one other character. -/
inductive Tok where
  | num (i : Int)
  | ch (c : Char)

/-- The text of a piece. -/
def Tok.text : Tok → Line
  | Tok.num i => showInt i
  | Tok.ch c => [c]

/-- The text of a list of pieces. -/
def render : List Tok → Line
  | [] => []
  | t :: ts => t.text ++ render ts

/-- An integer is that of an `int`; a character is neither a digit, nor a sign, nor NUL. -/
def Tok.ok : Tok → Prop
  | Tok.num i => IntRange i
  | Tok.ch c => isdigit c = false ∧ c ≠ '-' ∧ c ≠ '+' ∧ c ≠ '\x00'

/-- Every piece is well formed and no integer follows an integer. -/
def wf : List Tok → Prop
  | [] => True
  | Tok.num _ :: Tok.num _ :: _ => False
  | t :: ts => t.ok ∧ wf ts

/-- White space dropped from a list of pieces. -/
def skipSpaceTok : List Tok → List Tok
  | Tok.ch c :: ts => if isspace c then skipSpaceTok ts else Tok.ch c :: ts
  | ts => ts

/-- The interpreter of `%d` formats on a list of pieces. -/
def sscanfTok : List Dir → List Tok → List Int
  | [], _ => []
  | Dir.lit _ :: _, [] => []
  | Dir.lit c :: fmt, Tok.ch x :: ts => if x = c then sscanfTok fmt ts else []
  | Dir.lit _ :: _, Tok.num _ :: _ => []
  | Dir.space :: fmt, ts => sscanfTok fmt (skipSpaceTok ts)
  | Dir.conv :: fmt, ts =>
    match skipSpaceTok ts with
    | Tok.num i :: rest => i :: sscanfTok fmt rest
    | _ => []

/-- No literal of the format is a digit or a minus sign. -/
def fmtOk : List Dir → Bool
  | [] => true
  | Dir.lit c :: fmt => !isdigit c && decide (c ≠ '-') && fmtOk fmt
  | _ :: fmt => fmtOk fmt

/-- The pieces of a reference. -/
def VRef.toks : VRef → List Tok
  | VRef.bare v => [Tok.num v]
  | VRef.tex v vt => [Tok.num v, Tok.ch '/', Tok.num vt]
  | VRef.texNorm v vt vn => [Tok.num v, Tok.ch '/', Tok.num vt, Tok.ch '/', Tok.num vn]
  | VRef.norm v vn => [Tok.num v, Tok.ch '/', Tok.ch '/', Tok.num vn]

/-- The last scan for a triangle on the values `L4` it converted. -/
def tri4 (s : FaceVars) (L4 : List Int) : FaceScan :=
  let s := s.store [Var.v1, Var.vn1, Var.v2, Var.vn2, Var.v3, Var.vn3] L4
  if s.v1 > 0 ∧ s.v2 > 0 ∧ s.v3 > 0 ∧ s.vn1 > 0 ∧ s.vn2 > 0 ∧ s.vn3 > 0 then
    FaceScan.norm ⟨s.v1, s.v2, s.v3⟩ ⟨s.vn1, s.vn2, s.vn3⟩
  else FaceScan.unrecognized

/-- The last two scans for a triangle on the values they converted. -/
def tri3 (s : FaceVars) (L3 L4 : List Int) : FaceScan :=
  let s := s.store
    [Var.v1, Var.vt1, Var.vn1, Var.v2, Var.vt2, Var.vn2, Var.v3, Var.vt3, Var.vn3] L3
  if s.v1 > 0 ∧ s.v2 > 0 ∧ s.v3 > 0 ∧ s.vt1 > 0 ∧ s.vt2 > 0
      ∧ s.vt3 > 0 ∧ s.vn1 > 0 ∧ s.vn2 > 0 ∧ s.vn3 > 0 then
    FaceScan.texNorm ⟨s.v1, s.v2, s.v3⟩ ⟨s.vt1, s.vt2, s.vt3⟩ ⟨s.vn1, s.vn2, s.vn3⟩
  else tri4 s L4

/-- The last three scans for a triangle on the values they converted. -/
def tri2 (s : FaceVars) (L2 L3 L4 : List Int) : FaceScan :=
  let s := s.store [Var.v1, Var.vt1, Var.v2, Var.vt2, Var.v3, Var.vt3] L2
  if s.v1 > 0 ∧ s.v2 > 0 ∧ s.v3 > 0 ∧ s.vt1 > 0 ∧ s.vt2 > 0 ∧ s.vt3 > 0 then
    FaceScan.tex ⟨s.v1, s.v2, s.v3⟩ ⟨s.vt1, s.vt2, s.vt3⟩
  else tri3 s L3 L4

/-- The four scans for a triangle on the values they converted. -/
def tri1 (s : FaceVars) (L1 L2 L3 L4 : List Int) : FaceScan :=
  let s := s.store [Var.v1, Var.v2, Var.v3] L1
  if s.v1 > 0 ∧ s.v2 > 0 ∧ s.v3 > 0 then FaceScan.bare ⟨s.v1, s.v2, s.v3⟩
  else tri2 s L2 L3 L4

/-- The number of conversions of a format. -/
def convCount : List Dir → Nat
  | [] => 0
  | Dir.conv :: fmt => convCount fmt + 1
  | _ :: fmt => convCount fmt

/-- Every variable holds a value of an `int`. -/
def FaceVars.InRange (s : FaceVars) : Prop :=
  IntRange s.v1 ∧ IntRange s.v2 ∧ IntRange s.v3 ∧ IntRange s.v4
    ∧ IntRange s.vt1 ∧ IntRange s.vt2 ∧ IntRange s.vt3 ∧ IntRange s.vt4
    ∧ IntRange s.vn1 ∧ IntRange s.vn2 ∧ IntRange s.vn3 ∧ IntRange s.vn4

/-- Every index an accepted face line yields is a strictly positive value of an `int`. -/
def FaceScan.Good : FaceScan → Prop
  | FaceScan.quad => True
  | FaceScan.bare v => v.Positive
  | FaceScan.tex v vt => v.Positive ∧ vt.Positive
  | FaceScan.texNorm v vt vn => v.Positive ∧ vt.Positive ∧ vn.Positive
  | FaceScan.norm v vn => v.Positive ∧ vn.Positive
  | FaceScan.unrecognized => True

/-- The state before the `if` on face lines. -/
def preFace {D : Type} (ops : NumOps D) (st : ReadState D) (line : Line) : ReadState D :=
  textureStep ops (normalStep ops (vertexStep ops (mtlStep st line) line) line) line

/-- One for `true`, zero for `false`. -/
def b2n (b : Bool) : Nat := if b then 1 else 0

/-- The state `st1` comes from `st` by storing `nv` vertices, `nn` normals,
`nt` texture coordinates, `nf` faces, `nft` texture faces and `nfn` normal
faces, each counter moving with its vector, and every index stored is a
strictly positive value of an `int` if those before were. -/
def Grows {D : Type} (st st1 : ReadState D) (nv nn nt nf nft nfn : Nat) : Prop :=
  (st1.vertex.length = st.vertex.length + nv ∧ st1.vertex_counter = st.vertex_counter + nv)
    ∧ (st1.normals.length = st.normals.length + nn ∧ st1.normals_counter = st.normals_counter + nn)
    ∧ (st1.texture.length = st.texture.length + nt ∧ st1.texture_counter = st.texture_counter + nt)
    ∧ (st1.face.length = st.face.length + nf ∧ st1.face_counter = st.face_counter + nf)
    ∧ (st1.face_texture.length = st.face_texture.length + nft
        ∧ st1.faceT_counter = st.faceT_counter + nft)
    ∧ (st1.face_normals.length = st.face_normals.length + nfn
        ∧ st1.faceN_counter = st.faceN_counter + nfn)
    ∧ ((∀ f ∈ st.face, f.Positive) → ∀ f ∈ st1.face, f.Positive)
    ∧ ((∀ f ∈ st.face_texture, f.Positive) → ∀ f ∈ st1.face_texture, f.Positive)
    ∧ ((∀ f ∈ st.face_normals, f.Positive) → ∀ f ∈ st1.face_normals, f.Positive)

/-- The lines at the head of the file. -/
def headLines (name mtlname : Line) (V_rows F_rows : Nat) : List Line :=
  ["#".toList, "# OBJ File generated by GNU Octave".toList,
   "# using \x27writeObj\x27 function".toList, "#".toList, "# Object ".toList ++ name,
   "#".toList, "# Vertices: ".toList ++ showNat V_rows, "# Faces: ".toList ++ showNat F_rows,
   "#".toList, "#".toList, "mtllib ./".toList ++ mtlname, []]

/-- The classification of the line fails: its face has four vertices, or no
scan for a triangle passes its test. -/
def FaceScan.failed : FaceScan → Bool
  | FaceScan.quad => true
  | FaceScan.unrecognized => true
  | _ => false

/-- The row of the vertices an index points to, through `float` variables. -/
def rowAt {D : Type} (ops : BaryOps D) (V : OctArg D) (r : Nat) : Coord D :=
  ⟨ops.toFloat (V.array_value r 0), ops.toFloat (V.array_value r 1),
    ops.toFloat (V.array_value r 2)⟩

/-! ## The notions the claims on the writer and on single lines are stated with -/

/-- The matrices of a call with five arguments pass every test before that
of the two numbers of faces: the arguments have the types asked for, there
are at least three vertices and one face, and the vertices, the faces and the
faces of the fourth argument have three columns. -/
def ChecksBeforeCount {D : Type} (V F A FA nm : OctArg D) : Prop :=
  V.is_matrix_type = true ∧ F.is_matrix_type = true ∧ A.is_matrix_type = true
    ∧ FA.is_matrix_type = true ∧ nm.is_string = true
    ∧ 3 ≤ V.rows ∧ V.columns = 3 ∧ 1 ≤ F.rows ∧ F.columns = 3 ∧ FA.columns = 3

/-- A face line of three references, one blank between them. -/
def triLine (r1 r2 r3 : VRef) : Line :=
  'f' :: ' ' :: r1.text ++ ' ' :: r2.text ++ ' ' :: r3.text

/-- The line is a face line of three references, each in the syntax `k`. -/
def IsFaceLineOf (k : Variant) (line : Line) : Prop :=
  ∃ r1 r2 r3 : VRef, r1.variant = k ∧ r2.variant = k ∧ r3.variant = k ∧ line = triLine r1 r2 r3

/-- The text `writeObj` writes before the face lines: the head of the file,
then the lines of the vertices, of the texture coordinates and of the normals. -/
def textBeforeFaces {D : Type} (ops : NumOps D) (filename mtlname : Line) (V_rows F_rows : Nat)
    (vertex : List (Coord D)) (texture_coord : List (TCoord D)) (vertex_normals : List (Coord D)) :
    Line :=
  headerText filename V_rows F_rows ++ mtllibText mtlname
    ++ putLines (vertex.map (coordLine ops "v"))
    ++ putLines (texture_coord.map (tcoordLine ops))
    ++ putLines (vertex_normals.map (coordLine ops "vn"))

/-- The line begins with `mtl`. -/
def isMtlLine (line : Line) : Bool :=
  charAt line 0 = 'm' && charAt line 1 = 't' && charAt line 2 = 'l'

/-- The line contains `./`. -/
def ContainsDotSlash (line : Line) : Prop := ∃ pre post : Line, line = pre ++ '.' :: '/' :: post

/-- The line begins with none of `v `, `vn `, `vt `, `f ` and `mtl`. -/
def isOtherLine (line : Line) : Bool :=
  !isVertexLine line && !isNormalLine line && !isTextureLine line && !isFaceLine line
    && !isMtlLine line

/-- The entries of the faces are the indices `k i j`, each between 1 and the
number of rows of the vertices: the `int` read from entry `(i, j)` is
`k i j - 1`. -/
def HoldsIndices {D : Type} (ops : BaryOps D) (V F : OctArg D) (k : Nat → Nat → Nat) : Prop :=
  ∀ i < F.rows, ∀ j < 3,
    1 ≤ k i j ∧ k i j ≤ V.rows ∧ ops.toIndex (F.array_value i j) = some ((k i j : Int) - 1)

/-- The row a line that begins with `v ` gives to the vertices (lines 124-128). -/
def vertexOf {D : Type} (ops : NumOps D) (line : Line) : Coord (Option D) :=
  coordOf (sscanf ops.scanFloat (format "v %f %f %f".toList) (cstr line))

/-- The row a line that begins with `vn ` gives to the normals (lines 136-140). -/
def normalOf {D : Type} (ops : NumOps D) (line : Line) : Coord (Option D) :=
  coordOf (sscanf ops.scanFloat (format "vn %f %f %f".toList) (cstr line))

/-- The row a line that begins with `vt ` gives to the texture coordinates (lines 148-152). -/
def textureOf {D : Type} (ops : NumOps D) (line : Line) : TCoord (Option D) :=
  tcoordOf (sscanf ops.scanFloat (format "vt %f %f".toList) (cstr line))

/-- The vertex indices the classification of a face line extracts. -/
def FaceScan.triple : FaceScan → Option Faces
  | FaceScan.bare v => some v
  | FaceScan.tex v _ => some v
  | FaceScan.texNorm v _ _ => some v
  | FaceScan.norm v _ => some v
  | _ => none

/-- The vertex index of a reference. -/
def VRef.vertex : VRef → Int
  | VRef.bare v => v
  | VRef.tex v _ => v
  | VRef.texNorm v _ _ => v
  | VRef.norm v _ => v

/-- The triangle three references in one syntax stand for: the face of their
vertex indices, with the texture face and the normal face the syntax has. -/
def faceOfRefs : VRef → VRef → VRef → FaceScan
  | VRef.bare a, VRef.bare b, VRef.bare c => FaceScan.bare ⟨a, b, c⟩
  | VRef.tex a ta, VRef.tex b tb, VRef.tex c tc => FaceScan.tex ⟨a, b, c⟩ ⟨ta, tb, tc⟩
  | VRef.texNorm a ta na, VRef.texNorm b tb nb, VRef.texNorm c tc nc =>
    FaceScan.texNorm ⟨a, b, c⟩ ⟨ta, tb, tc⟩ ⟨na, nb, nc⟩
  | VRef.norm a na, VRef.norm b nb, VRef.norm c nc => FaceScan.norm ⟨a, b, c⟩ ⟨na, nb, nc⟩
  | _, _, _ => FaceScan.unrecognized

/-- Each counter of the scan is the length of its vector. -/
def CountersMatch {D : Type} (st : ReadState D) : Prop :=
  st.vertex_counter = st.vertex.length ∧ st.normals_counter = st.normals.length
    ∧ st.texture_counter = st.texture.length ∧ st.face_counter = st.face.length
    ∧ st.faceT_counter = st.face_texture.length ∧ st.faceN_counter = st.face_normals.length

/-- The name derived for the material library: the destination name with
its last three characters replaced by `mtl`. -/
def derivedName (filename : Line) : Line :=
  filename.take (filename.length - 3) ++ "mtl".toList

/-- The file of a call is opened under `filename` and the head is written:
the overwrite dialogue on the name given ends with the name `filename`, the
file of that name can be opened, and the name has at least three characters,
all but the last three before its first NUL, so that the replacement that
derives the name of the material library is in range. -/
def Opens (host : Host) (given filename : Line) : Prop :=
  dialogue host given = some filename ∧ host.can_open (cstr filename) = true
    ∧ 3 ≤ filename.length ∧ filename.length - 3 ≤ (cstr filename).length

/-- The arguments of a call pass every check of `writeObj`: their number is
three, five or seven, the last one is a string and the others are matrices,
there are at least three vertices of three columns and one face of three
columns, the other arrays have the columns of their kind (with five
arguments the third array has two columns, texture, or three, normals), and
the arrays of faces have the same number of rows. -/
def Accepted {D : Type} : List (OctArg D) → Prop
  | [V, F, nm] =>
    nm.is_string = true ∧ V.is_matrix_type = true ∧ F.is_matrix_type = true
      ∧ 3 ≤ V.rows ∧ V.columns = 3 ∧ 1 ≤ F.rows ∧ F.columns = 3
  | [V, F, A, FA, nm] =>
    nm.is_string = true ∧ V.is_matrix_type = true ∧ F.is_matrix_type = true
      ∧ A.is_matrix_type = true ∧ FA.is_matrix_type = true
      ∧ 3 ≤ V.rows ∧ V.columns = 3 ∧ 1 ≤ F.rows ∧ F.columns = 3
      ∧ (A.columns = 2 ∨ A.columns = 3) ∧ FA.columns = 3 ∧ F.rows = FA.rows
  | [V, F, VT, FT, VN, FN, nm] =>
    nm.is_string = true ∧ V.is_matrix_type = true ∧ F.is_matrix_type = true
      ∧ VT.is_matrix_type = true ∧ FT.is_matrix_type = true
      ∧ VN.is_matrix_type = true ∧ FN.is_matrix_type = true
      ∧ 3 ≤ V.rows ∧ V.columns = 3 ∧ 1 ≤ F.rows ∧ F.columns = 3
      ∧ VT.columns = 2 ∧ FT.columns = 3 ∧ VN.columns = 3 ∧ FN.columns = 3
      ∧ F.rows = FT.rows ∧ F.rows = FN.rows
  | _ => False

theorem digit_char (d : Nat) (h : d < 10) :
    isdigit (Char.ofNat (d + 48)) = true ∧ (Char.ofNat (d + 48)).toNat - '0'.toNat = d
      ∧ isspace (Char.ofNat (d + 48)) = false ∧ Char.ofNat (d + 48) ≠ '\x00'
      ∧ Char.ofNat (d + 48) ≠ '-' ∧ Char.ofNat (d + 48) ≠ '+' := by
  interval_cases d <;> decide

theorem showDigits_eq (fuel : Nat) : ∀ n, n < fuel → ∀ acc,
    showDigits fuel n acc = showNat n ++ acc := by
  induction fuel using Nat.strong_induction_on with
  | _ fuel ih =>
    intro n hn acc
    cases fuel with
    | zero => omega
    | succ f =>
      unfold showNat
      by_cases h : n < 10
      · simp [showDigits, h]
      · have h1 : n / 10 < n := by omega
        have h2 : n / 10 < f := by omega
        simp only [showDigits, h, if_false]
        rw [ih f (by omega) _ h2, ih n (by omega) _ h1]
        simp

theorem showNat_eq (n : Nat) :
    showNat n = if n < 10 then [Char.ofNat (n + 48)]
      else showNat (n / 10) ++ [Char.ofNat (n % 10 + 48)] := by
  by_cases h : n < 10
  · simp [showNat, showDigits, h]
  · have h1 : n / 10 < n := by omega
    rw [if_neg h]
    conv_lhs => unfold showNat
    simp only [showDigits, h, if_false]
    rw [showDigits_eq n _ h1]

theorem readDigits_showNat (n : Nat) : ∀ (k : Nat) (rest : Line),
    readDigits (showNat n ++ rest) k = readDigits rest (k * 10 ^ (showNat n).length + n) := by
  induction n using Nat.strong_induction_on with
  | _ n ih =>
    intro k rest
    rw [showNat_eq]
    by_cases h : n < 10
    · obtain ⟨hd, hv, -⟩ := digit_char n h
      simp only [h, if_true, List.singleton_append, readDigits, hd, hv, List.length_singleton]
      congr 1; ring
    · have h1 : n / 10 < n := by omega
      obtain ⟨hd, hv, -⟩ := digit_char (n % 10) (Nat.mod_lt _ (by norm_num))
      simp only [h, if_false, List.append_assoc, List.singleton_append]
      rw [ih (n / 10) h1 k _]
      simp only [readDigits, hd, hv, if_true]
      congr 1
      simp only [List.length_append, List.length_singleton, pow_succ]
      have := Nat.div_add_mod n 10
      nlinarith [this]

theorem readDigits_stop (rest : Line) (k : Nat)
    (hrest : ∀ c r, rest = c :: r → isdigit c = false) : readDigits rest k = (k, rest) := by
  cases rest with
  | nil => rfl
  | cons c r => simp [readDigits, hrest c r rfl]

theorem showNat_head (n : Nat) : ∃ c cs, showNat n = c :: cs ∧ isdigit c = true := by
  induction n using Nat.strong_induction_on with
  | _ n ih =>
    rw [showNat_eq]
    by_cases h : n < 10
    · exact ⟨_, [], by simp [h], (digit_char n h).1⟩
    · obtain ⟨c, cs, hc, hd⟩ := ih (n / 10) (by omega)
      exact ⟨c, cs ++ [Char.ofNat (n % 10 + 48)], by simp [h, hc], hd⟩

theorem toInt32_clampLong (x : Int) (h1 : -(2 : Int) ^ 31 ≤ x) (h2 : x < (2 : Int) ^ 31) :
    toInt32 (clampLong x) = x := by
  unfold toInt32 clampLong
  rw [min_eq_left (by omega), max_eq_right (by omega)]
  omega

theorem scanInt_showInt (i : Int) (rest : Line) (h1 : -(2 : Int) ^ 31 ≤ i) (h2 : i < (2 : Int) ^ 31)
    (hrest : ∀ c r, rest = c :: r → isdigit c = false) :
    scanInt (showInt i ++ rest) = some (i, rest) := by
  obtain ⟨c, cs, hc, hd⟩ := showNat_head i.natAbs
  have hrd : readDigits (c :: (cs ++ rest)) 0 = (i.natAbs, rest) := by
    have := readDigits_showNat i.natAbs 0 rest
    rw [hc] at this
    simpa [readDigits_stop rest _ hrest] using this
  have hcm : c ≠ '-' := by intro h; subst h; simp [isdigit] at hd
  have hcp : c ≠ '+' := by intro h; subst h; simp [isdigit] at hd
  unfold showInt
  by_cases hneg : i < 0
  · simp only [hneg, if_true, hc, List.cons_append, scanInt, hd, hrd]
    simp only [if_true, Option.some.injEq, Prod.mk.injEq, and_true]
    rw [toInt32_clampLong _ (by omega) (by omega)]
    omega
  · simp only [hneg, if_false, hc, List.cons_append]
    unfold scanInt
    split
    · rename_i t heq; cases heq; exact absurd rfl hcm
    · rename_i t heq; cases heq; exact absurd rfl hcp
    · simp only [hd, hrd, if_true, Option.some.injEq, Prod.mk.injEq, and_true]
      rw [toInt32_clampLong _ (by omega) (by omega)]
      simp; omega

theorem showNat_digits (n : Nat) : ∀ c ∈ showNat n, isdigit c = true := by
  induction n using Nat.strong_induction_on with
  | _ n ih =>
    rw [showNat_eq]
    by_cases h : n < 10
    · intro c hc
      simp only [h, if_true, List.mem_singleton] at hc
      subst hc; exact (digit_char n h).1
    · intro c hc
      simp only [h, if_false, List.mem_append, List.mem_singleton] at hc
      rcases hc with hc | hc
      · exact ih (n / 10) (by omega) c hc
      · subst hc; exact (digit_char (n % 10) (Nat.mod_lt _ (by norm_num))).1

theorem cstr_eq_self (s : Line) (h : ∀ c ∈ s, c ≠ '\x00') : cstr s = s := by
  induction s with
  | nil => rfl
  | cons c cs ih =>
    have hc := h c (List.mem_cons_self _ _)
    simp only [cstr, hc, if_false]
    rw [ih (fun d hd => h d (List.mem_cons_of_mem _ hd))]

theorem fmtOk_lit (c : Char) (fmt : List Dir) (h : fmtOk (Dir.lit c :: fmt) = true) :
    isdigit c = false ∧ c ≠ '-' ∧ fmtOk fmt = true := by
  simpa [fmtOk, and_assoc] using h

theorem wf_tail (t : Tok) (ts : List Tok) (h : wf (t :: ts)) : wf ts := by
  cases t with
  | num i =>
    cases ts with
    | nil => trivial
    | cons u us => cases u with
      | num j => exact absurd h (by simp [wf])
      | ch c => exact h.2
  | ch c => exact h.2

theorem wf_head (t : Tok) (ts : List Tok) (h : wf (t :: ts)) : t.ok := by
  cases t with
  | num i =>
    cases ts with
    | nil => exact h.1
    | cons u us => cases u with
      | num j => exact absurd h (by simp [wf])
      | ch c => exact h.1
  | ch c => exact h.1

theorem showInt_head (i : Int) :
    ∃ c cs, showInt i = c :: cs ∧ (isdigit c = true ∨ c = '-') := by
  obtain ⟨c, cs, hc, hd⟩ := showNat_head i.natAbs
  unfold showInt
  by_cases h : i < 0
  · exact ⟨'-', showNat i.natAbs, by simp [h], Or.inr rfl⟩
  · exact ⟨c, cs, by simp [h, hc], Or.inl hd⟩

theorem showInt_no_nul (i : Int) : ∀ c ∈ showInt i, c ≠ '\x00' := by
  intro c hc
  have hd : isdigit c = true ∨ c = '-' := by
    unfold showInt at hc
    by_cases h : i < 0
    · simp only [h, if_true, List.mem_cons] at hc
      rcases hc with hc | hc
      · exact Or.inr hc
      · exact Or.inl (showNat_digits _ c hc)
    · simp only [h, if_false] at hc
      exact Or.inl (showNat_digits _ c hc)
  rcases hd with hd | hd
  · intro h; subst h; simp [isdigit] at hd
  · subst hd; decide

theorem render_no_nul : ∀ ts, wf ts → ∀ c ∈ render ts, c ≠ '\x00' := by
  intro ts
  induction ts with
  | nil => intro _ c hc; simp [render] at hc
  | cons t ts ih =>
    intro h c hc
    simp only [render, List.mem_append] at hc
    rcases hc with hc | hc
    · cases t with
      | num i => exact showInt_no_nul i c hc
      | ch x =>
        simp only [Tok.text, List.mem_singleton] at hc
        subst hc; exact (wf_head _ _ h).2.2.2
    · exact ih (wf_tail _ _ h) c hc

theorem cstr_render (ts : List Tok) (h : wf ts) : cstr (render ts) = render ts :=
  cstr_eq_self _ (render_no_nul ts h)

theorem skipSpace_render : ∀ ts, wf ts → skipSpace (render ts) = render (skipSpaceTok ts) := by
  intro ts
  induction ts with
  | nil => intro _; rfl
  | cons t ts ih =>
    intro h
    cases t with
    | num i =>
      obtain ⟨c, cs, hc, hd⟩ := showInt_head i
      have hsp : isspace c = false := by
        rcases hd with hd | hd
        · cases hs : isspace c with
          | false => rfl
          | true =>
            exfalso
            simp only [isspace, Bool.or_eq_true, decide_eq_true_eq] at hs
            rcases hs with ((((hs | hs) | hs) | hs) | hs) | hs <;> subst hs <;> simp [isdigit] at hd
        · subst hd; decide
      simp only [render, Tok.text, hc, List.cons_append, skipSpace, hsp, skipSpaceTok]
      simp
    | ch c =>
      by_cases hs : isspace c = true
      · simp only [render, Tok.text, List.singleton_append, skipSpace, hs, if_true, skipSpaceTok]
        exact ih (wf_tail _ _ h)
      · simp only [render, Tok.text, List.singleton_append, skipSpace, hs, skipSpaceTok]
        simp [render, Tok.text]

theorem wf_skipSpaceTok : ∀ ts, wf ts → wf (skipSpaceTok ts) := by
  intro ts
  induction ts with
  | nil => intro h; exact h
  | cons t ts ih =>
    intro h
    cases t with
    | num i => exact h
    | ch c =>
      by_cases hs : isspace c = true
      · simp only [skipSpaceTok, hs, if_true]; exact ih (wf_tail _ _ h)
      · simp only [skipSpaceTok, hs]; exact h

theorem render_head_not_digit (ts : List Tok) (i : Int) (h : wf (Tok.num i :: ts)) :
    ∀ c r, render ts = c :: r → isdigit c = false := by
  intro c r hr
  cases ts with
  | nil => simp [render] at hr
  | cons u us =>
    cases u with
    | num j => exact absurd h (by simp [wf])
    | ch x =>
      simp only [render, Tok.text, List.singleton_append, List.cons.injEq] at hr
      have := (wf_head _ _ (wf_tail _ _ h)).1
      rw [← hr.1]; exact this

theorem sscanf_render : ∀ (fmt : List Dir) (ts : List Tok), fmtOk fmt = true → wf ts →
    sscanf scanInt fmt (render ts) = sscanfTok fmt ts := by
  intro fmt
  induction fmt with
  | nil => intro ts _ _; simp [sscanf, sscanfTok]
  | cons d fmt ih =>
    intro ts hf hw
    cases d with
    | lit c =>
      cases ts with
      | nil => simp [render, sscanf, sscanfTok]
      | cons t ts =>
        cases t with
        | num i =>
          obtain ⟨x, xs, hx, hd⟩ := showInt_head i
          have hne : x ≠ c := by
            intro hxc
            subst hxc
            rcases hd with hd | hd
            · rw [(fmtOk_lit _ _ hf).1] at hd; cases hd
            · exact (fmtOk_lit _ _ hf).2.1 hd
          simp [render, Tok.text, hx, sscanf, sscanfTok, hne]
        | ch x =>
          have hr : render (Tok.ch x :: ts) = x :: render ts := rfl
          rw [hr]
          simp only [sscanf, sscanfTok]
          rw [ih ts (fmtOk_lit _ _ hf).2.2 (wf_tail _ _ hw)]
    | space =>
      simp only [sscanf, sscanfTok]
      rw [skipSpace_render ts hw]
      exact ih _ hf (wf_skipSpaceTok ts hw)
    | conv =>
      simp only [sscanf, sscanfTok]
      rw [skipSpace_render ts hw]
      have hw2 := wf_skipSpaceTok ts hw
      generalize skipSpaceTok ts = us at hw2
      cases us with
      | nil => simp [render, scanInt]
      | cons u us =>
        cases u with
        | num i =>
          have hok := wf_head _ _ hw2
          simp only [render, Tok.text]
          rw [scanInt_showInt i _ hok.1 hok.2 (render_head_not_digit us i hw2)]
          simp only
          rw [ih us hf (wf_tail _ _ hw2)]
        | ch x =>
          have hok := wf_head _ _ hw2
          have hx1 : x ≠ '-' := hok.2.1
          have hx2 : x ≠ '+' := hok.2.2.1
          simp only [render, Tok.text, List.singleton_append]
          have : scanInt (x :: render us) = none := by
            unfold scanInt
            split
            · rename_i t heq; cases heq; exact absurd rfl hx1
            · rename_i t heq; cases heq; exact absurd rfl hx2
            · simp [hok.1]
          rw [this]

theorem scanFace_render (s : FaceVars) (ts : List Tok) (fmt : String) (ptrs : List Var)
    (dirs : List Dir) (hd : format fmt.toList = dirs) (hf : fmtOk dirs = true) (hw : wf ts) :
    scanFace s (render ts) fmt ptrs = s.store ptrs (sscanfTok dirs ts) := by
  unfold scanFace
  rw [cstr_render ts hw, hd, sscanf_render dirs ts hf hw]

theorem scanFace_q1 (s : FaceVars) (ts : List Tok) (ptrs : List Var) (hw : wf ts) :
    scanFace s (render ts) "f %d %d %d %d" ptrs
      = s.store ptrs (sscanfTok
          [Dir.lit 'f', Dir.space, Dir.conv, Dir.space, Dir.conv, Dir.space, Dir.conv, Dir.space, Dir.conv] ts) :=
  scanFace_render s ts _ ptrs _ (by decide) (by decide) hw

theorem scanFace_q2 (s : FaceVars) (ts : List Tok) (ptrs : List Var) (hw : wf ts) :
    scanFace s (render ts) "f %d/%d %d/%d %d/%d %d/%d" ptrs
      = s.store ptrs (sscanfTok
          [Dir.lit 'f', Dir.space, Dir.conv, Dir.lit '/', Dir.conv, Dir.space, Dir.conv, Dir.lit '/', Dir.conv, Dir.space, Dir.conv, Dir.lit '/', Dir.conv, Dir.space, Dir.conv, Dir.lit '/', Dir.conv] ts) :=
  scanFace_render s ts _ ptrs _ (by decide) (by decide) hw

theorem scanFace_q3 (s : FaceVars) (ts : List Tok) (ptrs : List Var) (hw : wf ts) :
    scanFace s (render ts) "f %d/%d/%d %d/%d/%d %d/%d/%d %d/%d/%d" ptrs
      = s.store ptrs (sscanfTok
          [Dir.lit 'f', Dir.space, Dir.conv, Dir.lit '/', Dir.conv, Dir.lit '/', Dir.conv, Dir.space, Dir.conv, Dir.lit '/', Dir.conv, Dir.lit '/', Dir.conv, Dir.space, Dir.conv, Dir.lit '/', Dir.conv, Dir.lit '/', Dir.conv, Dir.space, Dir.conv, Dir.lit '/', Dir.conv, Dir.lit '/', Dir.conv] ts) :=
  scanFace_render s ts _ ptrs _ (by decide) (by decide) hw

theorem scanFace_q4 (s : FaceVars) (ts : List Tok) (ptrs : List Var) (hw : wf ts) :
    scanFace s (render ts) "f %d//%d %d//%d %d//%d %d//%d" ptrs
      = s.store ptrs (sscanfTok
          [Dir.lit 'f', Dir.space, Dir.conv, Dir.lit '/', Dir.lit '/', Dir.conv, Dir.space, Dir.conv, Dir.lit '/', Dir.lit '/', Dir.conv, Dir.space, Dir.conv, Dir.lit '/', Dir.lit '/', Dir.conv, Dir.space, Dir.conv, Dir.lit '/', Dir.lit '/', Dir.conv] ts) :=
  scanFace_render s ts _ ptrs _ (by decide) (by decide) hw

theorem scanFace_t1 (s : FaceVars) (ts : List Tok) (ptrs : List Var) (hw : wf ts) :
    scanFace s (render ts) "f %d %d %d" ptrs
      = s.store ptrs (sscanfTok
          [Dir.lit 'f', Dir.space, Dir.conv, Dir.space, Dir.conv, Dir.space, Dir.conv] ts) :=
  scanFace_render s ts _ ptrs _ (by decide) (by decide) hw

theorem scanFace_t2 (s : FaceVars) (ts : List Tok) (ptrs : List Var) (hw : wf ts) :
    scanFace s (render ts) "f %d/%d %d/%d %d/%d" ptrs
      = s.store ptrs (sscanfTok
          [Dir.lit 'f', Dir.space, Dir.conv, Dir.lit '/', Dir.conv, Dir.space, Dir.conv, Dir.lit '/', Dir.conv, Dir.space, Dir.conv, Dir.lit '/', Dir.conv] ts) :=
  scanFace_render s ts _ ptrs _ (by decide) (by decide) hw

theorem scanFace_t3 (s : FaceVars) (ts : List Tok) (ptrs : List Var) (hw : wf ts) :
    scanFace s (render ts) "f %d/%d/%d %d/%d/%d %d/%d/%d" ptrs
      = s.store ptrs (sscanfTok
          [Dir.lit 'f', Dir.space, Dir.conv, Dir.lit '/', Dir.conv, Dir.lit '/', Dir.conv, Dir.space, Dir.conv, Dir.lit '/', Dir.conv, Dir.lit '/', Dir.conv, Dir.space, Dir.conv, Dir.lit '/', Dir.conv, Dir.lit '/', Dir.conv] ts) :=
  scanFace_render s ts _ ptrs _ (by decide) (by decide) hw

theorem scanFace_t4 (s : FaceVars) (ts : List Tok) (ptrs : List Var) (hw : wf ts) :
    scanFace s (render ts) "f %d//%d %d//%d %d//%d" ptrs
      = s.store ptrs (sscanfTok
          [Dir.lit 'f', Dir.space, Dir.conv, Dir.lit '/', Dir.lit '/', Dir.conv, Dir.space, Dir.conv, Dir.lit '/', Dir.lit '/', Dir.conv, Dir.space, Dir.conv, Dir.lit '/', Dir.lit '/', Dir.conv] ts) :=
  scanFace_render s ts _ ptrs _ (by decide) (by decide) hw

theorem wf_num_ch (i : Int) (c : Char) (ts : List Tok) :
    wf (Tok.num i :: Tok.ch c :: ts) ↔ IntRange i ∧ wf (Tok.ch c :: ts) := by
  simp [wf, Tok.ok]

theorem wf_num_nil (i : Int) :
    wf [Tok.num i] ↔ IntRange i := by
  simp [wf, Tok.ok]

theorem wf_ch (c : Char) (ts : List Tok) :
    wf (Tok.ch c :: ts) ↔ (isdigit c = false ∧ c ≠ '-' ∧ c ≠ '+' ∧ c ≠ '\x00') ∧ wf ts := by
  simp [wf, Tok.ok]

theorem IsIndex.range {i : Int} (h : IsIndex i) : IntRange i :=
  ⟨by have := h.1; omega, h.2⟩

theorem classify_bare (f : Faces) (h : f.Positive) :
    classifyFace (faceLineBare f) = FaceScan.bare f := by
  obtain ⟨ha, hb, hc⟩ := h
  have hr : faceLineBare f = render [Tok.ch 'f', Tok.ch ' ', Tok.num f.a, Tok.ch ' ', Tok.num f.b,
      Tok.ch ' ', Tok.num f.c] := by
    simp [faceLineBare, render, Tok.text]
  have hw : wf [Tok.ch 'f', Tok.ch ' ', Tok.num f.a, Tok.ch ' ', Tok.num f.b,
      Tok.ch ' ', Tok.num f.c] := by
    simp +decide [wf_num_ch, wf_num_nil, wf_ch, ha.range, hb.range, hc.range]
  rw [hr]
  unfold classifyFace quadScans
  simp only [scanFace_q1 _ _ _ hw, scanFace_q2 _ _ _ hw, scanFace_q3 _ _ _ hw, scanFace_q4 _ _ _ hw]
  simp [sscanfTok, skipSpaceTok, isspace, FaceVars.store, FaceVars.set, resetTemps, triScans, ha.1, hb.1, hc.1,
    scanFace_t1 _ _ _ hw]

theorem classify_tex (f ft : Faces) (h : f.Positive) (ht : ft.Positive) :
    classifyFace (faceLineTex f ft) = FaceScan.tex f ft := by
  obtain ⟨ha, hb, hc⟩ := h
  obtain ⟨hta, htb, htc⟩ := ht
  have hr : faceLineTex f ft = render [Tok.ch 'f', Tok.ch ' ', Tok.num f.a, Tok.ch '/', Tok.num ft.a,
      Tok.ch ' ', Tok.num f.b, Tok.ch '/', Tok.num ft.b, Tok.ch ' ', Tok.num f.c, Tok.ch '/', Tok.num ft.c] := by
    simp [faceLineTex, render, Tok.text]
  have hw : wf [Tok.ch 'f', Tok.ch ' ', Tok.num f.a, Tok.ch '/', Tok.num ft.a,
      Tok.ch ' ', Tok.num f.b, Tok.ch '/', Tok.num ft.b, Tok.ch ' ', Tok.num f.c, Tok.ch '/', Tok.num ft.c] := by
    simp +decide [wf_num_ch, wf_num_nil, wf_ch, ha.range, hb.range, hc.range, hta.range, htb.range, htc.range]
  rw [hr]
  unfold classifyFace quadScans
  simp only [scanFace_q1 _ _ _ hw, scanFace_q2 _ _ _ hw, scanFace_q3 _ _ _ hw, scanFace_q4 _ _ _ hw]
  simp [sscanfTok, skipSpaceTok, isspace, FaceVars.store, FaceVars.set, resetTemps, triScans, ha.1, hb.1, hc.1,
    hta.1, htb.1, htc.1,
    scanFace_t1 _ _ _ hw, scanFace_t2 _ _ _ hw]

theorem classify_norm (f fn : Faces) (h : f.Positive) (hn : fn.Positive) :
    classifyFace (faceLineNorm f fn) = FaceScan.norm f fn := by
  obtain ⟨ha, hb, hc⟩ := h
  obtain ⟨hna, hnb, hnc⟩ := hn
  have hr : faceLineNorm f fn = render [Tok.ch 'f', Tok.ch ' ', Tok.num f.a, Tok.ch '/', Tok.ch '/',
      Tok.num fn.a, Tok.ch ' ', Tok.num f.b, Tok.ch '/', Tok.ch '/', Tok.num fn.b, Tok.ch ' ',
      Tok.num f.c, Tok.ch '/', Tok.ch '/', Tok.num fn.c] := by
    simp [faceLineNorm, render, Tok.text]
  have hw : wf [Tok.ch 'f', Tok.ch ' ', Tok.num f.a, Tok.ch '/', Tok.ch '/',
      Tok.num fn.a, Tok.ch ' ', Tok.num f.b, Tok.ch '/', Tok.ch '/', Tok.num fn.b, Tok.ch ' ',
      Tok.num f.c, Tok.ch '/', Tok.ch '/', Tok.num fn.c] := by
    simp +decide [wf_num_ch, wf_num_nil, wf_ch, ha.range, hb.range, hc.range, hna.range, hnb.range, hnc.range]
  rw [hr]
  unfold classifyFace quadScans
  simp only [scanFace_q1 _ _ _ hw, scanFace_q2 _ _ _ hw, scanFace_q3 _ _ _ hw, scanFace_q4 _ _ _ hw]
  simp [sscanfTok, skipSpaceTok, isspace, FaceVars.store, FaceVars.set, resetTemps, triScans, ha.1, hb.1, hc.1,
    hna.1, hnb.1, hnc.1,
    scanFace_t1 _ _ _ hw, scanFace_t2 _ _ _ hw, scanFace_t3 _ _ _ hw, scanFace_t4 _ _ _ hw]

theorem classify_texNorm (f ft fn : Faces) (h : f.Positive) (ht : ft.Positive) (hn : fn.Positive) :
    classifyFace (faceLineTexNorm f ft fn) = FaceScan.texNorm f ft fn := by
  obtain ⟨ha, hb, hc⟩ := h
  obtain ⟨hta, htb, htc⟩ := ht
  obtain ⟨hna, hnb, hnc⟩ := hn
  have hr : faceLineTexNorm f ft fn = render [Tok.ch 'f', Tok.ch ' ',
      Tok.num f.a, Tok.ch '/', Tok.num ft.a, Tok.ch '/', Tok.num fn.a, Tok.ch ' ',
      Tok.num f.b, Tok.ch '/', Tok.num ft.b, Tok.ch '/', Tok.num fn.b, Tok.ch ' ',
      Tok.num f.c, Tok.ch '/', Tok.num ft.c, Tok.ch '/', Tok.num fn.c] := by
    simp [faceLineTexNorm, render, Tok.text]
  have hw : wf [Tok.ch 'f', Tok.ch ' ',
      Tok.num f.a, Tok.ch '/', Tok.num ft.a, Tok.ch '/', Tok.num fn.a, Tok.ch ' ',
      Tok.num f.b, Tok.ch '/', Tok.num ft.b, Tok.ch '/', Tok.num fn.b, Tok.ch ' ',
      Tok.num f.c, Tok.ch '/', Tok.num ft.c, Tok.ch '/', Tok.num fn.c] := by
    simp +decide [wf_num_ch, wf_num_nil, wf_ch, ha.range, hb.range, hc.range, hna.range, hnb.range, hnc.range,
      hta.range, htb.range, htc.range]
  rw [hr]
  unfold classifyFace quadScans
  simp only [scanFace_q1 _ _ _ hw, scanFace_q2 _ _ _ hw, scanFace_q3 _ _ _ hw, scanFace_q4 _ _ _ hw]
  simp [sscanfTok, skipSpaceTok, isspace, FaceVars.store, FaceVars.set, resetTemps, triScans, ha.1, hb.1, hc.1,
    hna.1, hnb.1, hnc.1, hta.1, htb.1, htc.1,
    scanFace_t1 _ _ _ hw, scanFace_t2 _ _ _ hw, scanFace_t3 _ _ _ hw]

theorem render_append (xs ys : List Tok) : render (xs ++ ys) = render xs ++ render ys := by
  induction xs with
  | nil => rfl
  | cons t ts ih => simp [render, ih]

theorem VRef.render_toks (r : VRef) : render r.toks = r.text := by
  cases r <;> simp [VRef.toks, VRef.text, render, Tok.text]

theorem quadLine_render (r1 r2 r3 r4 : VRef) :
    quadLine r1 r2 r3 r4 = render (Tok.ch 'f' :: Tok.ch ' ' :: (r1.toks ++ Tok.ch ' ' :: (r2.toks
      ++ Tok.ch ' ' :: (r3.toks ++ Tok.ch ' ' :: r4.toks)))) := by
  simp [quadLine, render, render_append, VRef.render_toks, Tok.text]

theorem quad_bare (a b c d : Int) (ha : IsIndex a) (hb : IsIndex b) (hc : IsIndex c)
    (hd : IsIndex d) :
    classifyFace (quadLine (VRef.bare a) (VRef.bare b) (VRef.bare c) (VRef.bare d))
      = FaceScan.quad := by
  rw [quadLine_render]
  simp only [VRef.toks, List.cons_append, List.nil_append]
  have hw : wf [Tok.ch 'f', Tok.ch ' ', Tok.num a, Tok.ch ' ', Tok.num b, Tok.ch ' ', Tok.num c,
      Tok.ch ' ', Tok.num d] := by
    simp +decide [wf_num_ch, wf_num_nil, wf_ch, ha.range, hb.range, hc.range, hd.range]
  unfold classifyFace quadScans
  simp only [scanFace_q1 _ _ _ hw]
  simp [sscanfTok, skipSpaceTok, isspace, FaceVars.store, FaceVars.set, ha.1, hb.1, hc.1, hd.1]

theorem quad_tex (a ta b tb c tc d td : Int) (ha : IsIndex a) (hb : IsIndex b) (hc : IsIndex c)
    (hd : IsIndex d) (hta : IsIndex ta) (htb : IsIndex tb) (htc : IsIndex tc) (htd : IsIndex td) :
    classifyFace (quadLine (VRef.tex a ta) (VRef.tex b tb) (VRef.tex c tc) (VRef.tex d td))
      = FaceScan.quad := by
  rw [quadLine_render]
  simp only [VRef.toks, List.cons_append, List.nil_append]
  have hw : wf [Tok.ch 'f', Tok.ch ' ', Tok.num a, Tok.ch '/', Tok.num ta, Tok.ch ' ',
      Tok.num b, Tok.ch '/', Tok.num tb, Tok.ch ' ', Tok.num c, Tok.ch '/', Tok.num tc,
      Tok.ch ' ', Tok.num d, Tok.ch '/', Tok.num td] := by
    simp +decide [wf_num_ch, wf_num_nil, wf_ch, ha.range, hb.range, hc.range, hd.range,
      hta.range, htb.range, htc.range, htd.range]
  unfold classifyFace quadScans
  simp only [scanFace_q1 _ _ _ hw, scanFace_q2 _ _ _ hw]
  simp [sscanfTok, skipSpaceTok, isspace, FaceVars.store, FaceVars.set, ha.1, hb.1, hc.1, hd.1,
    hta.1, htb.1, htc.1, htd.1]

theorem quad_texNorm (a ta na b tb nb c tc nc d td nd : Int) (ha : IsIndex a) (hb : IsIndex b)
    (hc : IsIndex c) (hd : IsIndex d) (hta : IsIndex ta) (htb : IsIndex tb) (htc : IsIndex tc)
    (htd : IsIndex td) (hna : IsIndex na) (hnb : IsIndex nb) (hnc : IsIndex nc) (hnd : IsIndex nd) :
    classifyFace (quadLine (VRef.texNorm a ta na) (VRef.texNorm b tb nb) (VRef.texNorm c tc nc)
      (VRef.texNorm d td nd)) = FaceScan.quad := by
  rw [quadLine_render]
  simp only [VRef.toks, List.cons_append, List.nil_append]
  have hw : wf [Tok.ch 'f', Tok.ch ' ', Tok.num a, Tok.ch '/', Tok.num ta, Tok.ch '/', Tok.num na,
      Tok.ch ' ', Tok.num b, Tok.ch '/', Tok.num tb, Tok.ch '/', Tok.num nb,
      Tok.ch ' ', Tok.num c, Tok.ch '/', Tok.num tc, Tok.ch '/', Tok.num nc,
      Tok.ch ' ', Tok.num d, Tok.ch '/', Tok.num td, Tok.ch '/', Tok.num nd] := by
    simp +decide [wf_num_ch, wf_num_nil, wf_ch, ha.range, hb.range, hc.range, hd.range,
      hta.range, htb.range, htc.range, htd.range, hna.range, hnb.range, hnc.range, hnd.range]
  unfold classifyFace quadScans
  simp only [scanFace_q1 _ _ _ hw, scanFace_q2 _ _ _ hw, scanFace_q3 _ _ _ hw]
  simp [sscanfTok, skipSpaceTok, isspace, FaceVars.store, FaceVars.set, ha.1, hb.1, hc.1, hd.1,
    hta.1, htb.1, htc.1, htd.1, hna.1, hnb.1, hnc.1, hnd.1]

theorem quad_norm (a na b nb c nc d nd : Int) (ha : IsIndex a) (hb : IsIndex b)
    (hc : IsIndex c) (hd : IsIndex d) (hna : IsIndex na) (hnb : IsIndex nb) (hnc : IsIndex nc)
    (hnd : IsIndex nd) :
    classifyFace (quadLine (VRef.norm a na) (VRef.norm b nb) (VRef.norm c nc) (VRef.norm d nd))
      = FaceScan.quad := by
  rw [quadLine_render]
  simp only [VRef.toks, List.cons_append, List.nil_append]
  have hw : wf [Tok.ch 'f', Tok.ch ' ', Tok.num a, Tok.ch '/', Tok.ch '/', Tok.num na,
      Tok.ch ' ', Tok.num b, Tok.ch '/', Tok.ch '/', Tok.num nb,
      Tok.ch ' ', Tok.num c, Tok.ch '/', Tok.ch '/', Tok.num nc,
      Tok.ch ' ', Tok.num d, Tok.ch '/', Tok.ch '/', Tok.num nd] := by
    simp +decide [wf_num_ch, wf_num_nil, wf_ch, ha.range, hb.range, hc.range, hd.range,
      hna.range, hnb.range, hnc.range, hnd.range]
  unfold classifyFace quadScans
  simp only [scanFace_q1 _ _ _ hw, scanFace_q2 _ _ _ hw, scanFace_q3 _ _ _ hw, scanFace_q4 _ _ _ hw]
  simp [sscanfTok, skipSpaceTok, isspace, FaceVars.store, FaceVars.set, ha.1, hb.1, hc.1, hd.1,
    hna.1, hnb.1, hnc.1, hnd.1]

theorem classify_quad (r1 r2 r3 r4 : VRef) (h2 : r2.variant = r1.variant)
    (h3 : r3.variant = r1.variant) (h4 : r4.variant = r1.variant)
    (p1 : r1.Positive) (p2 : r2.Positive) (p3 : r3.Positive) (p4 : r4.Positive) :
    classifyFace (quadLine r1 r2 r3 r4) = FaceScan.quad := by
  cases r1 <;> cases r2 <;> simp [VRef.variant] at h2 <;> cases r3 <;> simp [VRef.variant] at h3 <;>
    cases r4 <;> simp [VRef.variant] at h4
  · exact quad_bare _ _ _ _ p1 p2 p3 p4
  · exact quad_tex _ _ _ _ _ _ _ _ p1.1 p2.1 p3.1 p4.1 p1.2 p2.2 p3.2 p4.2
  · exact quad_texNorm _ _ _ _ _ _ _ _ _ _ _ _ p1.1 p2.1 p3.1 p4.1 p1.2.1 p2.2.1 p3.2.1 p4.2.1
      p1.2.2 p2.2.2 p3.2.2 p4.2.2
  · exact quad_norm _ _ _ _ _ _ _ _ p1.1 p2.1 p3.1 p4.1 p1.2 p2.2 p3.2 p4.2

theorem readLine_error (D : Type) (ops : NumOps D) (st : ReadState D) (line : Line) (e : ReadError)
    (h : readLine ops st line = Except.error e) : e = ReadError.notTriangular := by
  unfold readLine faceStep at h
  split at h
  · split at h <;> cases h <;> rfl
  · cases h

theorem readLine_quad (D : Type) (ops : NumOps D) (st : ReadState D) (line : Line)
    (h0 : charAt line 0 = 'f') (h1 : charAt line 1 = ' ') (hq : classifyFace line = FaceScan.quad) :
    readLine ops st line = Except.error ReadError.notTriangular := by
  unfold readLine faceStep
  simp [h0, h1, hq]

theorem readLines_fail (D : Type) (ops : NumOps D) (q : Line)
    (hq : ∀ st : ReadState D, readLine ops st q = Except.error ReadError.notTriangular) :
    ∀ (lines : List Line) (st : ReadState D), q ∈ lines →
      readLines ops st lines = Except.error ReadError.notTriangular := by
  intro lines
  induction lines with
  | nil => intro st h; cases h
  | cons l ls ih =>
    intro st h
    unfold readLines
    cases hl : readLine ops st l with
    | error e => simp only; rw [readLine_error D ops st l e hl]
    | ok st1 =>
      simp only
      rcases List.mem_cons.mp h with h | h
      · subst h; rw [hq st] at hl; cases hl
      · exact ih st1 h

theorem sscanf_length_le {α : Type} (conv : Line → Option (α × Line)) :
    ∀ (fmt : List Dir) (s : Line), (sscanf conv fmt s).length ≤ convCount fmt := by
  intro fmt
  induction fmt with
  | nil => intro s; simp [sscanf, convCount]
  | cons d fmt ih =>
    intro s
    cases d with
    | lit c =>
      cases s with
      | nil => simp [sscanf]
      | cons x xs =>
        simp only [sscanf, convCount]
        split
        · exact ih xs
        · simp
    | space => simp only [sscanf, convCount]; exact ih _
    | conv =>
      simp only [sscanf, convCount]
      cases conv (skipSpace s) with
      | none => simp
      | some p => simp only [List.length_cons]; have := ih p.2; omega

theorem triScans_eq (s : FaceVars) (line : Line) :
    triScans s line = tri1 s
      (sscanf scanInt (format "f %d %d %d".toList) (cstr line))
      (sscanf scanInt (format "f %d/%d %d/%d %d/%d".toList) (cstr line))
      (sscanf scanInt (format "f %d/%d/%d %d/%d/%d %d/%d/%d".toList) (cstr line))
      (sscanf scanInt (format "f %d//%d %d//%d %d//%d".toList) (cstr line)) := rfl

theorem tri4_spec (s : FaceVars) (L4 : List Int) (r : FaceScan)
    (h : asNorm (matchOf 6 L4) = some r) : tri4 s L4 = r := by
  unfold matchOf at h
  split at h
  · rename_i hc
    obtain ⟨hl, hp⟩ := hc
    match L4, hl, hp with
    | [a, na, b, nb, c, nc], _, hp =>
      simp only [asNorm, Option.some.injEq] at h
      subst h
      simp only [List.mem_cons, List.mem_singleton, forall_eq_or_imp, forall_eq, List.not_mem_nil,
        IsEmpty.forall_iff, implies_true, and_true] at hp
      simp [tri4, FaceVars.store, FaceVars.set, hp]
  · simp [asNorm] at h

theorem store_t1_keep (s : FaceVars) (L : List Int) :
    (s.store [Var.v1, Var.v2, Var.v3] L).vt3 = s.vt3
      ∧ (s.store [Var.v1, Var.v2, Var.v3] L).vn3 = s.vn3 := by
  rcases L with _ | ⟨x1, _ | ⟨x2, _ | ⟨x3, L⟩⟩⟩ <;> simp [FaceVars.store, FaceVars.set]

theorem store_t1_short (s : FaceVars) (L : List Int) (h : L.length < 3) :
    (s.store [Var.v1, Var.v2, Var.v3] L).v3 = s.v3 := by
  rcases L with _ | ⟨x1, _ | ⟨x2, _ | ⟨x3, L⟩⟩⟩ <;> simp [FaceVars.store, FaceVars.set] at h ⊢
  omega

theorem store_t2_keep (s : FaceVars) (L : List Int) :
    (s.store [Var.v1, Var.vt1, Var.v2, Var.vt2, Var.v3, Var.vt3] L).vn3 = s.vn3 := by
  rcases L with _ | ⟨x1, _ | ⟨x2, _ | ⟨x3, _ | ⟨x4, _ | ⟨x5, _ | ⟨x6, L⟩⟩⟩⟩⟩⟩ <;>
    simp [FaceVars.store, FaceVars.set]

theorem store_t2_short (s : FaceVars) (L : List Int) (h : L.length < 6) :
    (s.store [Var.v1, Var.vt1, Var.v2, Var.vt2, Var.v3, Var.vt3] L).vt3 = s.vt3 := by
  rcases L with _ | ⟨x1, _ | ⟨x2, _ | ⟨x3, _ | ⟨x4, _ | ⟨x5, _ | ⟨x6, L⟩⟩⟩⟩⟩⟩ <;>
    simp [FaceVars.store, FaceVars.set] at h ⊢
  omega

theorem store_t3_short (s : FaceVars) (L : List Int) (h : L.length < 9) :
    (s.store [Var.v1, Var.vt1, Var.vn1, Var.v2, Var.vt2, Var.vn2, Var.v3, Var.vt3, Var.vn3] L).vn3
      = s.vn3 := by
  rcases L with _ | ⟨x1, _ | ⟨x2, _ | ⟨x3, _ | ⟨x4, _ | ⟨x5, _ | ⟨x6, _ | ⟨x7, _ | ⟨x8,
    _ | ⟨x9, L⟩⟩⟩⟩⟩⟩⟩⟩⟩ <;> simp [FaceVars.store, FaceVars.set] at h ⊢
  omega

theorem matchOf_none_of_length (n : Nat) (L : List Int) (h : L.length ≠ n) : matchOf n L = none := by
  simp [matchOf, h]

theorem tri3_spec (s : FaceVars) (hvn3 : s.vn3 = 0) (L3 L4 : List Int) (hlen : L3.length ≤ 9)
    (r : FaceScan)
    (h : (match asTexNorm (matchOf 9 L3) with
          | some r => some r
          | none => asNorm (matchOf 6 L4)) = some r) :
    tri3 s L3 L4 = r := by
  by_cases hfull : L3.length = 9
  · match L3, hfull with
    | [a, ta, na, b, tb, nb, c, tc, nc], _ =>
      by_cases hpos : 0 < a ∧ 0 < ta ∧ 0 < na ∧ 0 < b ∧ 0 < tb ∧ 0 < nb ∧ 0 < c ∧ 0 < tc ∧ 0 < nc
      · have hm : matchOf 9 [a, ta, na, b, tb, nb, c, tc, nc] = some [a, ta, na, b, tb, nb, c, tc, nc] := by
          simp [matchOf, hpos]
        rw [hm] at h
        simp only [asTexNorm, Option.some.injEq] at h
        subst h
        simp [tri3, FaceVars.store, FaceVars.set, hpos]
      · have hm : matchOf 9 [a, ta, na, b, tb, nb, c, tc, nc] = none := by
          simp only [matchOf, List.mem_cons, List.mem_singleton, forall_eq_or_imp, forall_eq,
            List.not_mem_nil, IsEmpty.forall_iff, implies_true, and_true, List.length_cons,
            List.length_nil, true_and]
          simp only [ite_eq_right_iff]
          intro hh; exact absurd hh hpos
        rw [hm] at h
        simp only [asTexNorm] at h
        have hc : ¬ (a > 0 ∧ b > 0 ∧ c > 0 ∧ ta > 0 ∧ tb > 0 ∧ tc > 0 ∧ na > 0 ∧ nb > 0 ∧ nc > 0) := by
          intro hh; exact hpos ⟨hh.1, hh.2.2.2.1, hh.2.2.2.2.2.2.1, hh.2.1, hh.2.2.2.2.1,
            hh.2.2.2.2.2.2.2.1, hh.2.2.1, hh.2.2.2.2.2.1, hh.2.2.2.2.2.2.2.2⟩
        simp only [tri3, FaceVars.store, FaceVars.set, hc, if_false]
        exact tri4_spec _ L4 r h
  · have hm : matchOf 9 L3 = none := matchOf_none_of_length 9 L3 hfull
    rw [hm] at h
    simp only [asTexNorm] at h
    have hk := store_t3_short s L3 (by omega)
    have hc : ¬ ((s.store [Var.v1, Var.vt1, Var.vn1, Var.v2, Var.vt2, Var.vn2, Var.v3, Var.vt3, Var.vn3] L3).vn3 > 0) := by
      rw [hk, hvn3]; decide
    unfold tri3
    simp only
    rw [if_neg (fun hh => hc hh.2.2.2.2.2.2.2.2)]
    exact tri4_spec _ L4 r h

theorem tri2_spec (s : FaceVars) (hvt3 : s.vt3 = 0) (hvn3 : s.vn3 = 0) (L2 L3 L4 : List Int)
    (hlen2 : L2.length ≤ 6) (hlen3 : L3.length ≤ 9) (r : FaceScan)
    (h : (match asTex (matchOf 6 L2) with
          | some r => some r
          | none =>
            match asTexNorm (matchOf 9 L3) with
            | some r => some r
            | none => asNorm (matchOf 6 L4)) = some r) :
    tri2 s L2 L3 L4 = r := by
  have hkeep := store_t2_keep s L2
  by_cases hfull : L2.length = 6
  · match L2, hfull with
    | [a, ta, b, tb, c, tc], _ =>
      by_cases hpos : 0 < a ∧ 0 < ta ∧ 0 < b ∧ 0 < tb ∧ 0 < c ∧ 0 < tc
      · have hm : matchOf 6 [a, ta, b, tb, c, tc] = some [a, ta, b, tb, c, tc] := by
          simp [matchOf, hpos]
        rw [hm] at h
        simp only [asTex, Option.some.injEq] at h
        subst h
        simp [tri2, FaceVars.store, FaceVars.set, hpos]
      · have hm : matchOf 6 [a, ta, b, tb, c, tc] = none := by
          simp only [matchOf, List.mem_cons, List.mem_singleton, forall_eq_or_imp, forall_eq,
            List.not_mem_nil, IsEmpty.forall_iff, implies_true, and_true, List.length_cons,
            List.length_nil, true_and]
          simp only [ite_eq_right_iff]
          intro hh; exact absurd hh hpos
        rw [hm] at h
        simp only [asTex] at h
        have hc : ¬ (a > 0 ∧ b > 0 ∧ c > 0 ∧ ta > 0 ∧ tb > 0 ∧ tc > 0) := by
          intro hh; exact hpos ⟨hh.1, hh.2.2.2.1, hh.2.1, hh.2.2.2.2.1, hh.2.2.1, hh.2.2.2.2.2⟩
        unfold tri2
        simp only
        rw [if_neg (by simpa [FaceVars.store, FaceVars.set] using hc)]
        exact tri3_spec _ (by rw [hkeep, hvn3]) L3 L4 hlen3 r h
  · have hm : matchOf 6 L2 = none := matchOf_none_of_length 6 L2 hfull
    rw [hm] at h
    simp only [asTex] at h
    by_cases hlt : L2.length < 6
    · have hk := store_t2_short s L2 hlt
      have hc : ¬ ((s.store [Var.v1, Var.vt1, Var.v2, Var.vt2, Var.v3, Var.vt3] L2).vt3 > 0) := by
        rw [hk, hvt3]; decide
      unfold tri2
      simp only
      rw [if_neg (fun hh => hc hh.2.2.2.2.2)]
      exact tri3_spec _ (by rw [hkeep, hvn3]) L3 L4 hlen3 r h
    · omega

theorem tri1_spec (s : FaceVars) (hv3 : s.v3 = 0) (hvt3 : s.vt3 = 0) (hvn3 : s.vn3 = 0)
    (L1 L2 L3 L4 : List Int) (hlen1 : L1.length ≤ 3) (hlen2 : L2.length ≤ 6)
    (hlen3 : L3.length ≤ 9) (r : FaceScan)
    (h : (match asBare (matchOf 3 L1) with
          | some r => some r
          | none =>
            match asTex (matchOf 6 L2) with
            | some r => some r
            | none =>
              match asTexNorm (matchOf 9 L3) with
              | some r => some r
              | none => asNorm (matchOf 6 L4)) = some r) :
    tri1 s L1 L2 L3 L4 = r := by
  have hkeep := store_t1_keep s L1
  by_cases hfull : L1.length = 3
  · match L1, hfull with
    | [a, b, c], _ =>
      by_cases hpos : 0 < a ∧ 0 < b ∧ 0 < c
      · have hm : matchOf 3 [a, b, c] = some [a, b, c] := by
          simp [matchOf, hpos]
        rw [hm] at h
        simp only [asBare, Option.some.injEq] at h
        subst h
        simp [tri1, FaceVars.store, FaceVars.set, hpos]
      · have hm : matchOf 3 [a, b, c] = none := by
          simp only [matchOf, List.mem_cons, List.mem_singleton, forall_eq_or_imp, forall_eq,
            List.not_mem_nil, IsEmpty.forall_iff, implies_true, and_true, List.length_cons,
            List.length_nil, true_and]
          simp only [ite_eq_right_iff]
          intro hh; exact absurd hh hpos
        rw [hm] at h
        simp only [asBare] at h
        unfold tri1
        simp only
        rw [if_neg (by simpa [FaceVars.store, FaceVars.set] using hpos)]
        exact tri2_spec _ (by rw [hkeep.1, hvt3]) (by rw [hkeep.2, hvn3]) L2 L3 L4 hlen2 hlen3 r h
  · have hm : matchOf 3 L1 = none := matchOf_none_of_length 3 L1 hfull
    rw [hm] at h
    simp only [asBare] at h
    have hk := store_t1_short s L1 (by omega)
    have hc : ¬ ((s.store [Var.v1, Var.v2, Var.v3] L1).v3 > 0) := by
      rw [hk, hv3]; decide
    unfold tri1
    simp only
    rw [if_neg (fun hh => hc hh.2.2)]
    exact tri2_spec _ (by rw [hkeep.1, hvt3]) (by rw [hkeep.2, hvn3]) L2 L3 L4 hlen2 hlen3 r h

theorem classify_first_match (line : Line) (s : FaceVars) (r : FaceScan)
    (hq : quadScans line = some s) (hm : firstMatch line = some r) :
    classifyFace line = r := by
  unfold classifyFace
  rw [hq]
  simp only
  rw [triScans_eq]
  have h1 : (sscanf scanInt (format "f %d %d %d".toList) (cstr line)).length ≤ 3 :=
    sscanf_length_le scanInt _ _
  have h2 : (sscanf scanInt (format "f %d/%d %d/%d %d/%d".toList) (cstr line)).length ≤ 6 :=
    sscanf_length_le scanInt _ _
  have h3 : (sscanf scanInt (format "f %d/%d/%d %d/%d/%d %d/%d/%d".toList) (cstr line)).length ≤ 9 :=
    sscanf_length_le scanInt _ _
  exact tri1_spec _ rfl rfl rfl _ _ _ _ h1 h2 h3 r hm

theorem toInt32_range (x : Int) : IntRange (toInt32 x) := by
  unfold IntRange toInt32
  constructor <;> omega

theorem scanInt_range (s : Line) (v : Int) (r : Line) (h : scanInt s = some (v, r)) :
    IntRange v := by
  unfold scanInt at h
  simp only at h
  split at h <;> (split at h <;> first | cases h | (split at h <;> cases h))
  all_goals exact toInt32_range _

theorem sscanf_range : ∀ (fmt : List Dir) (s : Line), ∀ v ∈ sscanf scanInt fmt s, IntRange v := by
  intro fmt
  induction fmt with
  | nil => intro s v hv; simp [sscanf] at hv
  | cons d fmt ih =>
    intro s v hv
    cases d with
    | lit c =>
      cases s with
      | nil => simp [sscanf] at hv
      | cons x xs =>
        simp only [sscanf] at hv
        split at hv
        · exact ih xs v hv
        · simp at hv
    | space => simp only [sscanf] at hv; exact ih _ v hv
    | conv =>
      simp only [sscanf] at hv
      cases hc : scanInt (skipSpace s) with
      | none => rw [hc] at hv; simp at hv
      | some p =>
        obtain ⟨w, r⟩ := p
        rw [hc] at hv
        simp only [List.mem_cons] at hv
        rcases hv with hv | hv
        · subst hv; exact scanInt_range _ _ _ hc
        · exact ih r v hv

theorem set_range (s : FaceVars) (p : Var) (x : Int) (hs : s.InRange) (hx : IntRange x) :
    (s.set p x).InRange := by
  obtain ⟨h1, h2, h3, h4, h5, h6, h7, h8, h9, h10, h11, h12⟩ := hs
  cases p <;> exact ⟨by assumption, by assumption, by assumption, by assumption, by assumption,
    by assumption, by assumption, by assumption, by assumption, by assumption, by assumption,
    by assumption⟩

theorem store_range : ∀ (ptrs : List Var) (vals : List Int) (s : FaceVars), s.InRange →
    (∀ v ∈ vals, IntRange v) → (s.store ptrs vals).InRange := by
  intro ptrs
  induction ptrs with
  | nil => intro vals s hs _; simpa [FaceVars.store] using hs
  | cons p ps ih =>
    intro vals s hs hv
    cases vals with
    | nil => simpa [FaceVars.store] using hs
    | cons x xs =>
      simp only [FaceVars.store]
      exact ih xs _ (set_range s p x hs (hv x (List.mem_cons_self _ _)))
        (fun v h => hv v (List.mem_cons_of_mem _ h))

theorem scanFace_range (s : FaceVars) (line : Line) (fmt : String) (ptrs : List Var)
    (hs : s.InRange) : (scanFace s line fmt ptrs).InRange :=
  store_range ptrs _ s hs (sscanf_range _ _)

theorem intRange_zero : IntRange 0 := by
  unfold IntRange; constructor <;> decide

theorem quadScans_range (line : Line) (s : FaceVars) (h : quadScans line = some s) :
    s.InRange := by
  have h0 : ({} : FaceVars).InRange := by
    refine ⟨?_, ?_, ?_, ?_, ?_, ?_, ?_, ?_, ?_, ?_, ?_, ?_⟩ <;> exact intRange_zero
  unfold quadScans at h
  simp only at h
  split at h
  · cases h
  · split at h
    · cases h
    · split at h
      · cases h
      · split at h
        · cases h
        · simp only [Option.some.injEq] at h
          rw [← h]
          exact scanFace_range _ _ _ _ (scanFace_range _ _ _ _ (scanFace_range _ _ _ _
            (scanFace_range _ _ _ _ h0)))

theorem resetTemps_range (s : FaceVars) (hs : s.InRange) : (resetTemps s).InRange := by
  obtain ⟨h1, h2, h3, h4, h5, h6, h7, h8, h9, h10, h11, h12⟩ := hs
  exact ⟨intRange_zero, intRange_zero, intRange_zero, h4, intRange_zero, intRange_zero,
    intRange_zero, h8, intRange_zero, intRange_zero, intRange_zero, h12⟩

theorem isIndex_of (x : Int) (h : IntRange x) (hp : x > 0) : IsIndex x := ⟨hp, h.2⟩

theorem triScans_good (s : FaceVars) (line : Line) (hs : s.InRange) : (triScans s line).Good := by
  unfold triScans
  simp only
  have r1 := scanFace_range s line "f %d %d %d" [Var.v1, Var.v2, Var.v3] hs
  have r2 := scanFace_range _ line "f %d/%d %d/%d %d/%d"
    [Var.v1, Var.vt1, Var.v2, Var.vt2, Var.v3, Var.vt3] r1
  have r3 := scanFace_range _ line "f %d/%d/%d %d/%d/%d %d/%d/%d"
    [Var.v1, Var.vt1, Var.vn1, Var.v2, Var.vt2, Var.vn2, Var.v3, Var.vt3, Var.vn3] r2
  have r4 := scanFace_range _ line "f %d//%d %d//%d %d//%d"
    [Var.v1, Var.vn1, Var.v2, Var.vn2, Var.v3, Var.vn3] r3
  split
  · rename_i h
    obtain ⟨h1, h2, h3, h4, h5, h6, h7, h8, h9, h10, h11, h12⟩ := r1
    exact ⟨isIndex_of _ h1 h.1, isIndex_of _ h2 h.2.1, isIndex_of _ h3 h.2.2⟩
  · split
    · rename_i h
      obtain ⟨h1, h2, h3, h4, h5, h6, h7, h8, h9, h10, h11, h12⟩ := r2
      exact ⟨⟨isIndex_of _ h1 h.1, isIndex_of _ h2 h.2.1, isIndex_of _ h3 h.2.2.1⟩,
        ⟨isIndex_of _ h5 h.2.2.2.1, isIndex_of _ h6 h.2.2.2.2.1, isIndex_of _ h7 h.2.2.2.2.2⟩⟩
    · split
      · rename_i h
        obtain ⟨h1, h2, h3, h4, h5, h6, h7, h8, h9, h10, h11, h12⟩ := r3
        exact ⟨⟨isIndex_of _ h1 h.1, isIndex_of _ h2 h.2.1, isIndex_of _ h3 h.2.2.1⟩,
          ⟨isIndex_of _ h5 h.2.2.2.1, isIndex_of _ h6 h.2.2.2.2.1, isIndex_of _ h7 h.2.2.2.2.2.1⟩,
          ⟨isIndex_of _ h9 h.2.2.2.2.2.2.1, isIndex_of _ h10 h.2.2.2.2.2.2.2.1,
            isIndex_of _ h11 h.2.2.2.2.2.2.2.2⟩⟩
      · split
        · rename_i h
          obtain ⟨h1, h2, h3, h4, h5, h6, h7, h8, h9, h10, h11, h12⟩ := r4
          exact ⟨⟨isIndex_of _ h1 h.1, isIndex_of _ h2 h.2.1, isIndex_of _ h3 h.2.2.1⟩,
            ⟨isIndex_of _ h9 h.2.2.2.1, isIndex_of _ h10 h.2.2.2.2.1, isIndex_of _ h11 h.2.2.2.2.2⟩⟩
        · trivial

theorem classifyFace_good (line : Line) : (classifyFace line).Good := by
  unfold classifyFace
  cases h : quadScans line with
  | none => trivial
  | some s => exact triScans_good _ line (resetTemps_range s (quadScans_range line s h))

theorem preFace_effect {D : Type} (ops : NumOps D) (st : ReadState D) (line : Line) :
    (preFace ops st line).face = st.face
      ∧ (preFace ops st line).face_texture = st.face_texture
      ∧ (preFace ops st line).face_normals = st.face_normals
      ∧ (preFace ops st line).face_counter = st.face_counter
      ∧ (preFace ops st line).faceT_counter = st.faceT_counter
      ∧ (preFace ops st line).faceN_counter = st.faceN_counter
      ∧ (preFace ops st line).vertex.length = st.vertex.length + b2n (isVertexLine line)
      ∧ (preFace ops st line).vertex_counter = st.vertex_counter + b2n (isVertexLine line)
      ∧ (preFace ops st line).normals.length = st.normals.length + b2n (isNormalLine line)
      ∧ (preFace ops st line).normals_counter = st.normals_counter + b2n (isNormalLine line)
      ∧ (preFace ops st line).texture.length = st.texture.length + b2n (isTextureLine line)
      ∧ (preFace ops st line).texture_counter = st.texture_counter + b2n (isTextureLine line) := by
  unfold preFace textureStep normalStep vertexStep mtlStep
  split_ifs <;> simp_all [isVertexLine, isNormalLine, isTextureLine, b2n]

theorem faceStep_effect {D : Type} (st st1 : ReadState D) (line : Line)
    (h : faceStep st line = Except.ok st1) :
    st1.vertex = st.vertex ∧ st1.vertex_counter = st.vertex_counter
      ∧ st1.normals = st.normals ∧ st1.normals_counter = st.normals_counter
      ∧ st1.texture = st.texture ∧ st1.texture_counter = st.texture_counter
      ∧ st1.mtl_filename = st.mtl_filename
      ∧ st1.face.length = st.face.length + b2n (isFaceLine line)
      ∧ st1.face_counter = st.face_counter + b2n (isFaceLine line)
      ∧ st1.face_texture.length
          = st.face_texture.length + b2n (isFaceLine line && (classifyFace line).hasTex)
      ∧ st1.faceT_counter = st.faceT_counter + b2n (isFaceLine line && (classifyFace line).hasTex)
      ∧ st1.face_normals.length
          = st.face_normals.length + b2n (isFaceLine line && (classifyFace line).hasNorm)
      ∧ st1.faceN_counter = st.faceN_counter + b2n (isFaceLine line && (classifyFace line).hasNorm)
      ∧ ((∀ f ∈ st.face, f.Positive) → ∀ f ∈ st1.face, f.Positive)
      ∧ ((∀ f ∈ st.face_texture, f.Positive) → ∀ f ∈ st1.face_texture, f.Positive)
      ∧ ((∀ f ∈ st.face_normals, f.Positive) → ∀ f ∈ st1.face_normals, f.Positive) := by
  have hg := classifyFace_good line
  unfold faceStep at h
  split at h
  · rename_i hf
    have hfl : isFaceLine line = true := by simp [isFaceLine, hf.1, hf.2]
    split at h <;> rename_i hc <;> rw [hc] at hg
    · cases h
    · cases h
      simp only [FaceScan.Good] at hg
      simp [hfl, b2n, FaceScan.hasTex, FaceScan.hasNorm, hc]
      intro hp f hm
      rcases hm with hm | hm
      · exact hp f hm
      · subst hm; exact hg
    · cases h
      simp only [FaceScan.Good] at hg
      simp [hfl, b2n, FaceScan.hasTex, FaceScan.hasNorm, hc]
      constructor
      · intro hp f hm
        rcases hm with hm | hm
        · exact hp f hm
        · subst hm; exact hg.1
      · intro hp f hm
        rcases hm with hm | hm
        · exact hp f hm
        · subst hm; exact hg.2
    · cases h
      simp only [FaceScan.Good] at hg
      simp [hfl, b2n, FaceScan.hasTex, FaceScan.hasNorm, hc]
      refine ⟨?_, ?_, ?_⟩
      · intro hp f hm
        rcases hm with hm | hm
        · exact hp f hm
        · subst hm; exact hg.1
      · intro hp f hm
        rcases hm with hm | hm
        · exact hp f hm
        · subst hm; exact hg.2.1
      · intro hp f hm
        rcases hm with hm | hm
        · exact hp f hm
        · subst hm; exact hg.2.2
    · cases h
      simp only [FaceScan.Good] at hg
      simp [hfl, b2n, FaceScan.hasTex, FaceScan.hasNorm, hc]
      constructor
      · intro hp f hm
        rcases hm with hm | hm
        · exact hp f hm
        · subst hm; exact hg.1
      · intro hp f hm
        rcases hm with hm | hm
        · exact hp f hm
        · subst hm; exact hg.2
    · cases h
  · rename_i hf
    have hfl : isFaceLine line = false := by
      simp only [isFaceLine, Bool.and_eq_false_iff, decide_eq_false_iff_not]
      by_cases h0 : charAt line 0 = 'f'
      · exact Or.inr (fun h1 => hf ⟨h0, h1⟩)
      · exact Or.inl h0
    cases h
    simp [hfl, b2n]

theorem readLine_grows {D : Type} (ops : NumOps D) (st st1 : ReadState D) (line : Line)
    (h : readLine ops st line = Except.ok st1) :
    Grows st st1 (b2n (isVertexLine line)) (b2n (isNormalLine line)) (b2n (isTextureLine line))
      (b2n (isFaceLine line)) (b2n (isFaceLine line && (classifyFace line).hasTex))
      (b2n (isFaceLine line && (classifyFace line).hasNorm)) := by
  have hp := preFace_effect ops st line
  have hf := faceStep_effect (preFace ops st line) st1 line h
  obtain ⟨p1, p2, p3, p4, p5, p6, p7, p8, p9, p10, p11, p12⟩ := hp
  obtain ⟨f1, f2, f3, f4, f5, f6, -, f8, f9, f10, f11, f12, f13, f14, f15, f16⟩ := hf
  refine ⟨⟨?_, ?_⟩, ⟨?_, ?_⟩, ⟨?_, ?_⟩, ⟨?_, ?_⟩, ⟨?_, ?_⟩, ⟨?_, ?_⟩, ?_, ?_, ?_⟩
  · rw [f1, p7]
  · rw [f2, p8]
  · rw [f3, p9]
  · rw [f4, p10]
  · rw [f5, p11]
  · rw [f6, p12]
  · rw [f8, p1]
  · rw [f9, p4]
  · rw [f10, p2]
  · rw [f11, p5]
  · rw [f12, p3]
  · rw [f13, p6]
  · rw [p1] at f14; exact f14
  · rw [p2] at f15; exact f15
  · rw [p3] at f16; exact f16

theorem Grows.refl {D : Type} (st : ReadState D) : Grows st st 0 0 0 0 0 0 := by
  unfold Grows; simp

theorem Grows.trans {D : Type} (a b c : ReadState D) (v1 n1 t1 f1 ft1 fn1 v2 n2 t2 f2 ft2 fn2 : Nat)
    (h1 : Grows a b v1 n1 t1 f1 ft1 fn1) (h2 : Grows b c v2 n2 t2 f2 ft2 fn2) :
    Grows a c (v2 + v1) (n2 + n1) (t2 + t1) (f2 + f1) (ft2 + ft1) (fn2 + fn1) := by
  obtain ⟨⟨a1, a2⟩, ⟨a3, a4⟩, ⟨a5, a6⟩, ⟨a7, a8⟩, ⟨a9, a10⟩, ⟨a11, a12⟩, a13, a14, a15⟩ := h1
  obtain ⟨⟨b1, b2⟩, ⟨b3, b4⟩, ⟨b5, b6⟩, ⟨b7, b8⟩, ⟨b9, b10⟩, ⟨b11, b12⟩, b13, b14, b15⟩ := h2
  refine ⟨⟨?_, ?_⟩, ⟨?_, ?_⟩, ⟨?_, ?_⟩, ⟨?_, ?_⟩, ⟨?_, ?_⟩, ⟨?_, ?_⟩, ?_, ?_, ?_⟩
  any_goals omega
  · exact fun h => b13 (a13 h)
  · exact fun h => b14 (a14 h)
  · exact fun h => b15 (a15 h)

theorem readLines_grows {D : Type} (ops : NumOps D) : ∀ (lines : List Line) (st st1 : ReadState D),
    readLines ops st lines = Except.ok st1 →
    Grows st st1 (lines.countP isVertexLine) (lines.countP isNormalLine)
      (lines.countP isTextureLine) (lines.countP isFaceLine)
      (lines.countP fun l => isFaceLine l && (classifyFace l).hasTex)
      (lines.countP fun l => isFaceLine l && (classifyFace l).hasNorm) := by
  intro lines
  induction lines with
  | nil =>
    intro st st1 h
    simp only [readLines, Except.ok.injEq] at h
    subst h
    simpa using Grows.refl st
  | cons l ls ih =>
    intro st st1 h
    unfold readLines at h
    cases hl : readLine ops st l with
    | error e => rw [hl] at h; cases h
    | ok st2 =>
      rw [hl] at h
      simp only at h
      have g1 := readLine_grows ops st st2 l hl
      have g2 := ih st2 st1 h
      have g := Grows.trans _ _ _ _ _ _ _ _ _ _ _ _ _ _ _ g1 g2
      simpa only [List.countP_cons, b2n] using g

theorem copyRows_length {α : Type} (xs : List α) : copyRows xs.length xs = some xs := by
  simp [copyRows]

theorem toArrays_ok {D : Type} (st : ReadState D) (m : ObjData D)
    (hv : st.vertex_counter = st.vertex.length) (hn : st.normals_counter = st.normals.length)
    (ht : st.texture_counter = st.texture.length) (hf : st.face_counter = st.face.length)
    (hft : st.faceT_counter = st.face_texture.length)
    (hfn : st.faceN_counter = st.face_normals.length)
    (h : toArrays st = Except.ok m) :
    0 < st.vertex.length ∧ 0 < st.face.length
      ∧ m = { V := st.vertex, F := st.face, VT := st.texture, FT := st.face_texture,
              VN := st.normals, FN := st.face_normals, mtl_filename := st.mtl_filename,
              vertex_counter := st.vertex.length, normals_counter := st.normals.length,
              texture_counter := st.texture.length, face_counter := st.face.length,
              faceT_counter := st.face_texture.length,
              faceN_counter := st.face_normals.length } := by
  unfold toArrays at h
  rw [hv, hn, ht, hf, hft, hfn] at h
  simp only [copyRows_length] at h
  split at h
  · rename_i h1
    split at h
    · rename_i h2
      simp only [Except.ok.injEq] at h
      exact ⟨h1, h2, h.symm⟩
    · cases h
  · cases h

theorem readMesh_ok {D : Type} (ops : NumOps D) (file : Option Line) (m : ObjData D)
    (h : readMesh ops file = Except.ok m) :
    ∃ content st, file = some content
      ∧ readLines ops {} (getlines content) = Except.ok st
      ∧ Grows {} st ((getlines content).countP isVertexLine)
          ((getlines content).countP isNormalLine) ((getlines content).countP isTextureLine)
          ((getlines content).countP isFaceLine)
          ((getlines content).countP fun l => isFaceLine l && (classifyFace l).hasTex)
          ((getlines content).countP fun l => isFaceLine l && (classifyFace l).hasNorm)
      ∧ 0 < st.vertex.length ∧ 0 < st.face.length
      ∧ m = { V := st.vertex, F := st.face, VT := st.texture, FT := st.face_texture,
              VN := st.normals, FN := st.face_normals, mtl_filename := st.mtl_filename,
              vertex_counter := st.vertex.length, normals_counter := st.normals.length,
              texture_counter := st.texture.length, face_counter := st.face.length,
              faceT_counter := st.face_texture.length,
              faceN_counter := st.face_normals.length } := by
  cases file with
  | none => cases h
  | some content =>
    unfold readMesh at h
    simp only at h
    cases hl : readLines ops {} (getlines content) with
    | error e => rw [hl] at h; cases h
    | ok st =>
      rw [hl] at h
      simp only at h
      have g := readLines_grows ops _ _ _ hl
      have g' := g
      obtain ⟨⟨a1, a2⟩, ⟨a3, a4⟩, ⟨a5, a6⟩, ⟨a7, a8⟩, ⟨a9, a10⟩, ⟨a11, a12⟩, -, -, -⟩ := g'
      simp only [List.length_nil, Nat.zero_add] at a1 a2 a3 a4 a5 a6 a7 a8 a9 a10 a11 a12
      obtain ⟨hv, hf, hm⟩ := toArrays_ok st m (by omega) (by omega) (by omega) (by omega)
        (by omega) (by omega) h
      exact ⟨content, st, rfl, hl, g, hv, hf, hm⟩

theorem readObj_ok {D : Type} (ops : NumOps D) (nargout : Int) (file : Option Line)
    (outs : List (OctValue D)) (h : readObj ops nargout file = Except.ok outs) :
    (2 ≤ nargout ∧ nargout ≤ 7) ∧ ∃ m, readMesh ops file = Except.ok m ∧ outs = retval nargout m := by
  unfold readObj at h
  split at h
  · cases h
  · rename_i hn
    cases hm : readMesh ops file with
    | error e => rw [hm] at h; cases h
    | ok m =>
      rw [hm] at h
      simp only [Except.ok.injEq] at h
      exact ⟨by omega, m, rfl, h.symm⟩

theorem retval_faces {D : Type} (nargout : Int) (m : ObjData D) (rows : List Faces)
    (h : OctValue.faces rows ∈ retval nargout m) : rows = m.F ∨ rows = m.FT ∨ rows = m.FN := by
  unfold retval at h
  simp only at h
  split_ifs at h <;> simp at h <;> tauto

theorem readMesh_positive {D : Type} (ops : NumOps D) (file : Option Line) (m : ObjData D)
    (h : readMesh ops file = Except.ok m) :
    (∀ f ∈ m.F, f.Positive) ∧ (∀ f ∈ m.FT, f.Positive) ∧ (∀ f ∈ m.FN, f.Positive) := by
  obtain ⟨content, st, -, -, g, -, -, hm⟩ := readMesh_ok ops file m h
  obtain ⟨-, -, -, -, -, -, p1, p2, p3⟩ := g
  subst hm
  exact ⟨p1 (by simp), p2 (by simp), p3 (by simp)⟩

theorem getlinesFrom_line (l rest acc : Line) (h : '\n' ∉ l) :
    getlinesFrom (l ++ '\n' :: rest) acc = (acc.reverse ++ l) :: getlinesFrom rest [] := by
  induction l generalizing acc with
  | nil => simp [getlinesFrom]
  | cons c cs ih =>
    have hc : c ≠ '\n' := fun e => h (by simp [e])
    have hcs : '\n' ∉ cs := fun e => h (List.mem_cons_of_mem _ e)
    have e : getlinesFrom ((c :: cs) ++ '\n' :: rest) acc
        = getlinesFrom (cs ++ '\n' :: rest) (c :: acc) := by
      simp only [List.cons_append, getlinesFrom, hc, if_false]
      rfl
    rw [e, ih (c :: acc) hcs]
    simp

theorem getlines_putLines (ls : List Line) (h : ∀ l ∈ ls, '\n' ∉ l) : getlines (putLines ls) = ls := by
  induction ls with
  | nil => simp [getlines, putLines, getlinesFrom]
  | cons l ls ih =>
    unfold getlines at ih ⊢
    simp only [putLines]
    rw [getlinesFrom_line l _ [] (h l (List.mem_cons_self _ _))]
    simp only [List.reverse_nil, List.nil_append]
    rw [ih (fun l' hl' => h l' (List.mem_cons_of_mem _ hl'))]

theorem putLines_append (xs ys : List Line) : putLines (xs ++ ys) = putLines xs ++ putLines ys := by
  induction xs with
  | nil => rfl
  | cons x xs ih => simp [putLines, ih]

theorem head_text (filename mtlname : Line) (V_rows F_rows : Nat) :
    headerText filename V_rows F_rows ++ mtllibText mtlname
      = putLines (headLines (cstr filename) mtlname V_rows F_rows) := by
  have e1 : "#\n# OBJ File generated by GNU Octave\n# using \x27writeObj\x27 function\n".toList
      = "#".toList ++ '\n' :: ("# OBJ File generated by GNU Octave".toList
        ++ '\n' :: ("# using \x27writeObj\x27 function".toList ++ ['\n'])) := by decide
  have e2 : "#\n# Object ".toList = "#".toList ++ '\n' :: "# Object ".toList := by decide
  have e3 : "\n#\n".toList = '\n' :: ("#".toList ++ ['\n']) := by decide
  have e4 : "\n".toList = ['\n'] := by decide
  have e5 : "\n#\n#\n".toList = '\n' :: ("#".toList ++ '\n' :: ("#".toList ++ ['\n'])) := by decide
  have e6 : "\n\n".toList = ['\n', '\n'] := by decide
  simp only [headerText, mtllibText, headLines, putLines, e1, e2, e3, e4, e5, e6]
  simp only [List.append_assoc, List.cons_append, List.nil_append, List.append_nil]

theorem readLines_append {D : Type} (ops : NumOps D) : ∀ (xs ys : List Line) (st : ReadState D),
    readLines ops st (xs ++ ys)
      = match readLines ops st xs with
        | Except.error e => Except.error e
        | Except.ok st1 => readLines ops st1 ys := by
  intro xs
  induction xs with
  | nil => intro ys st; simp [readLines]
  | cons x xs ih =>
    intro ys st
    simp only [List.cons_append, readLines]
    cases readLine ops st x with
    | error e => simp
    | ok st1 => simp only; exact ih ys st1

theorem readLine_hash {D : Type} (ops : NumOps D) (st : ReadState D) (xs : Line) :
    readLine ops st ('#' :: xs) = Except.ok st := by
  simp [readLine, faceStep, textureStep, normalStep, vertexStep, mtlStep, charAt]

theorem readLine_empty {D : Type} (ops : NumOps D) (st : ReadState D) :
    readLine ops st [] = Except.ok st := by
  simp [readLine, faceStep, textureStep, normalStep, vertexStep, mtlStep, charAt]

theorem readLine_mtllib {D : Type} (ops : NumOps D) (st : ReadState D) (xs : Line) :
    readLine ops st ("mtllib ./".toList ++ xs)
      = Except.ok { st with mtl_filename := mtlName ("mtllib ./".toList ++ xs) } := by
  have e : "mtllib ./".toList ++ xs = 'm' :: 't' :: 'l' :: ("lib ./".toList ++ xs) := rfl
  rw [e]
  simp [readLine, faceStep, textureStep, normalStep, vertexStep, mtlStep, charAt]

theorem readLines_head {D : Type} (ops : NumOps D) (st : ReadState D) (name mtlname : Line)
    (V_rows F_rows : Nat) (rest : List Line) :
    readLines ops st (headLines name mtlname V_rows F_rows ++ rest)
      = readLines ops { st with mtl_filename := mtlName ("mtllib ./".toList ++ mtlname) } rest := by
  have h1 : ∀ (st : ReadState D) (xs : Line) (ls : List Line),
      readLines ops st (('#' :: xs) :: ls) = readLines ops st ls := by
    intro st xs ls
    simp only [readLines, readLine_hash]
  have e : headLines name mtlname V_rows F_rows
      = ['#'] :: ('#' :: " OBJ File generated by GNU Octave".toList)
        :: ('#' :: " using \x27writeObj\x27 function".toList) :: ['#']
        :: ('#' :: (" Object ".toList ++ name)) :: ['#']
        :: ('#' :: (" Vertices: ".toList ++ showNat V_rows))
        :: ('#' :: (" Faces: ".toList ++ showNat F_rows)) :: ['#'] :: ['#']
        :: ("mtllib ./".toList ++ mtlname) :: [[]] := rfl
  rw [e]
  simp only [List.cons_append, h1, List.nil_append]
  simp only [readLines, readLine_mtllib, readLine_empty]

theorem skipSpace_idem (s : Line) : skipSpace (skipSpace s) = skipSpace s := by
  induction s with
  | nil => rfl
  | cons c cs ih =>
    by_cases h : isspace c = true
    · simp only [skipSpace, h, if_true]; exact ih
    · simp [skipSpace, h]

theorem skipSpace_blank (s : Line) : skipSpace (' ' :: s) = skipSpace s := by
  simp [skipSpace, isspace]

theorem sscanf_blank_conv {D : Type} (ops : NumOps D) (x : D) (hx : Exact ops x)
    (fmt : List Dir) (rest : Line) (hr : rest = [] ∨ ∃ r, rest = ' ' :: r) :
    sscanf ops.scanFloat (Dir.space :: Dir.conv :: fmt) (' ' :: (ops.showDouble x ++ rest))
      = x :: sscanf ops.scanFloat fmt rest := by
  simp only [sscanf, skipSpace_blank, skipSpace_idem]
  rw [hx.2 rest hr]

theorem sscanf_three {D : Type} (ops : NumOps D) (c : Coord D)
    (hx : Exact ops c.x) (hy : Exact ops c.y) (hz : Exact ops c.z) :
    sscanf ops.scanFloat [Dir.space, Dir.conv, Dir.space, Dir.conv, Dir.space, Dir.conv]
        (' ' :: ops.showDouble c.x ++ ' ' :: ops.showDouble c.y ++ ' ' :: ops.showDouble c.z)
      = [c.x, c.y, c.z] := by
  have e : (' ' :: ops.showDouble c.x ++ ' ' :: ops.showDouble c.y ++ ' ' :: ops.showDouble c.z)
      = ' ' :: (ops.showDouble c.x ++ ' ' :: (ops.showDouble c.y ++ ' ' :: (ops.showDouble c.z ++ []))) := by
    simp
  rw [e, sscanf_blank_conv ops c.x hx _ _ (Or.inr ⟨_, rfl⟩),
    sscanf_blank_conv ops c.y hy _ _ (Or.inr ⟨_, rfl⟩),
    sscanf_blank_conv ops c.z hz _ _ (Or.inl rfl)]
  simp [sscanf]

theorem sscanf_two {D : Type} (ops : NumOps D) (c : TCoord D)
    (hu : Exact ops c.u) (hv : Exact ops c.v) :
    sscanf ops.scanFloat [Dir.space, Dir.conv, Dir.space, Dir.conv]
        (' ' :: ops.showDouble c.u ++ ' ' :: ops.showDouble c.v)
      = [c.u, c.v] := by
  have e : (' ' :: ops.showDouble c.u ++ ' ' :: ops.showDouble c.v)
      = ' ' :: (ops.showDouble c.u ++ ' ' :: (ops.showDouble c.v ++ [])) := by
    simp
  rw [e, sscanf_blank_conv ops c.u hu _ _ (Or.inr ⟨_, rfl⟩),
    sscanf_blank_conv ops c.v hv _ _ (Or.inl rfl)]
  simp [sscanf]

theorem coord_tail_chars {D : Type} (ops : NumOps D) (c : Coord D) (h : c.Exact ops) :
    ∀ ch ∈ (' ' :: ops.showDouble c.x ++ ' ' :: ops.showDouble c.y ++ ' ' :: ops.showDouble c.z),
      ch ≠ '\n' ∧ ch ≠ '\x00' := by
  intro ch hch
  simp only [List.cons_append, List.mem_cons, List.mem_append, or_assoc] at hch
  rcases hch with e | e | e | e | e | e
  · subst e; exact ⟨by decide, by decide⟩
  · exact h.1.1 ch e
  · subst e; exact ⟨by decide, by decide⟩
  · exact h.2.1.1 ch e
  · subst e; exact ⟨by decide, by decide⟩
  · exact h.2.2.1 ch e

theorem tcoord_tail_chars {D : Type} (ops : NumOps D) (c : TCoord D) (h : c.Exact ops) :
    ∀ ch ∈ (' ' :: ops.showDouble c.u ++ ' ' :: ops.showDouble c.v),
      ch ≠ '\n' ∧ ch ≠ '\x00' := by
  intro ch hch
  simp only [List.cons_append, List.mem_cons, List.mem_append, or_assoc] at hch
  rcases hch with e | e | e | e
  · subst e; exact ⟨by decide, by decide⟩
  · exact h.1.1 ch e
  · subst e; exact ⟨by decide, by decide⟩
  · exact h.2.1 ch e

theorem coordLine_v {D : Type} (ops : NumOps D) (c : Coord D) :
    coordLine ops "v" c
      = 'v' :: (' ' :: ops.showDouble c.x ++ ' ' :: ops.showDouble c.y ++ ' ' :: ops.showDouble c.z) :=
  rfl

theorem coordLine_vn {D : Type} (ops : NumOps D) (c : Coord D) :
    coordLine ops "vn" c
      = 'v' :: 'n' :: (' ' :: ops.showDouble c.x ++ ' ' :: ops.showDouble c.y
          ++ ' ' :: ops.showDouble c.z) :=
  rfl

theorem tcoordLine_vt {D : Type} (ops : NumOps D) (c : TCoord D) :
    tcoordLine ops c = 'v' :: 't' :: (' ' :: ops.showDouble c.u ++ ' ' :: ops.showDouble c.v) :=
  rfl

theorem sscanf_lit_same {α : Type} (conv : Line → Option (α × Line)) (c : Char) (fmt : List Dir)
    (s : Line) : sscanf conv (Dir.lit c :: fmt) (c :: s) = sscanf conv fmt s := by
  simp [sscanf]

theorem scan_v {D : Type} (ops : NumOps D) (c : Coord D) (h : c.Exact ops) :
    coordOf (sscanf ops.scanFloat (format "v %f %f %f".toList) (cstr (coordLine ops "v" c)))
      = c.some := by
  have hf : format "v %f %f %f".toList
      = [Dir.lit 'v', Dir.space, Dir.conv, Dir.space, Dir.conv, Dir.space, Dir.conv] := by decide
  have hc : cstr (coordLine ops "v" c) = coordLine ops "v" c := by
    apply cstr_eq_self
    intro ch hch
    rw [coordLine_v] at hch
    rcases List.mem_cons.mp hch with e | e
    · subst e; decide
    · exact (coord_tail_chars ops c h ch e).2
  rw [hc, hf, coordLine_v, sscanf_lit_same, sscanf_three ops c h.1 h.2.1 h.2.2]
  rfl

theorem scan_vn {D : Type} (ops : NumOps D) (c : Coord D) (h : c.Exact ops) :
    coordOf (sscanf ops.scanFloat (format "vn %f %f %f".toList) (cstr (coordLine ops "vn" c)))
      = c.some := by
  have hf : format "vn %f %f %f".toList
      = [Dir.lit 'v', Dir.lit 'n', Dir.space, Dir.conv, Dir.space, Dir.conv, Dir.space, Dir.conv] := by
    decide
  have hc : cstr (coordLine ops "vn" c) = coordLine ops "vn" c := by
    apply cstr_eq_self
    intro ch hch
    rw [coordLine_vn] at hch
    rcases List.mem_cons.mp hch with e | e
    · subst e; decide
    · rcases List.mem_cons.mp e with e | e
      · subst e; decide
      · exact (coord_tail_chars ops c h ch e).2
  rw [hc, hf, coordLine_vn, sscanf_lit_same, sscanf_lit_same,
    sscanf_three ops c h.1 h.2.1 h.2.2]
  rfl

theorem scan_vt {D : Type} (ops : NumOps D) (c : TCoord D) (h : c.Exact ops) :
    tcoordOf (sscanf ops.scanFloat (format "vt %f %f".toList) (cstr (tcoordLine ops c)))
      = c.some := by
  have hf : format "vt %f %f".toList
      = [Dir.lit 'v', Dir.lit 't', Dir.space, Dir.conv, Dir.space, Dir.conv] := by
    decide
  have hc : cstr (tcoordLine ops c) = tcoordLine ops c := by
    apply cstr_eq_self
    intro ch hch
    rw [tcoordLine_vt] at hch
    rcases List.mem_cons.mp hch with e | e
    · subst e; decide
    · rcases List.mem_cons.mp e with e | e
      · subst e; decide
      · exact (tcoord_tail_chars ops c h ch e).2
  rw [hc, hf, tcoordLine_vt, sscanf_lit_same, sscanf_lit_same, sscanf_two ops c h.1 h.2]
  rfl

theorem readLine_v {D : Type} (ops : NumOps D) (st : ReadState D) (c : Coord D)
    (h : c.Exact ops) :
    readLine ops st (coordLine ops "v" c)
      = Except.ok { st with vertex := st.vertex ++ [c.some],
                            vertex_counter := st.vertex_counter + 1 } := by
  have hs := scan_v ops c h
  have h0 : charAt (coordLine ops "v" c) 0 = 'v' := rfl
  have h1 : charAt (coordLine ops "v" c) 1 = ' ' := rfl
  simp [readLine, faceStep, textureStep, normalStep, vertexStep, mtlStep, h0, h1]
  exact hs

theorem readLine_vn {D : Type} (ops : NumOps D) (st : ReadState D) (c : Coord D)
    (h : c.Exact ops) :
    readLine ops st (coordLine ops "vn" c)
      = Except.ok { st with normals := st.normals ++ [c.some],
                            normals_counter := st.normals_counter + 1 } := by
  have hs := scan_vn ops c h
  have h0 : charAt (coordLine ops "vn" c) 0 = 'v' := rfl
  have h1 : charAt (coordLine ops "vn" c) 1 = 'n' := rfl
  have h2 : charAt (coordLine ops "vn" c) 2 = ' ' := rfl
  simp [readLine, faceStep, textureStep, normalStep, vertexStep, mtlStep, h0, h1, h2]
  exact hs

theorem readLine_vt {D : Type} (ops : NumOps D) (st : ReadState D) (c : TCoord D)
    (h : c.Exact ops) :
    readLine ops st (tcoordLine ops c)
      = Except.ok { st with texture := st.texture ++ [c.some],
                            texture_counter := st.texture_counter + 1 } := by
  have hs := scan_vt ops c h
  have h0 : charAt (tcoordLine ops c) 0 = 'v' := rfl
  have h1 : charAt (tcoordLine ops c) 1 = 't' := rfl
  have h2 : charAt (tcoordLine ops c) 2 = ' ' := rfl
  simp [readLine, faceStep, textureStep, normalStep, vertexStep, mtlStep, h0, h1, h2]
  exact hs

theorem readLine_face {D : Type} (ops : NumOps D) (st : ReadState D) (line : Line)
    (h0 : charAt line 0 = 'f') (h1 : charAt line 1 = ' ') :
    readLine ops st line = faceStep st line := by
  simp [readLine, textureStep, normalStep, vertexStep, mtlStep, h0, h1]

theorem readLines_cons_ok {D : Type} (ops : NumOps D) (st st1 : ReadState D) (l : Line)
    (ls : List Line) (h : readLine ops st l = Except.ok st1) :
    readLines ops st (l :: ls) = readLines ops st1 ls := by
  simp only [readLines, h]

theorem readLines_v {D : Type} (ops : NumOps D) : ∀ (vs : List (Coord D)) (st : ReadState D)
    (rest : List Line), (∀ c ∈ vs, c.Exact ops) →
    readLines ops st (vs.map (coordLine ops "v") ++ rest)
      = readLines ops { st with vertex := st.vertex ++ vs.map Coord.some,
                                vertex_counter := st.vertex_counter + vs.length } rest := by
  intro vs
  induction vs with
  | nil => intro st rest _; simp
  | cons c cs ih =>
    intro st rest h
    simp only [List.map_cons, List.cons_append]
    rw [readLines_cons_ok ops st _ _ _ (readLine_v ops st c (h c (List.mem_cons_self _ _))),
      ih _ rest (fun d hd => h d (List.mem_cons_of_mem _ hd))]
    simp [Nat.add_assoc, Nat.add_comm]

theorem readLines_vn {D : Type} (ops : NumOps D) : ∀ (vs : List (Coord D)) (st : ReadState D)
    (rest : List Line), (∀ c ∈ vs, c.Exact ops) →
    readLines ops st (vs.map (coordLine ops "vn") ++ rest)
      = readLines ops { st with normals := st.normals ++ vs.map Coord.some,
                                normals_counter := st.normals_counter + vs.length } rest := by
  intro vs
  induction vs with
  | nil => intro st rest _; simp
  | cons c cs ih =>
    intro st rest h
    simp only [List.map_cons, List.cons_append]
    rw [readLines_cons_ok ops st _ _ _ (readLine_vn ops st c (h c (List.mem_cons_self _ _))),
      ih _ rest (fun d hd => h d (List.mem_cons_of_mem _ hd))]
    simp [Nat.add_assoc, Nat.add_comm]

theorem readLines_vt {D : Type} (ops : NumOps D) : ∀ (vs : List (TCoord D)) (st : ReadState D)
    (rest : List Line), (∀ c ∈ vs, c.Exact ops) →
    readLines ops st (vs.map (tcoordLine ops) ++ rest)
      = readLines ops { st with texture := st.texture ++ vs.map TCoord.some,
                                texture_counter := st.texture_counter + vs.length } rest := by
  intro vs
  induction vs with
  | nil => intro st rest _; simp
  | cons c cs ih =>
    intro st rest h
    simp only [List.map_cons, List.cons_append]
    rw [readLines_cons_ok ops st _ _ _ (readLine_vt ops st c (h c (List.mem_cons_self _ _))),
      ih _ rest (fun d hd => h d (List.mem_cons_of_mem _ hd))]
    simp [Nat.add_assoc, Nat.add_comm]

theorem readLine_bare {D : Type} (ops : NumOps D) (st : ReadState D) (f : Faces)
    (h : f.Positive) :
    readLine ops st (faceLineBare f)
      = Except.ok { st with face_counter := st.face_counter + 1, face := st.face ++ [f] } := by
  have h0 : charAt (faceLineBare f) 0 = 'f' := rfl
  have h1 : charAt (faceLineBare f) 1 = ' ' := rfl
  rw [readLine_face ops st _ h0 h1]
  simp [faceStep, h0, h1, classify_bare f h]

theorem readLine_tex {D : Type} (ops : NumOps D) (st : ReadState D) (f ft : Faces)
    (h : f.Positive) (ht : ft.Positive) :
    readLine ops st (faceLineTex f ft)
      = Except.ok { st with face_counter := st.face_counter + 1, face := st.face ++ [f],
                            face_texture := st.face_texture ++ [ft],
                            faceT_counter := st.faceT_counter + 1 } := by
  have h0 : charAt (faceLineTex f ft) 0 = 'f' := rfl
  have h1 : charAt (faceLineTex f ft) 1 = ' ' := rfl
  rw [readLine_face ops st _ h0 h1]
  simp [faceStep, h0, h1, classify_tex f ft h ht]

theorem readLine_norm {D : Type} (ops : NumOps D) (st : ReadState D) (f fn : Faces)
    (h : f.Positive) (hn : fn.Positive) :
    readLine ops st (faceLineNorm f fn)
      = Except.ok { st with face_counter := st.face_counter + 1, face := st.face ++ [f],
                            face_normals := st.face_normals ++ [fn],
                            faceN_counter := st.faceN_counter + 1 } := by
  have h0 : charAt (faceLineNorm f fn) 0 = 'f' := rfl
  have h1 : charAt (faceLineNorm f fn) 1 = ' ' := rfl
  rw [readLine_face ops st _ h0 h1]
  simp [faceStep, h0, h1, classify_norm f fn h hn]

theorem readLine_texNorm {D : Type} (ops : NumOps D) (st : ReadState D) (f ft fn : Faces)
    (h : f.Positive) (ht : ft.Positive) (hn : fn.Positive) :
    readLine ops st (faceLineTexNorm f ft fn)
      = Except.ok { st with face_counter := st.face_counter + 1, face := st.face ++ [f],
                            face_texture := st.face_texture ++ [ft],
                            face_normals := st.face_normals ++ [fn],
                            faceT_counter := st.faceT_counter + 1,
                            faceN_counter := st.faceN_counter + 1 } := by
  have h0 : charAt (faceLineTexNorm f ft fn) 0 = 'f' := rfl
  have h1 : charAt (faceLineTexNorm f ft fn) 1 = ' ' := rfl
  rw [readLine_face ops st _ h0 h1]
  simp [faceStep, h0, h1, classify_texNorm f ft fn h ht hn]

theorem readLines_bare {D : Type} (ops : NumOps D) : ∀ (fs : List Faces) (st : ReadState D)
    (rest : List Line), (∀ f ∈ fs, f.Positive) →
    readLines ops st (fs.map faceLineBare ++ rest)
      = readLines ops { st with face := st.face ++ fs,
                                face_counter := st.face_counter + fs.length } rest := by
  intro fs
  induction fs with
  | nil => intro st rest _; simp
  | cons c cs ih =>
    intro st rest h
    simp only [List.map_cons, List.cons_append]
    rw [readLines_cons_ok ops st _ _ _ (readLine_bare ops st c (h c (List.mem_cons_self _ _))),
      ih _ rest (fun d hd => h d (List.mem_cons_of_mem _ hd))]
    congr 1
    simp
    omega

theorem readLines_tex {D : Type} (ops : NumOps D) : ∀ (ps : List (Faces × Faces))
    (st : ReadState D) (rest : List Line), (∀ p ∈ ps, p.1.Positive ∧ p.2.Positive) →
    readLines ops st (ps.map (fun p => faceLineTex p.1 p.2) ++ rest)
      = readLines ops { st with face := st.face ++ ps.map Prod.fst,
                                face_counter := st.face_counter + ps.length,
                                face_texture := st.face_texture ++ ps.map Prod.snd,
                                faceT_counter := st.faceT_counter + ps.length } rest := by
  intro ps
  induction ps with
  | nil => intro st rest _; simp
  | cons c cs ih =>
    intro st rest h
    have hc := h c (List.mem_cons_self _ _)
    simp only [List.map_cons, List.cons_append]
    rw [readLines_cons_ok ops st _ _ _ (readLine_tex ops st c.1 c.2 hc.1 hc.2),
      ih _ rest (fun d hd => h d (List.mem_cons_of_mem _ hd))]
    congr 1
    simp
    omega

theorem readLines_norm {D : Type} (ops : NumOps D) : ∀ (ps : List (Faces × Faces))
    (st : ReadState D) (rest : List Line), (∀ p ∈ ps, p.1.Positive ∧ p.2.Positive) →
    readLines ops st (ps.map (fun p => faceLineNorm p.1 p.2) ++ rest)
      = readLines ops { st with face := st.face ++ ps.map Prod.fst,
                                face_counter := st.face_counter + ps.length,
                                face_normals := st.face_normals ++ ps.map Prod.snd,
                                faceN_counter := st.faceN_counter + ps.length } rest := by
  intro ps
  induction ps with
  | nil => intro st rest _; simp
  | cons c cs ih =>
    intro st rest h
    have hc := h c (List.mem_cons_self _ _)
    simp only [List.map_cons, List.cons_append]
    rw [readLines_cons_ok ops st _ _ _ (readLine_norm ops st c.1 c.2 hc.1 hc.2),
      ih _ rest (fun d hd => h d (List.mem_cons_of_mem _ hd))]
    congr 1
    simp
    omega

theorem readLines_texNorm {D : Type} (ops : NumOps D) : ∀ (ps : List (Faces × Faces × Faces))
    (st : ReadState D) (rest : List Line),
    (∀ p ∈ ps, p.1.Positive ∧ p.2.1.Positive ∧ p.2.2.Positive) →
    readLines ops st (ps.map (fun p => faceLineTexNorm p.1 p.2.1 p.2.2) ++ rest)
      = readLines ops { st with face := st.face ++ ps.map Prod.fst,
                                face_counter := st.face_counter + ps.length,
                                face_texture := st.face_texture ++ ps.map (fun p => p.2.1),
                                faceT_counter := st.faceT_counter + ps.length,
                                face_normals := st.face_normals ++ ps.map (fun p => p.2.2),
                                faceN_counter := st.faceN_counter + ps.length } rest := by
  intro ps
  induction ps with
  | nil => intro st rest _; simp
  | cons c cs ih =>
    intro st rest h
    have hc := h c (List.mem_cons_self _ _)
    simp only [List.map_cons, List.cons_append]
    rw [readLines_cons_ok ops st _ _ _
        (readLine_texNorm ops st c.1 c.2.1 c.2.2 hc.1 hc.2.1 hc.2.2),
      ih _ rest (fun d hd => h d (List.mem_cons_of_mem _ hd))]
    congr 1
    simp
    omega

theorem showInt_chars (i : Int) : ∀ c ∈ showInt i, isdigit c = true ∨ c = '-' := by
  intro c hc
  unfold showInt at hc
  by_cases h : i < 0
  · simp only [h, if_true, List.mem_cons] at hc
    rcases hc with hc | hc
    · exact Or.inr hc
    · exact Or.inl (showNat_digits _ c hc)
  · simp only [h, if_false] at hc
    exact Or.inl (showNat_digits _ c hc)

theorem showInt_no_lf (i : Int) : '\n' ∉ showInt i := by
  intro h
  rcases showInt_chars i _ h with e | e
  · simp [isdigit] at e
  · exact absurd e (by decide)

theorem showNat_no_lf (n : Nat) : '\n' ∉ showNat n := by
  intro h
  have := showNat_digits n _ h
  simp [isdigit] at this

theorem faceLineBare_no_lf (f : Faces) : '\n' ∉ faceLineBare f := by
  have ha := showInt_no_lf f.a
  have hb := showInt_no_lf f.b
  have hc := showInt_no_lf f.c
  simp [faceLineBare, ha, hb, hc]

theorem faceLineTex_no_lf (f g : Faces) : '\n' ∉ faceLineTex f g := by
  have ha := showInt_no_lf f.a
  have hb := showInt_no_lf f.b
  have hc := showInt_no_lf f.c
  have ga := showInt_no_lf g.a
  have gb := showInt_no_lf g.b
  have gc := showInt_no_lf g.c
  simp [faceLineTex, ha, hb, hc, ga, gb, gc]

theorem faceLineNorm_no_lf (f g : Faces) : '\n' ∉ faceLineNorm f g := by
  have ha := showInt_no_lf f.a
  have hb := showInt_no_lf f.b
  have hc := showInt_no_lf f.c
  have ga := showInt_no_lf g.a
  have gb := showInt_no_lf g.b
  have gc := showInt_no_lf g.c
  simp [faceLineNorm, ha, hb, hc, ga, gb, gc]

theorem faceLineTexNorm_no_lf (f g k : Faces) : '\n' ∉ faceLineTexNorm f g k := by
  have ha := showInt_no_lf f.a
  have hb := showInt_no_lf f.b
  have hc := showInt_no_lf f.c
  have ga := showInt_no_lf g.a
  have gb := showInt_no_lf g.b
  have gc := showInt_no_lf g.c
  have ka := showInt_no_lf k.a
  have kb := showInt_no_lf k.b
  have kc := showInt_no_lf k.c
  simp [faceLineTexNorm, ha, hb, hc, ga, gb, gc, ka, kb, kc]

theorem coordLine_v_no_lf {D : Type} (ops : NumOps D) (c : Coord D) (h : c.Exact ops) :
    '\n' ∉ coordLine ops "v" c := by
  intro hm
  rw [coordLine_v] at hm
  rcases List.mem_cons.mp hm with e | e
  · exact absurd e (by decide)
  · exact (coord_tail_chars ops c h _ e).1 rfl

theorem coordLine_vn_no_lf {D : Type} (ops : NumOps D) (c : Coord D) (h : c.Exact ops) :
    '\n' ∉ coordLine ops "vn" c := by
  intro hm
  rw [coordLine_vn] at hm
  rcases List.mem_cons.mp hm with e | e
  · exact absurd e (by decide)
  · rcases List.mem_cons.mp e with e | e
    · exact absurd e (by decide)
    · exact (coord_tail_chars ops c h _ e).1 rfl

theorem tcoordLine_no_lf {D : Type} (ops : NumOps D) (c : TCoord D) (h : c.Exact ops) :
    '\n' ∉ tcoordLine ops c := by
  intro hm
  rw [tcoordLine_vt] at hm
  rcases List.mem_cons.mp hm with e | e
  · exact absurd e (by decide)
  · rcases List.mem_cons.mp e with e | e
    · exact absurd e (by decide)
    · exact (tcoord_tail_chars ops c h _ e).1 rfl

theorem headLines_no_lf (name mtlname : Line) (V_rows F_rows : Nat) (hn : '\n' ∉ name)
    (hm : '\n' ∉ mtlname) : ∀ l ∈ headLines name mtlname V_rows F_rows, '\n' ∉ l := by
  intro l hl
  have hv := showNat_no_lf V_rows
  have hf := showNat_no_lf F_rows
  simp only [headLines, List.mem_cons, List.mem_singleton, List.not_mem_nil, or_false] at hl
  rcases hl with e | e | e | e | e | e | e | e | e | e | e | e <;> subst e <;>
    simp [hn, hm, hv, hf]

theorem mtlFileName_no_lf (filename mtlname : Line) (h : mtlFileName filename = some mtlname)
    (hn : '\n' ∉ cstr filename) : '\n' ∉ mtlname := by
  unfold mtlFileName at h
  simp only at h
  split at h
  · cases h
  · split at h
    · cases h
    · simp only [Option.some.injEq] at h
      rw [← h]
      intro hm
      simp only [List.mem_append] at hm
      rcases hm with (e | e) | e
      · exact hn (List.mem_of_mem_take e)
      · exact absurd e (by decide)
      · exact hn (List.mem_of_mem_drop e)

theorem faceLoop2_eq (line : Faces → Faces → Line) : ∀ (fs gs : List Faces),
    fs.length = gs.length →
    faceLoop2 line fs gs = some (putLines ((fs.zip gs).map fun p => line p.1 p.2)) := by
  intro fs
  induction fs with
  | nil =>
    intro gs h
    cases gs with
    | nil => rfl
    | cons g gs => simp at h
  | cons f fs ih =>
    intro gs h
    cases gs with
    | nil => simp at h
    | cons g gs =>
      simp only [List.length_cons, Nat.add_right_cancel_iff] at h
      simp [faceLoop2, ih gs h, putLines]
      rfl

theorem faceLoop3_eq (line : Faces → Faces → Faces → Line) : ∀ (fs gs hs : List Faces),
    fs.length = gs.length → fs.length = hs.length →
    faceLoop3 line fs gs hs
      = some (putLines ((fs.zip (gs.zip hs)).map fun p => line p.1 p.2.1 p.2.2)) := by
  intro fs
  induction fs with
  | nil =>
    intro gs hs h1 h2
    cases hs with
    | nil => cases gs <;> rfl
    | cons k ks => simp at h2
  | cons f fs ih =>
    intro gs hs h1 h2
    cases gs with
    | nil => simp at h1
    | cons g gs =>
      cases hs with
      | nil => simp at h2
      | cons k ks =>
        simp only [List.length_cons, Nat.add_right_cancel_iff] at h1 h2
        simp [faceLoop3, ih gs ks h1 h2, putLines]
        rfl

theorem writeFile_written (host : Host) (fname : Line) (V_rows F_rows : Nat)
    (body : Option Line) (name text : Line)
    (h : writeFile host fname V_rows F_rows body = WriteOutcome.written name text) :
    ∃ filename mtlname lines, body = some lines ∧ name = cstr filename
      ∧ mtlFileName filename = some mtlname
      ∧ text = headerText filename V_rows F_rows ++ mtllibText mtlname ++ lines := by
  unfold writeFile at h
  split at h
  · cases h
  · rename_i filename hd
    split at h
    · split at h
      · cases h
      · rename_i mtlname hm
        split at h
        · cases h
        · rename_i lines
          simp only [WriteOutcome.written.injEq] at h
          exact ⟨filename, mtlname, lines, rfl, h.1.symm, hm, h.2.symm⟩
    · cases h

theorem read_document {D : Type} (ops : NumOps D) (filename mtlname : Line) (vr fr : Nat)
    (vs : List (Coord D)) (ts : List (TCoord D)) (ns : List (Coord D)) (flines : List Line)
    (fF fT fN : List Faces) (text : Line)
    (htext : text = headerText filename vr fr ++ mtllibText mtlname
      ++ putLines (vs.map (coordLine ops "v") ++ (ts.map (tcoordLine ops)
          ++ (ns.map (coordLine ops "vn") ++ flines))))
    (hname : '\n' ∉ cstr filename) (hmtl : '\n' ∉ mtlname)
    (hvs : ∀ c ∈ vs, c.Exact ops) (hts : ∀ c ∈ ts, c.Exact ops) (hns : ∀ c ∈ ns, c.Exact ops)
    (hfl : ∀ st : ReadState D, readLines ops st flines
      = Except.ok { st with face := st.face ++ fF, face_counter := st.face_counter + fF.length,
                            face_texture := st.face_texture ++ fT,
                            faceT_counter := st.faceT_counter + fT.length,
                            face_normals := st.face_normals ++ fN,
                            faceN_counter := st.faceN_counter + fN.length })
    (hfn : ∀ l ∈ flines, '\n' ∉ l) (hv0 : 0 < vs.length) (hf0 : 0 < fF.length) :
    readMesh ops (some text)
      = Except.ok { V := vs.map Coord.some, F := fF, VT := ts.map TCoord.some, FT := fT,
                    VN := ns.map Coord.some, FN := fN,
                    mtl_filename := mtlName ("mtllib ./".toList ++ mtlname),
                    vertex_counter := vs.length, normals_counter := ns.length,
                    texture_counter := ts.length, face_counter := fF.length,
                    faceT_counter := fT.length, faceN_counter := fN.length } := by
  have hlines : ∀ l ∈ headLines (cstr filename) mtlname vr fr
      ++ (vs.map (coordLine ops "v") ++ (ts.map (tcoordLine ops)
          ++ (ns.map (coordLine ops "vn") ++ flines))), '\n' ∉ l := by
    intro l hl
    simp only [List.mem_append, List.mem_map] at hl
    rcases hl with e | ⟨c, hc, e⟩ | ⟨c, hc, e⟩ | ⟨c, hc, e⟩ | e
    · exact headLines_no_lf _ _ _ _ hname hmtl l e
    · subst e; exact coordLine_v_no_lf ops c (hvs c hc)
    · subst e; exact tcoordLine_no_lf ops c (hts c hc)
    · subst e; exact coordLine_vn_no_lf ops c (hns c hc)
    · exact hfn l e
  rw [htext, head_text, ← putLines_append]
  unfold readMesh
  simp only
  rw [getlines_putLines _ hlines, readLines_head, readLines_v ops vs _ _ hvs,
    readLines_vt ops ts _ _ hts]
  have hn := readLines_vn ops ns
    { ({ ({ ({} : ReadState D) with
              mtl_filename := mtlName ("mtllib ./".toList ++ mtlname) }) with
          vertex := [] ++ vs.map Coord.some, vertex_counter := 0 + vs.length }) with
      texture := [] ++ ts.map TCoord.some, texture_counter := 0 + ts.length } [] hns
  simp only [List.append_nil] at hn
  simp only [List.nil_append, Nat.zero_add] at hn ⊢
  rw [readLines_append, hn]
  simp only [List.nil_append, Nat.zero_add, readLines]
  rw [hfl]
  simp [toArrays, copyRows, hv0, hf0]

theorem stageCoords_length {D : Type} (ops : NumOps D) (rows : Nat) (M : Nat → Nat → D) :
    (stageCoords ops rows M).length = rows := by
  simp [stageCoords]

theorem stageFaces_length {D : Type} (ops : NumOps D) (rows : Nat) (M : Nat → Nat → D) :
    (stageFaces ops rows M).length = rows := by
  simp [stageFaces]

theorem read_back3 {D : Type} (ops : NumOps D) (host : Host) (name text : Line)
    (hname : '\n' ∉ name) (V F nm : OctArg D)
    (hw : writeObj ops host [V, F, nm] = WriteOutcome.written name text)
    (hV : ∀ c ∈ stageCoords ops V.rows V.array_value, c.Exact ops)
    (hF : ∀ f ∈ stageFaces ops F.rows F.array_value, f.Positive) :
    ReadsBack ops text (stageCoords ops V.rows V.array_value)
      (stageFaces ops F.rows F.array_value) [] [] [] [] := by
  simp only [writeObj, write3] at hw
  split_ifs at hw with h1 h2 h3 h4 h5 h6
  obtain ⟨filename, mtlname, lines, hb, hn, hm, ht⟩ := writeFile_written _ _ _ _ _ _ _ hw
  simp only [Option.some.injEq] at hb
  subst hn
  have hdoc := read_document ops filename mtlname V.rows F.rows
    (stageCoords ops V.rows V.array_value) [] []
    ((stageFaces ops F.rows F.array_value).map faceLineBare)
    (stageFaces ops F.rows F.array_value) [] [] text
    (by rw [ht, ← hb]; simp [putLines_append, putLines])
    hname (mtlFileName_no_lf _ _ hm hname) hV (by simp) (by simp)
    (by
      intro st
      have := readLines_bare ops (stageFaces ops F.rows F.array_value) st [] hF
      simp only [List.append_nil, readLines] at this
      rw [this]
      simp)
    (by
      intro l hl
      obtain ⟨f, -, e⟩ := List.mem_map.mp hl
      subst e; exact faceLineBare_no_lf f)
    (by rw [stageCoords_length]; omega) (by rw [stageFaces_length]; omega)
  exact ⟨_, hdoc, rfl, rfl, rfl, rfl, rfl, rfl⟩

theorem stageTCoords_length {D : Type} (ops : NumOps D) (rows : Nat) (M : Nat → Nat → D) :
    (stageTCoords ops rows M).length = rows := by
  simp [stageTCoords]

theorem zip_pos (fs gs : List Faces) (hf : ∀ f ∈ fs, f.Positive) (hg : ∀ f ∈ gs, f.Positive) :
    ∀ p ∈ fs.zip gs, p.1.Positive ∧ p.2.Positive := by
  intro p hp
  obtain ⟨a, b⟩ := p
  exact ⟨hf a (List.of_mem_zip hp).1, hg b (List.of_mem_zip hp).2⟩

theorem zip3_pos (fs gs ks : List Faces) (hf : ∀ f ∈ fs, f.Positive)
    (hg : ∀ f ∈ gs, f.Positive) (hk : ∀ f ∈ ks, f.Positive) :
    ∀ p ∈ fs.zip (gs.zip ks), p.1.Positive ∧ p.2.1.Positive ∧ p.2.2.Positive := by
  intro p hp
  obtain ⟨a, b, c⟩ := p
  have h2 := (List.of_mem_zip hp).2
  exact ⟨hf a (List.of_mem_zip hp).1, hg b (List.of_mem_zip h2).1, hk c (List.of_mem_zip h2).2⟩

theorem writeObj_five {D : Type} (ops : NumOps D) (host : Host) (a0 a1 a2 a3 a4 : OctArg D)
    (name text : Line)
    (h : writeObj ops host [a0, a1, a2, a3, a4] = WriteOutcome.written name text) :
    (a2.columns = 2 → write5t ops host a0 a1 a2 a3 a4 = WriteOutcome.written name text)
      ∧ (a2.columns = 3 → write5n ops host a0 a1 a2 a3 a4 = WriteOutcome.written name text) := by
  unfold writeObj at h
  simp only at h
  split at h
  · cases h
  · split at h
    · cases h
    · split at h
      · cases h
      · split at h
        · rename_i hc
          exact ⟨fun _ => h, fun h3 => by omega⟩
        · split at h
          · rename_i hc2 hc3
            exact ⟨fun h2 => absurd h2 hc2, fun _ => h⟩
          · split at h <;> cases h

theorem writeObj_seven {D : Type} (ops : NumOps D) (host : Host)
    (a0 a1 a2 a3 a4 a5 a6 : OctArg D) (name text : Line)
    (h : writeObj ops host [a0, a1, a2, a3, a4, a5, a6] = WriteOutcome.written name text) :
    write7 ops host a0 a1 a2 a3 a4 a5 a6 = WriteOutcome.written name text := by
  unfold writeObj at h
  simp only at h
  split at h
  · cases h
  · split at h
    · cases h
    · split at h
      · cases h
      · split at h
        · cases h
        · exact h

theorem write5t_written {D : Type} (ops : NumOps D) (host : Host) (V F VT FT nm : OctArg D)
    (name text : Line) (h : write5t ops host V F VT FT nm = WriteOutcome.written name text) :
    3 ≤ V.rows ∧ 1 ≤ F.rows ∧ F.rows = FT.rows
      ∧ writeFile host nm.string_value V.rows F.rows
          ((faceLoop2 faceLineTex (stageFaces ops F.rows F.array_value)
              (stageFaces ops FT.rows FT.array_value)).map fun faces =>
            putLines ((stageCoords ops V.rows V.array_value).map (coordLine ops "v"))
              ++ putLines ((stageTCoords ops VT.rows VT.array_value).map (tcoordLine ops))
              ++ faces)
        = WriteOutcome.written name text := by
  unfold write5t at h
  split at h
  · cases h
  · split at h
    · cases h
    · split at h
      · cases h
      · split at h
        · cases h
        · split at h
          · cases h
          · simp only at h
            split at h
            · cases h
            · exact ⟨by omega, by omega, by omega, h⟩

theorem write5n_written {D : Type} (ops : NumOps D) (host : Host) (V F VN FN nm : OctArg D)
    (name text : Line) (h : write5n ops host V F VN FN nm = WriteOutcome.written name text) :
    3 ≤ V.rows ∧ 1 ≤ F.rows ∧ F.rows = FN.rows
      ∧ writeFile host nm.string_value V.rows F.rows
          ((faceLoop2 faceLineNorm (stageFaces ops F.rows F.array_value)
              (stageFaces ops FN.rows FN.array_value)).map fun faces =>
            putLines ((stageCoords ops V.rows V.array_value).map (coordLine ops "v"))
              ++ putLines ((stageCoords ops VN.rows VN.array_value).map (coordLine ops "vn"))
              ++ faces)
        = WriteOutcome.written name text := by
  unfold write5n at h
  split at h
  · cases h
  · split at h
    · cases h
    · split at h
      · cases h
      · split at h
        · cases h
        · split at h
          · cases h
          · simp only at h
            split at h
            · cases h
            · exact ⟨by omega, by omega, by omega, h⟩

theorem write7_written {D : Type} (ops : NumOps D) (host : Host)
    (V F VT FT VN FN nm : OctArg D) (name text : Line)
    (h : write7 ops host V F VT FT VN FN nm = WriteOutcome.written name text) :
    3 ≤ V.rows ∧ 1 ≤ F.rows
      ∧ writeFile host nm.string_value V.rows F.rows
          ((faceLoop3 faceLineTexNorm (stageFaces ops F.rows F.array_value)
              (stageFaces ops FT.rows FT.array_value)
              (stageFaces ops FN.rows FN.array_value)).map fun faces =>
            putLines ((stageCoords ops V.rows V.array_value).map (coordLine ops "v"))
              ++ putLines ((stageTCoords ops VT.rows VT.array_value).map (tcoordLine ops))
              ++ putLines ((stageCoords ops VN.rows VN.array_value).map (coordLine ops "vn"))
              ++ faces)
        = WriteOutcome.written name text := by
  unfold write7 at h
  by_cases c1 : V.rows < 3
  · rw [if_pos c1] at h; cases h
  rw [if_neg c1] at h
  by_cases c2 : V.columns ≠ 3
  · rw [if_pos c2] at h; cases h
  rw [if_neg c2] at h
  by_cases c3 : F.rows < 1
  · rw [if_pos c3] at h; cases h
  rw [if_neg c3] at h
  by_cases c4 : F.columns ≠ 3
  · rw [if_pos c4] at h; cases h
  rw [if_neg c4] at h
  by_cases c5 : VT.columns ≠ 2
  · rw [if_pos c5] at h; cases h
  rw [if_neg c5] at h
  by_cases c6 : FT.columns ≠ 3
  · rw [if_pos c6] at h; cases h
  rw [if_neg c6] at h
  by_cases c7 : VN.columns ≠ 3
  · rw [if_pos c7] at h; cases h
  rw [if_neg c7] at h
  by_cases c8 : FN.columns ≠ 3
  · rw [if_pos c8] at h; cases h
  rw [if_neg c8] at h
  by_cases c9 : F.rows ≠ FT.rows ∧ F.rows ≠ FN.rows
  · have h' : WriteOutcome.rejected WriteError.faceCounts = WriteOutcome.written name text := by
      rw [← h]; exact (if_pos c9).symm
    cases h'
  · refine ⟨by omega, by omega, ?_⟩
    rw [← h]
    exact (if_neg c9).symm

theorem read_back5t {D : Type} (ops : NumOps D) (host : Host) (name text : Line)
    (hname : '\n' ∉ name) (V F VT FT nm : OctArg D)
    (hw : writeObj ops host [V, F, VT, FT, nm] = WriteOutcome.written name text)
    (hcol : VT.columns = 2)
    (hV : ∀ c ∈ stageCoords ops V.rows V.array_value, c.Exact ops)
    (hT : ∀ c ∈ stageTCoords ops VT.rows VT.array_value, c.Exact ops)
    (hF : ∀ f ∈ stageFaces ops F.rows F.array_value, f.Positive)
    (hFT : ∀ f ∈ stageFaces ops FT.rows FT.array_value, f.Positive) :
    ReadsBack ops text (stageCoords ops V.rows V.array_value)
      (stageFaces ops F.rows F.array_value) (stageTCoords ops VT.rows VT.array_value)
      (stageFaces ops FT.rows FT.array_value) [] [] := by
  obtain ⟨hv3, hf1, hrows, hw⟩ := write5t_written ops host V F VT FT nm name text
    ((writeObj_five ops host V F VT FT nm name text hw).1 hcol)
  have hlen : (stageFaces ops F.rows F.array_value).length
      = (stageFaces ops FT.rows FT.array_value).length := by
    rw [stageFaces_length, stageFaces_length, hrows]
  rw [faceLoop2_eq faceLineTex _ _ hlen] at hw
  obtain ⟨filename, mtlname, lines, hb, hn, hm, ht⟩ := writeFile_written _ _ _ _ _ _ _ hw
  simp only [Option.map_some', Option.some.injEq] at hb
  subst hn
  have hdoc := read_document ops filename mtlname V.rows F.rows
    (stageCoords ops V.rows V.array_value) (stageTCoords ops VT.rows VT.array_value) []
    (((stageFaces ops F.rows F.array_value).zip (stageFaces ops FT.rows FT.array_value)).map
      fun p => faceLineTex p.1 p.2)
    (stageFaces ops F.rows F.array_value) (stageFaces ops FT.rows FT.array_value) [] text
    (by rw [ht, ← hb]; simp [putLines_append, putLines])
    hname (mtlFileName_no_lf _ _ hm hname) hV hT (by simp)
    (by
      intro st
      have := readLines_tex ops _ st [] (zip_pos _ _ hF hFT)
      simp only [List.append_nil, readLines] at this
      rw [this, List.map_fst_zip _ _ (le_of_eq hlen), List.map_snd_zip _ _ (le_of_eq hlen.symm)]
      simp [hlen])
    (by
      intro l hl
      obtain ⟨p, -, e⟩ := List.mem_map.mp hl
      subst e; exact faceLineTex_no_lf p.1 p.2)
    (by rw [stageCoords_length]; omega) (by rw [stageFaces_length]; omega)
  exact ⟨_, hdoc, rfl, rfl, rfl, rfl, rfl, rfl⟩

theorem read_back5n {D : Type} (ops : NumOps D) (host : Host) (name text : Line)
    (hname : '\n' ∉ name) (V F VN FN nm : OctArg D)
    (hw : writeObj ops host [V, F, VN, FN, nm] = WriteOutcome.written name text)
    (hcol : VN.columns = 3)
    (hV : ∀ c ∈ stageCoords ops V.rows V.array_value, c.Exact ops)
    (hN : ∀ c ∈ stageCoords ops VN.rows VN.array_value, c.Exact ops)
    (hF : ∀ f ∈ stageFaces ops F.rows F.array_value, f.Positive)
    (hFN : ∀ f ∈ stageFaces ops FN.rows FN.array_value, f.Positive) :
    ReadsBack ops text (stageCoords ops V.rows V.array_value)
      (stageFaces ops F.rows F.array_value) [] []
      (stageCoords ops VN.rows VN.array_value) (stageFaces ops FN.rows FN.array_value) := by
  obtain ⟨hv3, hf1, hrows, hw⟩ := write5n_written ops host V F VN FN nm name text
    ((writeObj_five ops host V F VN FN nm name text hw).2 hcol)
  have hlen : (stageFaces ops F.rows F.array_value).length
      = (stageFaces ops FN.rows FN.array_value).length := by
    rw [stageFaces_length, stageFaces_length, hrows]
  rw [faceLoop2_eq faceLineNorm _ _ hlen] at hw
  obtain ⟨filename, mtlname, lines, hb, hn, hm, ht⟩ := writeFile_written _ _ _ _ _ _ _ hw
  simp only [Option.map_some', Option.some.injEq] at hb
  subst hn
  have hdoc := read_document ops filename mtlname V.rows F.rows
    (stageCoords ops V.rows V.array_value) [] (stageCoords ops VN.rows VN.array_value)
    (((stageFaces ops F.rows F.array_value).zip (stageFaces ops FN.rows FN.array_value)).map
      fun p => faceLineNorm p.1 p.2)
    (stageFaces ops F.rows F.array_value) [] (stageFaces ops FN.rows FN.array_value) text
    (by rw [ht, ← hb]; simp [putLines_append, putLines])
    hname (mtlFileName_no_lf _ _ hm hname) hV (by simp) hN
    (by
      intro st
      have := readLines_norm ops _ st [] (zip_pos _ _ hF hFN)
      simp only [List.append_nil, readLines] at this
      rw [this, List.map_fst_zip _ _ (le_of_eq hlen), List.map_snd_zip _ _ (le_of_eq hlen.symm)]
      simp [hlen])
    (by
      intro l hl
      obtain ⟨p, -, e⟩ := List.mem_map.mp hl
      subst e; exact faceLineNorm_no_lf p.1 p.2)
    (by rw [stageCoords_length]; omega) (by rw [stageFaces_length]; omega)
  exact ⟨_, hdoc, rfl, rfl, rfl, rfl, rfl, rfl⟩

theorem map_21_zip3 (fs gs ks : List Faces) (h1 : fs.length = gs.length)
    (h2 : fs.length = ks.length) :
    (fs.zip (gs.zip ks)).map (fun p => p.2.1) = gs
      ∧ (fs.zip (gs.zip ks)).map (fun p => p.2.2) = ks
      ∧ (fs.zip (gs.zip ks)).map Prod.fst = fs := by
  have hz : (gs.zip ks).length = fs.length := by simp [List.length_zip]; omega
  have e1 : (fs.zip (gs.zip ks)).map Prod.snd = gs.zip ks :=
    List.map_snd_zip _ _ (le_of_eq hz)
  have e2 : (fs.zip (gs.zip ks)).map Prod.fst = fs := List.map_fst_zip _ _ (le_of_eq hz.symm)
  refine ⟨?_, ?_, e2⟩
  · have : (fs.zip (gs.zip ks)).map (fun p => p.2.1)
        = ((fs.zip (gs.zip ks)).map Prod.snd).map Prod.fst := by simp
    rw [this, e1, List.map_fst_zip _ _ (by omega)]
  · have : (fs.zip (gs.zip ks)).map (fun p => p.2.2)
        = ((fs.zip (gs.zip ks)).map Prod.snd).map Prod.snd := by simp
    rw [this, e1, List.map_snd_zip _ _ (by omega)]

theorem read_back7 {D : Type} (ops : NumOps D) (host : Host) (name text : Line)
    (hname : '\n' ∉ name) (V F VT FT VN FN nm : OctArg D)
    (hw : writeObj ops host [V, F, VT, FT, VN, FN, nm] = WriteOutcome.written name text)
    (hrt : F.rows = FT.rows) (hrn : F.rows = FN.rows)
    (hV : ∀ c ∈ stageCoords ops V.rows V.array_value, c.Exact ops)
    (hT : ∀ c ∈ stageTCoords ops VT.rows VT.array_value, c.Exact ops)
    (hN : ∀ c ∈ stageCoords ops VN.rows VN.array_value, c.Exact ops)
    (hF : ∀ f ∈ stageFaces ops F.rows F.array_value, f.Positive)
    (hFT : ∀ f ∈ stageFaces ops FT.rows FT.array_value, f.Positive)
    (hFN : ∀ f ∈ stageFaces ops FN.rows FN.array_value, f.Positive) :
    ReadsBack ops text (stageCoords ops V.rows V.array_value)
      (stageFaces ops F.rows F.array_value) (stageTCoords ops VT.rows VT.array_value)
      (stageFaces ops FT.rows FT.array_value)
      (stageCoords ops VN.rows VN.array_value) (stageFaces ops FN.rows FN.array_value) := by
  obtain ⟨hv3, hf1, hw⟩ := write7_written ops host V F VT FT VN FN nm name text
    (writeObj_seven ops host V F VT FT VN FN nm name text hw)
  have hl1 : (stageFaces ops F.rows F.array_value).length
      = (stageFaces ops FT.rows FT.array_value).length := by
    rw [stageFaces_length, stageFaces_length, hrt]
  have hl2 : (stageFaces ops F.rows F.array_value).length
      = (stageFaces ops FN.rows FN.array_value).length := by
    rw [stageFaces_length, stageFaces_length, hrn]
  rw [faceLoop3_eq faceLineTexNorm _ _ _ hl1 hl2] at hw
  obtain ⟨filename, mtlname, lines, hb, hn, hm, ht⟩ := writeFile_written _ _ _ _ _ _ _ hw
  simp only [Option.map_some', Option.some.injEq] at hb
  subst hn
  obtain ⟨z1, z2, z3⟩ := map_21_zip3 _ _ _ hl1 hl2
  have hdoc := read_document ops filename mtlname V.rows F.rows
    (stageCoords ops V.rows V.array_value) (stageTCoords ops VT.rows VT.array_value)
    (stageCoords ops VN.rows VN.array_value)
    (((stageFaces ops F.rows F.array_value).zip ((stageFaces ops FT.rows FT.array_value).zip
      (stageFaces ops FN.rows FN.array_value))).map fun p => faceLineTexNorm p.1 p.2.1 p.2.2)
    (stageFaces ops F.rows F.array_value) (stageFaces ops FT.rows FT.array_value)
    (stageFaces ops FN.rows FN.array_value) text
    (by rw [ht, ← hb]; simp [putLines_append, putLines])
    hname (mtlFileName_no_lf _ _ hm hname) hV hT hN
    (by
      intro st
      have := readLines_texNorm ops _ st [] (zip3_pos _ _ _ hF hFT hFN)
      simp only [List.append_nil, readLines] at this
      rw [this, z1, z2, z3]
      simp only [List.length_zip, stageFaces_length, ← hrt, ← hrn, Nat.min_self])
    (by
      intro l hl
      obtain ⟨p, -, e⟩ := List.mem_map.mp hl
      subst e; exact faceLineTexNorm_no_lf p.1 p.2.1 p.2.2)
    (by rw [stageCoords_length]; omega) (by rw [stageFaces_length]; omega)
  exact ⟨_, hdoc, rfl, rfl, rfl, rfl, rfl, rfl⟩

theorem isspace_of_digit (c : Char) (h : isdigit c = true ∨ c = '-') : isspace c = false := by
  rcases h with hd | hd
  · cases hs : isspace c with
    | false => rfl
    | true =>
      exfalso
      simp only [isspace, Bool.or_eq_true, decide_eq_true_eq] at hs
      rcases hs with ((((hs | hs) | hs) | hs) | hs) | hs <;> subst hs <;> simp [isdigit] at hd
  · subst hd; decide

theorem skipSpace_showInt (x : Int) (rest : Line) :
    skipSpace (showInt x ++ rest) = showInt x ++ rest := by
  obtain ⟨c, cs, hc, hd⟩ := showInt_head x
  rw [hc]
  simp [skipSpace, isspace_of_digit c hd]

theorem scanWhole_showInt (x : Int) (rest : Line)
    (hrest : rest = [] ∨ ∃ r, rest = ' ' :: r) :
    scanWhole (showInt x ++ rest) = some (x, rest) := by
  have hnd : ∀ c r, rest = c :: r → isdigit c = false := by
    intro c r e
    rcases hrest with h | ⟨r', h⟩
    · rw [h] at e; cases e
    · rw [h] at e; cases e; decide
  have hfr : scanFraction rest = (0, 0, rest) := by
    rcases hrest with h | ⟨r', h⟩ <;> subst h <;> rfl
  have hex : scanExponent rest = (0, rest) := by
    rcases hrest with h | ⟨r', h⟩ <;> subst h <;> rfl
  obtain ⟨c, cs, hc, hd⟩ := showNat_head x.natAbs
  have hrd : readDigits (c :: (cs ++ rest)) 0 = (x.natAbs, rest) := by
    have := readDigits_showNat x.natAbs 0 rest
    rw [hc] at this
    simpa [readDigits_stop rest _ hnd] using this
  have hcm : c ≠ '-' := by intro h; subst h; simp [isdigit] at hd
  have hcp : c ≠ '+' := by intro h; subst h; simp [isdigit] at hd
  unfold showInt
  by_cases hneg : x < 0
  · simp only [hneg, if_true, hc, List.cons_append, scanWhole, hd, hrd, hfr, hex]
    simp [abs_of_neg hneg]
  · simp only [hneg, if_false, hc, List.cons_append]
    unfold scanWhole
    split
    · rename_i t heq; cases heq; exact absurd rfl hcm
    · rename_i t heq; cases heq; exact absurd rfl hcp
    · simp only [hd, hrd, hfr, hex, if_true]
      simp [abs_of_nonneg (not_lt.mp hneg)]

theorem wholeOps_exact (x : Int) (h : x.natAbs < 1000000) : Exact wholeOps x := by
  have hs : wholeOps.showDouble x = showInt x := by
    show showWhole x = showInt x
    simp [showWhole, h]
  constructor
  · intro c hc
    rw [hs] at hc
    exact ⟨fun e => showInt_no_lf x (e ▸ hc), showInt_no_nul x c hc⟩
  · intro rest hrest
    rw [hs, skipSpace_showInt]
    exact scanWhole_showInt x rest hrest

theorem stageCoords_exact (rows : Nat) (M : Nat → Nat → Int)
    (h : ∀ i j, (M i j).natAbs < 1000000) :
    ∀ c ∈ stageCoords wholeOps rows M, c.Exact wholeOps := by
  intro c hc
  simp only [stageCoords, List.mem_map, List.mem_range] at hc
  obtain ⟨i, -, e⟩ := hc
  subst e
  exact ⟨wholeOps_exact _ (h i 0), wholeOps_exact _ (h i 1), wholeOps_exact _ (h i 2)⟩

theorem stageTCoords_exact (rows : Nat) (M : Nat → Nat → Int)
    (h : ∀ i j, (M i j).natAbs < 1000000) :
    ∀ c ∈ stageTCoords wholeOps rows M, c.Exact wholeOps := by
  intro c hc
  simp only [stageTCoords, List.mem_map, List.mem_range] at hc
  obtain ⟨i, -, e⟩ := hc
  subst e
  exact ⟨wholeOps_exact _ (h i 0), wholeOps_exact _ (h i 1)⟩

theorem matrixArg_small (rows : List (List Int)) (columns : Nat)
    (h : ∀ r ∈ rows, ∀ x ∈ r, x.natAbs < 1000000) :
    ∀ i j, ((matrixArg rows columns).array_value i j).natAbs < 1000000 := by
  intro i j
  show ((rows.getD i []).getD j 0).natAbs < 1000000
  by_cases hi : i < rows.length
  · have hr : rows.getD i [] ∈ rows := by
      rw [List.getD_eq_getElem _ _ hi]; exact List.getElem_mem _
    by_cases hj : j < (rows.getD i []).length
    · have hx : (rows.getD i []).getD j 0 ∈ rows.getD i [] := by
        rw [List.getD_eq_getElem _ _ hj]; exact List.getElem_mem _
      exact h _ hr _ hx
    · rw [List.getD_eq_default _ _ (by omega)]; decide
  · have e : rows.getD i [] = [] := List.getD_eq_default _ _ (by omega)
    rw [e]
    simp

theorem write5t_count {D : Type} (ops : NumOps D) (host : Host) (V F VT FT nm : OctArg D)
    (hne : F.rows ≠ FT.rows) :
    (∃ e, write5t ops host V F VT FT nm = WriteOutcome.rejected e)
      ∧ (3 ≤ V.rows → V.columns = 3 → 1 ≤ F.rows → F.columns = 3 → FT.columns = 3 →
          write5t ops host V F VT FT nm = WriteOutcome.rejected WriteError.textureFaceCount) := by
  unfold write5t
  by_cases c1 : V.rows < 3
  · rw [if_pos c1]; exact ⟨⟨_, rfl⟩, fun h => by omega⟩
  rw [if_neg c1]
  by_cases c2 : V.columns ≠ 3
  · rw [if_pos c2]; exact ⟨⟨_, rfl⟩, fun _ h => absurd h c2⟩
  rw [if_neg c2]
  by_cases c3 : F.rows < 1
  · rw [if_pos c3]; exact ⟨⟨_, rfl⟩, fun _ _ h => by omega⟩
  rw [if_neg c3]
  by_cases c4 : F.columns ≠ 3
  · rw [if_pos c4]; exact ⟨⟨_, rfl⟩, fun _ _ _ h => absurd h c4⟩
  rw [if_neg c4]
  by_cases c5 : FT.columns ≠ 3
  · rw [if_pos c5]; exact ⟨⟨_, rfl⟩, fun _ _ _ _ h => absurd h c5⟩
  rw [if_neg c5]
  rw [if_pos hne]
  exact ⟨⟨_, rfl⟩, fun _ _ _ _ _ => rfl⟩

theorem write5n_count {D : Type} (ops : NumOps D) (host : Host) (V F VN FN nm : OctArg D)
    (hne : F.rows ≠ FN.rows) :
    (∃ e, write5n ops host V F VN FN nm = WriteOutcome.rejected e)
      ∧ (3 ≤ V.rows → V.columns = 3 → 1 ≤ F.rows → F.columns = 3 → FN.columns = 3 →
          write5n ops host V F VN FN nm = WriteOutcome.rejected WriteError.faceNormalCount) := by
  unfold write5n
  by_cases c1 : V.rows < 3
  · rw [if_pos c1]; exact ⟨⟨_, rfl⟩, fun h => by omega⟩
  rw [if_neg c1]
  by_cases c2 : V.columns ≠ 3
  · rw [if_pos c2]; exact ⟨⟨_, rfl⟩, fun _ h => absurd h c2⟩
  rw [if_neg c2]
  by_cases c3 : F.rows < 1
  · rw [if_pos c3]; exact ⟨⟨_, rfl⟩, fun _ _ h => by omega⟩
  rw [if_neg c3]
  by_cases c4 : F.columns ≠ 3
  · rw [if_pos c4]; exact ⟨⟨_, rfl⟩, fun _ _ _ h => absurd h c4⟩
  rw [if_neg c4]
  by_cases c5 : FN.columns ≠ 3
  · rw [if_pos c5]; exact ⟨⟨_, rfl⟩, fun _ _ _ _ h => absurd h c5⟩
  rw [if_neg c5]
  rw [if_pos hne]
  exact ⟨⟨_, rfl⟩, fun _ _ _ _ _ => rfl⟩

/-- The call with five arguments, as the variant its third argument selects
or the rejection that comes before. -/
theorem writeObj_five_cases {D : Type} (ops : NumOps D) (host : Host) (a0 a1 a2 a3 a4 : OctArg D) :
    (∃ e, writeObj ops host [a0, a1, a2, a3, a4] = WriteOutcome.rejected e)
      ∨ (a0.is_matrix_type = true ∧ a1.is_matrix_type = true ∧ a2.is_matrix_type = true
          ∧ a3.is_matrix_type = true ∧ a4.is_string = true
          ∧ writeObj ops host [a0, a1, a2, a3, a4]
              = if a2.columns = 2 then write5t ops host a0 a1 a2 a3 a4
                else if a2.columns = 3 then write5n ops host a0 a1 a2 a3 a4
                else if !a4.is_matrix_type then WriteOutcome.rejected WriteError.firstSixNotMatrices
                else WriteOutcome.undefined) := by
  unfold writeObj
  simp only
  by_cases c1 : (!a0.is_matrix_type || !a1.is_matrix_type) = true
  · left; rw [if_pos c1]; exact ⟨_, rfl⟩
  rw [if_neg c1]
  by_cases c2 : (!a4.is_string) = true
  · left; rw [if_pos c2]; exact ⟨_, rfl⟩
  rw [if_neg c2]
  by_cases c3 : (!a0.is_matrix_type || !a1.is_matrix_type || !a2.is_matrix_type
      || !a3.is_matrix_type) = true
  · left; rw [if_pos c3]; exact ⟨_, rfl⟩
  rw [if_neg c3]
  right
  simp only [Bool.or_eq_true, Bool.not_eq_true', not_or, Bool.not_eq_false] at c1 c2 c3
  exact ⟨c3.1.1.1, c3.1.1.2, c3.1.2, c3.2, c2, rfl⟩

theorem faceLineBare_syntax (f : Faces) : IsFaceLineOf Variant.bare (faceLineBare f) :=
  ⟨VRef.bare f.a, VRef.bare f.b, VRef.bare f.c, rfl, rfl, rfl, by
    simp [triLine, faceLineBare, VRef.text]⟩

theorem faceLineTex_syntax (f ft : Faces) : IsFaceLineOf Variant.tex (faceLineTex f ft) :=
  ⟨VRef.tex f.a ft.a, VRef.tex f.b ft.b, VRef.tex f.c ft.c, rfl, rfl, rfl, by
    simp [triLine, faceLineTex, VRef.text]⟩

theorem faceLineNorm_syntax (f fn : Faces) : IsFaceLineOf Variant.norm (faceLineNorm f fn) :=
  ⟨VRef.norm f.a fn.a, VRef.norm f.b fn.b, VRef.norm f.c fn.c, rfl, rfl, rfl, by
    simp [triLine, faceLineNorm, VRef.text]⟩

theorem faceLineTexNorm_syntax (f ft fn : Faces) :
    IsFaceLineOf Variant.texNorm (faceLineTexNorm f ft fn) :=
  ⟨VRef.texNorm f.a ft.a fn.a, VRef.texNorm f.b ft.b fn.b, VRef.texNorm f.c ft.c fn.c,
    rfl, rfl, rfl, by simp [triLine, faceLineTexNorm, VRef.text]⟩

theorem faceLoop3_some (line : Faces → Faces → Faces → Line) :
    ∀ (fs gs hs : List Faces) (t : Line), faceLoop3 line fs gs hs = some t →
      hs.length ≤ fs.length ∧ hs.length ≤ gs.length
        ∧ t = putLines ((fs.zip (gs.zip hs)).map fun p => line p.1 p.2.1 p.2.2) := by
  intro fs gs hs
  induction hs generalizing fs gs with
  | nil =>
    intro t h
    cases fs <;> cases gs <;> simp_all [faceLoop3, putLines]
  | cons k ks ih =>
    intro t h
    cases fs with
    | nil => simp [faceLoop3] at h
    | cons f fs =>
      cases gs with
      | nil => simp [faceLoop3] at h
      | cons g gs =>
        simp only [faceLoop3, Option.map_eq_some'] at h
        obtain ⟨rest, hr, e⟩ := h
        obtain ⟨h1, h2, h3⟩ := ih fs gs rest hr
        subst e
        simp only [List.length_cons, List.zip_cons_cons, List.map_cons, putLines, h3]
        exact ⟨by omega, by omega, rfl⟩

theorem write3_written {D : Type} (ops : NumOps D) (host : Host) (V F nm : OctArg D)
    (name text : Line) (h : write3 ops host V F nm = WriteOutcome.written name text) :
    3 ≤ V.rows ∧ 1 ≤ F.rows
      ∧ writeFile host nm.string_value V.rows F.rows
          (some (putLines ((stageCoords ops V.rows V.array_value).map (coordLine ops "v"))
            ++ putLines ((stageFaces ops F.rows F.array_value).map faceLineBare)))
        = WriteOutcome.written name text := by
  unfold write3 at h
  by_cases c1 : V.rows < 3
  · rw [if_pos c1] at h; cases h
  rw [if_neg c1] at h
  by_cases c2 : V.columns ≠ 3
  · rw [if_pos c2] at h; cases h
  rw [if_neg c2] at h
  by_cases c3 : F.rows < 1
  · rw [if_pos c3] at h; cases h
  rw [if_neg c3] at h
  by_cases c4 : F.columns ≠ 3
  · rw [if_pos c4] at h; cases h
  rw [if_neg c4] at h
  exact ⟨by omega, by omega, h⟩

theorem writeObj_three {D : Type} (ops : NumOps D) (host : Host) (a0 a1 a2 : OctArg D)
    (name text : Line)
    (h : writeObj ops host [a0, a1, a2] = WriteOutcome.written name text) :
    write3 ops host a0 a1 a2 = WriteOutcome.written name text := by
  unfold writeObj at h
  simp only at h
  split at h
  · cases h
  · split at h
    · cases h
    · exact h

theorem written3_text {D : Type} (ops : NumOps D) (host : Host) (V F nm : OctArg D)
    (name text : Line) (hw : writeObj ops host [V, F, nm] = WriteOutcome.written name text) :
    ∃ filename mtlname, name = cstr filename ∧ mtlFileName filename = some mtlname
      ∧ text = textBeforeFaces ops filename mtlname V.rows F.rows
            (stageCoords ops V.rows V.array_value) [] []
          ++ putLines ((stageFaces ops F.rows F.array_value).map faceLineBare) := by
  obtain ⟨-, -, hw⟩ := write3_written ops host V F nm name text
    (writeObj_three ops host V F nm name text hw)
  obtain ⟨filename, mtlname, lines, hb, hn, hm, ht⟩ := writeFile_written _ _ _ _ _ _ _ hw
  simp only [Option.some.injEq] at hb
  refine ⟨filename, mtlname, hn, hm, ?_⟩
  rw [ht, ← hb]
  simp [textBeforeFaces, putLines]

theorem written5t_text {D : Type} (ops : NumOps D) (host : Host) (V F VT FT nm : OctArg D)
    (name text : Line) (hw : writeObj ops host [V, F, VT, FT, nm] = WriteOutcome.written name text)
    (hcol : VT.columns = 2) :
    ∃ filename mtlname, name = cstr filename ∧ mtlFileName filename = some mtlname
      ∧ F.rows = FT.rows
      ∧ text = textBeforeFaces ops filename mtlname V.rows F.rows
            (stageCoords ops V.rows V.array_value) (stageTCoords ops VT.rows VT.array_value) []
          ++ putLines (((stageFaces ops F.rows F.array_value).zip
              (stageFaces ops FT.rows FT.array_value)).map fun p => faceLineTex p.1 p.2) := by
  obtain ⟨-, -, hrows, hw⟩ := write5t_written ops host V F VT FT nm name text
    ((writeObj_five ops host V F VT FT nm name text hw).1 hcol)
  have hlen : (stageFaces ops F.rows F.array_value).length
      = (stageFaces ops FT.rows FT.array_value).length := by
    rw [stageFaces_length, stageFaces_length, hrows]
  rw [faceLoop2_eq faceLineTex _ _ hlen] at hw
  obtain ⟨filename, mtlname, lines, hb, hn, hm, ht⟩ := writeFile_written _ _ _ _ _ _ _ hw
  simp only [Option.map_some', Option.some.injEq] at hb
  refine ⟨filename, mtlname, hn, hm, hrows, ?_⟩
  rw [ht, ← hb]
  simp [textBeforeFaces, putLines]

theorem written5n_text {D : Type} (ops : NumOps D) (host : Host) (V F VN FN nm : OctArg D)
    (name text : Line) (hw : writeObj ops host [V, F, VN, FN, nm] = WriteOutcome.written name text)
    (hcol : VN.columns = 3) :
    ∃ filename mtlname, name = cstr filename ∧ mtlFileName filename = some mtlname
      ∧ F.rows = FN.rows
      ∧ text = textBeforeFaces ops filename mtlname V.rows F.rows
            (stageCoords ops V.rows V.array_value) [] (stageCoords ops VN.rows VN.array_value)
          ++ putLines (((stageFaces ops F.rows F.array_value).zip
              (stageFaces ops FN.rows FN.array_value)).map fun p => faceLineNorm p.1 p.2) := by
  obtain ⟨-, -, hrows, hw⟩ := write5n_written ops host V F VN FN nm name text
    ((writeObj_five ops host V F VN FN nm name text hw).2 hcol)
  have hlen : (stageFaces ops F.rows F.array_value).length
      = (stageFaces ops FN.rows FN.array_value).length := by
    rw [stageFaces_length, stageFaces_length, hrows]
  rw [faceLoop2_eq faceLineNorm _ _ hlen] at hw
  obtain ⟨filename, mtlname, lines, hb, hn, hm, ht⟩ := writeFile_written _ _ _ _ _ _ _ hw
  simp only [Option.map_some', Option.some.injEq] at hb
  refine ⟨filename, mtlname, hn, hm, hrows, ?_⟩
  rw [ht, ← hb]
  simp [textBeforeFaces, putLines]

theorem written7_text {D : Type} (ops : NumOps D) (host : Host) (V F VT FT VN FN nm : OctArg D)
    (name text : Line)
    (hw : writeObj ops host [V, F, VT, FT, VN, FN, nm] = WriteOutcome.written name text) :
    ∃ filename mtlname, name = cstr filename ∧ mtlFileName filename = some mtlname
      ∧ FN.rows ≤ F.rows ∧ FN.rows ≤ FT.rows
      ∧ text = textBeforeFaces ops filename mtlname V.rows F.rows
            (stageCoords ops V.rows V.array_value) (stageTCoords ops VT.rows VT.array_value)
            (stageCoords ops VN.rows VN.array_value)
          ++ putLines (((stageFaces ops F.rows F.array_value).zip
              ((stageFaces ops FT.rows FT.array_value).zip
                (stageFaces ops FN.rows FN.array_value))).map
              fun p => faceLineTexNorm p.1 p.2.1 p.2.2) := by
  obtain ⟨-, -, hw⟩ := write7_written ops host V F VT FT VN FN nm name text
    (writeObj_seven ops host V F VT FT VN FN nm name text hw)
  obtain ⟨filename, mtlname, lines, hb, hn, hm, ht⟩ := writeFile_written _ _ _ _ _ _ _ hw
  simp only [Option.map_eq_some'] at hb
  obtain ⟨faces, hfl, hb⟩ := hb
  obtain ⟨l1, l2, hfaces⟩ := faceLoop3_some faceLineTexNorm _ _ _ faces hfl
  simp only [stageFaces_length] at l1 l2
  refine ⟨filename, mtlname, hn, hm, l1, l2, ?_⟩
  rw [ht, ← hb, hfaces]
  simp [textBeforeFaces, putLines]

theorem cstr_length_le : ∀ l : Line, (cstr l).length ≤ l.length
  | [] => by simp [cstr]
  | c :: cs => by
    unfold cstr
    split
    · simp
    · simp only [List.length_cons]; have := cstr_length_le cs; omega

theorem cstr_take_of_le : ∀ (l : Line) (i : Nat), i ≤ (cstr l).length → (cstr l).take i = l.take i
  | [], i, _ => by simp [cstr]
  | c :: cs, i, h => by
    unfold cstr at h ⊢
    split
    · rename_i hc
      rw [if_pos hc] at h
      simp only [List.length_nil, Nat.le_zero_eq] at h
      subst h; simp
    · rename_i hc
      rw [if_neg hc] at h
      cases i with
      | zero => simp
      | succ j =>
        simp only [List.length_cons, Nat.add_le_add_iff_right] at h
        simp only [List.take_succ_cons, cstr_take_of_le cs j h]

theorem mtlFileName_eq (filename mtlname : Line) (h : mtlFileName filename = some mtlname) :
    3 ≤ filename.length ∧ filename.length - 3 ≤ (cstr filename).length
      ∧ mtlname = filename.take (filename.length - 3) ++ "mtl".toList := by
  unfold mtlFileName at h
  simp only at h
  by_cases c1 : filename.length < 3
  · rw [if_pos c1] at h; cases h
  rw [if_neg c1] at h
  by_cases c2 : filename.length - 3 > (cstr filename).length
  · rw [if_pos c2] at h; cases h
  rw [if_neg c2] at h
  have hle := cstr_length_le filename
  have hd : (cstr filename).drop (filename.length - 3 + 3) = [] :=
    List.drop_eq_nil_of_le (by omega)
  simp only [Option.some.injEq] at h
  rw [← h, hd, cstr_take_of_le filename _ (by omega), List.append_nil]
  exact ⟨by omega, by omega, rfl⟩

theorem writeFile_written_name (host : Host) (fname : Line) (V_rows F_rows : Nat)
    (body : Option Line) (name text : Line)
    (h : writeFile host fname V_rows F_rows body = WriteOutcome.written name text) :
    ∃ filename mtlname lines, dialogue host fname = some filename ∧ body = some lines
      ∧ name = cstr filename ∧ mtlFileName filename = some mtlname
      ∧ text = headerText filename V_rows F_rows ++ mtllibText mtlname ++ lines := by
  unfold writeFile at h
  cases hd : dialogue host fname with
  | none => rw [hd] at h; cases h
  | some filename =>
    rw [hd] at h
    simp only at h
    by_cases c : host.can_open (cstr filename) = true
    · rw [if_pos c] at h
      cases hm : mtlFileName filename with
      | none => rw [hm] at h; cases h
      | some mtlname =>
        rw [hm] at h
        cases body with
        | none => cases h
        | some lines =>
          simp only [WriteOutcome.written.injEq] at h
          exact ⟨filename, mtlname, lines, rfl, rfl, h.1.symm, hm, h.2.symm⟩
    · rw [if_neg c] at h; cases h

theorem writeObj_written_file {D : Type} (ops : NumOps D) (host : Host) (args : List (OctArg D))
    (name text : Line) (hw : writeObj ops host args = WriteOutcome.written name text) :
    ∃ V F nm body, args.get? 0 = some V ∧ args.get? 1 = some F ∧ args.getLast? = some nm
      ∧ writeFile host nm.string_value V.rows F.rows body = WriteOutcome.written name text := by
  match args, hw with
  | [a0, a1, a2], hw =>
    obtain ⟨-, -, h⟩ := write3_written ops host a0 a1 a2 name text
      (writeObj_three ops host a0 a1 a2 name text hw)
    exact ⟨a0, a1, a2, _, rfl, rfl, rfl, h⟩
  | [a0, a1, a2, a3, a4], hw =>
    have h5 := writeObj_five ops host a0 a1 a2 a3 a4 name text hw
    by_cases c2 : a2.columns = 2
    · obtain ⟨-, -, -, h⟩ := write5t_written ops host a0 a1 a2 a3 a4 name text (h5.1 c2)
      exact ⟨a0, a1, a4, _, rfl, rfl, rfl, h⟩
    · by_cases c3 : a2.columns = 3
      · obtain ⟨-, -, -, h⟩ := write5n_written ops host a0 a1 a2 a3 a4 name text (h5.2 c3)
        exact ⟨a0, a1, a4, _, rfl, rfl, rfl, h⟩
      · exfalso
        unfold writeObj at hw
        simp only [c2, c3, if_false] at hw
        split at hw
        · cases hw
        · split at hw
          · cases hw
          · split at hw
            · cases hw
            · split at hw <;> cases hw
  | [a0, a1, a2, a3, a4, a5, a6], hw =>
    obtain ⟨-, -, h⟩ := write7_written ops host a0 a1 a2 a3 a4 a5 a6 name text
      (writeObj_seven ops host a0 a1 a2 a3 a4 a5 a6 name text hw)
    exact ⟨a0, a1, a6, _, rfl, rfl, rfl, h⟩
  | [], hw => simp [writeObj] at hw
  | [_], hw => simp [writeObj] at hw
  | [_, _], hw => simp [writeObj] at hw
  | [_, _, _, _], hw => simp [writeObj] at hw
  | [_, _, _, _, _, _], hw => simp [writeObj] at hw
  | _ :: _ :: _ :: _ :: _ :: _ :: _ :: _ :: _, hw => simp [writeObj] at hw

theorem rfindFrom_not_mem (c : Char) : ∀ (l : Line) (i : Nat) (last : Option Nat),
    c ∉ l → rfindFrom c l i last = last
  | [], _, _, _ => rfl
  | x :: xs, i, last, h => by
    have hx : x ≠ c := fun e => h (e ▸ List.mem_cons_self _ _)
    have hxs : c ∉ xs := fun e => h (List.mem_cons_of_mem _ e)
    simp only [rfindFrom, hx, if_false]
    exact rfindFrom_not_mem c xs (i + 1) last hxs

theorem rfindFrom_mem (c : Char) : ∀ (l : Line) (i : Nat) (last : Option Nat),
    c ∈ l → ∃ pre post, l = pre ++ c :: post ∧ c ∉ post
      ∧ rfindFrom c l i last = some (i + pre.length)
  | [], _, _, h => absurd h (List.not_mem_nil _)
  | x :: xs, i, last, h => by
    by_cases hxs : c ∈ xs
    · obtain ⟨pre, post, e, hp, hr⟩ :=
        rfindFrom_mem c xs (i + 1) (if x = c then some i else last) hxs
      refine ⟨x :: pre, post, by rw [e]; rfl, hp, ?_⟩
      simp only [rfindFrom, hr, List.length_cons]
      congr 1; omega
    · have hx : x = c := by
        rcases List.mem_cons.mp h with e | e
        · exact e.symm
        · exact absurd e hxs
      refine ⟨[], xs, by rw [hx]; rfl, hxs, ?_⟩
      simp only [rfindFrom, hx, if_true, List.length_nil, Nat.add_zero]
      exact rfindFrom_not_mem c xs (i + 1) (some i) hxs

theorem find2From_none (a b : Char) : ∀ (l : Line) (i : Nat), find2From a b l i = none →
    ∀ pre post : Line, l ≠ pre ++ a :: b :: post
  | [], _, _, pre, post => by cases pre <;> simp
  | [x], _, _, pre, post => by
    cases pre with
    | nil => simp
    | cons p ps => cases ps <;> simp
  | x :: y :: rest, i, h, pre, post => by
    unfold find2From at h
    by_cases c : x = a ∧ y = b
    · rw [if_pos c] at h; cases h
    · rw [if_neg c] at h
      cases pre with
      | nil =>
        intro e
        simp only [List.nil_append, List.cons.injEq] at e
        exact c ⟨e.1, e.2.1⟩
      | cons p ps =>
        intro e
        simp only [List.cons_append, List.cons.injEq] at e
        exact find2From_none a b (y :: rest) (i + 1) h ps post e.2

theorem find2From_some (a b : Char) : ∀ (l : Line) (i j : Nat), find2From a b l i = some j →
    ∃ pre post : Line, l = pre ++ a :: b :: post ∧ j = i + pre.length
      ∧ ∀ pre1 post1 : Line, l = pre1 ++ a :: b :: post1 → pre.length ≤ pre1.length
  | [], _, _, h => by simp [find2From] at h
  | [x], _, _, h => by simp [find2From] at h
  | x :: y :: rest, i, j, h => by
    unfold find2From at h
    by_cases c : x = a ∧ y = b
    · rw [if_pos c] at h
      cases h
      exact ⟨[], rest, by rw [c.1, c.2]; rfl, rfl, fun _ _ _ => Nat.zero_le _⟩
    · rw [if_neg c] at h
      obtain ⟨pre, post, e, hj, hmin⟩ := find2From_some a b (y :: rest) (i + 1) j h
      refine ⟨x :: pre, post, by rw [e]; rfl, by rw [hj, List.length_cons]; omega, ?_⟩
      intro pre1 post1 e1
      cases pre1 with
      | nil =>
        simp only [List.nil_append, List.cons.injEq] at e1
        exact absurd ⟨e1.1, e1.2.1⟩ c
      | cons p ps =>
        simp only [List.cons_append, List.cons.injEq] at e1
        have := hmin ps post1 e1.2
        simp only [List.length_cons]; omega

/-- The name taken from a line, by the three cases of the text of the line. -/
theorem mtlName_spec (line : Line) :
    (ContainsDotSlash line →
        ∃ pre, line = pre ++ '.' :: '/' :: mtlName line
          ∧ ∀ pre1 post1 : Line, line = pre1 ++ '.' :: '/' :: post1 → pre.length ≤ pre1.length)
      ∧ (¬ ContainsDotSlash line → ' ' ∈ line →
        ∃ pre, line = pre ++ ' ' :: mtlName line ∧ ' ' ∉ mtlName line)
      ∧ (¬ ContainsDotSlash line → ' ' ∉ line → mtlName line = line) := by
  refine ⟨?_, ?_, ?_⟩
  · rintro ⟨p0, q0, e0⟩
    cases hf : find2 '.' '/' line with
    | none => exact absurd e0 (find2From_none '.' '/' line 0 hf p0 q0)
    | some j =>
      obtain ⟨pre, post, e, hj, hmin⟩ := find2From_some '.' '/' line 0 j hf
      refine ⟨pre, ?_, hmin⟩
      have : mtlName line = post := by
        simp only [mtlName, hf, hj, Nat.zero_add]
        rw [e]
        simp [List.drop_append]
      rw [this]; exact e
  · intro hn hs
    have hf : find2 '.' '/' line = none := by
      cases hf : find2 '.' '/' line with
      | none => rfl
      | some j =>
        obtain ⟨pre, post, e, -, -⟩ := find2From_some '.' '/' line 0 j hf
        exact absurd ⟨pre, post, e⟩ hn
    obtain ⟨pre, post, e, hp, hr⟩ := rfindFrom_mem ' ' line 0 none hs
    have : mtlName line = post := by
      simp only [mtlName, hf, rfind, hr, Nat.zero_add]
      rw [e]
      simp [List.drop_append]
    rw [this]; exact ⟨pre, e, hp⟩
  · intro hn hs
    have hf : find2 '.' '/' line = none := by
      cases hf : find2 '.' '/' line with
      | none => rfl
      | some j =>
        obtain ⟨pre, post, e, -, -⟩ := find2From_some '.' '/' line 0 j hf
        exact absurd ⟨pre, post, e⟩ hn
    simp only [mtlName, hf, rfind, rfindFrom_not_mem ' ' line 0 none hs, List.drop_zero]

theorem mtlName_suffix (line : Line) : mtlName line <:+ line := by
  unfold mtlName
  exact List.drop_suffix _ _

theorem readLine_mtl {D : Type} (ops : NumOps D) (st : ReadState D) (line : Line)
    (h : isMtlLine line = true) :
    readLine ops st line = Except.ok { st with mtl_filename := mtlName line } := by
  simp only [isMtlLine, Bool.and_eq_true, decide_eq_true_eq] at h
  obtain ⟨⟨h0, h1⟩, h2⟩ := h
  simp [readLine, mtlStep, vertexStep, normalStep, textureStep, faceStep, h0, h1, h2]

theorem readLine_of_face {D : Type} (ops : NumOps D) (st : ReadState D) (line : Line)
    (hf : isFaceLine line = true) : readLine ops st line = faceStep st line := by
  simp only [isFaceLine, Bool.and_eq_true, decide_eq_true_eq] at hf
  simp [readLine, mtlStep, vertexStep, normalStep, textureStep, hf.1]

theorem append_singleton_ne {α : Type} (xs : List α) (x : α) : xs ++ [x] ≠ xs := by
  intro h
  have := congrArg List.length h
  simp at this

theorem readLine_failed {D : Type} (ops : NumOps D) (st : ReadState D) (line : Line)
    (hf : isFaceLine line = true) (hc : (classifyFace line).failed = true) :
    readLine ops st line = Except.error ReadError.notTriangular := by
  rw [readLine_of_face ops st line hf]
  simp only [isFaceLine, Bool.and_eq_true, decide_eq_true_eq] at hf
  unfold faceStep
  rw [if_pos hf]
  cases hs : classifyFace line <;> rw [hs] at hc <;> first | rfl | cases hc

theorem readLine_total {D : Type} (ops : NumOps D) (st : ReadState D) (line : Line)
    (hc : isFaceLine line = true → (classifyFace line).failed = false) :
    ∃ st1, readLine ops st line = Except.ok st1 := by
  unfold readLine faceStep
  by_cases hf : charAt line 0 = 'f' ∧ charAt line 1 = ' '
  · rw [if_pos hf]
    have hfl : isFaceLine line = true := by simp [isFaceLine, hf.1, hf.2]
    have := hc hfl
    cases hs : classifyFace line <;> rw [hs] at this <;> first | exact ⟨_, rfl⟩ | cases this
  · rw [if_neg hf]; exact ⟨_, rfl⟩

theorem readLines_total {D : Type} (ops : NumOps D) : ∀ (lines : List Line) (st : ReadState D),
    (∀ l ∈ lines, isFaceLine l = true → (classifyFace l).failed = false) →
    ∃ st1, readLines ops st lines = Except.ok st1
  | [], st, _ => ⟨st, rfl⟩
  | l :: ls, st, h => by
    obtain ⟨st1, h1⟩ := readLine_total ops st l (h l (List.mem_cons_self _ _))
    obtain ⟨st2, h2⟩ := readLines_total ops ls st1 (fun x hx => h x (List.mem_cons_of_mem _ hx))
    exact ⟨st2, by simp only [readLines, h1, h2]⟩

theorem readObj_of_mesh_error {D : Type} (ops : NumOps D) (file : Option Line) (e : ReadError)
    (hm : readMesh ops file = Except.error e) :
    (∀ nargout : Int, 2 ≤ nargout → nargout ≤ 7 → readObj ops nargout file = Except.error e)
      ∧ ∀ nargout : Int, ∃ e1, readObj ops nargout file = Except.error e1 := by
  constructor
  · intro nargout hlo hhi
    have : ¬ (nargout < 2 ∨ nargout > 7) := by omega
    simp only [readObj, this, if_false, hm]
  · intro nargout
    by_cases hn : nargout < 2 ∨ nargout > 7
    · exact ⟨ReadError.invalidNargout, by simp only [readObj, hn, if_true]⟩
    · exact ⟨e, by simp only [readObj, hn, if_false, hm]⟩

theorem toArrays_noVertices {D : Type} (st : ReadState D) (h : st.vertex_counter = 0) :
    toArrays st = Except.error ReadError.noVertices := by
  simp [toArrays, h]

theorem toArrays_noFaces {D : Type} (st : ReadState D)
    (hv : st.vertex_counter = st.vertex.length) (hn : st.normals_counter = st.normals.length)
    (ht : st.texture_counter = st.texture.length) (hpos : 0 < st.vertex_counter)
    (hf : st.face_counter = 0) :
    toArrays st = Except.error ReadError.noFaces := by
  unfold toArrays
  rw [if_pos hpos, hv, hn, ht, copyRows_length, copyRows_length, copyRows_length]
  simp [hf]

theorem write3_rejects {D : Type} (ops : NumOps D) (host : Host) (V F nm : OctArg D)
    (h : V.rows < 3 ∨ V.columns ≠ 3 ∨ F.rows < 1 ∨ F.columns ≠ 3) :
    ∃ e, write3 ops host V F nm = WriteOutcome.rejected e := by
  unfold write3
  split_ifs <;> first | exact ⟨_, rfl⟩ | omega

theorem write5t_rejects {D : Type} (ops : NumOps D) (host : Host) (V F VT FT nm : OctArg D)
    (h : V.rows < 3 ∨ V.columns ≠ 3 ∨ F.rows < 1 ∨ F.columns ≠ 3 ∨ FT.columns ≠ 3) :
    ∃ e, write5t ops host V F VT FT nm = WriteOutcome.rejected e := by
  unfold write5t
  split_ifs <;> first | exact ⟨_, rfl⟩ | omega

theorem write5n_rejects {D : Type} (ops : NumOps D) (host : Host) (V F VN FN nm : OctArg D)
    (h : V.rows < 3 ∨ V.columns ≠ 3 ∨ F.rows < 1 ∨ F.columns ≠ 3 ∨ FN.columns ≠ 3) :
    ∃ e, write5n ops host V F VN FN nm = WriteOutcome.rejected e := by
  unfold write5n
  split_ifs <;> first | exact ⟨_, rfl⟩ | omega

theorem write7_rejects {D : Type} (ops : NumOps D) (host : Host)
    (V F VT FT VN FN nm : OctArg D)
    (h : V.rows < 3 ∨ V.columns ≠ 3 ∨ F.rows < 1 ∨ F.columns ≠ 3 ∨ VT.columns ≠ 2
      ∨ FT.columns ≠ 3 ∨ VN.columns ≠ 3 ∨ FN.columns ≠ 3) :
    ∃ e, write7 ops host V F VT FT VN FN nm = WriteOutcome.rejected e := by
  unfold write7
  by_cases c1 : V.rows < 3
  · rw [if_pos c1]; exact ⟨_, rfl⟩
  rw [if_neg c1]
  by_cases c2 : V.columns ≠ 3
  · rw [if_pos c2]; exact ⟨_, rfl⟩
  rw [if_neg c2]
  by_cases c3 : F.rows < 1
  · rw [if_pos c3]; exact ⟨_, rfl⟩
  rw [if_neg c3]
  by_cases c4 : F.columns ≠ 3
  · rw [if_pos c4]; exact ⟨_, rfl⟩
  rw [if_neg c4]
  by_cases c5 : VT.columns ≠ 2
  · rw [if_pos c5]; exact ⟨_, rfl⟩
  rw [if_neg c5]
  by_cases c6 : FT.columns ≠ 3
  · rw [if_pos c6]; exact ⟨_, rfl⟩
  rw [if_neg c6]
  by_cases c7 : VN.columns ≠ 3
  · rw [if_pos c7]; exact ⟨_, rfl⟩
  rw [if_neg c7]
  by_cases c8 : FN.columns ≠ 3
  · rw [if_pos c8]; exact ⟨_, rfl⟩
  exfalso; omega

/-- The shape checks of the three variants: with three arguments, with five
arguments and a third one of two or three columns, and with seven arguments,
an array of a wrong shape ends the call in a rejection, whatever the
surroundings; with three arguments of the right types and shapes the call is
the writing of the file. -/
theorem shape_checks {D : Type} (ops : NumOps D) (host : Host) :
    (∀ V F nm : OctArg D, V.rows < 3 ∨ V.columns ≠ 3 ∨ F.rows < 1 ∨ F.columns ≠ 3 →
      ∃ e, writeObj ops host [V, F, nm] = WriteOutcome.rejected e)
    ∧ (∀ V F A FA nm : OctArg D, A.columns = 2 ∨ A.columns = 3 →
      V.rows < 3 ∨ V.columns ≠ 3 ∨ F.rows < 1 ∨ F.columns ≠ 3 ∨ FA.columns ≠ 3 →
      ∃ e, writeObj ops host [V, F, A, FA, nm] = WriteOutcome.rejected e)
    ∧ (∀ V F VT FT VN FN nm : OctArg D,
      V.rows < 3 ∨ V.columns ≠ 3 ∨ F.rows < 1 ∨ F.columns ≠ 3 ∨ VT.columns ≠ 2
        ∨ FT.columns ≠ 3 ∨ VN.columns ≠ 3 ∨ FN.columns ≠ 3 →
      ∃ e, writeObj ops host [V, F, VT, FT, VN, FN, nm] = WriteOutcome.rejected e)
    ∧ (∀ V F nm : OctArg D, V.is_matrix_type = true → F.is_matrix_type = true →
      nm.is_string = true → 3 ≤ V.rows → V.columns = 3 → 1 ≤ F.rows → F.columns = 3 →
      writeObj ops host [V, F, nm]
        = writeFile host nm.string_value V.rows F.rows
            (some (putLines ((stageCoords ops V.rows V.array_value).map (coordLine ops "v"))
              ++ putLines ((stageFaces ops F.rows F.array_value).map faceLineBare)))) := by
  refine ⟨?_, ?_, ?_, ?_⟩
  · intro V F nm h
    unfold writeObj
    simp only
    split_ifs
    · exact ⟨_, rfl⟩
    · exact ⟨_, rfl⟩
    · exact write3_rejects ops host V F nm h
  · intro V F A FA nm hcol h
    rcases writeObj_five_cases ops host V F A FA nm with hr | ⟨-, -, -, -, -, hw⟩
    · exact hr
    · rw [hw]
      rcases hcol with h2 | h3
      · rw [if_pos h2]; exact write5t_rejects ops host V F A FA nm h
      · rw [if_neg (by omega), if_pos h3]; exact write5n_rejects ops host V F A FA nm h
  · intro V F VT FT VN FN nm h
    unfold writeObj
    simp only
    split_ifs
    · exact ⟨_, rfl⟩
    · exact ⟨_, rfl⟩
    · exact ⟨_, rfl⟩
    · exact ⟨_, rfl⟩
    · exact write7_rejects ops host V F VT FT VN FN nm h
  · intro V F nm m0 m1 s2 r1 r2 r3 r4
    simp only [writeObj, write3, m0, m1, s2, r2, r4, Bool.not_true, Bool.or_self,
      Bool.false_eq_true, if_false, ne_eq, not_true_eq_false]
    rw [if_neg (by omega), if_neg (by omega)]

theorem readLine_other {D : Type} (ops : NumOps D) (st : ReadState D) (line : Line)
    (h : isOtherLine line = true) : readLine ops st line = Except.ok st := by
  simp only [isOtherLine, isVertexLine, isNormalLine, isTextureLine, isFaceLine, isMtlLine,
    Bool.and_eq_true, Bool.not_eq_true', Bool.and_eq_false_iff, decide_eq_false_iff_not,
    Bool.decide_and, Bool.decide_eq_true] at h
  obtain ⟨⟨⟨⟨hv, hn⟩, ht⟩, hf⟩, hm⟩ := h
  have e1 : mtlStep st line = st := by
    unfold mtlStep
    rw [if_neg]
    rintro ⟨a, b, c⟩
    rcases hm with (hm | hm) | hm
    · exact hm a
    · exact hm b
    · exact hm c
  have e2 : vertexStep ops st line = st := by
    unfold vertexStep
    rw [if_neg]
    rintro ⟨a, b⟩
    rcases hv with hv | hv
    · exact hv a
    · exact hv b
  have e3 : normalStep ops st line = st := by
    unfold normalStep
    rw [if_neg]
    rintro ⟨a, b, c⟩
    rcases hn with (hn | hn) | hn
    · exact hn a
    · exact hn b
    · exact hn c
  have e4 : textureStep ops st line = st := by
    unfold textureStep
    rw [if_neg]
    rintro ⟨a, b, c⟩
    rcases ht with (ht | ht) | ht
    · exact ht a
    · exact ht b
    · exact ht c
  unfold readLine
  rw [e1, e2, e3, e4]
  unfold faceStep
  rw [if_neg]
  rintro ⟨a, b⟩
  rcases hf with hf | hf
  · exact hf a
  · exact hf b

theorem readLines_insert {D : Type} (ops : NumOps D) (l : Line) (h : isOtherLine l = true) :
    ∀ (xs ys : List Line) (st : ReadState D),
      readLines ops st (xs ++ l :: ys) = readLines ops st (xs ++ ys)
  | [], ys, st => by
    simp only [List.nil_append, readLines, readLine_other ops st l h]
  | x :: xs, ys, st => by
    simp only [List.cons_append, readLines]
    cases readLine ops st x with
    | error e => rfl
    | ok st1 => exact readLines_insert ops l h xs ys st1

theorem isOtherLine_hash (s : Line) : isOtherLine ('#' :: s) = true := by
  simp [isOtherLine, isVertexLine, isNormalLine, isTextureLine, isFaceLine, isMtlLine, charAt]

theorem vertexAt_index {D : Type} (ops : BaryOps D) (V : OctArg D) (k : Nat) (h1 : 1 ≤ k)
    (h2 : k ≤ V.rows) : vertexAt ops V ((k : Int) - 1) = some (rowAt ops V (k - 1)) := by
  unfold vertexAt
  have e : ((k : Int) - 1).toNat = k - 1 := by omega
  rw [if_pos (by omega), e]
  rfl

theorem faceVertices_index {D : Type} (ops : BaryOps D) (V F : OctArg D) (k : Nat → Nat → Nat)
    (hk : HoldsIndices ops V F k) (i : Nat) (hi : i < F.rows) :
    faceVertices ops V F i
      = some (rowAt ops V (k i 0 - 1), rowAt ops V (k i 1 - 1), rowAt ops V (k i 2 - 1)) := by
  obtain ⟨a1, a2, a3⟩ := hk i hi 0 (by decide)
  obtain ⟨b1, b2, b3⟩ := hk i hi 1 (by decide)
  obtain ⟨c1, c2, c3⟩ := hk i hi 2 (by decide)
  unfold faceVertices
  rw [a3, b3, c3]
  simp only [vertexAt_index ops V _ a1 a2, vertexAt_index ops V _ b1 b2,
    vertexAt_index ops V _ c1 c2]

theorem allSome_map {α β : Type} (f : α → Option β) (g : α → β) :
    ∀ xs : List α, (∀ x ∈ xs, f x = some (g x)) → allSome (xs.map f) = some (xs.map g)
  | [], _ => rfl
  | x :: xs, h => by
    have hx := h x (List.mem_cons_self _ _)
    have ht := allSome_map f g xs (fun y hy => h y (List.mem_cons_of_mem _ hy))
    simp only [List.map_cons, hx, allSome, ht, Option.map_some']

theorem allSome_vertices {D : Type} (ops : BaryOps D) (V F : OctArg D) (k : Nat → Nat → Nat)
    (hk : HoldsIndices ops V F k) :
    allSome ((List.range F.rows).map (faceVertices ops V F))
      = some ((List.range F.rows).map fun i =>
          (rowAt ops V (k i 0 - 1), rowAt ops V (k i 1 - 1), rowAt ops V (k i 2 - 1))) :=
  allSome_map _ _ _ (fun i hi => faceVertices_index ops V F k hk i (List.mem_range.mp hi))

theorem meshBarycenter_valid {D : Type} (ops : BaryOps D) (nargout : Int) (V F : OctArg D)
    (k : Nat → Nat → Nat) (hV : V.is_matrix_type = true) (hF : F.is_matrix_type = true)
    (hr : 3 ≤ V.rows) (hc : V.columns = 3) (hfr : 1 ≤ F.rows) (hfc : F.columns = 3)
    (hk : HoldsIndices ops V F k) :
    meshBarycenter ops nargout [V, F]
      = (let sum := accumulate ops ⟨ops.fresh 0, ops.fresh 1, ops.fresh 2⟩
            (((List.range F.rows).map fun i =>
              (rowAt ops V (k i 0 - 1), rowAt ops V (k i 1 - 1), rowAt ops V (k i 2 - 1))).map
              (centroid ops))
         let p : Coord D :=
           ⟨ops.divNat sum.x F.rows, ops.divNat sum.y F.rows, ops.divNat sum.z F.rows⟩
         if nargout = 1 then BaryOutcome.returned p else BaryOutcome.printed p) := by
  unfold meshBarycenter
  simp only [hV, hF, Bool.not_true, Bool.or_self, Bool.false_eq_true, if_false]
  rw [if_neg (by omega), if_neg (by simp [hc]), if_neg (by omega), if_neg (by simp [hfc])]
  rw [allSome_vertices ops V F k hk]

theorem readMesh_counters {D : Type} (ops : NumOps D) (file : Option Line) (m : ObjData D)
    (h : readMesh ops file = Except.ok m) :
    m.vertex_counter = m.V.length ∧ m.normals_counter = m.VN.length
      ∧ m.texture_counter = m.VT.length ∧ m.face_counter = m.F.length
      ∧ m.faceT_counter = m.FT.length ∧ m.faceN_counter = m.FN.length := by
  obtain ⟨c, st, -, -, -, -, -, hm⟩ := readMesh_ok ops file m h
  subst hm
  exact ⟨rfl, rfl, rfl, rfl, rfl, rfl⟩

theorem readObj_of_mesh {D : Type} (ops : NumOps D) (nargout : Int) (file : Option Line)
    (m : ObjData D) (h : readMesh ops file = Except.ok m) (h2 : 2 ≤ nargout) (h7 : nargout ≤ 7) :
    readObj ops nargout file = Except.ok (retval nargout m) := by
  have : ¬ (nargout < 2 ∨ nargout > 7) := by omega
  simp only [readObj, this, if_false, h]

theorem preFace_content {D : Type} (ops : NumOps D) (st : ReadState D) (line : Line) :
    (preFace ops st line).vertex
        = st.vertex ++ (if isVertexLine line then [vertexOf ops line] else [])
      ∧ (preFace ops st line).normals
        = st.normals ++ (if isNormalLine line then [normalOf ops line] else [])
      ∧ (preFace ops st line).texture
        = st.texture ++ (if isTextureLine line then [textureOf ops line] else [])
      ∧ (preFace ops st line).face = st.face := by
  unfold preFace textureStep normalStep vertexStep mtlStep
  split_ifs <;>
    simp_all [isVertexLine, isNormalLine, isTextureLine, vertexOf, normalOf, textureOf]

theorem faceStep_content {D : Type} (st st1 : ReadState D) (line : Line)
    (h : faceStep st line = Except.ok st1) :
    st1.vertex = st.vertex ∧ st1.normals = st.normals ∧ st1.texture = st.texture
      ∧ st1.face.map some
          = st.face.map some ++ (if isFaceLine line then [(classifyFace line).triple] else []) := by
  unfold faceStep at h
  by_cases hf : charAt line 0 = 'f' ∧ charAt line 1 = ' '
  · rw [if_pos hf] at h
    have hfl : isFaceLine line = true := by simp [isFaceLine, hf.1, hf.2]
    cases hc : classifyFace line <;> rw [hc] at h <;> cases h <;>
      simp [hfl, FaceScan.triple]
  · rw [if_neg hf] at h
    cases h
    have hfl : isFaceLine line = false := by
      simp only [isFaceLine, Bool.and_eq_false_iff, decide_eq_false_iff_not]
      by_cases h0 : charAt line 0 = 'f'
      · exact Or.inr (fun h1 => hf ⟨h0, h1⟩)
      · exact Or.inl h0
    simp [hfl]

theorem readLine_content {D : Type} (ops : NumOps D) (st st1 : ReadState D) (line : Line)
    (h : readLine ops st line = Except.ok st1) :
    st1.vertex = st.vertex ++ (if isVertexLine line then [vertexOf ops line] else [])
      ∧ st1.normals = st.normals ++ (if isNormalLine line then [normalOf ops line] else [])
      ∧ st1.texture = st.texture ++ (if isTextureLine line then [textureOf ops line] else [])
      ∧ st1.face.map some
          = st.face.map some ++ (if isFaceLine line then [(classifyFace line).triple] else []) := by
  have hp := preFace_content ops st line
  have hf := faceStep_content (preFace ops st line) st1 line h
  obtain ⟨p1, p2, p3, p4⟩ := hp
  obtain ⟨f1, f2, f3, f4⟩ := hf
  rw [f1, f2, f3, f4, p1, p2, p3, p4]
  exact ⟨rfl, rfl, rfl, rfl⟩

theorem readLines_content {D : Type} (ops : NumOps D) :
    ∀ (lines : List Line) (st st1 : ReadState D), readLines ops st lines = Except.ok st1 →
      st1.vertex = st.vertex ++ (lines.filter isVertexLine).map (vertexOf ops)
        ∧ st1.normals = st.normals ++ (lines.filter isNormalLine).map (normalOf ops)
        ∧ st1.texture = st.texture ++ (lines.filter isTextureLine).map (textureOf ops)
        ∧ st1.face.map some
            = st.face.map some
              ++ (lines.filter isFaceLine).map (fun l => (classifyFace l).triple)
  | [], st, st1, h => by
    simp only [readLines] at h
    cases h
    simp
  | l :: ls, st, st1, h => by
    simp only [readLines] at h
    cases hl : readLine ops st l with
    | error e => rw [hl] at h; cases h
    | ok st2 =>
      rw [hl] at h
      obtain ⟨a1, a2, a3, a4⟩ := readLine_content ops st st2 l hl
      obtain ⟨b1, b2, b3, b4⟩ := readLines_content ops ls st2 st1 h
      rw [b1, b2, b3, b4, a1, a2, a3, a4]
      refine ⟨?_, ?_, ?_, ?_⟩
      · cases hv : isVertexLine l <;> simp [List.filter_cons, hv]
      · cases hv : isNormalLine l <;> simp [List.filter_cons, hv]
      · cases hv : isTextureLine l <;> simp [List.filter_cons, hv]
      · cases hv : isFaceLine l <;> simp [List.filter_cons, hv]

theorem mtlName_mtllib (m : Line) : mtlName ("mtllib ./".toList ++ m) = m := by
  simp [mtlName, find2, find2From]

theorem getlines_putLines_append (ls : List Line) (rest : Line) (h : ∀ l ∈ ls, '\n' ∉ l) :
    getlines (putLines ls ++ rest) = ls ++ getlines rest := by
  induction ls with
  | nil => rfl
  | cons l ls ih =>
    have hl := h l (List.mem_cons_self _ _)
    have e : putLines (l :: ls) ++ rest = l ++ '\n' :: (putLines ls ++ rest) := by
      simp [putLines]
    rw [e]
    unfold getlines
    rw [getlinesFrom_line l _ [] hl]
    simp only [List.reverse_nil, List.nil_append, List.cons_append, List.cons.injEq, true_and]
    exact ih (fun x hx => h x (List.mem_cons_of_mem _ hx))

theorem readMesh_failed_face {D : Type} (ops : NumOps D) (content : Line)
    (h : ∃ l ∈ getlines content, isFaceLine l = true ∧ (classifyFace l).failed = true) :
    readMesh ops (some content) = Except.error ReadError.notTriangular := by
  obtain ⟨l, hl, hf, hc⟩ := h
  have := readLines_fail D ops l (fun st => readLine_failed ops st l hf hc) (getlines content) {} hl
  simp only [readMesh, this]

theorem readMesh_no_vertex {D : Type} (ops : NumOps D) (content : Line)
    (hf : ∀ l ∈ getlines content, isFaceLine l = true → (classifyFace l).failed = false)
    (hv : ∀ l ∈ getlines content, isVertexLine l = false) :
    readMesh ops (some content) = Except.error ReadError.noVertices := by
  obtain ⟨st, hst⟩ := readLines_total ops (getlines content) {} hf
  obtain ⟨⟨-, a2⟩, -⟩ := readLines_grows ops (getlines content) {} st hst
  simp only [Nat.zero_add] at a2
  have hcount : (getlines content).countP isVertexLine = 0 :=
    List.countP_eq_zero.mpr (fun l hl => by simp [hv l hl])
  simp only [readMesh, hst]
  exact toArrays_noVertices st (by rw [a2, hcount])

theorem meshBarycenter_no_faces {D : Type} (ops : BaryOps D) (nargout : Int) (V F : OctArg D)
    (h : F.rows = 0) : ∃ e, meshBarycenter ops nargout [V, F] = BaryOutcome.rejected e := by
  unfold meshBarycenter
  simp only []
  by_cases c1 : (!V.is_matrix_type || !F.is_matrix_type) = true
  · exact ⟨_, if_pos c1⟩
  rw [if_neg c1]
  by_cases c2 : V.rows < 3
  · exact ⟨_, if_pos c2⟩
  rw [if_neg c2]
  by_cases c3 : V.columns ≠ 3
  · exact ⟨_, if_pos c3⟩
  rw [if_neg c3]
  exact ⟨_, if_pos (by omega)⟩

theorem meshBarycenter_defined {D : Type} (ops : BaryOps D) (nargout : Int) (V F : OctArg D)
    (k : Nat → Nat → Nat) (hk : HoldsIndices ops V F k) :
    meshBarycenter ops nargout [V, F] ≠ BaryOutcome.undefined := by
  unfold meshBarycenter
  simp only []
  by_cases c1 : (!V.is_matrix_type || !F.is_matrix_type) = true
  · rw [if_pos c1]; exact fun h => BaryOutcome.noConfusion h
  rw [if_neg c1]
  by_cases c2 : V.rows < 3
  · rw [if_pos c2]; exact fun h => BaryOutcome.noConfusion h
  rw [if_neg c2]
  by_cases c3 : V.columns ≠ 3
  · rw [if_pos c3]; exact fun h => BaryOutcome.noConfusion h
  rw [if_neg c3]
  by_cases c4 : F.rows < 1
  · rw [if_pos c4]; exact fun h => BaryOutcome.noConfusion h
  rw [if_neg c4]
  by_cases c5 : F.columns ≠ 3
  · rw [if_pos c5]; exact fun h => BaryOutcome.noConfusion h
  rw [if_neg c5, allSome_vertices ops V F k hk]
  by_cases c6 : nargout = 1
  · simp only [c6, if_true]; exact fun h => BaryOutcome.noConfusion h
  · simp only [c6, if_false]; exact fun h => BaryOutcome.noConfusion h

theorem mixed_bare_tex (a b c d td : Int)
    (ha : IsIndex a) (hb : IsIndex b) (hc : IsIndex c) (hd : IsIndex d) (htd : IsIndex td) :
    classifyFace (quadLine (VRef.bare a) (VRef.bare b) (VRef.bare c) (VRef.tex d td))
      = FaceScan.quad := by
  rw [quadLine_render]
  simp only [VRef.toks, List.cons_append, List.nil_append]
  have hw : wf [Tok.ch 'f', Tok.ch ' ', Tok.num a, Tok.ch ' ', Tok.num b, Tok.ch ' ', Tok.num c, Tok.ch ' ', Tok.num d, Tok.ch '/', Tok.num td] := by
    simp +decide [wf_num_ch, wf_num_nil, wf_ch, ha.range, hb.range, hc.range, hd.range, htd.range]
  unfold classifyFace quadScans
  simp only [scanFace_q1 _ _ _ hw, scanFace_q2 _ _ _ hw, scanFace_q3 _ _ _ hw, scanFace_q4 _ _ _ hw]
  simp [sscanfTok, skipSpaceTok, isspace, FaceVars.store, FaceVars.set, resetTemps, triScans,
    ha.1, hb.1, hc.1, hd.1, htd.1,
    scanFace_t1 _ _ _ hw, scanFace_t2 _ _ _ hw, scanFace_t3 _ _ _ hw, scanFace_t4 _ _ _ hw]

theorem mixed_bare_texNorm (a b c d td nd : Int)
    (ha : IsIndex a) (hb : IsIndex b) (hc : IsIndex c) (hd : IsIndex d) (htd : IsIndex td) (hnd : IsIndex nd) :
    classifyFace (quadLine (VRef.bare a) (VRef.bare b) (VRef.bare c) (VRef.texNorm d td nd))
      = FaceScan.quad := by
  rw [quadLine_render]
  simp only [VRef.toks, List.cons_append, List.nil_append]
  have hw : wf [Tok.ch 'f', Tok.ch ' ', Tok.num a, Tok.ch ' ', Tok.num b, Tok.ch ' ', Tok.num c, Tok.ch ' ', Tok.num d, Tok.ch '/', Tok.num td, Tok.ch '/', Tok.num nd] := by
    simp +decide [wf_num_ch, wf_num_nil, wf_ch, ha.range, hb.range, hc.range, hd.range, htd.range, hnd.range]
  unfold classifyFace quadScans
  simp only [scanFace_q1 _ _ _ hw, scanFace_q2 _ _ _ hw, scanFace_q3 _ _ _ hw, scanFace_q4 _ _ _ hw]
  simp [sscanfTok, skipSpaceTok, isspace, FaceVars.store, FaceVars.set, resetTemps, triScans,
    ha.1, hb.1, hc.1, hd.1, htd.1, hnd.1,
    scanFace_t1 _ _ _ hw, scanFace_t2 _ _ _ hw, scanFace_t3 _ _ _ hw, scanFace_t4 _ _ _ hw]

theorem mixed_bare_norm (a b c d nd : Int)
    (ha : IsIndex a) (hb : IsIndex b) (hc : IsIndex c) (hd : IsIndex d) (hnd : IsIndex nd) :
    classifyFace (quadLine (VRef.bare a) (VRef.bare b) (VRef.bare c) (VRef.norm d nd))
      = FaceScan.quad := by
  rw [quadLine_render]
  simp only [VRef.toks, List.cons_append, List.nil_append]
  have hw : wf [Tok.ch 'f', Tok.ch ' ', Tok.num a, Tok.ch ' ', Tok.num b, Tok.ch ' ', Tok.num c, Tok.ch ' ', Tok.num d, Tok.ch '/', Tok.ch '/', Tok.num nd] := by
    simp +decide [wf_num_ch, wf_num_nil, wf_ch, ha.range, hb.range, hc.range, hd.range, hnd.range]
  unfold classifyFace quadScans
  simp only [scanFace_q1 _ _ _ hw, scanFace_q2 _ _ _ hw, scanFace_q3 _ _ _ hw, scanFace_q4 _ _ _ hw]
  simp [sscanfTok, skipSpaceTok, isspace, FaceVars.store, FaceVars.set, resetTemps, triScans,
    ha.1, hb.1, hc.1, hd.1, hnd.1,
    scanFace_t1 _ _ _ hw, scanFace_t2 _ _ _ hw, scanFace_t3 _ _ _ hw, scanFace_t4 _ _ _ hw]

theorem mixed_tex_bare (a ta b tb c tc d : Int)
    (ha : IsIndex a) (hta : IsIndex ta) (hb : IsIndex b) (htb : IsIndex tb) (hc : IsIndex c) (htc : IsIndex tc) (hd : IsIndex d) :
    classifyFace (quadLine (VRef.tex a ta) (VRef.tex b tb) (VRef.tex c tc) (VRef.bare d))
      = FaceScan.tex ⟨a, b, c⟩ ⟨ta, tb, tc⟩ := by
  rw [quadLine_render]
  simp only [VRef.toks, List.cons_append, List.nil_append]
  have hw : wf [Tok.ch 'f', Tok.ch ' ', Tok.num a, Tok.ch '/', Tok.num ta, Tok.ch ' ', Tok.num b, Tok.ch '/', Tok.num tb, Tok.ch ' ', Tok.num c, Tok.ch '/', Tok.num tc, Tok.ch ' ', Tok.num d] := by
    simp +decide [wf_num_ch, wf_num_nil, wf_ch, ha.range, hta.range, hb.range, htb.range, hc.range, htc.range, hd.range]
  unfold classifyFace quadScans
  simp only [scanFace_q1 _ _ _ hw, scanFace_q2 _ _ _ hw, scanFace_q3 _ _ _ hw, scanFace_q4 _ _ _ hw]
  simp [sscanfTok, skipSpaceTok, isspace, FaceVars.store, FaceVars.set, resetTemps, triScans,
    ha.1, hta.1, hb.1, htb.1, hc.1, htc.1, hd.1,
    scanFace_t1 _ _ _ hw, scanFace_t2 _ _ _ hw, scanFace_t3 _ _ _ hw, scanFace_t4 _ _ _ hw]

theorem mixed_tex_texNorm (a ta b tb c tc d td nd : Int)
    (ha : IsIndex a) (hta : IsIndex ta) (hb : IsIndex b) (htb : IsIndex tb) (hc : IsIndex c) (htc : IsIndex tc) (hd : IsIndex d) (htd : IsIndex td) (hnd : IsIndex nd) :
    classifyFace (quadLine (VRef.tex a ta) (VRef.tex b tb) (VRef.tex c tc) (VRef.texNorm d td nd))
      = FaceScan.quad := by
  rw [quadLine_render]
  simp only [VRef.toks, List.cons_append, List.nil_append]
  have hw : wf [Tok.ch 'f', Tok.ch ' ', Tok.num a, Tok.ch '/', Tok.num ta, Tok.ch ' ', Tok.num b, Tok.ch '/', Tok.num tb, Tok.ch ' ', Tok.num c, Tok.ch '/', Tok.num tc, Tok.ch ' ', Tok.num d, Tok.ch '/', Tok.num td, Tok.ch '/', Tok.num nd] := by
    simp +decide [wf_num_ch, wf_num_nil, wf_ch, ha.range, hta.range, hb.range, htb.range, hc.range, htc.range, hd.range, htd.range, hnd.range]
  unfold classifyFace quadScans
  simp only [scanFace_q1 _ _ _ hw, scanFace_q2 _ _ _ hw, scanFace_q3 _ _ _ hw, scanFace_q4 _ _ _ hw]
  simp [sscanfTok, skipSpaceTok, isspace, FaceVars.store, FaceVars.set, resetTemps, triScans,
    ha.1, hta.1, hb.1, htb.1, hc.1, htc.1, hd.1, htd.1, hnd.1,
    scanFace_t1 _ _ _ hw, scanFace_t2 _ _ _ hw, scanFace_t3 _ _ _ hw, scanFace_t4 _ _ _ hw]

theorem mixed_tex_norm (a ta b tb c tc d nd : Int)
    (ha : IsIndex a) (hta : IsIndex ta) (hb : IsIndex b) (htb : IsIndex tb) (hc : IsIndex c) (htc : IsIndex tc) (hd : IsIndex d) (hnd : IsIndex nd) :
    classifyFace (quadLine (VRef.tex a ta) (VRef.tex b tb) (VRef.tex c tc) (VRef.norm d nd))
      = FaceScan.tex ⟨a, b, c⟩ ⟨ta, tb, tc⟩ := by
  rw [quadLine_render]
  simp only [VRef.toks, List.cons_append, List.nil_append]
  have hw : wf [Tok.ch 'f', Tok.ch ' ', Tok.num a, Tok.ch '/', Tok.num ta, Tok.ch ' ', Tok.num b, Tok.ch '/', Tok.num tb, Tok.ch ' ', Tok.num c, Tok.ch '/', Tok.num tc, Tok.ch ' ', Tok.num d, Tok.ch '/', Tok.ch '/', Tok.num nd] := by
    simp +decide [wf_num_ch, wf_num_nil, wf_ch, ha.range, hta.range, hb.range, htb.range, hc.range, htc.range, hd.range, hnd.range]
  unfold classifyFace quadScans
  simp only [scanFace_q1 _ _ _ hw, scanFace_q2 _ _ _ hw, scanFace_q3 _ _ _ hw, scanFace_q4 _ _ _ hw]
  simp [sscanfTok, skipSpaceTok, isspace, FaceVars.store, FaceVars.set, resetTemps, triScans,
    ha.1, hta.1, hb.1, htb.1, hc.1, htc.1, hd.1, hnd.1,
    scanFace_t1 _ _ _ hw, scanFace_t2 _ _ _ hw, scanFace_t3 _ _ _ hw, scanFace_t4 _ _ _ hw]

theorem mixed_texNorm_bare (a ta na b tb nb c tc nc d : Int)
    (ha : IsIndex a) (hta : IsIndex ta) (hna : IsIndex na) (hb : IsIndex b) (htb : IsIndex tb) (hnb : IsIndex nb) (hc : IsIndex c) (htc : IsIndex tc) (hnc : IsIndex nc) (hd : IsIndex d) :
    classifyFace (quadLine (VRef.texNorm a ta na) (VRef.texNorm b tb nb) (VRef.texNorm c tc nc) (VRef.bare d))
      = FaceScan.texNorm ⟨a, b, c⟩ ⟨ta, tb, tc⟩ ⟨na, nb, nc⟩ := by
  rw [quadLine_render]
  simp only [VRef.toks, List.cons_append, List.nil_append]
  have hw : wf [Tok.ch 'f', Tok.ch ' ', Tok.num a, Tok.ch '/', Tok.num ta, Tok.ch '/', Tok.num na, Tok.ch ' ', Tok.num b, Tok.ch '/', Tok.num tb, Tok.ch '/', Tok.num nb, Tok.ch ' ', Tok.num c, Tok.ch '/', Tok.num tc, Tok.ch '/', Tok.num nc, Tok.ch ' ', Tok.num d] := by
    simp +decide [wf_num_ch, wf_num_nil, wf_ch, ha.range, hta.range, hna.range, hb.range, htb.range, hnb.range, hc.range, htc.range, hnc.range, hd.range]
  unfold classifyFace quadScans
  simp only [scanFace_q1 _ _ _ hw, scanFace_q2 _ _ _ hw, scanFace_q3 _ _ _ hw, scanFace_q4 _ _ _ hw]
  simp [sscanfTok, skipSpaceTok, isspace, FaceVars.store, FaceVars.set, resetTemps, triScans,
    ha.1, hta.1, hna.1, hb.1, htb.1, hnb.1, hc.1, htc.1, hnc.1, hd.1,
    scanFace_t1 _ _ _ hw, scanFace_t2 _ _ _ hw, scanFace_t3 _ _ _ hw, scanFace_t4 _ _ _ hw]

theorem mixed_texNorm_tex (a ta na b tb nb c tc nc d td : Int)
    (ha : IsIndex a) (hta : IsIndex ta) (hna : IsIndex na) (hb : IsIndex b) (htb : IsIndex tb) (hnb : IsIndex nb) (hc : IsIndex c) (htc : IsIndex tc) (hnc : IsIndex nc) (hd : IsIndex d) (htd : IsIndex td) :
    classifyFace (quadLine (VRef.texNorm a ta na) (VRef.texNorm b tb nb) (VRef.texNorm c tc nc) (VRef.tex d td))
      = FaceScan.texNorm ⟨a, b, c⟩ ⟨ta, tb, tc⟩ ⟨na, nb, nc⟩ := by
  rw [quadLine_render]
  simp only [VRef.toks, List.cons_append, List.nil_append]
  have hw : wf [Tok.ch 'f', Tok.ch ' ', Tok.num a, Tok.ch '/', Tok.num ta, Tok.ch '/', Tok.num na, Tok.ch ' ', Tok.num b, Tok.ch '/', Tok.num tb, Tok.ch '/', Tok.num nb, Tok.ch ' ', Tok.num c, Tok.ch '/', Tok.num tc, Tok.ch '/', Tok.num nc, Tok.ch ' ', Tok.num d, Tok.ch '/', Tok.num td] := by
    simp +decide [wf_num_ch, wf_num_nil, wf_ch, ha.range, hta.range, hna.range, hb.range, htb.range, hnb.range, hc.range, htc.range, hnc.range, hd.range, htd.range]
  unfold classifyFace quadScans
  simp only [scanFace_q1 _ _ _ hw, scanFace_q2 _ _ _ hw, scanFace_q3 _ _ _ hw, scanFace_q4 _ _ _ hw]
  simp [sscanfTok, skipSpaceTok, isspace, FaceVars.store, FaceVars.set, resetTemps, triScans,
    ha.1, hta.1, hna.1, hb.1, htb.1, hnb.1, hc.1, htc.1, hnc.1, hd.1, htd.1,
    scanFace_t1 _ _ _ hw, scanFace_t2 _ _ _ hw, scanFace_t3 _ _ _ hw, scanFace_t4 _ _ _ hw]

theorem mixed_texNorm_norm (a ta na b tb nb c tc nc d nd : Int)
    (ha : IsIndex a) (hta : IsIndex ta) (hna : IsIndex na) (hb : IsIndex b) (htb : IsIndex tb) (hnb : IsIndex nb) (hc : IsIndex c) (htc : IsIndex tc) (hnc : IsIndex nc) (hd : IsIndex d) (hnd : IsIndex nd) :
    classifyFace (quadLine (VRef.texNorm a ta na) (VRef.texNorm b tb nb) (VRef.texNorm c tc nc) (VRef.norm d nd))
      = FaceScan.texNorm ⟨a, b, c⟩ ⟨ta, tb, tc⟩ ⟨na, nb, nc⟩ := by
  rw [quadLine_render]
  simp only [VRef.toks, List.cons_append, List.nil_append]
  have hw : wf [Tok.ch 'f', Tok.ch ' ', Tok.num a, Tok.ch '/', Tok.num ta, Tok.ch '/', Tok.num na, Tok.ch ' ', Tok.num b, Tok.ch '/', Tok.num tb, Tok.ch '/', Tok.num nb, Tok.ch ' ', Tok.num c, Tok.ch '/', Tok.num tc, Tok.ch '/', Tok.num nc, Tok.ch ' ', Tok.num d, Tok.ch '/', Tok.ch '/', Tok.num nd] := by
    simp +decide [wf_num_ch, wf_num_nil, wf_ch, ha.range, hta.range, hna.range, hb.range, htb.range, hnb.range, hc.range, htc.range, hnc.range, hd.range, hnd.range]
  unfold classifyFace quadScans
  simp only [scanFace_q1 _ _ _ hw, scanFace_q2 _ _ _ hw, scanFace_q3 _ _ _ hw, scanFace_q4 _ _ _ hw]
  simp [sscanfTok, skipSpaceTok, isspace, FaceVars.store, FaceVars.set, resetTemps, triScans,
    ha.1, hta.1, hna.1, hb.1, htb.1, hnb.1, hc.1, htc.1, hnc.1, hd.1, hnd.1,
    scanFace_t1 _ _ _ hw, scanFace_t2 _ _ _ hw, scanFace_t3 _ _ _ hw, scanFace_t4 _ _ _ hw]

theorem mixed_norm_bare (a na b nb c nc d : Int)
    (ha : IsIndex a) (hna : IsIndex na) (hb : IsIndex b) (hnb : IsIndex nb) (hc : IsIndex c) (hnc : IsIndex nc) (hd : IsIndex d) :
    classifyFace (quadLine (VRef.norm a na) (VRef.norm b nb) (VRef.norm c nc) (VRef.bare d))
      = FaceScan.norm ⟨a, b, c⟩ ⟨na, nb, nc⟩ := by
  rw [quadLine_render]
  simp only [VRef.toks, List.cons_append, List.nil_append]
  have hw : wf [Tok.ch 'f', Tok.ch ' ', Tok.num a, Tok.ch '/', Tok.ch '/', Tok.num na, Tok.ch ' ', Tok.num b, Tok.ch '/', Tok.ch '/', Tok.num nb, Tok.ch ' ', Tok.num c, Tok.ch '/', Tok.ch '/', Tok.num nc, Tok.ch ' ', Tok.num d] := by
    simp +decide [wf_num_ch, wf_num_nil, wf_ch, ha.range, hna.range, hb.range, hnb.range, hc.range, hnc.range, hd.range]
  unfold classifyFace quadScans
  simp only [scanFace_q1 _ _ _ hw, scanFace_q2 _ _ _ hw, scanFace_q3 _ _ _ hw, scanFace_q4 _ _ _ hw]
  simp [sscanfTok, skipSpaceTok, isspace, FaceVars.store, FaceVars.set, resetTemps, triScans,
    ha.1, hna.1, hb.1, hnb.1, hc.1, hnc.1, hd.1,
    scanFace_t1 _ _ _ hw, scanFace_t2 _ _ _ hw, scanFace_t3 _ _ _ hw, scanFace_t4 _ _ _ hw]

theorem mixed_norm_tex (a na b nb c nc d td : Int)
    (ha : IsIndex a) (hna : IsIndex na) (hb : IsIndex b) (hnb : IsIndex nb) (hc : IsIndex c) (hnc : IsIndex nc) (hd : IsIndex d) (htd : IsIndex td) :
    classifyFace (quadLine (VRef.norm a na) (VRef.norm b nb) (VRef.norm c nc) (VRef.tex d td))
      = FaceScan.norm ⟨a, b, c⟩ ⟨na, nb, nc⟩ := by
  rw [quadLine_render]
  simp only [VRef.toks, List.cons_append, List.nil_append]
  have hw : wf [Tok.ch 'f', Tok.ch ' ', Tok.num a, Tok.ch '/', Tok.ch '/', Tok.num na, Tok.ch ' ', Tok.num b, Tok.ch '/', Tok.ch '/', Tok.num nb, Tok.ch ' ', Tok.num c, Tok.ch '/', Tok.ch '/', Tok.num nc, Tok.ch ' ', Tok.num d, Tok.ch '/', Tok.num td] := by
    simp +decide [wf_num_ch, wf_num_nil, wf_ch, ha.range, hna.range, hb.range, hnb.range, hc.range, hnc.range, hd.range, htd.range]
  unfold classifyFace quadScans
  simp only [scanFace_q1 _ _ _ hw, scanFace_q2 _ _ _ hw, scanFace_q3 _ _ _ hw, scanFace_q4 _ _ _ hw]
  simp [sscanfTok, skipSpaceTok, isspace, FaceVars.store, FaceVars.set, resetTemps, triScans,
    ha.1, hna.1, hb.1, hnb.1, hc.1, hnc.1, hd.1, htd.1,
    scanFace_t1 _ _ _ hw, scanFace_t2 _ _ _ hw, scanFace_t3 _ _ _ hw, scanFace_t4 _ _ _ hw]

theorem mixed_norm_texNorm (a na b nb c nc d td nd : Int)
    (ha : IsIndex a) (hna : IsIndex na) (hb : IsIndex b) (hnb : IsIndex nb) (hc : IsIndex c) (hnc : IsIndex nc) (hd : IsIndex d) (htd : IsIndex td) (hnd : IsIndex nd) :
    classifyFace (quadLine (VRef.norm a na) (VRef.norm b nb) (VRef.norm c nc) (VRef.texNorm d td nd))
      = FaceScan.norm ⟨a, b, c⟩ ⟨na, nb, nc⟩ := by
  rw [quadLine_render]
  simp only [VRef.toks, List.cons_append, List.nil_append]
  have hw : wf [Tok.ch 'f', Tok.ch ' ', Tok.num a, Tok.ch '/', Tok.ch '/', Tok.num na, Tok.ch ' ', Tok.num b, Tok.ch '/', Tok.ch '/', Tok.num nb, Tok.ch ' ', Tok.num c, Tok.ch '/', Tok.ch '/', Tok.num nc, Tok.ch ' ', Tok.num d, Tok.ch '/', Tok.num td, Tok.ch '/', Tok.num nd] := by
    simp +decide [wf_num_ch, wf_num_nil, wf_ch, ha.range, hna.range, hb.range, hnb.range, hc.range, hnc.range, hd.range, htd.range, hnd.range]
  unfold classifyFace quadScans
  simp only [scanFace_q1 _ _ _ hw, scanFace_q2 _ _ _ hw, scanFace_q3 _ _ _ hw, scanFace_q4 _ _ _ hw]
  simp [sscanfTok, skipSpaceTok, isspace, FaceVars.store, FaceVars.set, resetTemps, triScans,
    ha.1, hna.1, hb.1, hnb.1, hc.1, hnc.1, hd.1, htd.1, hnd.1,
    scanFace_t1 _ _ _ hw, scanFace_t2 _ _ _ hw, scanFace_t3 _ _ _ hw, scanFace_t4 _ _ _ hw]

theorem classify_mixed (r1 r2 r3 r4 : VRef) (h2 : r2.variant = r1.variant)
    (h3 : r3.variant = r1.variant) (h4 : r4.variant ≠ r1.variant)
    (hb : r1.variant ≠ Variant.bare)
    (ht : ¬ (r1.variant = Variant.tex ∧ r4.variant = Variant.texNorm))
    (p1 : r1.Positive) (p2 : r2.Positive) (p3 : r3.Positive) (p4 : r4.Positive) :
    classifyFace (quadLine r1 r2 r3 r4) = faceOfRefs r1 r2 r3 := by
  cases r1 <;> simp [VRef.variant] at hb <;> cases r2 <;> simp [VRef.variant] at h2 <;>
    cases r3 <;> simp [VRef.variant] at h3 <;>
    cases r4 <;> simp [VRef.variant] at h4 ht <;> simp only [faceOfRefs]
  · exact mixed_tex_bare _ _ _ _ _ _ _ p1.1 p1.2 p2.1 p2.2 p3.1 p3.2 p4
  · exact mixed_tex_norm _ _ _ _ _ _ _ _ p1.1 p1.2 p2.1 p2.2 p3.1 p3.2 p4.1 p4.2
  · exact mixed_texNorm_bare _ _ _ _ _ _ _ _ _ _ p1.1 p1.2.1 p1.2.2 p2.1 p2.2.1 p2.2.2
      p3.1 p3.2.1 p3.2.2 p4
  · exact mixed_texNorm_tex _ _ _ _ _ _ _ _ _ _ _ p1.1 p1.2.1 p1.2.2 p2.1 p2.2.1 p2.2.2
      p3.1 p3.2.1 p3.2.2 p4.1 p4.2
  · exact mixed_texNorm_norm _ _ _ _ _ _ _ _ _ _ _ p1.1 p1.2.1 p1.2.2 p2.1 p2.2.1 p2.2.2
      p3.1 p3.2.1 p3.2.2 p4.1 p4.2
  · exact mixed_norm_bare _ _ _ _ _ _ _ p1.1 p1.2 p2.1 p2.2 p3.1 p3.2 p4
  · exact mixed_norm_tex _ _ _ _ _ _ _ _ p1.1 p1.2 p2.1 p2.2 p3.1 p3.2 p4.1 p4.2
  · exact mixed_norm_texNorm _ _ _ _ _ _ _ _ _ p1.1 p1.2 p2.1 p2.2 p3.1 p3.2 p4.1 p4.2.1 p4.2.2

theorem faceOfRefs_triple (r1 r2 r3 : VRef) (h2 : r2.variant = r1.variant)
    (h3 : r3.variant = r1.variant) :
    (faceOfRefs r1 r2 r3).triple = some ⟨r1.vertex, r2.vertex, r3.vertex⟩ := by
  cases r1 <;> cases r2 <;> simp [VRef.variant] at h2 <;> cases r3 <;>
    simp [VRef.variant] at h3 <;> rfl

theorem readLine_triple {D : Type} (ops : NumOps D) (st : ReadState D) (line : Line) (f : Faces)
    (hf : isFaceLine line = true) (ht : (classifyFace line).triple = some f) :
    ∃ st1, readLine ops st line = Except.ok st1 ∧ st1.face = st.face ++ [f]
      ∧ st1.face_counter = st.face_counter + 1 := by
  rw [readLine_of_face ops st line hf]
  simp only [isFaceLine, Bool.and_eq_true, decide_eq_true_eq] at hf
  unfold faceStep
  rw [if_pos hf]
  cases hc : classifyFace line <;> rw [hc] at ht <;> simp only [FaceScan.triple] at ht
  · cases ht
  · cases ht; exact ⟨_, rfl, rfl, rfl⟩
  · cases ht; exact ⟨_, rfl, rfl, rfl⟩
  · cases ht; exact ⟨_, rfl, rfl, rfl⟩
  · cases ht; exact ⟨_, rfl, rfl, rfl⟩
  · cases ht

theorem triLine_render (r1 r2 r3 : VRef) :
    triLine r1 r2 r3 = render (Tok.ch 'f' :: Tok.ch ' ' :: (r1.toks ++ Tok.ch ' ' :: (r2.toks
      ++ Tok.ch ' ' :: r3.toks))) := by
  simp [triLine, render, render_append, VRef.render_toks, Tok.text]

theorem classify_bare_then_tex (a b c t : Int) (ha : IsIndex a) (hb : IsIndex b) (hc : IsIndex c)
    (ht : IsIndex t) :
    classifyFace (triLine (VRef.bare a) (VRef.bare b) (VRef.tex c t)) = FaceScan.bare ⟨a, b, c⟩ := by
  rw [triLine_render]
  simp only [VRef.toks, List.cons_append, List.nil_append]
  have hw : wf [Tok.ch 'f', Tok.ch ' ', Tok.num a, Tok.ch ' ', Tok.num b, Tok.ch ' ', Tok.num c,
      Tok.ch '/', Tok.num t] := by
    simp +decide [wf_num_ch, wf_num_nil, wf_ch, ha.range, hb.range, hc.range, ht.range]
  unfold classifyFace quadScans
  simp only [scanFace_q1 _ _ _ hw, scanFace_q2 _ _ _ hw, scanFace_q3 _ _ _ hw, scanFace_q4 _ _ _ hw]
  simp [sscanfTok, skipSpaceTok, isspace, FaceVars.store, FaceVars.set, resetTemps, triScans,
    ha.1, hb.1, hc.1, scanFace_t1 _ _ _ hw]

theorem classify_tex_then_texNorm (a ta b tb c tc nc : Int) (ha : IsIndex a) (hta : IsIndex ta)
    (hb : IsIndex b) (htb : IsIndex tb) (hc : IsIndex c) (htc : IsIndex tc) (hnc : IsIndex nc) :
    classifyFace (triLine (VRef.tex a ta) (VRef.tex b tb) (VRef.texNorm c tc nc))
      = FaceScan.tex ⟨a, b, c⟩ ⟨ta, tb, tc⟩ := by
  rw [triLine_render]
  simp only [VRef.toks, List.cons_append, List.nil_append]
  have hw : wf [Tok.ch 'f', Tok.ch ' ', Tok.num a, Tok.ch '/', Tok.num ta, Tok.ch ' ',
      Tok.num b, Tok.ch '/', Tok.num tb, Tok.ch ' ', Tok.num c, Tok.ch '/', Tok.num tc,
      Tok.ch '/', Tok.num nc] := by
    simp +decide [wf_num_ch, wf_num_nil, wf_ch, ha.range, hb.range, hc.range, hta.range,
      htb.range, htc.range, hnc.range]
  unfold classifyFace quadScans
  simp only [scanFace_q1 _ _ _ hw, scanFace_q2 _ _ _ hw, scanFace_q3 _ _ _ hw, scanFace_q4 _ _ _ hw]
  simp [sscanfTok, skipSpaceTok, isspace, FaceVars.store, FaceVars.set, resetTemps, triScans,
    ha.1, hb.1, hc.1, hta.1, htb.1, htc.1, scanFace_t1 _ _ _ hw, scanFace_t2 _ _ _ hw]

theorem classify_bare_not_positive (f : Faces) (ha : IntRange f.a) (hb : IntRange f.b)
    (hc : IntRange f.c) (h : ¬ (0 < f.a ∧ 0 < f.b ∧ 0 < f.c)) :
    classifyFace (faceLineBare f) = FaceScan.unrecognized := by
  have hr : faceLineBare f = render [Tok.ch 'f', Tok.ch ' ', Tok.num f.a, Tok.ch ' ', Tok.num f.b,
      Tok.ch ' ', Tok.num f.c] := by
    simp [faceLineBare, render, Tok.text]
  have hw : wf [Tok.ch 'f', Tok.ch ' ', Tok.num f.a, Tok.ch ' ', Tok.num f.b,
      Tok.ch ' ', Tok.num f.c] := by
    simp +decide [wf_num_ch, wf_num_nil, wf_ch, ha, hb, hc]
  rw [hr]
  unfold classifyFace quadScans
  simp only [scanFace_q1 _ _ _ hw, scanFace_q2 _ _ _ hw, scanFace_q3 _ _ _ hw, scanFace_q4 _ _ _ hw]
  by_cases pa : 0 < f.a
  · by_cases pb : 0 < f.b
    · have pc : ¬ 0 < f.c := fun pc => h ⟨pa, pb, pc⟩
      simp [sscanfTok, skipSpaceTok, isspace, FaceVars.store, FaceVars.set, resetTemps, triScans,
        pa, pb, pc, scanFace_t1 _ _ _ hw, scanFace_t2 _ _ _ hw, scanFace_t3 _ _ _ hw,
        scanFace_t4 _ _ _ hw]
    · simp [sscanfTok, skipSpaceTok, isspace, FaceVars.store, FaceVars.set, resetTemps, triScans,
        pa, pb, scanFace_t1 _ _ _ hw, scanFace_t2 _ _ _ hw, scanFace_t3 _ _ _ hw,
        scanFace_t4 _ _ _ hw]
  · simp [sscanfTok, skipSpaceTok, isspace, FaceVars.store, FaceVars.set, resetTemps, triScans,
      pa, scanFace_t1 _ _ _ hw, scanFace_t2 _ _ _ hw, scanFace_t3 _ _ _ hw,
      scanFace_t4 _ _ _ hw]

theorem writeFile_body (host : Host) (filename : Line) (V_rows F_rows : Nat) (b b1 : Line)
    (name text : Line)
    (h : writeFile host filename V_rows F_rows (some b) = WriteOutcome.written name text) :
    ∃ head, text = head ++ b
      ∧ writeFile host filename V_rows F_rows (some b1) = WriteOutcome.written name (head ++ b1) := by
  unfold writeFile at h ⊢
  cases hd : dialogue host filename with
  | none => rw [hd] at h; cases h
  | some fn =>
    rw [hd] at h
    simp only at h ⊢
    by_cases ho : host.can_open (cstr fn) = true
    · rw [if_pos ho] at h ⊢
      cases hm : mtlFileName fn with
      | none => rw [hm] at h; cases h
      | some mtlname =>
        rw [hm] at h
        simp only [WriteOutcome.written.injEq] at h ⊢
        exact ⟨_, h.2.symm, h.1, rfl⟩
    · rw [if_neg ho] at h; cases h

theorem getlinesFrom_append_lf : ∀ (p acc rest : Line),
    getlinesFrom (p ++ '\n' :: rest) acc = getlinesFrom (p ++ ['\n']) acc ++ getlinesFrom rest []
  | [], acc, rest => by simp [getlinesFrom]
  | c :: p, acc, rest => by
    by_cases hc : c = '\n'
    · simp only [List.cons_append, getlinesFrom, hc, if_true]
      exact congrArg (List.cons acc.reverse) (getlinesFrom_append_lf p [] rest)
    · simp only [List.cons_append, getlinesFrom, hc, if_false]
      exact getlinesFrom_append_lf p (c :: acc) rest

theorem getlines_append_lf (p rest : Line) :
    getlines (p ++ '\n' :: rest) = getlines (p ++ ['\n']) ++ getlines rest :=
  getlinesFrom_append_lf p [] rest

theorem putLines_ends (ls : List Line) : putLines ls = [] ∨ ∃ q, putLines ls = q ++ ['\n'] := by
  induction ls with
  | nil => exact Or.inl rfl
  | cons l ls ih =>
    right
    rcases ih with e | ⟨q, e⟩
    · exact ⟨l, by simp [putLines, e]⟩
    · exact ⟨l ++ '\n' :: q, by simp [putLines, e]⟩

theorem written3_face_lines {D : Type} (ops : NumOps D) (host : Host) (V F nm : OctArg D)
    (name text : Line) (hw : writeObj ops host [V, F, nm] = WriteOutcome.written name text) :
    ∀ f ∈ stageFaces ops F.rows F.array_value, faceLineBare f ∈ getlines text := by
  obtain ⟨filename, mtlname, -, -, ht⟩ := written3_text ops host V F nm name text hw
  intro f hf
  have hp : ∃ q, textBeforeFaces ops filename mtlname V.rows F.rows
      (stageCoords ops V.rows V.array_value) [] [] = q ++ ['\n'] := by
    rcases putLines_ends ((stageCoords ops V.rows V.array_value).map (coordLine ops "v"))
      with e | ⟨q, e⟩
    · exact ⟨headerText filename V.rows F.rows ++ "mtllib ./".toList ++ mtlname ++ ['\n'], by
        simp [textBeforeFaces, mtllibText, e, putLines]⟩
    · exact ⟨headerText filename V.rows F.rows ++ mtllibText mtlname ++ q, by
        simp [textBeforeFaces, e, putLines]⟩
  obtain ⟨q, hq⟩ := hp
  rw [ht, hq, List.append_assoc, List.singleton_append, getlines_append_lf,
    getlines_putLines _ (by
      intro l hl
      obtain ⟨g, -, rfl⟩ := List.mem_map.mp hl
      exact faceLineBare_no_lf g)]
  exact List.mem_append_right _ (List.mem_map_of_mem _ hf)

theorem mtlName_first (pre post : Line)
    (hfirst : ∀ pre1 post1 : Line, pre ++ '.' :: '/' :: post = pre1 ++ '.' :: '/' :: post1 →
      pre.length ≤ pre1.length) :
    mtlName (pre ++ '.' :: '/' :: post) = post := by
  obtain ⟨p, hp, hmin⟩ := (mtlName_spec (pre ++ '.' :: '/' :: post)).1 ⟨pre, post, rfl⟩
  have h1 : pre.length ≤ p.length := hfirst p _ hp
  have h2 : p.length ≤ pre.length := hmin pre post rfl
  have hlen : pre.length = p.length := Nat.le_antisymm h1 h2
  have := (List.append_inj hp hlen).2
  simp only [List.cons.injEq, true_and] at this
  exact this.symm

theorem Grows.counters {D : Type} (st st1 : ReadState D) (nv nn nt nf nft nfn : Nat)
    (g : Grows st st1 nv nn nt nf nft nfn) (h : CountersMatch st) : CountersMatch st1 := by
  obtain ⟨⟨a1, a2⟩, ⟨b1, b2⟩, ⟨c1, c2⟩, ⟨d1, d2⟩, ⟨e1, e2⟩, ⟨f1, f2⟩, -⟩ := g
  obtain ⟨h1, h2, h3, h4, h5, h6⟩ := h
  exact ⟨by rw [a1, a2, h1], by rw [b1, b2, h2], by rw [c1, c2, h3], by rw [d1, d2, h4],
    by rw [e1, e2, h5], by rw [f1, f2, h6]⟩

theorem preFace_counters {D : Type} (ops : NumOps D) (st : ReadState D) (line : Line)
    (h : CountersMatch st) : CountersMatch (preFace ops st line) := by
  obtain ⟨p1, p2, p3, p4, p5, p6, p7, p8, p9, p10, p11, p12⟩ := preFace_effect ops st line
  obtain ⟨h1, h2, h3, h4, h5, h6⟩ := h
  exact ⟨by rw [p7, p8, h1], by rw [p9, p10, h2], by rw [p11, p12, h3], by rw [p1, p4, h4],
    by rw [p2, p5, h5], by rw [p3, p6, h6]⟩

theorem readLines_error {D : Type} (ops : NumOps D) : ∀ (lines : List Line) (st : ReadState D)
    (e : ReadError), readLines ops st lines = Except.error e → e = ReadError.notTriangular
  | [], _, _, h => by cases h
  | l :: ls, st, e, h => by
    unfold readLines at h
    cases hl : readLine ops st l with
    | error e1 =>
      rw [hl] at h
      cases h
      exact readLine_error D ops st l _ hl
    | ok st1 =>
      rw [hl] at h
      exact readLines_error ops ls st1 e h

theorem toArrays_in_range {D : Type} (st : ReadState D) (h : CountersMatch st) :
    toArrays st ≠ Except.error ReadError.outOfRange := by
  obtain ⟨h1, h2, h3, h4, h5, h6⟩ := h
  unfold toArrays
  rw [h1, h2, h3, h4, h5, h6]
  simp only [copyRows_length]
  split
  · split
    · exact fun e => Except.noConfusion e
    · exact fun e => by cases e
  · exact fun e => by cases e

theorem mtlFileName_some (filename : Line) (h3 : 3 ≤ filename.length)
    (hc : filename.length - 3 ≤ (cstr filename).length) :
    mtlFileName filename = some (derivedName filename) := by
  cases hm : mtlFileName filename with
  | none =>
    unfold mtlFileName at hm
    simp only at hm
    rw [if_neg (by omega), if_neg (by omega)] at hm
    cases hm
  | some m =>
    obtain ⟨-, -, e⟩ := mtlFileName_eq filename m hm
    rw [e]; rfl

theorem writeFile_opens (host : Host) (given filename : Line) (V_rows F_rows : Nat)
    (lines : Line) (h : Opens host given filename) :
    writeFile host given V_rows F_rows (some lines)
      = WriteOutcome.written (cstr filename)
          (headerText filename V_rows F_rows ++ mtllibText (derivedName filename) ++ lines) := by
  obtain ⟨hd, ho, h3, hc⟩ := h
  unfold writeFile
  rw [hd]
  simp only
  rw [if_pos ho, mtlFileName_some filename h3 hc]

theorem opens_fresh (host : Host) (s : Line) (hf : host.file_exists (cstr s) = false)
    (ho : host.can_open (cstr s) = true) (h3 : 3 ≤ s.length) (hn : '\x00' ∉ s) :
    Opens host s s := by
  have hc : cstr s = s := cstr_eq_self s (fun c hm e => hn (e ▸ hm))
  refine ⟨?_, ho, h3, ?_⟩
  · unfold dialogue
    rw [hf]
    simp
  · rw [hc]; omega

theorem write3_writes {D : Type} (ops : NumOps D) (host : Host) (V F nm : OctArg D)
    (filename : Line) (ha : Accepted [V, F, nm]) (ho : Opens host nm.string_value filename) :
    writeObj ops host [V, F, nm]
      = WriteOutcome.written (cstr filename)
          (textBeforeFaces ops filename (derivedName filename) V.rows F.rows
              (stageCoords ops V.rows V.array_value) [] []
            ++ putLines ((stageFaces ops F.rows F.array_value).map faceLineBare)) := by
  obtain ⟨h1, h2, h3, h4, h5, h6, h7⟩ := ha
  unfold writeObj
  simp only [h1, h2, h3, Bool.not_true, Bool.or_self, Bool.false_eq_true, if_false]
  unfold write3
  rw [if_neg (by omega), if_neg (by simp [h5]), if_neg (by omega), if_neg (by simp [h7])]
  simp only
  rw [writeFile_opens host _ filename _ _ _ ho]
  simp [textBeforeFaces, putLines]

theorem write5t_writes {D : Type} (ops : NumOps D) (host : Host) (V F VT FT nm : OctArg D)
    (filename : Line) (ha : Accepted [V, F, VT, FT, nm]) (hcol : VT.columns = 2)
    (ho : Opens host nm.string_value filename) :
    writeObj ops host [V, F, VT, FT, nm]
      = WriteOutcome.written (cstr filename)
          (textBeforeFaces ops filename (derivedName filename) V.rows F.rows
              (stageCoords ops V.rows V.array_value) (stageTCoords ops VT.rows VT.array_value) []
            ++ putLines (((stageFaces ops F.rows F.array_value).zip
                (stageFaces ops FT.rows FT.array_value)).map fun p => faceLineTex p.1 p.2)) := by
  obtain ⟨h1, h2, h3, h4, h5, h6, h7, h8, h9, -, h11, h12⟩ := ha
  unfold writeObj
  simp only [h1, h2, h3, h4, h5, Bool.not_true, Bool.or_self, Bool.false_eq_true, if_false]
  rw [if_pos hcol]
  unfold write5t
  rw [if_neg (by omega), if_neg (by simp [h7]), if_neg (by omega), if_neg (by simp [h9]),
    if_neg (by simp [h11])]
  simp only
  rw [if_neg (by simp [h12]), faceLoop2_eq faceLineTex _ _
    (by rw [stageFaces_length, stageFaces_length, h12])]
  simp only [Option.map_some']
  rw [writeFile_opens host _ filename _ _ _ ho]
  simp [textBeforeFaces, putLines]

theorem write5n_writes {D : Type} (ops : NumOps D) (host : Host) (V F VN FN nm : OctArg D)
    (filename : Line) (ha : Accepted [V, F, VN, FN, nm]) (hcol : VN.columns = 3)
    (ho : Opens host nm.string_value filename) :
    writeObj ops host [V, F, VN, FN, nm]
      = WriteOutcome.written (cstr filename)
          (textBeforeFaces ops filename (derivedName filename) V.rows F.rows
              (stageCoords ops V.rows V.array_value) [] (stageCoords ops VN.rows VN.array_value)
            ++ putLines (((stageFaces ops F.rows F.array_value).zip
                (stageFaces ops FN.rows FN.array_value)).map fun p => faceLineNorm p.1 p.2)) := by
  obtain ⟨h1, h2, h3, h4, h5, h6, h7, h8, h9, -, h11, h12⟩ := ha
  unfold writeObj
  simp only [h1, h2, h3, h4, h5, Bool.not_true, Bool.or_self, Bool.false_eq_true, if_false]
  rw [if_neg (by omega), if_pos hcol]
  unfold write5n
  rw [if_neg (by omega), if_neg (by simp [h7]), if_neg (by omega), if_neg (by simp [h9]),
    if_neg (by simp [h11])]
  simp only
  rw [if_neg (by simp [h12]), faceLoop2_eq faceLineNorm _ _
    (by rw [stageFaces_length, stageFaces_length, h12])]
  simp only [Option.map_some']
  rw [writeFile_opens host _ filename _ _ _ ho]
  simp [textBeforeFaces, putLines]

theorem write7_writes {D : Type} (ops : NumOps D) (host : Host)
    (V F VT FT VN FN nm : OctArg D) (filename : Line)
    (ha : Accepted [V, F, VT, FT, VN, FN, nm]) (ho : Opens host nm.string_value filename) :
    writeObj ops host [V, F, VT, FT, VN, FN, nm]
      = WriteOutcome.written (cstr filename)
          (textBeforeFaces ops filename (derivedName filename) V.rows F.rows
              (stageCoords ops V.rows V.array_value) (stageTCoords ops VT.rows VT.array_value)
              (stageCoords ops VN.rows VN.array_value)
            ++ putLines (((stageFaces ops F.rows F.array_value).zip
                ((stageFaces ops FT.rows FT.array_value).zip
                  (stageFaces ops FN.rows FN.array_value))).map
                fun p => faceLineTexNorm p.1 p.2.1 p.2.2)) := by
  obtain ⟨h1, h2, h3, h4, h5, h6, h7, h8, h9, h10, h11, h12, h13, h14, h15, h16, h17⟩ := ha
  unfold writeObj
  simp only [h1, h2, h3, h4, h5, h6, h7, Bool.not_true, Bool.or_self, Bool.false_eq_true,
    if_false]
  unfold write7
  rw [if_neg (by omega), if_neg (by simp [h9]), if_neg (by omega), if_neg (by simp [h11]),
    if_neg (by simp [h12]), if_neg (by simp [h13]), if_neg (by simp [h14]),
    if_neg (by simp [h15])]
  simp only
  rw [if_neg (by simp [h16]), faceLoop3_eq faceLineTexNorm _ _ _
    (by rw [stageFaces_length, stageFaces_length, h16])
    (by rw [stageFaces_length, stageFaces_length, h17])]
  simp only [Option.map_some']
  rw [writeFile_opens host _ filename _ _ _ ho]
  simp [textBeforeFaces, putLines]

theorem writeObj_writes {D : Type} (ops : NumOps D) (host : Host) (args : List (OctArg D))
    (V F nm : OctArg D) (filename : Line) (ha : Accepted args)
    (h0 : args.get? 0 = some V) (h1 : args.get? 1 = some F) (hl : args.getLast? = some nm)
    (ho : Opens host nm.string_value filename) :
    ∃ body, writeObj ops host args
      = WriteOutcome.written (cstr filename)
          (headerText filename V.rows F.rows ++ mtllibText (derivedName filename) ++ body) := by
  match args, ha, h0, h1, hl with
  | [a0, a1, a2], ha, h0, h1, hl =>
    simp only [List.get?_cons_zero, List.get?_cons_succ, Option.some.injEq] at h0 h1
    have hl : a2 = nm := by simpa using hl
    subst h0; subst h1; subst hl
    exact ⟨putLines ((stageCoords ops a0.rows a0.array_value).map (coordLine ops "v"))
        ++ putLines ((stageFaces ops a1.rows a1.array_value).map faceLineBare), by
      rw [write3_writes ops host _ _ _ filename ha ho]
      simp [textBeforeFaces, putLines]⟩
  | [a0, a1, a2, a3, a4], ha, h0, h1, hl =>
    simp only [List.get?_cons_zero, List.get?_cons_succ, Option.some.injEq] at h0 h1
    have hl : a4 = nm := by simpa using hl
    subst h0; subst h1; subst hl
    rcases ha.2.2.2.2.2.2.2.2.2.1 with c | c
    · exact ⟨putLines ((stageCoords ops a0.rows a0.array_value).map (coordLine ops "v"))
          ++ putLines ((stageTCoords ops a2.rows a2.array_value).map (tcoordLine ops))
          ++ putLines (((stageFaces ops a1.rows a1.array_value).zip
              (stageFaces ops a3.rows a3.array_value)).map fun p => faceLineTex p.1 p.2), by
        rw [write5t_writes ops host _ _ _ _ _ filename ha c ho]
        simp [textBeforeFaces, putLines]⟩
    · exact ⟨putLines ((stageCoords ops a0.rows a0.array_value).map (coordLine ops "v"))
          ++ putLines ((stageCoords ops a2.rows a2.array_value).map (coordLine ops "vn"))
          ++ putLines (((stageFaces ops a1.rows a1.array_value).zip
              (stageFaces ops a3.rows a3.array_value)).map fun p => faceLineNorm p.1 p.2), by
        rw [write5n_writes ops host _ _ _ _ _ filename ha c ho]
        simp [textBeforeFaces, putLines]⟩
  | [a0, a1, a2, a3, a4, a5, a6], ha, h0, h1, hl =>
    simp only [List.get?_cons_zero, List.get?_cons_succ, Option.some.injEq] at h0 h1
    have hl : a6 = nm := by simpa using hl
    subst h0; subst h1; subst hl
    exact ⟨putLines ((stageCoords ops a0.rows a0.array_value).map (coordLine ops "v"))
        ++ putLines ((stageTCoords ops a2.rows a2.array_value).map (tcoordLine ops))
        ++ putLines ((stageCoords ops a4.rows a4.array_value).map (coordLine ops "vn"))
        ++ putLines (((stageFaces ops a1.rows a1.array_value).zip
            ((stageFaces ops a3.rows a3.array_value).zip
              (stageFaces ops a5.rows a5.array_value))).map
            fun p => faceLineTexNorm p.1 p.2.1 p.2.2), by
      rw [write7_writes ops host _ _ _ _ _ _ _ filename ha ho]
      simp [textBeforeFaces, putLines]⟩

theorem accepted_args {D : Type} (args : List (OctArg D)) (ha : Accepted args) :
    ∃ V F, args.get? 0 = some V ∧ args.get? 1 = some F := by
  match args, ha with
  | [a0, a1, _], _ => exact ⟨a0, a1, rfl, rfl⟩
  | [a0, a1, _, _, _], _ => exact ⟨a0, a1, rfl, rfl⟩
  | [a0, a1, _, _, _, _, _], _ => exact ⟨a0, a1, rfl, rfl⟩

theorem floatOps_toIndex (n : Nat) (h1 : 1 ≤ n) (h2 : n < 2147483648) (fresh : ℚ) :
    (floatOps fresh).toIndex (n : ℚ) = some ((n : Int) - 1) := by
  have e : ((n : ℚ) - 1) = (((n - 1 : Nat) : Int) : ℚ) := by
    push_cast [Nat.cast_sub h1]; ring
  simp only [floatOps]
  rw [e, Rat.num_intCast, Rat.den_intCast]
  simp only [Nat.cast_one, Int.tdiv_one]
  rw [if_pos (by constructor <;> omega)]
  congr 1
  omega

theorem holdsIndices_triangle (fresh : ℚ) (V : OctArg ℚ) (hV : 3 ≤ V.rows) :
    HoldsIndices (floatOps fresh) V (ratArg [[1, 2, 3]] 3) (fun _ j => j + 1) := by
  intro i hi j hj
  have hi0 : i = 0 := by simp [ratArg] at hi; omega
  subst hi0
  refine ⟨(by show 1 ≤ j + 1; omega), (by show j + 1 ≤ V.rows; omega), ?_⟩
  have := floatOps_toIndex (j + 1) (by omega) (by omega) fresh
  interval_cases j <;> simpa [ratArg] using this

theorem readDigits_append (extra : Line) (hext : ∀ c ∈ extra.head?, isdigit c = false) :
    ∀ (t : Line) (acc : Nat),
      readDigits (t ++ extra) acc = ((readDigits t acc).1, (readDigits t acc).2 ++ extra)
  | [], acc => by
    cases extra with
    | nil => rfl
    | cons c cs =>
      have hc : isdigit c = false := hext c (by simp)
      simp [readDigits, hc]
  | c :: cs, acc => by
    by_cases hc : isdigit c = true
    · simp only [List.cons_append, readDigits, hc, if_true]
      exact readDigits_append extra hext cs _
    · simp [readDigits, hc]

theorem scanInt_body_append (extra : Line) (hext : ∀ c ∈ extra.head?, isdigit c = false)
    (neg : Bool) (t : Line) (v : Int) (rest : Line)
    (h : (match t with
          | [] => none
          | c :: _ =>
            if isdigit c then
              some (toInt32 (clampLong (if neg then -((readDigits t 0).1 : Int)
                else ((readDigits t 0).1 : Int))), (readDigits t 0).2)
            else none) = some (v, rest)) :
    (match t ++ extra with
      | [] => none
      | c :: _ =>
        if isdigit c then
          some (toInt32 (clampLong (if neg then -((readDigits (t ++ extra) 0).1 : Int)
            else ((readDigits (t ++ extra) 0).1 : Int))), (readDigits (t ++ extra) 0).2)
        else none) = some (v, rest ++ extra) := by
  cases t with
  | nil => cases h
  | cons c cs =>
    simp only [List.cons_append] at h ⊢
    by_cases hc : isdigit c = true
    · rw [if_pos hc] at h ⊢
      have e := readDigits_append extra hext (c :: cs) 0
      simp only [List.cons_append] at e
      rw [e]
      simp only [Option.some.injEq, Prod.mk.injEq] at h ⊢
      exact ⟨h.1, by rw [h.2]⟩
    · rw [if_neg hc] at h; cases h

theorem scanInt_append (extra : Line) (hext : ∀ c ∈ extra.head?, isdigit c = false)
    (t : Line) (v : Int) (rest : Line) (h : scanInt t = some (v, rest)) :
    scanInt (t ++ extra) = some (v, rest ++ extra) := by
  cases t with
  | nil => simp [scanInt] at h
  | cons c cs =>
    by_cases h1 : c = '-'
    · subst h1
      exact scanInt_body_append extra hext true cs v rest h
    · by_cases h2 : c = '+'
      · subst h2
        exact scanInt_body_append extra hext false cs v rest h
      · have e1 : scanInt (c :: cs) = (match c :: cs with
            | [] => none
            | d :: _ =>
              if isdigit d then
                some (toInt32 (clampLong (if false then -((readDigits (c :: cs) 0).1 : Int)
                  else ((readDigits (c :: cs) 0).1 : Int))), (readDigits (c :: cs) 0).2)
              else none) := by
          unfold scanInt
          split
          · rename_i heq; cases heq; exact absurd rfl h1
          · rename_i heq; cases heq; exact absurd rfl h2
          · rfl
        have e2 : scanInt ((c :: cs) ++ extra) = (match (c :: cs) ++ extra with
            | [] => none
            | d :: _ =>
              if isdigit d then
                some (toInt32 (clampLong (if false then
                    -((readDigits ((c :: cs) ++ extra) 0).1 : Int)
                  else ((readDigits ((c :: cs) ++ extra) 0).1 : Int))),
                  (readDigits ((c :: cs) ++ extra) 0).2)
              else none) := by
          unfold scanInt
          split
          · rename_i heq; cases heq; exact absurd rfl h1
          · rename_i heq; cases heq; exact absurd rfl h2
          · rfl
        rw [e2]
        rw [e1] at h
        exact scanInt_body_append extra hext false (c :: cs) v rest h

theorem skipSpace_append (extra : Line) : ∀ s : Line, skipSpace s ≠ [] →
    skipSpace (s ++ extra) = skipSpace s ++ extra
  | [], h => absurd rfl h
  | c :: cs, h => by
    by_cases hc : isspace c = true
    · simp only [List.cons_append, skipSpace, hc, if_true] at h ⊢
      exact skipSpace_append extra cs h
    · simp [skipSpace, hc]

theorem sscanf_count_zero {α : Type} (conv : Line → Option (α × Line)) (fmt : List Dir)
    (s : Line) (h : convCount fmt = 0) : sscanf conv fmt s = [] := by
  have := sscanf_length_le conv fmt s
  rw [h] at this
  exact List.eq_nil_of_length_eq_zero (Nat.le_zero.mp this)

theorem sscanf_on_nil : ∀ fmt : List Dir, sscanf scanInt fmt [] = []
  | [] => rfl
  | Dir.lit _ :: _ => rfl
  | Dir.space :: fmt => by
    simp only [sscanf, skipSpace]
    exact sscanf_on_nil fmt
  | Dir.conv :: fmt => by
    simp [sscanf, skipSpace, scanInt]

theorem sscanf_append (extra : Line) (hext : ∀ c ∈ extra.head?, isdigit c = false) :
    ∀ (fmt : List Dir) (s : Line), (sscanf scanInt fmt s).length = convCount fmt →
      sscanf scanInt fmt (s ++ extra) = sscanf scanInt fmt s
  | [], s, _ => by simp [sscanf]
  | Dir.lit c :: fmt, [], h => by
    simp only [sscanf, List.length_nil, convCount] at h
    rw [sscanf_count_zero scanInt (Dir.lit c :: fmt) _ (by simpa [convCount] using h.symm),
      sscanf_count_zero scanInt (Dir.lit c :: fmt) _ (by simpa [convCount] using h.symm)]
  | Dir.lit c :: fmt, x :: s, h => by
    by_cases hx : x = c
    · simp only [List.cons_append, sscanf, hx, if_true, convCount] at h ⊢
      exact sscanf_append extra hext fmt s h
    · simp [sscanf, hx]
  | Dir.space :: fmt, s, h => by
    simp only [sscanf, convCount] at h ⊢
    by_cases hs : skipSpace s = []
    · rw [hs, sscanf_on_nil] at h
      rw [sscanf_count_zero scanInt fmt _ (by simpa using h.symm),
        sscanf_count_zero scanInt fmt _ (by simpa using h.symm)]
    · rw [skipSpace_append extra s hs]
      exact sscanf_append extra hext fmt _ h
  | Dir.conv :: fmt, s, h => by
    simp only [sscanf, convCount] at h ⊢
    cases hc : scanInt (skipSpace s) with
    | none => rw [hc] at h; simp at h
    | some p =>
      obtain ⟨v, rest⟩ := p
      rw [hc] at h
      simp only [List.length_cons, Nat.add_right_cancel_iff] at h
      have hs : skipSpace s ≠ [] := by
        intro e
        rw [e] at hc
        simp [scanInt] at hc
      rw [skipSpace_append extra s hs, scanInt_append extra hext _ v rest hc]
      simp only
      rw [sscanf_append extra hext fmt rest h]

theorem cstr_append (s extra : Line) :
    cstr (s ++ extra) = if '\x00' ∈ s then cstr s else s ++ cstr extra := by
  induction s with
  | nil => simp
  | cons c cs ih =>
    by_cases hc : c = '\x00'
    · subst hc
      simp [cstr]
    · have hne : ¬ '\x00' = c := fun e => hc e.symm
      have e : cstr (c :: cs ++ extra) = c :: cstr (cs ++ extra) := by
        simp only [List.cons_append, cstr, hc, if_false]
        rfl
      rw [e, ih]
      by_cases hz : '\x00' ∈ cs
      · rw [if_pos hz, if_pos (List.mem_cons_of_mem _ hz)]
        simp only [cstr, hc, if_false]
      · have hz2 : '\x00' ∉ c :: cs := by simp [hne, hz]
        rw [if_neg hz, if_neg hz2]
        rfl

theorem cstr_head (extra : Line) (hext : ∀ c ∈ extra.head?, isdigit c = false) :
    ∀ c ∈ (cstr extra).head?, isdigit c = false := by
  cases extra with
  | nil => simp [cstr]
  | cons x xs =>
    by_cases hx : x = '\x00'
    · simp [cstr, hx]
    · intro c hc
      simp only [cstr, hx, if_false, List.head?_cons, Option.mem_def, Option.some.injEq] at hc
      subst hc
      exact hext _ (by simp)

theorem fullMatch_append (fmt : String) (line extra : Line) (vals : List Int)
    (hext : ∀ c ∈ extra.head?, isdigit c = false)
    (h : fullMatch fmt (convCount (format fmt.toList)) line = some vals) :
    fullMatch fmt (convCount (format fmt.toList)) (line ++ extra) = some vals := by
  unfold fullMatch matchOf at h ⊢
  split_ifs at h with hc
  have hlen := hc.1
  rw [cstr_append]
  by_cases hz : '\x00' ∈ line
  · rw [if_pos hz, if_pos hc]
    exact h
  · rw [if_neg hz]
    have hl : cstr line = line := cstr_eq_self line (fun c hm e => hz (e ▸ hm))
    rw [hl] at hc hlen h
    rw [sscanf_append (cstr extra) (cstr_head extra hext) _ line hlen, if_pos hc]
    exact h

/-! ## The claims -/

/-- C1: for strictly positive indices, the face line `writeObj` emits in each
of its four variants is classified by `readObj` as that same variant, with
exactly the vertex, texture and normal index triples that were written. -/
theorem face_line_read_back (f ft fn : Faces) (hf : f.Positive) :
    classifyFace (faceLineBare f) = FaceScan.bare f
      ∧ (ft.Positive → classifyFace (faceLineTex f ft) = FaceScan.tex f ft)
      ∧ (fn.Positive → classifyFace (faceLineNorm f fn) = FaceScan.norm f fn)
      ∧ (ft.Positive → fn.Positive →
          classifyFace (faceLineTexNorm f ft fn) = FaceScan.texNorm f ft fn) :=
  ⟨classify_bare f hf, fun ht => classify_tex f ft hf ht, fun hn => classify_norm f fn hf hn,
    fun ht hn => classify_texNorm f ft fn hf ht hn⟩

/-- Witness of C1: the face (1, 20, 300) with texture indices (4, 5, 6) and
normal indices (7, 8, 9). -/
theorem face_line_read_back_witness :
    (⟨1, 20, 300⟩ : Faces).Positive ∧ (⟨4, 5, 6⟩ : Faces).Positive ∧ (⟨7, 8, 9⟩ : Faces).Positive
      ∧ classifyFace "f 1 20 300".toList = FaceScan.bare ⟨1, 20, 300⟩
      ∧ classifyFace "f 1/4 20/5 300/6".toList = FaceScan.tex ⟨1, 20, 300⟩ ⟨4, 5, 6⟩
      ∧ classifyFace "f 1//7 20//8 300//9".toList = FaceScan.norm ⟨1, 20, 300⟩ ⟨7, 8, 9⟩
      ∧ classifyFace "f 1/4/7 20/5/8 300/6/9".toList
          = FaceScan.texNorm ⟨1, 20, 300⟩ ⟨4, 5, 6⟩ ⟨7, 8, 9⟩ :=
  have hf : (⟨1, 20, 300⟩ : Faces).Positive :=
    ⟨⟨by decide, by decide⟩, ⟨by decide, by decide⟩, ⟨by decide, by decide⟩⟩
  have ht : (⟨4, 5, 6⟩ : Faces).Positive :=
    ⟨⟨by decide, by decide⟩, ⟨by decide, by decide⟩, ⟨by decide, by decide⟩⟩
  have hn : (⟨7, 8, 9⟩ : Faces).Positive :=
    ⟨⟨by decide, by decide⟩, ⟨by decide, by decide⟩, ⟨by decide, by decide⟩⟩
  have h := face_line_read_back ⟨1, 20, 300⟩ ⟨4, 5, 6⟩ ⟨7, 8, 9⟩ hf
  ⟨hf, ht, hn, h.1, h.2.1 ht, h.2.2.1 hn, h.2.2.2 ht hn⟩

/-- C2 fails.  A vertex coordinate of seven digits comes back changed: the
text holds only six significant digits of 1234567, which is read as 1234570.
And a destination name with a line feed puts the rest of the name on a line
of its own, here the face line `f 1 2 3 4.obj`, which makes the read fail. -/
theorem round_trip_fails :
    (writeObj wholeOps freshHost
        [matrixArg [[1234567, 0, 0], [1, 0, 0], [0, 1, 0]] 3, matrixArg [[1, 2, 3]] 3,
         stringArg "m.obj"]
        = WriteOutcome.written "m.obj".toList
            (sampleHead ++ "v 1.23457e+06 0 0\nv 1 0 0\nv 0 1 0\nf 1 2 3\n".toList)
      ∧ readObj wholeOps 2 (some (sampleHead ++ "v 1.23457e+06 0 0\nv 1 0 0\nv 0 1 0\nf 1 2 3\n".toList))
        = Except.ok [OctValue.coords [⟨some 1234570, some 0, some 0⟩,
            ⟨some 1, some 0, some 0⟩, ⟨some 0, some 1, some 0⟩], OctValue.faces [⟨1, 2, 3⟩]])
    ∧ (writeObj wholeOps freshHost
        [matrixArg [[0, 0, 0], [1, 0, 0], [0, 1, 0]] 3, matrixArg [[1, 2, 3]] 3,
         stringArg "a\nf 1 2 3 4.obj"]
        = WriteOutcome.written "a\nf 1 2 3 4.obj".toList
            brokenText
      ∧ readObj wholeOps 2 (some brokenText)
        = Except.error ReadError.notTriangular) :=
  ⟨⟨rfl, rfl⟩, ⟨rfl, rfl⟩⟩

/-- C2 as amended: when the destination name has no line feed, every index
written is a strictly positive `int` and every coordinate written is read
back from its text as it is (`Exact`: the value staged through `float` and
written with six significant digits is the one `%f` converts), reading the
text `writeObj` emits yields the vertices, faces, texture coordinates,
texture faces, normals and normal faces that were written, in each of the
four variants; with seven arguments the three face arrays have the same
number of rows. -/
theorem write_then_read {D : Type} (ops : NumOps D) (host : Host) (name text : Line)
    (hname : '\n' ∉ name) :
    (∀ V F nm : OctArg D,
      writeObj ops host [V, F, nm] = WriteOutcome.written name text →
      (∀ c ∈ stageCoords ops V.rows V.array_value, c.Exact ops) →
      (∀ f ∈ stageFaces ops F.rows F.array_value, f.Positive) →
      ReadsBack ops text (stageCoords ops V.rows V.array_value)
        (stageFaces ops F.rows F.array_value) [] [] [] [])
    ∧ (∀ V F VT FT nm : OctArg D,
      writeObj ops host [V, F, VT, FT, nm] = WriteOutcome.written name text →
      VT.columns = 2 →
      (∀ c ∈ stageCoords ops V.rows V.array_value, c.Exact ops) →
      (∀ c ∈ stageTCoords ops VT.rows VT.array_value, c.Exact ops) →
      (∀ f ∈ stageFaces ops F.rows F.array_value, f.Positive) →
      (∀ f ∈ stageFaces ops FT.rows FT.array_value, f.Positive) →
      ReadsBack ops text (stageCoords ops V.rows V.array_value)
        (stageFaces ops F.rows F.array_value) (stageTCoords ops VT.rows VT.array_value)
        (stageFaces ops FT.rows FT.array_value) [] [])
    ∧ (∀ V F VN FN nm : OctArg D,
      writeObj ops host [V, F, VN, FN, nm] = WriteOutcome.written name text →
      VN.columns = 3 →
      (∀ c ∈ stageCoords ops V.rows V.array_value, c.Exact ops) →
      (∀ c ∈ stageCoords ops VN.rows VN.array_value, c.Exact ops) →
      (∀ f ∈ stageFaces ops F.rows F.array_value, f.Positive) →
      (∀ f ∈ stageFaces ops FN.rows FN.array_value, f.Positive) →
      ReadsBack ops text (stageCoords ops V.rows V.array_value)
        (stageFaces ops F.rows F.array_value) [] []
        (stageCoords ops VN.rows VN.array_value) (stageFaces ops FN.rows FN.array_value))
    ∧ (∀ V F VT FT VN FN nm : OctArg D,
      writeObj ops host [V, F, VT, FT, VN, FN, nm] = WriteOutcome.written name text →
      F.rows = FT.rows → F.rows = FN.rows →
      (∀ c ∈ stageCoords ops V.rows V.array_value, c.Exact ops) →
      (∀ c ∈ stageTCoords ops VT.rows VT.array_value, c.Exact ops) →
      (∀ c ∈ stageCoords ops VN.rows VN.array_value, c.Exact ops) →
      (∀ f ∈ stageFaces ops F.rows F.array_value, f.Positive) →
      (∀ f ∈ stageFaces ops FT.rows FT.array_value, f.Positive) →
      (∀ f ∈ stageFaces ops FN.rows FN.array_value, f.Positive) →
      ReadsBack ops text (stageCoords ops V.rows V.array_value)
        (stageFaces ops F.rows F.array_value) (stageTCoords ops VT.rows VT.array_value)
        (stageFaces ops FT.rows FT.array_value)
        (stageCoords ops VN.rows VN.array_value) (stageFaces ops FN.rows FN.array_value)) :=
  ⟨fun V F nm hw hV hF => read_back3 ops host name text hname V F nm hw hV hF,
    fun V F VT FT nm hw hc hV hT hF hFT =>
      read_back5t ops host name text hname V F VT FT nm hw hc hV hT hF hFT,
    fun V F VN FN nm hw hc hV hN hF hFN =>
      read_back5n ops host name text hname V F VN FN nm hw hc hV hN hF hFN,
    fun V F VT FT VN FN nm hw hrt hrn hV hT hN hF hFT hFN =>
      read_back7 ops host name text hname V F VT FT VN FN nm hw hrt hrn hV hT hN hF hFT hFN⟩

/-- Witness of C2 as amended: three vertices, three texture coordinates, one
normal and one face with texture and normal indices, written with seven
arguments and read back. -/
theorem write_then_read_witness :
    '\n' ∉ "m.obj".toList
      ∧ writeObj wholeOps freshHost
          [matrixArg [[0, 0, 0], [1, 0, 0], [0, 1, 0]] 3, matrixArg [[1, 2, 3]] 3,
           matrixArg [[0, 0], [1, 0], [0, 1]] 2, matrixArg [[3, 2, 1]] 3,
           matrixArg [[0, 0, 1]] 3, matrixArg [[1, 1, 1]] 3, stringArg "m.obj"]
        = WriteOutcome.written "m.obj".toList
            (sampleHead ++ "v 0 0 0\nv 1 0 0\nv 0 1 0\nvt 0 0\nvt 1 0\nvt 0 1\nvn 0 0 1\nf 1/3/1 2/2/1 3/1/1\n".toList)
      ∧ ReadsBack wholeOps
          (sampleHead ++ "v 0 0 0\nv 1 0 0\nv 0 1 0\nvt 0 0\nvt 1 0\nvt 0 1\nvn 0 0 1\nf 1/3/1 2/2/1 3/1/1\n".toList)
          [⟨0, 0, 0⟩, ⟨1, 0, 0⟩, ⟨0, 1, 0⟩] [⟨1, 2, 3⟩] [⟨0, 0⟩, ⟨1, 0⟩, ⟨0, 1⟩] [⟨3, 2, 1⟩]
          [⟨0, 0, 1⟩] [⟨1, 1, 1⟩] :=
  have hname : '\n' ∉ "m.obj".toList := by decide
  ⟨hname, rfl,
    (write_then_read wholeOps freshHost "m.obj".toList _ hname).2.2.2
      (matrixArg [[0, 0, 0], [1, 0, 0], [0, 1, 0]] 3) (matrixArg [[1, 2, 3]] 3)
      (matrixArg [[0, 0], [1, 0], [0, 1]] 2) (matrixArg [[3, 2, 1]] 3)
      (matrixArg [[0, 0, 1]] 3) (matrixArg [[1, 1, 1]] 3) (stringArg "m.obj") rfl rfl rfl
      (stageCoords_exact _ _ (matrixArg_small _ _ (by decide)))
      (stageTCoords_exact _ _ (matrixArg_small _ _ (by decide)))
      (stageCoords_exact _ _ (matrixArg_small _ _ (by decide)))
      (by decide) (by decide) (by decide)⟩

/-- C3 fails: the line `f 1 2 3 4294967296` has four bare references with
strictly positive indices, and it is read as the triangle (1, 2, 3): the
conversion stores the fourth index into an `int`, where 4294967296 is 0, so
the check for four vertices does not fire. -/
theorem large_fourth_index_read :
    quadLine (VRef.bare 1) (VRef.bare 2) (VRef.bare 3) (VRef.bare 4294967296)
        = "f 1 2 3 4294967296".toList
      ∧ classifyFace "f 1 2 3 4294967296".toList = FaceScan.bare ⟨1, 2, 3⟩
      ∧ readObj wholeOps 2 (some "v 0 0 0\nf 1 2 3 4294967296\n".toList)
          = Except.ok [OctValue.coords [⟨some 0, some 0, some 0⟩], OctValue.faces [⟨1, 2, 3⟩]] :=
  ⟨by decide, by decide, rfl⟩

/-- C3 as amended: a face line of four vertex references with strictly
positive indices below 2^31, the values of an `int`, all four in the same
syntax, makes the read fail as not triangular, whatever the other lines of
the file are: the scan of the file ends with that error, so does `readObj`
for every valid number of output arguments, and for no number of output
arguments does `readObj` return a value. -/
theorem quad_line_fails {D : Type} (ops : NumOps D) (content : Line) (r1 r2 r3 r4 : VRef)
    (h2 : r2.variant = r1.variant) (h3 : r3.variant = r1.variant) (h4 : r4.variant = r1.variant)
    (p1 : r1.Positive) (p2 : r2.Positive) (p3 : r3.Positive) (p4 : r4.Positive)
    (hmem : quadLine r1 r2 r3 r4 ∈ getlines content) :
    readMesh ops (some content) = Except.error ReadError.notTriangular
      ∧ (∀ nargout : Int, 2 ≤ nargout → nargout ≤ 7 →
          readObj ops nargout (some content) = Except.error ReadError.notTriangular)
      ∧ ∀ nargout : Int, ∃ e, readObj ops nargout (some content) = Except.error e := by
  have hq := classify_quad r1 r2 r3 r4 h2 h3 h4 p1 p2 p3 p4
  have h0 : charAt (quadLine r1 r2 r3 r4) 0 = 'f' := rfl
  have h1 : charAt (quadLine r1 r2 r3 r4) 1 = ' ' := rfl
  have hl := readLines_fail D ops _ (fun st => readLine_quad D ops st _ h0 h1 hq)
    (getlines content) {} hmem
  have hm : readMesh ops (some content) = Except.error ReadError.notTriangular := by
    simp only [readMesh, hl]
  refine ⟨hm, ?_, ?_⟩
  · intro nargout hlo hhi
    have : ¬ (nargout < 2 ∨ nargout > 7) := by omega
    simp only [readObj, this, if_false, hm]
  · intro nargout
    by_cases hn : nargout < 2 ∨ nargout > 7
    · exact ⟨ReadError.invalidNargout, by simp only [readObj, hn, if_true]⟩
    · exact ⟨ReadError.notTriangular, by simp only [readObj, hn, if_false, hm]⟩

/-- Witness of C3 as amended: three vertices, the triangle `f 1/1 2/2 3/3` and the quad
`f 1/1 2/2 3/3 4/4` after it. -/
theorem quad_line_fails_witness :
    quadLine (VRef.tex 1 1) (VRef.tex 2 2) (VRef.tex 3 3) (VRef.tex 4 4)
        ∈ getlines "v 0 0 0\nv 1 0 0\nv 0 1 0\nf 1/1 2/2 3/3\nf 1/1 2/2 3/3 4/4\n".toList
      ∧ readObj wholeOps 6 (some "v 0 0 0\nv 1 0 0\nv 0 1 0\nf 1/1 2/2 3/3\nf 1/1 2/2 3/3 4/4\n".toList)
          = Except.error ReadError.notTriangular :=
  have hmem : quadLine (VRef.tex 1 1) (VRef.tex 2 2) (VRef.tex 3 3) (VRef.tex 4 4)
      ∈ getlines "v 0 0 0\nv 1 0 0\nv 0 1 0\nf 1/1 2/2 3/3\nf 1/1 2/2 3/3 4/4\n".toList := by decide
  have hp : ∀ i : Int, 0 < i → i < 5 → IsIndex i := fun i h0 h5 =>
    ⟨h0, lt_trans h5 (by decide)⟩
  ⟨hmem, (quad_line_fails wholeOps _ (VRef.tex 1 1) (VRef.tex 2 2) (VRef.tex 3 3) (VRef.tex 4 4)
    rfl rfl rfl ⟨hp 1 (by decide) (by decide), hp 1 (by decide) (by decide)⟩
    ⟨hp 2 (by decide) (by decide), hp 2 (by decide) (by decide)⟩
    ⟨hp 3 (by decide) (by decide), hp 3 (by decide) (by decide)⟩
    ⟨hp 4 (by decide) (by decide), hp 4 (by decide) (by decide)⟩ hmem).2.1 6 (by decide) (by decide)⟩

/-- C4: on a line where no quad check fires, the result of the classifier is
the variant and the indices of the first pattern, in the order bare, `v/vt`,
`v/vt/vn`, `v//vn`, whose fields are all present and strictly positive
(`firstMatch`, written after the specification); the patterns after it have
no part in the result. -/
theorem classify_is_first_match (line : Line) (r : FaceScan)
    (hq : quadScans line ≠ none) (hm : firstMatch line = some r) :
    classifyFace line = r := by
  cases hs : quadScans line with
  | none => exact absurd hs hq
  | some s => exact classify_first_match line s r hs hm

/-- Witness of C4: `f 1 2 3/4` fully matches the bare pattern first, and
`f 1/4 2/5 3/6/9` the pattern `v/vt`. -/
theorem classify_is_first_match_witness :
    quadScans "f 1 2 3/4".toList ≠ none
      ∧ firstMatch "f 1 2 3/4".toList = some (FaceScan.bare ⟨1, 2, 3⟩)
      ∧ classifyFace "f 1 2 3/4".toList = FaceScan.bare ⟨1, 2, 3⟩
      ∧ classifyFace "f 1/4 2/5 3/6/9".toList = FaceScan.tex ⟨1, 2, 3⟩ ⟨4, 5, 6⟩ :=
  ⟨by decide, by decide,
    classify_is_first_match "f 1 2 3/4".toList _ (by decide) (by decide),
    classify_is_first_match "f 1/4 2/5 3/6/9".toList _ (by decide) (by decide)⟩

/-- C5 (the code differs): on the line `f 1/0/1 2/0/2 3/0/3` no pattern has
all its fields present and strictly positive, and yet the classifier accepts
it as a face with normals: the scan for `v//vn` stops after the first vertex
and its test passes on the values the scan for `v/vt/vn` left in the
variables.  The read of a file with that line succeeds. -/
theorem unmatched_line_accepted :
    firstMatch "f 1/0/1 2/0/2 3/0/3".toList = none
      ∧ classifyFace "f 1/0/1 2/0/2 3/0/3".toList = FaceScan.norm ⟨1, 2, 3⟩ ⟨1, 2, 3⟩
      ∧ readObj wholeOps 6 (some "v 0 0 0\nv 1 0 0\nv 0 1 0\nvn 0 0 1\nf 1/0/1 2/0/2 3/0/3\n".toList)
          = Except.ok [
              OctValue.coords [⟨some 0, some 0, some 0⟩, ⟨some 1, some 0, some 0⟩,
                ⟨some 0, some 1, some 0⟩],
              OctValue.faces [⟨1, 2, 3⟩],
              OctValue.tcoords [],
              OctValue.faces [],
              OctValue.coords [⟨some 0, some 0, some 1⟩],
              OctValue.faces [⟨1, 2, 3⟩]] :=
  ⟨by decide, by decide, rfl⟩

/-- C6: on every input on which `readObj` succeeds, every index of the
faces, of the texture faces and of the normal faces is at least 1: in every
array of faces returned, and in the three arrays built from the file. -/
theorem stored_indices_at_least_one {D : Type} (ops : NumOps D) (nargout : Int)
    (file : Option Line) (outs : List (OctValue D))
    (h : readObj ops nargout file = Except.ok outs) :
    (∀ rows, OctValue.faces rows ∈ outs → ∀ f ∈ rows, 1 ≤ f.a ∧ 1 ≤ f.b ∧ 1 ≤ f.c)
      ∧ ∀ m, readMesh ops file = Except.ok m →
          (∀ f ∈ m.F, 1 ≤ f.a ∧ 1 ≤ f.b ∧ 1 ≤ f.c)
            ∧ (∀ f ∈ m.FT, 1 ≤ f.a ∧ 1 ≤ f.b ∧ 1 ≤ f.c)
            ∧ (∀ f ∈ m.FN, 1 ≤ f.a ∧ 1 ≤ f.b ∧ 1 ≤ f.c) := by
  have key : ∀ f : Faces, f.Positive → 1 ≤ f.a ∧ 1 ≤ f.b ∧ 1 ≤ f.c := by
    intro f hf
    obtain ⟨⟨a, -⟩, ⟨b, -⟩, ⟨c, -⟩⟩ := hf
    exact ⟨a, b, c⟩
  constructor
  · obtain ⟨-, m, hm, ho⟩ := readObj_ok ops nargout file outs h
    obtain ⟨p1, p2, p3⟩ := readMesh_positive ops file m hm
    intro rows hr f hf
    rw [ho] at hr
    rcases retval_faces nargout m rows hr with e | e | e <;> subst e
    · exact key f (p1 f hf)
    · exact key f (p2 f hf)
    · exact key f (p3 f hf)
  · intro m hm
    obtain ⟨p1, p2, p3⟩ := readMesh_positive ops file m hm
    exact ⟨fun f hf => key f (p1 f hf), fun f hf => key f (p2 f hf), fun f hf => key f (p3 f hf)⟩

/-- Witness of C6: one vertex, one texture coordinate, one normal and the
face `f 2/1/1 1/1/1 3/1/1`. -/
theorem stored_indices_at_least_one_witness :
    readObj wholeOps 6 (some "v 0 0 0\nvt 0 0\nvn 0 0 1\nf 2/1/1 1/1/1 3/1/1\n".toList)
        = Except.ok [OctValue.coords [⟨some 0, some 0, some 0⟩], OctValue.faces [⟨2, 1, 3⟩],
            OctValue.tcoords [⟨some 0, some 0⟩], OctValue.faces [⟨1, 1, 1⟩],
            OctValue.coords [⟨some 0, some 0, some 1⟩], OctValue.faces [⟨1, 1, 1⟩]]
      ∧ ∀ rows, OctValue.faces rows ∈ ([OctValue.coords [⟨some 0, some 0, some 0⟩],
            OctValue.faces [⟨2, 1, 3⟩], OctValue.tcoords [⟨some 0, some 0⟩],
            OctValue.faces [⟨1, 1, 1⟩], OctValue.coords [⟨some 0, some 0, some 1⟩],
            OctValue.faces [⟨1, 1, 1⟩]] : List (OctValue Int)) →
          ∀ f ∈ rows, 1 ≤ f.a ∧ 1 ≤ f.b ∧ 1 ≤ f.c :=
  ⟨rfl, (stored_indices_at_least_one wholeOps 6
    (some "v 0 0 0\nvt 0 0\nvn 0 0 1\nf 2/1/1 1/1/1 3/1/1\n".toList) _ rfl).1⟩

/-- C7 fails: the read of one vertex and the face `f 5 6 7` succeeds, and the
face indices are beyond the one vertex read. -/
theorem index_beyond_vertices :
    ∃ m, readMesh wholeOps (some "v 0 0 0\nf 5 6 7\n".toList) = Except.ok m
      ∧ m.V.length = 1 ∧ m.F = [⟨5, 6, 7⟩] ∧ ¬ IndexValid m :=
  ⟨_, rfl, rfl, rfl, fun h => absurd (h.1 ⟨5, 6, 7⟩ (List.mem_singleton.mpr rfl)).1.2 (by decide)⟩

/-- C7 as amended: on every input on which `readObj` succeeds, every index
of the faces, of the texture faces and of the normal faces lies between 1 and
the largest `int`, 2147483647; it is not compared with the number of
vertices, texture coordinates or normals read. -/
theorem stored_indices_int_range {D : Type} (ops : NumOps D) (nargout : Int)
    (file : Option Line) (outs : List (OctValue D))
    (h : readObj ops nargout file = Except.ok outs) :
    ∃ m, readMesh ops file = Except.ok m ∧ outs = retval nargout m
      ∧ ∀ f, f ∈ m.F ∨ f ∈ m.FT ∨ f ∈ m.FN →
        (1 ≤ f.a ∧ f.a ≤ 2147483647) ∧ (1 ≤ f.b ∧ f.b ≤ 2147483647)
          ∧ (1 ≤ f.c ∧ f.c ≤ 2147483647) := by
  obtain ⟨-, m, hm, ho⟩ := readObj_ok ops nargout file outs h
  refine ⟨m, hm, ho, ?_⟩
  intro f hf
  obtain ⟨p1, p2, p3⟩ := readMesh_positive ops file m hm
  have hp : f.Positive := by
    rcases hf with hf | hf | hf
    · exact p1 f hf
    · exact p2 f hf
    · exact p3 f hf
  obtain ⟨⟨a1, a2⟩, ⟨b1, b2⟩, ⟨c1, c2⟩⟩ := hp
  refine ⟨⟨a1, ?_⟩, ⟨b1, ?_⟩, ⟨c1, ?_⟩⟩ <;> omega

/-- Witness of C7 as amended: one vertex and the face `f 5 6 7`. -/
theorem stored_indices_int_range_witness :
    readObj wholeOps 2 (some "v 0 0 0\nf 5 6 7\n".toList)
        = Except.ok [OctValue.coords [⟨some 0, some 0, some 0⟩], OctValue.faces [⟨5, 6, 7⟩]]
      ∧ ∃ m, readMesh wholeOps (some "v 0 0 0\nf 5 6 7\n".toList) = Except.ok m
          ∧ [OctValue.coords [⟨some 0, some 0, some 0⟩], OctValue.faces [⟨5, 6, 7⟩]] = retval 2 m
          ∧ ∀ f, f ∈ m.F ∨ f ∈ m.FT ∨ f ∈ m.FN →
            (1 ≤ f.a ∧ f.a ≤ 2147483647) ∧ (1 ≤ f.b ∧ f.b ≤ 2147483647)
              ∧ (1 ≤ f.c ∧ f.c ≤ 2147483647) :=
  ⟨rfl, stored_indices_int_range wholeOps 2 (some "v 0 0 0\nf 5 6 7\n".toList) _ rfl⟩

/-- C8 fails: the read of a vertex, a texture coordinate and the bare face
`f 1 2 3` succeeds with one texture coordinate, one face and no texture face. -/
theorem texture_without_texture_faces :
    ∃ m, readMesh wholeOps (some "v 0 0 0\nvt 0 0\nf 1 2 3\n".toList) = Except.ok m
      ∧ m.VT.length = 1 ∧ m.F.length = 1 ∧ m.FT.length = 0 ∧ ¬ CountsAligned m :=
  ⟨_, rfl, rfl, rfl, rfl, fun h => absurd (h.1 (by decide)) (by decide)⟩

/-- C8 as amended: on every input on which `readObj` succeeds, the faces are
as many as the lines that begin with `f` and a blank, the texture faces as
many as those of them classified with a texture part, the normal faces as
many as those classified with a normal part; so neither number exceeds the
number of faces, and neither depends on the texture coordinates or normals
read. -/
theorem face_array_lengths {D : Type} (ops : NumOps D) (nargout : Int)
    (content : Line) (outs : List (OctValue D))
    (h : readObj ops nargout (some content) = Except.ok outs) :
    ∃ m, readMesh ops (some content) = Except.ok m ∧ outs = retval nargout m
      ∧ m.F.length = (getlines content).countP isFaceLine
      ∧ m.FT.length
          = (getlines content).countP (fun l => isFaceLine l && (classifyFace l).hasTex)
      ∧ m.FN.length
          = (getlines content).countP (fun l => isFaceLine l && (classifyFace l).hasNorm)
      ∧ m.FT.length ≤ m.F.length ∧ m.FN.length ≤ m.F.length := by
  obtain ⟨-, m, hm, ho⟩ := readObj_ok ops nargout (some content) outs h
  refine ⟨m, hm, ho, ?_⟩
  obtain ⟨c, st, hc, -, g, -, -, hmm⟩ := readMesh_ok ops (some content) m hm
  cases hc
  obtain ⟨-, -, -, ⟨a7, -⟩, ⟨a9, -⟩, ⟨a11, -⟩, -, -, -⟩ := g
  simp only [List.length_nil, Nat.zero_add] at a7 a9 a11
  subst hmm
  simp only
  refine ⟨a7, a9, a11, ?_, ?_⟩
  · rw [a7, a9]
    exact List.countP_mono_left (fun l _ hl => by
      simp only [Bool.and_eq_true] at hl; exact hl.1)
  · rw [a7, a11]
    exact List.countP_mono_left (fun l _ hl => by
      simp only [Bool.and_eq_true] at hl; exact hl.1)

/-- Witness of C8 as amended: two faces, the first one with a texture part. -/
theorem face_array_lengths_witness :
    readObj wholeOps 2 (some "v 0 0 0\nvt 0 0\nf 1/1 1/1 1/1\nf 1 1 1\n".toList)
        = Except.ok [OctValue.coords [⟨some 0, some 0, some 0⟩],
            OctValue.faces [⟨1, 1, 1⟩, ⟨1, 1, 1⟩]]
      ∧ ∃ m, readMesh wholeOps (some "v 0 0 0\nvt 0 0\nf 1/1 1/1 1/1\nf 1 1 1\n".toList)
          = Except.ok m ∧ m.F.length = 2 ∧ m.FT.length = 1 ∧ m.FN.length = 0 :=
  ⟨rfl,
    have h := face_array_lengths wholeOps 2
      "v 0 0 0\nvt 0 0\nf 1/1 1/1 1/1\nf 1 1 1\n".toList _ rfl
    h.elim fun m hm =>
      ⟨m, hm.1, hm.2.2.1.trans (by decide), hm.2.2.2.1.trans (by decide),
        hm.2.2.2.2.1.trans (by decide)⟩⟩

/-- C9 fails: the read of one vertex and the face `f 1 1 1` succeeds with a
single vertex. -/
theorem single_vertex_accepted :
    ∃ m, readMesh wholeOps (some "v 0 0 0\nf 1 1 1\n".toList) = Except.ok m
      ∧ m.V.length = 1 ∧ ¬ (3 ≤ m.V.length ∧ 1 ≤ m.F.length) :=
  ⟨_, rfl, rfl, fun h => absurd h.1 (by decide)⟩

/-- C9 as amended: on every input on which `readObj` succeeds, the mesh has
at least 1 vertex and at least 1 face: the vertices are as many as the lines
that begin with `v` and a blank, and at least one; so for the faces. -/
theorem at_least_one_vertex_and_face {D : Type} (ops : NumOps D) (nargout : Int)
    (content : Line) (outs : List (OctValue D))
    (h : readObj ops nargout (some content) = Except.ok outs) :
    ∃ m, readMesh ops (some content) = Except.ok m ∧ outs = retval nargout m
      ∧ 1 ≤ m.V.length ∧ 1 ≤ m.F.length
      ∧ m.V.length = (getlines content).countP isVertexLine
      ∧ m.F.length = (getlines content).countP isFaceLine := by
  obtain ⟨-, m, hm, ho⟩ := readObj_ok ops nargout (some content) outs h
  refine ⟨m, hm, ho, ?_⟩
  obtain ⟨c, st, hc, -, g, hv, hf, hmm⟩ := readMesh_ok ops (some content) m hm
  cases hc
  obtain ⟨⟨a1, -⟩, -, -, ⟨a7, -⟩, -, -, -, -, -⟩ := g
  simp only [List.length_nil, Nat.zero_add] at a1 a7
  subst hmm
  exact ⟨hv, hf, a1, a7⟩

/-- Witness of C9 as amended: one vertex and one face. -/
theorem at_least_one_vertex_and_face_witness :
    readObj wholeOps 2 (some "v 0 0 0\nf 1 1 1\n".toList)
        = Except.ok [OctValue.coords [⟨some 0, some 0, some 0⟩], OctValue.faces [⟨1, 1, 1⟩]]
      ∧ ∃ m, readMesh wholeOps (some "v 0 0 0\nf 1 1 1\n".toList) = Except.ok m
          ∧ 1 ≤ m.V.length ∧ 1 ≤ m.F.length :=
  ⟨rfl,
    have h := at_least_one_vertex_and_face wholeOps 2 "v 0 0 0\nf 1 1 1\n".toList _ rfl
    h.elim fun m hm => ⟨m, hm.1, hm.2.2.1, hm.2.2.2.1⟩⟩

/-- C10 (the code differs): with one face, two texture faces and one normal
face the call of seven arguments is not rejected: the test of the three
lengths joins its two comparisons with `&&`, so it fails only when the number
of faces differs from both others.  The file is written with one face line. -/
theorem unequal_texture_faces_written :
    writeObj wholeOps freshHost
      [matrixArg [[0, 0, 0], [1, 0, 0], [0, 1, 0]] 3, matrixArg [[1, 2, 3]] 3,
       matrixArg [[0, 0], [1, 0], [0, 1]] 2, matrixArg [[1, 2, 3], [3, 2, 1]] 3,
       matrixArg [[0, 0, 1]] 3, matrixArg [[1, 1, 1]] 3, stringArg "m.obj"]
      = WriteOutcome.written "m.obj".toList
          (sampleHead ++ "v 0 0 0\nv 1 0 0\nv 0 1 0\nvt 0 0\nvt 1 0\nvt 0 1\nvn 0 0 1\nf 1/1/1 2/2/1 3/3/1\n".toList) := by
  rfl

/-- C11: with five arguments, the third one of two columns (texture) or of
three columns (normals), a number of faces that differs from the number of
rows of the fourth argument makes `writeObj` end in a rejection, whatever the
surroundings are: no file is looked for, asked about or opened, and nothing is
written.  When the tests before it pass, the rejection is that of the two
numbers of faces. -/
theorem face_count_mismatch_rejected {D : Type} (ops : NumOps D) (host : Host)
    (V F A FA nm : OctArg D) (hcol : A.columns = 2 ∨ A.columns = 3) (hne : F.rows ≠ FA.rows) :
    (∃ e, writeObj ops host [V, F, A, FA, nm] = WriteOutcome.rejected e)
      ∧ (ChecksBeforeCount V F A FA nm → A.columns = 2 →
          writeObj ops host [V, F, A, FA, nm] = WriteOutcome.rejected WriteError.textureFaceCount)
      ∧ (ChecksBeforeCount V F A FA nm → A.columns = 3 →
          writeObj ops host [V, F, A, FA, nm] = WriteOutcome.rejected WriteError.faceNormalCount) := by
  have ht := write5t_count ops host V F A FA nm hne
  have hn := write5n_count ops host V F A FA nm hne
  rcases writeObj_five_cases ops host V F A FA nm with hr | ⟨-, -, -, -, -, hw⟩
  · refine ⟨hr, ?_, ?_⟩
    · rintro ⟨m0, m1, m2, m3, s4, r1, r2, r3, r4, r5⟩ h2
      simp only [writeObj, m0, m1, m2, m3, s4, h2, Bool.not_true, Bool.or_self, if_true,
        Bool.false_eq_true, if_false]
      exact ht.2 r1 r2 r3 r4 r5
    · rintro ⟨m0, m1, m2, m3, s4, r1, r2, r3, r4, r5⟩ h3
      simp only [writeObj, m0, m1, m2, m3, s4, h3, Bool.not_true, Bool.or_self, if_true,
        Bool.false_eq_true, if_false]
      exact hn.2 r1 r2 r3 r4 r5
  · rw [hw]
    rcases hcol with h2 | h3
    · rw [if_pos h2]
      exact ⟨ht.1, fun c _ => ht.2 c.2.2.2.2.2.1 c.2.2.2.2.2.2.1 c.2.2.2.2.2.2.2.1
        c.2.2.2.2.2.2.2.2.1 c.2.2.2.2.2.2.2.2.2, fun _ h3 => by omega⟩
    · have h2 : ¬ A.columns = 2 := by omega
      rw [if_neg h2, if_pos h3]
      exact ⟨hn.1, fun _ h => absurd h h2, fun c _ => hn.2 c.2.2.2.2.2.1 c.2.2.2.2.2.2.1
        c.2.2.2.2.2.2.2.1 c.2.2.2.2.2.2.2.2.1 c.2.2.2.2.2.2.2.2.2⟩

/-- Witness of C11: two faces with one texture face, and two faces with
three normal faces. -/
theorem face_count_mismatch_rejected_witness :
    writeObj wholeOps freshHost
        [matrixArg [[0, 0, 0], [1, 0, 0], [0, 1, 0]] 3, matrixArg [[1, 2, 3], [3, 2, 1]] 3,
         matrixArg [[0, 0], [1, 0], [0, 1]] 2, matrixArg [[1, 2, 3]] 3, stringArg "m.obj"]
        = WriteOutcome.rejected WriteError.textureFaceCount
      ∧ writeObj wholeOps freshHost
        [matrixArg [[0, 0, 0], [1, 0, 0], [0, 1, 0]] 3, matrixArg [[1, 2, 3], [3, 2, 1]] 3,
         matrixArg [[0, 0, 1]] 3, matrixArg [[1, 1, 1], [1, 1, 1], [1, 1, 1]] 3, stringArg "m.obj"]
        = WriteOutcome.rejected WriteError.faceNormalCount :=
  ⟨(face_count_mismatch_rejected wholeOps freshHost _ _ _ _ _ (Or.inl rfl) (by decide)).2.1
      ⟨rfl, rfl, rfl, rfl, rfl, by decide, rfl, by decide, rfl, rfl⟩ rfl,
    (face_count_mismatch_rejected wholeOps freshHost _ _ _ _ _ (Or.inr rfl) (by decide)).2.2
      ⟨rfl, rfl, rfl, rfl, rfl, by decide, rfl, by decide, rfl, rfl⟩ rfl⟩

/-- C12: the syntax of the face lines follows from the arrays given.  The
text `writeObj` writes is the head of the file and the lines of the vertices,
texture coordinates and normals, and after them one line for each face the
loop over the faces goes through: a line `f v v v` with three arguments, a
line `f v/vt v/vt v/vt` with five arguments and a third one of two columns, a
line `f v//vn v//vn v//vn` with five arguments and a third one of three
columns, a line `f v/vt/vn v/vt/vn v/vt/vn` with seven arguments.  And each
of the four calls does write that text when its arguments pass the checks
and the file is opened: one face line for each face, in the syntax of the
call. -/
theorem face_syntax_by_arguments {D : Type} (ops : NumOps D) (host : Host) (name text : Line) :
    (∀ V F nm : OctArg D,
      writeObj ops host [V, F, nm] = WriteOutcome.written name text →
      ∃ filename mtlname flines,
        text = textBeforeFaces ops filename mtlname V.rows F.rows
            (stageCoords ops V.rows V.array_value) [] [] ++ putLines flines
          ∧ flines = (stageFaces ops F.rows F.array_value).map faceLineBare
          ∧ ∀ l ∈ flines, IsFaceLineOf Variant.bare l)
    ∧ (∀ V F VT FT nm : OctArg D,
      writeObj ops host [V, F, VT, FT, nm] = WriteOutcome.written name text →
      VT.columns = 2 →
      ∃ filename mtlname flines,
        text = textBeforeFaces ops filename mtlname V.rows F.rows
            (stageCoords ops V.rows V.array_value) (stageTCoords ops VT.rows VT.array_value) []
            ++ putLines flines
          ∧ flines = ((stageFaces ops F.rows F.array_value).zip
              (stageFaces ops FT.rows FT.array_value)).map (fun p => faceLineTex p.1 p.2)
          ∧ ∀ l ∈ flines, IsFaceLineOf Variant.tex l)
    ∧ (∀ V F VN FN nm : OctArg D,
      writeObj ops host [V, F, VN, FN, nm] = WriteOutcome.written name text →
      VN.columns = 3 →
      ∃ filename mtlname flines,
        text = textBeforeFaces ops filename mtlname V.rows F.rows
            (stageCoords ops V.rows V.array_value) [] (stageCoords ops VN.rows VN.array_value)
            ++ putLines flines
          ∧ flines = ((stageFaces ops F.rows F.array_value).zip
              (stageFaces ops FN.rows FN.array_value)).map (fun p => faceLineNorm p.1 p.2)
          ∧ ∀ l ∈ flines, IsFaceLineOf Variant.norm l)
    ∧ (∀ V F VT FT VN FN nm : OctArg D,
      writeObj ops host [V, F, VT, FT, VN, FN, nm] = WriteOutcome.written name text →
      ∃ filename mtlname flines,
        text = textBeforeFaces ops filename mtlname V.rows F.rows
            (stageCoords ops V.rows V.array_value) (stageTCoords ops VT.rows VT.array_value)
            (stageCoords ops VN.rows VN.array_value) ++ putLines flines
          ∧ flines = ((stageFaces ops F.rows F.array_value).zip
              ((stageFaces ops FT.rows FT.array_value).zip
                (stageFaces ops FN.rows FN.array_value))).map
              (fun p => faceLineTexNorm p.1 p.2.1 p.2.2)
          ∧ ∀ l ∈ flines, IsFaceLineOf Variant.texNorm l)
    ∧ (∀ (V F nm : OctArg D) (filename : Line),
      Accepted [V, F, nm] → Opens host nm.string_value filename →
      writeObj ops host [V, F, nm]
        = WriteOutcome.written (cstr filename)
            (textBeforeFaces ops filename (derivedName filename) V.rows F.rows
                (stageCoords ops V.rows V.array_value) [] []
              ++ putLines ((stageFaces ops F.rows F.array_value).map faceLineBare)))
    ∧ (∀ (V F VT FT nm : OctArg D) (filename : Line),
      Accepted [V, F, VT, FT, nm] → VT.columns = 2 → Opens host nm.string_value filename →
      writeObj ops host [V, F, VT, FT, nm]
        = WriteOutcome.written (cstr filename)
            (textBeforeFaces ops filename (derivedName filename) V.rows F.rows
                (stageCoords ops V.rows V.array_value)
                (stageTCoords ops VT.rows VT.array_value) []
              ++ putLines (((stageFaces ops F.rows F.array_value).zip
                  (stageFaces ops FT.rows FT.array_value)).map fun p => faceLineTex p.1 p.2)))
    ∧ (∀ (V F VN FN nm : OctArg D) (filename : Line),
      Accepted [V, F, VN, FN, nm] → VN.columns = 3 → Opens host nm.string_value filename →
      writeObj ops host [V, F, VN, FN, nm]
        = WriteOutcome.written (cstr filename)
            (textBeforeFaces ops filename (derivedName filename) V.rows F.rows
                (stageCoords ops V.rows V.array_value) []
                (stageCoords ops VN.rows VN.array_value)
              ++ putLines (((stageFaces ops F.rows F.array_value).zip
                  (stageFaces ops FN.rows FN.array_value)).map fun p => faceLineNorm p.1 p.2)))
    ∧ (∀ (V F VT FT VN FN nm : OctArg D) (filename : Line),
      Accepted [V, F, VT, FT, VN, FN, nm] → Opens host nm.string_value filename →
      writeObj ops host [V, F, VT, FT, VN, FN, nm]
        = WriteOutcome.written (cstr filename)
            (textBeforeFaces ops filename (derivedName filename) V.rows F.rows
                (stageCoords ops V.rows V.array_value)
                (stageTCoords ops VT.rows VT.array_value)
                (stageCoords ops VN.rows VN.array_value)
              ++ putLines (((stageFaces ops F.rows F.array_value).zip
                  ((stageFaces ops FT.rows FT.array_value).zip
                    (stageFaces ops FN.rows FN.array_value))).map
                  fun p => faceLineTexNorm p.1 p.2.1 p.2.2))) := by
  refine ⟨?_, ?_, ?_, ?_,
    fun V F nm filename ha ho => write3_writes ops host V F nm filename ha ho,
    fun V F VT FT nm filename ha hc ho => write5t_writes ops host V F VT FT nm filename ha hc ho,
    fun V F VN FN nm filename ha hc ho => write5n_writes ops host V F VN FN nm filename ha hc ho,
    fun V F VT FT VN FN nm filename ha ho =>
      write7_writes ops host V F VT FT VN FN nm filename ha ho⟩
  · intro V F nm hw
    obtain ⟨filename, mtlname, -, -, ht⟩ := written3_text ops host V F nm name text hw
    refine ⟨filename, mtlname, _, ht, rfl, ?_⟩
    intro l hl
    obtain ⟨f, -, e⟩ := List.mem_map.mp hl
    subst e; exact faceLineBare_syntax f
  · intro V F VT FT nm hw hcol
    obtain ⟨filename, mtlname, -, -, -, ht⟩ := written5t_text ops host V F VT FT nm name text hw hcol
    refine ⟨filename, mtlname, _, ht, rfl, ?_⟩
    intro l hl
    obtain ⟨p, -, e⟩ := List.mem_map.mp hl
    subst e; exact faceLineTex_syntax p.1 p.2
  · intro V F VN FN nm hw hcol
    obtain ⟨filename, mtlname, -, -, -, ht⟩ := written5n_text ops host V F VN FN nm name text hw hcol
    refine ⟨filename, mtlname, _, ht, rfl, ?_⟩
    intro l hl
    obtain ⟨p, -, e⟩ := List.mem_map.mp hl
    subst e; exact faceLineNorm_syntax p.1 p.2
  · intro V F VT FT VN FN nm hw
    obtain ⟨filename, mtlname, -, -, -, -, ht⟩ :=
      written7_text ops host V F VT FT VN FN nm name text hw
    refine ⟨filename, mtlname, _, ht, rfl, ?_⟩
    intro l hl
    obtain ⟨p, -, e⟩ := List.mem_map.mp hl
    subst e; exact faceLineTexNorm_syntax p.1 p.2.1 p.2.2

/-- Witness of C12: the triangle of the specification written by each of the
four calls, with the face line `f 1 2 3`, `f 1/1 2/2 3/3`, `f 1//1 2//1 3//1`
and `f 1/1/1 2/2/1 3/3/1`. -/
theorem face_syntax_by_arguments_witness :
    writeObj wholeOps freshHost
        [matrixArg [[0, 0, 0], [1, 0, 0], [0, 1, 0]] 3, matrixArg [[1, 2, 3]] 3, stringArg "m.obj"]
        = WriteOutcome.written "m.obj".toList
            (sampleHead ++ "v 0 0 0\nv 1 0 0\nv 0 1 0\nf 1 2 3\n".toList)
      ∧ writeObj wholeOps freshHost
        [matrixArg [[0, 0, 0], [1, 0, 0], [0, 1, 0]] 3, matrixArg [[1, 2, 3]] 3,
         matrixArg [[0, 0], [1, 0], [0, 1]] 2, matrixArg [[1, 2, 3]] 3, stringArg "m.obj"]
        = WriteOutcome.written "m.obj".toList
            (sampleHead ++ "v 0 0 0\nv 1 0 0\nv 0 1 0\nvt 0 0\nvt 1 0\nvt 0 1\nf 1/1 2/2 3/3\n".toList)
      ∧ writeObj wholeOps freshHost
        [matrixArg [[0, 0, 0], [1, 0, 0], [0, 1, 0]] 3, matrixArg [[1, 2, 3]] 3,
         matrixArg [[0, 0, 1]] 3, matrixArg [[1, 1, 1]] 3, stringArg "m.obj"]
        = WriteOutcome.written "m.obj".toList
            (sampleHead ++ "v 0 0 0\nv 1 0 0\nv 0 1 0\nvn 0 0 1\nf 1//1 2//1 3//1\n".toList)
      ∧ writeObj wholeOps freshHost
        [matrixArg [[0, 0, 0], [1, 0, 0], [0, 1, 0]] 3, matrixArg [[1, 2, 3]] 3,
         matrixArg [[0, 0], [1, 0], [0, 1]] 2, matrixArg [[1, 2, 3]] 3,
         matrixArg [[0, 0, 1]] 3, matrixArg [[1, 1, 1]] 3, stringArg "m.obj"]
        = WriteOutcome.written "m.obj".toList
            (sampleHead ++ "v 0 0 0\nv 1 0 0\nv 0 1 0\nvt 0 0\nvt 1 0\nvt 0 1\nvn 0 0 1\nf 1/1/1 2/2/1 3/3/1\n".toList)
      ∧ IsFaceLineOf Variant.tex "f 1/1 2/2 3/3".toList :=
  have ho : Opens freshHost (stringArg "m.obj").string_value "m.obj".toList :=
    ⟨rfl, rfl, by decide, by decide⟩
  have h := face_syntax_by_arguments wholeOps freshHost "m.obj".toList
      (sampleHead ++ "v 0 0 0\nv 1 0 0\nv 0 1 0\nvt 0 0\nvt 1 0\nvt 0 1\nf 1/1 2/2 3/3\n".toList)
  have h5 := h.2.1
    (matrixArg [[0, 0, 0], [1, 0, 0], [0, 1, 0]] 3) (matrixArg [[1, 2, 3]] 3)
    (matrixArg [[0, 0], [1, 0], [0, 1]] 2) (matrixArg [[1, 2, 3]] 3) (stringArg "m.obj") rfl rfl
  ⟨h.2.2.2.2.1 (matrixArg [[0, 0, 0], [1, 0, 0], [0, 1, 0]] 3) (matrixArg [[1, 2, 3]] 3)
      (stringArg "m.obj") "m.obj".toList ⟨rfl, rfl, rfl, by decide, rfl, by decide, rfl⟩ ho,
    h.2.2.2.2.2.1 (matrixArg [[0, 0, 0], [1, 0, 0], [0, 1, 0]] 3) (matrixArg [[1, 2, 3]] 3)
      (matrixArg [[0, 0], [1, 0], [0, 1]] 2) (matrixArg [[1, 2, 3]] 3) (stringArg "m.obj")
      "m.obj".toList
      ⟨rfl, rfl, rfl, rfl, rfl, by decide, rfl, by decide, rfl, Or.inl rfl, rfl, rfl⟩ rfl ho,
    h.2.2.2.2.2.2.1 (matrixArg [[0, 0, 0], [1, 0, 0], [0, 1, 0]] 3) (matrixArg [[1, 2, 3]] 3)
      (matrixArg [[0, 0, 1]] 3) (matrixArg [[1, 1, 1]] 3) (stringArg "m.obj")
      "m.obj".toList
      ⟨rfl, rfl, rfl, rfl, rfl, by decide, rfl, by decide, rfl, Or.inr rfl, rfl, rfl⟩ rfl ho,
    h.2.2.2.2.2.2.2 (matrixArg [[0, 0, 0], [1, 0, 0], [0, 1, 0]] 3) (matrixArg [[1, 2, 3]] 3)
      (matrixArg [[0, 0], [1, 0], [0, 1]] 2) (matrixArg [[1, 2, 3]] 3)
      (matrixArg [[0, 0, 1]] 3) (matrixArg [[1, 1, 1]] 3) (stringArg "m.obj") "m.obj".toList
      ⟨rfl, rfl, rfl, rfl, rfl, rfl, rfl, by decide, rfl, by decide, rfl, rfl, rfl, rfl, rfl,
        rfl, rfl⟩ ho,
    h5.elim fun _ h => h.elim fun _ h => h.elim fun _ h =>
      h.2.2 _ (h.2.1 ▸ List.mem_singleton.mpr rfl)⟩

/-- C13 (the code differs): with five arguments and a third one of four
columns no shape check answers.  Neither variant of five arguments is
entered, and the source goes on to the tests for seven arguments, where it
reads a sixth argument the call does not have; had the destination name not
been of matrix type, the call would have ended there on the test of the
argument types.  With seven arguments the same array of four columns is
rejected by the check of the texture coordinates. -/
theorem five_arguments_other_columns :
    writeObj wholeOps freshHost
        [matrixArg [[0, 0, 0], [1, 0, 0], [0, 1, 0]] 3, matrixArg [[1, 2, 3]] 3,
         matrixArg [[0, 0, 0, 0], [1, 0, 0, 0], [0, 1, 0, 0]] 4, matrixArg [[1, 2, 3]] 3,
         stringArg "m.obj"]
        = WriteOutcome.undefined
      ∧ writeObj wholeOps freshHost
        [matrixArg [[0, 0, 0], [1, 0, 0], [0, 1, 0]] 3, matrixArg [[1, 2, 3]] 3,
         matrixArg [[0, 0, 0, 0], [1, 0, 0, 0], [0, 1, 0, 0]] 4, matrixArg [[1, 2, 3]] 3,
         { stringArg "m.obj" with is_matrix_type := false }]
        = WriteOutcome.rejected WriteError.firstSixNotMatrices
      ∧ writeObj wholeOps freshHost
        [matrixArg [[0, 0, 0], [1, 0, 0], [0, 1, 0]] 3, matrixArg [[1, 2, 3]] 3,
         matrixArg [[0, 0, 0, 0], [1, 0, 0, 0], [0, 1, 0, 0]] 4, matrixArg [[1, 2, 3]] 3,
         matrixArg [[0, 0, 1]] 3, matrixArg [[1, 1, 1]] 3, stringArg "m.obj"]
        = WriteOutcome.rejected WriteError.textureColumns :=
  ⟨rfl, rfl, rfl⟩

/-- C14 (the code differs): with two faces, two texture faces and one normal
face the call of seven arguments is not rejected, and the loop over the faces
ends with the normal faces: the head of the file announces two faces and the
text has one face line, that of the first face. -/
theorem second_face_not_written :
    writeObj wholeOps freshHost
        [matrixArg [[0, 0, 0], [1, 0, 0], [0, 1, 0]] 3, matrixArg [[1, 2, 3], [3, 2, 1]] 3,
         matrixArg [[0, 0], [1, 0], [0, 1]] 2, matrixArg [[1, 2, 3], [3, 2, 1]] 3,
         matrixArg [[0, 0, 1]] 3, matrixArg [[1, 1, 1]] 3, stringArg "m.obj"]
        = WriteOutcome.written "m.obj".toList
            (sampleHeadTwoFaces ++ "v 0 0 0\nv 1 0 0\nv 0 1 0\nvt 0 0\nvt 1 0\nvt 0 1\nvn 0 0 1\nf 1/1/1 2/2/1 3/3/1\n".toList)
      ∧ (getlines (sampleHeadTwoFaces ++ "v 0 0 0\nv 1 0 0\nv 0 1 0\nvt 0 0\nvt 1 0\nvt 0 1\nvn 0 0 1\nf 1/1/1 2/2/1 3/3/1\n".toList)).countP
          isFaceLine = 1 :=
  ⟨rfl, by decide⟩

/-- C15: in every text `writeObj` writes, the line of the material library is
`mtllib ./` and then the destination name with its last three characters
replaced by `mtl`: the name `filename` holds when the file is opened, that
of the last argument or the one typed in the overwrite dialogue, is at least
three characters long, and the derived name has its length and its
characters up to the last three.  The head of the file carries the number of
rows of the first argument after `# Vertices: ` and that of the second after
`# Faces: `.  The file is opened under the name up to its first NUL.  And
`writeObj` does write that head, with three, five or seven arguments, when
the arguments pass the checks and the file is opened under a name of at
least three characters. -/
theorem mtllib_line_and_counts {D : Type} (ops : NumOps D) (host : Host)
    (args : List (OctArg D)) :
    (∀ name text : Line, writeObj ops host args = WriteOutcome.written name text →
      ∃ V F nm filename mtlname body,
        args.get? 0 = some V ∧ args.get? 1 = some F ∧ args.getLast? = some nm
          ∧ dialogue host nm.string_value = some filename ∧ name = cstr filename
          ∧ 3 ≤ filename.length
          ∧ mtlname = filename.take (filename.length - 3) ++ "mtl".toList
          ∧ mtlname.length = filename.length
          ∧ mtlname.take (filename.length - 3) = filename.take (filename.length - 3)
          ∧ text = "#\n# OBJ File generated by GNU Octave\n# using \x27writeObj\x27 function\n".toList
              ++ "#\n# Object ".toList ++ name ++ "\n#\n".toList
              ++ "# Vertices: ".toList ++ showNat V.rows ++ "\n".toList
              ++ "# Faces: ".toList ++ showNat F.rows ++ "\n#\n#\n".toList
              ++ "mtllib ./".toList ++ mtlname ++ "\n\n".toList ++ body)
      ∧ ∀ (V F nm : OctArg D) (filename : Line), Accepted args →
          args.get? 0 = some V → args.get? 1 = some F → args.getLast? = some nm →
          Opens host nm.string_value filename →
          ∃ body, writeObj ops host args
            = WriteOutcome.written (cstr filename)
              ("#\n# OBJ File generated by GNU Octave\n# using \x27writeObj\x27 function\n".toList
                ++ "#\n# Object ".toList ++ cstr filename ++ "\n#\n".toList
                ++ "# Vertices: ".toList ++ showNat V.rows ++ "\n".toList
                ++ "# Faces: ".toList ++ showNat F.rows ++ "\n#\n#\n".toList
                ++ "mtllib ./".toList
                ++ (filename.take (filename.length - 3) ++ "mtl".toList)
                ++ "\n\n".toList ++ body) := by
  constructor
  · intro name text hw
    obtain ⟨V, F, nm, body, h0, h1, hl, hf⟩ := writeObj_written_file ops host args name text hw
    obtain ⟨filename, mtlname, lines, hd, -, hn, hm, ht⟩ :=
      writeFile_written_name _ _ _ _ _ _ _ hf
    obtain ⟨h3, -, he⟩ := mtlFileName_eq filename mtlname hm
    refine ⟨V, F, nm, filename, mtlname, lines, h0, h1, hl, hd, hn, h3, he, ?_, ?_, ?_⟩
    · rw [he]
      simp only [List.length_append, List.length_take]
      have : "mtl".toList.length = 3 := rfl
      omega
    · rw [he, List.take_append_of_le_length (by simp)]
      simp
    · rw [ht, hn]
      simp [headerText, mtllibText]
  · intro V F nm filename ha h0 h1 hl ho
    obtain ⟨body, hb⟩ := writeObj_writes ops host args V F nm filename ha h0 h1 hl ho
    refine ⟨body, ?_⟩
    rw [hb]
    simp [headerText, mtllibText, derivedName]

/-- Witness of C15: the file `mesh.obj` names the material library `mesh.mtl`,
written with three arguments; so do the calls with five and with seven
arguments. -/
theorem mtllib_line_and_counts_witness :
    writeObj wholeOps freshHost
        [matrixArg [[0, 0, 0], [1, 0, 0], [0, 1, 0]] 3, matrixArg [[1, 2, 3]] 3,
         stringArg "mesh.obj"]
        = WriteOutcome.written "mesh.obj".toList
          ("#\n# OBJ File generated by GNU Octave\n# using \x27writeObj\x27 function\n#\n# Object mesh.obj\n#\n# Vertices: 3\n# Faces: 1\n#\n#\nmtllib ./mesh.mtl\n\nv 0 0 0\nv 1 0 0\nv 0 1 0\nf 1 2 3\n").toList
      ∧ (∃ filename mtlname, "mesh.obj".toList = cstr filename
          ∧ mtlname = filename.take (filename.length - 3) ++ "mtl".toList
          ∧ mtlname.length = filename.length)
      ∧ (∃ body, writeObj wholeOps freshHost
          [matrixArg [[0, 0, 0], [1, 0, 0], [0, 1, 0]] 3, matrixArg [[1, 2, 3]] 3,
           matrixArg [[0, 0], [1, 0], [0, 1]] 2, matrixArg [[1, 2, 3]] 3, stringArg "mesh.obj"]
          = WriteOutcome.written "mesh.obj".toList
            ("#\n# OBJ File generated by GNU Octave\n# using \x27writeObj\x27 function\n#\n# Object mesh.obj\n#\n# Vertices: 3\n# Faces: 1\n#\n#\nmtllib ./mesh.mtl\n\n".toList
              ++ body))
      ∧ (∃ body, writeObj wholeOps freshHost
          [matrixArg [[0, 0, 0], [1, 0, 0], [0, 1, 0]] 3, matrixArg [[1, 2, 3]] 3,
           matrixArg [[0, 0, 1]] 3, matrixArg [[1, 1, 1]] 3, stringArg "mesh.obj"]
          = WriteOutcome.written "mesh.obj".toList
            ("#\n# OBJ File generated by GNU Octave\n# using \x27writeObj\x27 function\n#\n# Object mesh.obj\n#\n# Vertices: 3\n# Faces: 1\n#\n#\nmtllib ./mesh.mtl\n\n".toList
              ++ body))
      ∧ ∃ body, writeObj wholeOps freshHost
          [matrixArg [[0, 0, 0], [1, 0, 0], [0, 1, 0]] 3, matrixArg [[1, 2, 3]] 3,
           matrixArg [[0, 0], [1, 0], [0, 1]] 2, matrixArg [[1, 2, 3]] 3,
           matrixArg [[0, 0, 1]] 3, matrixArg [[1, 1, 1]] 3, stringArg "mesh.obj"]
          = WriteOutcome.written "mesh.obj".toList
            ("#\n# OBJ File generated by GNU Octave\n# using \x27writeObj\x27 function\n#\n# Object mesh.obj\n#\n# Vertices: 3\n# Faces: 1\n#\n#\nmtllib ./mesh.mtl\n\n".toList
              ++ body) :=
  have ho : Opens freshHost (stringArg "mesh.obj").string_value "mesh.obj".toList :=
    ⟨rfl, rfl, by decide, by decide⟩
  have h := (mtllib_line_and_counts wholeOps freshHost
    [matrixArg [[0, 0, 0], [1, 0, 0], [0, 1, 0]] 3, matrixArg [[1, 2, 3]] 3,
      stringArg "mesh.obj"]).1 "mesh.obj".toList _ rfl
  have h5t := (mtllib_line_and_counts wholeOps freshHost
      [matrixArg [[0, 0, 0], [1, 0, 0], [0, 1, 0]] 3, matrixArg [[1, 2, 3]] 3,
       matrixArg [[0, 0], [1, 0], [0, 1]] 2, matrixArg [[1, 2, 3]] 3, stringArg "mesh.obj"]).2
      _ _ _ "mesh.obj".toList
      ⟨rfl, rfl, rfl, rfl, rfl, by decide, rfl, by decide, rfl, Or.inl rfl, rfl, rfl⟩
      rfl rfl rfl ho
  have h5n := (mtllib_line_and_counts wholeOps freshHost
      [matrixArg [[0, 0, 0], [1, 0, 0], [0, 1, 0]] 3, matrixArg [[1, 2, 3]] 3,
       matrixArg [[0, 0, 1]] 3, matrixArg [[1, 1, 1]] 3, stringArg "mesh.obj"]).2
      _ _ _ "mesh.obj".toList
      ⟨rfl, rfl, rfl, rfl, rfl, by decide, rfl, by decide, rfl, Or.inr rfl, rfl, rfl⟩
      rfl rfl rfl ho
  have h7 := (mtllib_line_and_counts wholeOps freshHost
      [matrixArg [[0, 0, 0], [1, 0, 0], [0, 1, 0]] 3, matrixArg [[1, 2, 3]] 3,
       matrixArg [[0, 0], [1, 0], [0, 1]] 2, matrixArg [[1, 2, 3]] 3,
       matrixArg [[0, 0, 1]] 3, matrixArg [[1, 1, 1]] 3, stringArg "mesh.obj"]).2
      _ _ _ "mesh.obj".toList
      ⟨rfl, rfl, rfl, rfl, rfl, rfl, rfl, by decide, rfl, by decide, rfl, rfl, rfl, rfl, rfl,
        rfl, rfl⟩
      rfl rfl rfl ho
  have hp : "#\n# OBJ File generated by GNU Octave\n# using \x27writeObj\x27 function\n".toList
        ++ "#\n# Object ".toList ++ cstr "mesh.obj".toList ++ "\n#\n".toList
        ++ "# Vertices: ".toList ++ showNat 3 ++ "\n".toList
        ++ "# Faces: ".toList ++ showNat 1 ++ "\n#\n#\n".toList
        ++ "mtllib ./".toList
        ++ ("mesh.obj".toList.take ("mesh.obj".toList.length - 3) ++ "mtl".toList)
        ++ "\n\n".toList
      = "#\n# OBJ File generated by GNU Octave\n# using \x27writeObj\x27 function\n#\n# Object mesh.obj\n#\n# Vertices: 3\n# Faces: 1\n#\n#\nmtllib ./mesh.mtl\n\n".toList := by
    decide
  ⟨rfl, h.elim fun _ h => h.elim fun _ h => h.elim fun _ h => h.elim fun filename h =>
    h.elim fun mtlname h => h.elim fun _ h =>
      ⟨filename, mtlname, h.2.2.2.2.1, h.2.2.2.2.2.2.1, h.2.2.2.2.2.2.2.1⟩,
    h5t.elim fun body hb => ⟨body, hp ▸ hb⟩,
    h5n.elim fun body hb => ⟨body, hp ▸ hb⟩,
    h7.elim fun body hb => ⟨body, hp ▸ hb⟩⟩

/-- C16: on a line that begins with `mtl`, the loop of `readObj` stores as
name of the material library the text of the line after its first `./` when
the line has one, else the text after its last blank, else the whole line;
nothing else of the state changes, and the name stored is a suffix of the
line. -/
theorem mtl_line_name {D : Type} (ops : NumOps D) (st : ReadState D) (line : Line)
    (h : isMtlLine line = true) :
    readLine ops st line = Except.ok { st with mtl_filename := mtlName line }
      ∧ mtlName line <:+ line
      ∧ (ContainsDotSlash line →
          ∃ pre, line = pre ++ '.' :: '/' :: mtlName line
            ∧ ∀ pre1 post1 : Line, line = pre1 ++ '.' :: '/' :: post1 →
                pre.length ≤ pre1.length)
      ∧ (¬ ContainsDotSlash line → ' ' ∈ line →
          ∃ pre, line = pre ++ ' ' :: mtlName line ∧ ' ' ∉ mtlName line)
      ∧ (¬ ContainsDotSlash line → ' ' ∉ line → mtlName line = line) :=
  ⟨readLine_mtl ops st line h, mtlName_suffix line, mtlName_spec line⟩

/-- Witness of C16: the line `mtllib ./m.mtl` names `m.mtl`, the line
`mtllib lib/a b.mtl` names `b.mtl`, and the line `mtllib` names `mtllib`. -/
theorem mtl_line_name_witness :
    isMtlLine "mtllib ./m.mtl".toList = true
      ∧ readLine wholeOps {} "mtllib ./m.mtl".toList
          = Except.ok { mtl_filename := "m.mtl".toList }
      ∧ readLine wholeOps {} "mtllib lib/a b.mtl".toList
          = Except.ok { mtl_filename := "b.mtl".toList }
      ∧ readLine wholeOps {} "mtllib".toList = Except.ok { mtl_filename := "mtllib".toList }
      ∧ readObj wholeOps 3 (some "mtllib ./m.mtl\nv 0 0 0\nf 1 1 1\n".toList)
          = Except.ok [OctValue.coords [⟨some 0, some 0, some 0⟩], OctValue.faces [⟨1, 1, 1⟩],
              OctValue.str "m.mtl".toList] :=
  ⟨rfl, (mtl_line_name wholeOps {} "mtllib ./m.mtl".toList rfl).1,
    (mtl_line_name wholeOps {} "mtllib lib/a b.mtl".toList rfl).1,
    (mtl_line_name wholeOps {} "mtllib".toList rfl).1, rfl⟩

/-- C17: a face line that is accepted appends exactly one face; it appends
one texture face if and only if it is classified as a face with texture or
with texture and normals, one normal face if and only if it is classified as
a face with normals or with texture and normals, and the vectors it does not
append to stay as they are; the triples appended are those of the
classification.  A bare line appends neither a texture face nor a normal
face. -/
theorem face_line_appends {D : Type} (ops : NumOps D) (st st1 : ReadState D) (line : Line)
    (hf : isFaceLine line = true) (h : readLine ops st line = Except.ok st1) :
    (∃ v, st1.face = st.face ++ [v]) ∧ st1.face_counter = st.face_counter + 1
      ∧ ((∃ vt, st1.face_texture = st.face_texture ++ [vt]) ↔ (classifyFace line).hasTex = true)
      ∧ ((classifyFace line).hasTex = false → st1.face_texture = st.face_texture)
      ∧ ((∃ vn, st1.face_normals = st.face_normals ++ [vn]) ↔ (classifyFace line).hasNorm = true)
      ∧ ((classifyFace line).hasNorm = false → st1.face_normals = st.face_normals)
      ∧ (∀ v, classifyFace line = FaceScan.bare v →
          st1.face = st.face ++ [v] ∧ st1.face_texture = st.face_texture
            ∧ st1.face_normals = st.face_normals)
      ∧ (∀ v vt, classifyFace line = FaceScan.tex v vt →
          st1.face = st.face ++ [v] ∧ st1.face_texture = st.face_texture ++ [vt]
            ∧ st1.face_normals = st.face_normals)
      ∧ (∀ v vn, classifyFace line = FaceScan.norm v vn →
          st1.face = st.face ++ [v] ∧ st1.face_texture = st.face_texture
            ∧ st1.face_normals = st.face_normals ++ [vn])
      ∧ (∀ v vt vn, classifyFace line = FaceScan.texNorm v vt vn →
          st1.face = st.face ++ [v] ∧ st1.face_texture = st.face_texture ++ [vt]
            ∧ st1.face_normals = st.face_normals ++ [vn]) := by
  rw [readLine_of_face ops st line hf] at h
  simp only [isFaceLine, Bool.and_eq_true, decide_eq_true_eq] at hf
  unfold faceStep at h
  rw [if_pos hf] at h
  cases hc : classifyFace line with
  | quad => rw [hc] at h; cases h
  | unrecognized => rw [hc] at h; cases h
  | bare v =>
    rw [hc] at h; cases h
    simp [FaceScan.hasTex, FaceScan.hasNorm, append_singleton_ne]
  | tex v vt =>
    rw [hc] at h; cases h
    simp [FaceScan.hasTex, FaceScan.hasNorm, append_singleton_ne]
  | norm v vn =>
    rw [hc] at h; cases h
    simp [FaceScan.hasTex, FaceScan.hasNorm, append_singleton_ne]
  | texNorm v vt vn =>
    rw [hc] at h; cases h
    simp [FaceScan.hasTex, FaceScan.hasNorm, append_singleton_ne]

/-- Witness of C17: after one face, the line `f 3/1 2/1 1/1` appends the face
(3, 2, 1) and the texture face (1, 1, 1), and no normal face. -/
theorem face_line_appends_witness :
    isFaceLine "f 3/1 2/1 1/1".toList = true
      ∧ classifyFace "f 3/1 2/1 1/1".toList = FaceScan.tex ⟨3, 2, 1⟩ ⟨1, 1, 1⟩
      ∧ ∃ st1 : ReadState Int,
          readLine wholeOps { face := [⟨1, 2, 3⟩], face_counter := 1 } "f 3/1 2/1 1/1".toList
            = Except.ok st1
          ∧ st1.face = [⟨1, 2, 3⟩, ⟨3, 2, 1⟩] ∧ st1.face_texture = [⟨1, 1, 1⟩]
          ∧ st1.face_normals = [] :=
  ⟨rfl, by decide, _, rfl,
    ((face_line_appends wholeOps { face := [⟨1, 2, 3⟩], face_counter := 1 } _
      "f 3/1 2/1 1/1".toList rfl rfl).2.2.2.2.2.2.2.1 ⟨3, 2, 1⟩ ⟨1, 1, 1⟩ (by decide))⟩

/-- C18: a line that begins with `f` and a blank and fails classification,
as a face of four vertices or as a line no scan for a triangle accepts, makes
the read end with the message that the mesh is not triangular, whatever the
lines before and after it are: the scan of the file ends with that error, so
does `readObj` for every valid number of output arguments, and for no number
of output arguments does `readObj` return a value. -/
theorem failed_face_line_no_mesh {D : Type} (ops : NumOps D) (content : Line) (line : Line)
    (hmem : line ∈ getlines content) (hf : isFaceLine line = true)
    (hc : classifyFace line = FaceScan.quad ∨ classifyFace line = FaceScan.unrecognized) :
    readMesh ops (some content) = Except.error ReadError.notTriangular
      ∧ (∀ nargout : Int, 2 ≤ nargout → nargout ≤ 7 →
          readObj ops nargout (some content) = Except.error ReadError.notTriangular)
      ∧ ∀ nargout : Int, ∃ e, readObj ops nargout (some content) = Except.error e := by
  have hfail : (classifyFace line).failed = true := by
    rcases hc with h | h <;> rw [h] <;> rfl
  have hl := readLines_fail D ops line (fun st => readLine_failed ops st line hf hfail)
    (getlines content) {} hmem
  have hm : readMesh ops (some content) = Except.error ReadError.notTriangular := by
    simp only [readMesh, hl]
  exact ⟨hm, readObj_of_mesh_error ops _ _ hm⟩

/-- Witness of C18: three vertices and a triangle, then the line `f 1 2`,
which no scan accepts, then one more triangle. -/
theorem failed_face_line_no_mesh_witness :
    "f 1 2".toList ∈ getlines "v 0 0 0\nv 1 0 0\nv 0 1 0\nf 1 2 3\nf 1 2\nf 3 2 1\n".toList
      ∧ classifyFace "f 1 2".toList = FaceScan.unrecognized
      ∧ readObj wholeOps 2 (some "v 0 0 0\nv 1 0 0\nv 0 1 0\nf 1 2 3\nf 1 2\nf 3 2 1\n".toList)
          = Except.error ReadError.notTriangular :=
  have hmem : "f 1 2".toList
      ∈ getlines "v 0 0 0\nv 1 0 0\nv 0 1 0\nf 1 2 3\nf 1 2\nf 3 2 1\n".toList := by decide
  have hc : classifyFace "f 1 2".toList = FaceScan.unrecognized := by decide
  ⟨hmem, hc, (failed_face_line_no_mesh wholeOps _ "f 1 2".toList hmem rfl (Or.inr hc)).2.1 2
    (by decide) (by decide)⟩

/-- C19: when no line that begins with `f` and a blank fails classification
and no line begins with `v` and a blank, the read ends with the message that
the mesh has no vertices, be there face lines or not: the scan of the file
ends with that error, so does `readObj` for every valid number of output
arguments, and for no number of output arguments does `readObj` return a
value. -/
theorem no_vertex_line_fails {D : Type} (ops : NumOps D) (content : Line)
    (hf : ∀ l ∈ getlines content, isFaceLine l = true →
      classifyFace l ≠ FaceScan.quad ∧ classifyFace l ≠ FaceScan.unrecognized)
    (hv : ∀ l ∈ getlines content, isVertexLine l = false) :
    readMesh ops (some content) = Except.error ReadError.noVertices
      ∧ (∀ nargout : Int, 2 ≤ nargout → nargout ≤ 7 →
          readObj ops nargout (some content) = Except.error ReadError.noVertices)
      ∧ ∀ nargout : Int, ∃ e, readObj ops nargout (some content) = Except.error e := by
  have hf1 : ∀ l ∈ getlines content, isFaceLine l = true → (classifyFace l).failed = false := by
    intro l hl hfl
    obtain ⟨h1, h2⟩ := hf l hl hfl
    cases hs : classifyFace l <;> first | rfl | exact absurd hs h1 | exact absurd hs h2
  obtain ⟨st, hst⟩ := readLines_total ops (getlines content) {} hf1
  obtain ⟨⟨-, a2⟩, -⟩ := readLines_grows ops (getlines content) {} st hst
  simp only [Nat.zero_add] at a2
  have hcount : (getlines content).countP isVertexLine = 0 :=
    List.countP_eq_zero.mpr (fun l hl => by simp [hv l hl])
  have hm : readMesh ops (some content) = Except.error ReadError.noVertices := by
    simp only [readMesh, hst]
    exact toArrays_noVertices st (by rw [a2, hcount])
  exact ⟨hm, readObj_of_mesh_error ops _ _ hm⟩

/-- Witness of C19: a file with a face line and no vertex line, and the empty file. -/
theorem no_vertex_line_fails_witness :
    readObj wholeOps 2 (some "vn 0 0 1\nf 1 2 3\n".toList) = Except.error ReadError.noVertices
      ∧ readObj wholeOps 2 (some []) = Except.error (ReadError.noVertices) :=
  ⟨(no_vertex_line_fails wholeOps "vn 0 0 1\nf 1 2 3\n".toList (by decide) (by decide)).2.1 2
      (by decide) (by decide),
    (no_vertex_line_fails wholeOps [] (by decide) (by decide)).2.1 2 (by decide) (by decide)⟩

/-- C20: when the file has a line that begins with `v` and a blank and no
line that begins with `f` and a blank, the read ends with the message that
the mesh has no faces: the scan of the file ends with that error, so does
`readObj` for every valid number of output arguments, and for no number of
output arguments does `readObj` return a value. -/
theorem no_face_line_fails {D : Type} (ops : NumOps D) (content : Line)
    (hv : ∃ l ∈ getlines content, isVertexLine l = true)
    (hf : ∀ l ∈ getlines content, isFaceLine l = false) :
    readMesh ops (some content) = Except.error ReadError.noFaces
      ∧ (∀ nargout : Int, 2 ≤ nargout → nargout ≤ 7 →
          readObj ops nargout (some content) = Except.error ReadError.noFaces)
      ∧ ∀ nargout : Int, ∃ e, readObj ops nargout (some content) = Except.error e := by
  have hf1 : ∀ l ∈ getlines content, isFaceLine l = true → (classifyFace l).failed = false := by
    intro l hl hfl
    rw [hf l hl] at hfl; cases hfl
  obtain ⟨st, hst⟩ := readLines_total ops (getlines content) {} hf1
  obtain ⟨⟨a1, a2⟩, ⟨a3, a4⟩, ⟨a5, a6⟩, ⟨-, a8⟩, -⟩ :=
    readLines_grows ops (getlines content) {} st hst
  simp only [List.length_nil, Nat.zero_add] at a1 a2 a3 a4 a5 a6 a8
  have hcount : (getlines content).countP isFaceLine = 0 :=
    List.countP_eq_zero.mpr (fun l hl => by simp [hf l hl])
  have hpos : 0 < (getlines content).countP isVertexLine := by
    obtain ⟨l, hl, hlv⟩ := hv
    exact List.countP_pos_iff.mpr ⟨l, hl, hlv⟩
  have hm : readMesh ops (some content) = Except.error ReadError.noFaces := by
    simp only [readMesh, hst]
    exact toArrays_noFaces st (by rw [a1, a2]) (by rw [a3, a4]) (by rw [a5, a6])
      (by rw [a2]; exact hpos) (by rw [a8, hcount])
  exact ⟨hm, readObj_of_mesh_error ops _ _ hm⟩

/-- Witness of C20: three vertices, a texture coordinate and no face line. -/
theorem no_face_line_fails_witness :
    readObj wholeOps 2 (some "v 0 0 0\nv 1 0 0\nv 0 1 0\nvt 0 0\n".toList)
      = Except.error ReadError.noFaces :=
  (no_face_line_fails wholeOps "v 0 0 0\nv 1 0 0\nv 0 1 0\nvt 0 0\n".toList
    ⟨"v 0 0 0".toList, by decide, rfl⟩ (by decide)).2.1 2 (by decide) (by decide)

/-- C21: a line that begins with none of `v `, `vn `, `vt `, `f ` and `mtl`,
such as every line that begins with `#`, has no part in the result of
`readObj`: two files whose lines differ by one such line, put in or taken
out at any place, are read with the same result, be it the same error or the
same arrays, counters and name of the material library, and `readObj`
returns the same for every number of output arguments. -/
theorem other_line_no_effect {D : Type} (ops : NumOps D) (content content1 : Line)
    (xs ys : List Line) (l : Line) (hl : isOtherLine l = true)
    (h : getlines content = xs ++ ys) (h1 : getlines content1 = xs ++ l :: ys) :
    readMesh ops (some content1) = readMesh ops (some content)
      ∧ (∀ nargout : Int,
          readObj ops nargout (some content1) = readObj ops nargout (some content))
      ∧ ∀ s : Line, isOtherLine ('#' :: s) = true := by
  have hm : readMesh ops (some content1) = readMesh ops (some content) := by
    simp only [readMesh, h, h1, readLines_insert ops l hl xs ys]
  refine ⟨hm, ?_, isOtherLine_hash⟩
  intro nargout
  simp only [readObj, hm]

/-- Witness of C21: a comment line between the vertex and the face. -/
theorem other_line_no_effect_witness :
    isOtherLine "# a comment".toList = true
      ∧ readObj wholeOps 2 (some "v 0 0 0\n# a comment\nf 1 1 1\n".toList)
          = readObj wholeOps 2 (some "v 0 0 0\nf 1 1 1\n".toList)
      ∧ readObj wholeOps 2 (some "v 0 0 0\nf 1 1 1\n".toList)
          = Except.ok [OctValue.coords [⟨some 0, some 0, some 0⟩], OctValue.faces [⟨1, 1, 1⟩]] :=
  ⟨rfl, (other_line_no_effect wholeOps "v 0 0 0\nf 1 1 1\n".toList
      "v 0 0 0\n# a comment\nf 1 1 1\n".toList ["v 0 0 0".toList] ["f 1 1 1".toList]
      "# a comment".toList rfl rfl rfl).2.1 2, rfl⟩

/-- C23: when the file is read with success and has texture coordinates and
texture faces, `readObj` with four output arguments returns the vertices,
the faces, the texture coordinates and the texture faces, in this order, and
nothing else: so it is when the file has normals and normal faces as well,
which are not returned. -/
theorem both_sets_texture_returned {D : Type} (ops : NumOps D) (file : Option Line)
    (m : ObjData D) (h : readMesh ops file = Except.ok m)
    (hvt : 0 < m.VT.length) (hft : 0 < m.FT.length) :
    readObj ops 4 file
      = Except.ok [OctValue.coords m.V, OctValue.faces m.F, OctValue.tcoords m.VT,
          OctValue.faces m.FT] := by
  obtain ⟨-, -, c3, -, c5, -⟩ := readMesh_counters ops file m h
  rw [readObj_of_mesh ops 4 file m h (by decide) (by decide)]
  have e1 : m.faceT_counter > 0 := by rw [c5]; exact hft
  have e2 : m.texture_counter > 0 := by rw [c3]; exact hvt
  have e3 : ¬ m.faceT_counter = 0 := by omega
  simp [retval, e1, e2, e3]

/-- Witness of C23: a file with one texture coordinate, one normal and a
face with both indices. -/
theorem both_sets_texture_returned_witness :
    readObj wholeOps 4 (some "v 0 0 0\nvt 0 0\nvn 0 0 1\nf 1/1/1 1/1/1 1/1/1\n".toList)
      = Except.ok [OctValue.coords [⟨some 0, some 0, some 0⟩], OctValue.faces [⟨1, 1, 1⟩],
          OctValue.tcoords [⟨some 0, some 0⟩], OctValue.faces [⟨1, 1, 1⟩]] :=
  both_sets_texture_returned wholeOps
    (some "v 0 0 0\nvt 0 0\nvn 0 0 1\nf 1/1/1 1/1/1 1/1/1\n".toList)
    { V := [⟨some 0, some 0, some 0⟩], F := [⟨1, 1, 1⟩], VT := [⟨some 0, some 0⟩],
      FT := [⟨1, 1, 1⟩], VN := [⟨some 0, some 0, some 1⟩], FN := [⟨1, 1, 1⟩],
      mtl_filename := [], vertex_counter := 1, normals_counter := 1, texture_counter := 1,
      face_counter := 1, faceT_counter := 1, faceN_counter := 1 }
    rfl (by decide) (by decide)

/-- C24 (the code differs): a file with a texture coordinate, a normal and a
face with normal indices and no texture index has its normals and normal
faces and no texture face, and yet `readObj` with four output arguments
returns no value: the test for the normals asks that there be no texture
coordinate either.  Without the line of the texture coordinate the four
values are returned. -/
theorem normals_not_returned :
    readObj wholeOps 6 (some "v 0 0 0\nvt 0 0\nvn 0 0 1\nf 1//1 1//1 1//1\n".toList)
        = Except.ok [OctValue.coords [⟨some 0, some 0, some 0⟩], OctValue.faces [⟨1, 1, 1⟩],
            OctValue.tcoords [⟨some 0, some 0⟩], OctValue.faces [],
            OctValue.coords [⟨some 0, some 0, some 1⟩], OctValue.faces [⟨1, 1, 1⟩]]
      ∧ readObj wholeOps 4 (some "v 0 0 0\nvt 0 0\nvn 0 0 1\nf 1//1 1//1 1//1\n".toList)
        = Except.ok []
      ∧ readObj wholeOps 4 (some "v 0 0 0\nvn 0 0 1\nf 1//1 1//1 1//1\n".toList)
        = Except.ok [OctValue.coords [⟨some 0, some 0, some 0⟩], OctValue.faces [⟨1, 1, 1⟩],
            OctValue.coords [⟨some 0, some 0, some 1⟩], OctValue.faces [⟨1, 1, 1⟩]] :=
  ⟨rfl, rfl, rfl⟩

/-- C25: when the file is read with success, `readObj` with six output
arguments returns the vertices, the faces, the texture coordinates, the
texture faces, the normals and the normal faces, in this order, an array no
line gave rows to being one of no row; with seven it returns these six and
then the name of the material library; with three it returns the vertices,
the faces and the name of the material library; and whenever an odd number of
output arguments yields values, the last one is the name of the material
library. -/
theorem outputs_by_number {D : Type} (ops : NumOps D) (content : Line) (m : ObjData D)
    (h : readMesh ops (some content) = Except.ok m) :
    readObj ops 6 (some content)
        = Except.ok [OctValue.coords m.V, OctValue.faces m.F, OctValue.tcoords m.VT,
            OctValue.faces m.FT, OctValue.coords m.VN, OctValue.faces m.FN]
      ∧ readObj ops 7 (some content)
        = Except.ok [OctValue.coords m.V, OctValue.faces m.F, OctValue.tcoords m.VT,
            OctValue.faces m.FT, OctValue.coords m.VN, OctValue.faces m.FN,
            OctValue.str (cstr m.mtl_filename)]
      ∧ readObj ops 3 (some content)
        = Except.ok [OctValue.coords m.V, OctValue.faces m.F, OctValue.str (cstr m.mtl_filename)]
      ∧ (∀ (nargout : Int) (outs : List (OctValue D)), nargout % 2 = 1 →
          readObj ops nargout (some content) = Except.ok outs → outs ≠ [] →
          outs.getLast? = some (OctValue.str (cstr m.mtl_filename)))
      ∧ m.VT.length = (getlines content).countP isTextureLine
      ∧ m.VN.length = (getlines content).countP isNormalLine
      ∧ m.FT.length
          = (getlines content).countP (fun l => isFaceLine l && (classifyFace l).hasTex)
      ∧ m.FN.length
          = (getlines content).countP (fun l => isFaceLine l && (classifyFace l).hasNorm) := by
  refine ⟨?_, ?_, ?_, ?_, ?_⟩
  · rw [readObj_of_mesh ops 6 _ m h (by decide) (by decide)]; rfl
  · rw [readObj_of_mesh ops 7 _ m h (by decide) (by decide)]; rfl
  · rw [readObj_of_mesh ops 3 _ m h (by decide) (by decide)]; rfl
  · intro nargout outs hodd ho hne
    obtain ⟨⟨h2, h7⟩, m1, hm1, ho1⟩ := readObj_ok ops nargout _ outs ho
    rw [h] at hm1
    cases hm1
    subst ho1
    have hcases : nargout = 3 ∨ nargout = 5 ∨ nargout = 7 := by omega
    rcases hcases with e | e | e
    · subst e; rfl
    · subst e
      by_cases c1 : m.faceT_counter > 0 ∧ m.texture_counter > 0
      · have c2 : ¬ (m.faceT_counter = 0 ∧ m.texture_counter = 0
            ∧ m.faceN_counter > 0 ∧ m.normals_counter > 0) := by omega
        simp [retval, c1, c2]
      · by_cases c2 : m.faceT_counter = 0 ∧ m.texture_counter = 0
            ∧ m.faceN_counter > 0 ∧ m.normals_counter > 0
        · simp [retval, c1, c2]
        · exfalso
          apply hne
          simp [retval, c1, c2]
    · subst e; rfl
  · obtain ⟨c, st, hc, -, g, -, -, hmm⟩ := readMesh_ok ops (some content) m h
    cases hc
    obtain ⟨-, ⟨a3, -⟩, ⟨a5, -⟩, -, ⟨a9, -⟩, ⟨a11, -⟩, -, -, -⟩ := g
    simp only [List.length_nil, Nat.zero_add] at a3 a5 a9 a11
    subst hmm
    exact ⟨a5, a3, a9, a11⟩

/-- Witness of C25: a file of one vertex and one bare face, with the line of
a material library: six output arguments give four arrays with rows and two
without, seven give the name `m.mtl` after them. -/
theorem outputs_by_number_witness :
    readObj wholeOps 6 (some "mtllib ./m.mtl\nv 0 0 0\nf 1 1 1\n".toList)
        = Except.ok [OctValue.coords [⟨some 0, some 0, some 0⟩], OctValue.faces [⟨1, 1, 1⟩],
            OctValue.tcoords [], OctValue.faces [], OctValue.coords [], OctValue.faces []]
      ∧ readObj wholeOps 7 (some "mtllib ./m.mtl\nv 0 0 0\nf 1 1 1\n".toList)
        = Except.ok [OctValue.coords [⟨some 0, some 0, some 0⟩], OctValue.faces [⟨1, 1, 1⟩],
            OctValue.tcoords [], OctValue.faces [], OctValue.coords [], OctValue.faces [],
            OctValue.str "m.mtl".toList] :=
  have h := outputs_by_number wholeOps "mtllib ./m.mtl\nv 0 0 0\nf 1 1 1\n".toList
    { V := [⟨some 0, some 0, some 0⟩], F := [⟨1, 1, 1⟩], VT := [], FT := [], VN := [], FN := [],
      mtl_filename := "m.mtl".toList, vertex_counter := 1, normals_counter := 0,
      texture_counter := 0, face_counter := 1, faceT_counter := 0, faceN_counter := 0 } rfl
  ⟨h.1, h.2.1⟩

/-- C26: on every input on which `readObj` succeeds, the vertices are the
rows the lines that begin with `v ` give, one for each line and in the order
of the lines; so are the texture coordinates for the lines that begin with
`vt ` and the normals for those that begin with `vn `; and the faces are the
vertex indices extracted from the lines that begin with `f `, one row for
each line and in the order of the lines. -/
theorem arrays_follow_lines {D : Type} (ops : NumOps D) (nargout : Int) (content : Line)
    (outs : List (OctValue D)) (h : readObj ops nargout (some content) = Except.ok outs) :
    ∃ m, readMesh ops (some content) = Except.ok m ∧ outs = retval nargout m
      ∧ m.V = ((getlines content).filter isVertexLine).map (vertexOf ops)
      ∧ m.VT = ((getlines content).filter isTextureLine).map (textureOf ops)
      ∧ m.VN = ((getlines content).filter isNormalLine).map (normalOf ops)
      ∧ m.F.map some
          = ((getlines content).filter isFaceLine).map (fun l => (classifyFace l).triple)
      ∧ m.V.length = (getlines content).countP isVertexLine
      ∧ m.F.length = (getlines content).countP isFaceLine := by
  obtain ⟨-, m, hm, ho⟩ := readObj_ok ops nargout (some content) outs h
  refine ⟨m, hm, ho, ?_⟩
  obtain ⟨c, st, hc, hst, -, -, -, hmm⟩ := readMesh_ok ops (some content) m hm
  cases hc
  obtain ⟨a1, a2, a3, a4⟩ := readLines_content ops (getlines content) {} st hst
  subst hmm
  simp only [List.nil_append, List.map_nil] at a1 a2 a3 a4
  refine ⟨a1, a3, a2, a4, ?_, ?_⟩
  · rw [a1, List.length_map, List.countP_eq_length_filter]
  · have := congrArg List.length a4
    simp only [List.length_map] at this
    rw [this, List.countP_eq_length_filter]

/-- Witness of C26: two faces with a vertex between them. -/
theorem arrays_follow_lines_witness :
    readObj wholeOps 2 (some "f 1 2 3\nv 5 6 7\nf 3/1 2/1 1/1\nv 0 0 1\n".toList)
        = Except.ok [OctValue.coords [⟨some 5, some 6, some 7⟩, ⟨some 0, some 0, some 1⟩],
            OctValue.faces [⟨1, 2, 3⟩, ⟨3, 2, 1⟩]]
      ∧ ∃ m, readMesh wholeOps (some "f 1 2 3\nv 5 6 7\nf 3/1 2/1 1/1\nv 0 0 1\n".toList)
            = Except.ok m
          ∧ m.V = [vertexOf wholeOps "v 5 6 7".toList, vertexOf wholeOps "v 0 0 1".toList]
          ∧ m.F.map some = [(classifyFace "f 1 2 3".toList).triple,
              (classifyFace "f 3/1 2/1 1/1".toList).triple] :=
  ⟨rfl,
    have h := arrays_follow_lines wholeOps 2
      "f 1 2 3\nv 5 6 7\nf 3/1 2/1 1/1\nv 0 0 1\n".toList _ rfl
    h.elim fun m hm => ⟨m, hm.1, hm.2.2.1, hm.2.2.2.2.2.1⟩⟩

/-- C27 (the code differs): with one face, one texture face and a matrix of
normal faces of no row the call of seven arguments is not rejected, and the
loop over the faces, which ends with the normal faces, writes no face line:
the read of the text fails for want of a face.  Every index given is
strictly positive and the name has no line feed. -/
theorem written_mesh_not_read_back :
    writeObj wholeOps freshHost
        [matrixArg [[0, 0, 0], [1, 0, 0], [0, 1, 0]] 3, matrixArg [[1, 2, 3]] 3,
         matrixArg [[0, 0], [1, 0], [0, 1]] 2, matrixArg [[1, 2, 3]] 3,
         matrixArg [[0, 0, 1]] 3, matrixArg [] 3, stringArg "m.obj"]
        = WriteOutcome.written "m.obj".toList
            (sampleHead ++ "v 0 0 0\nv 1 0 0\nv 0 1 0\nvt 0 0\nvt 1 0\nvt 0 1\nvn 0 0 1\n".toList)
      ∧ readObj wholeOps 6
          (some (sampleHead ++ "v 0 0 0\nv 1 0 0\nv 0 1 0\nvt 0 0\nvt 1 0\nvt 0 1\nvn 0 0 1\n".toList))
        = Except.error ReadError.noFaces :=
  ⟨rfl, rfl⟩

/-- C28: in every text `writeObj` writes under a name without a line feed,
the line of the material library is `mtllib ./` and then the derived name,
that is the destination name, at least three characters long, with its last
three characters replaced by `mtl`; it is one of the lines `readObj` reads,
and what `readObj` takes from it as the name of the material library is the
derived name as it is, whatever blanks or `./` it has: the name is taken
after the first `./` of the line, which is the one `writeObj` wrote.  And
`writeObj` does write such a text, with three, five or seven arguments, when
the arguments pass the checks and the file is opened under a name of at
least three characters without a line feed. -/
theorem mtllib_name_read_back {D : Type} (ops : NumOps D) (host : Host)
    (args : List (OctArg D)) :
    (∀ name text : Line, writeObj ops host args = WriteOutcome.written name text →
      '\n' ∉ name →
      ∃ filename mtlname, name = cstr filename ∧ 3 ≤ filename.length
        ∧ mtlname = filename.take (filename.length - 3) ++ "mtl".toList
        ∧ ("mtllib ./".toList ++ mtlname) ∈ getlines text
        ∧ mtlName ("mtllib ./".toList ++ mtlname) = mtlname
        ∧ ∀ st : ReadState D, readLine ops st ("mtllib ./".toList ++ mtlname)
            = Except.ok { st with mtl_filename := mtlname })
      ∧ ∀ (nm : OctArg D) (filename : Line), Accepted args → args.getLast? = some nm →
          Opens host nm.string_value filename → '\n' ∉ cstr filename →
          ∃ text, writeObj ops host args = WriteOutcome.written (cstr filename) text
            ∧ ("mtllib ./".toList ++ (filename.take (filename.length - 3) ++ "mtl".toList))
                ∈ getlines text
            ∧ mtlName ("mtllib ./".toList
                  ++ (filename.take (filename.length - 3) ++ "mtl".toList))
                = filename.take (filename.length - 3) ++ "mtl".toList
            ∧ ∀ st : ReadState D, readLine ops st ("mtllib ./".toList
                  ++ (filename.take (filename.length - 3) ++ "mtl".toList))
                = Except.ok { st with
                    mtl_filename := filename.take (filename.length - 3) ++ "mtl".toList } := by
  have key : ∀ (name text : Line), writeObj ops host args = WriteOutcome.written name text →
      '\n' ∉ name →
      ∃ filename mtlname, name = cstr filename ∧ 3 ≤ filename.length
        ∧ mtlname = filename.take (filename.length - 3) ++ "mtl".toList
        ∧ ("mtllib ./".toList ++ mtlname) ∈ getlines text
        ∧ mtlName ("mtllib ./".toList ++ mtlname) = mtlname
        ∧ ∀ st : ReadState D, readLine ops st ("mtllib ./".toList ++ mtlname)
            = Except.ok { st with mtl_filename := mtlname } := by
    intro name text hw hname
    obtain ⟨V, F, nm, body, -, -, -, hf⟩ := writeObj_written_file ops host args name text hw
    obtain ⟨filename, mtlname, lines, -, -, hn, hm, ht⟩ := writeFile_written_name _ _ _ _ _ _ _ hf
    obtain ⟨h3, -, he⟩ := mtlFileName_eq filename mtlname hm
    have hnl : '\n' ∉ cstr filename := hn ▸ hname
    have hml : '\n' ∉ mtlname := mtlFileName_no_lf filename mtlname hm hnl
    refine ⟨filename, mtlname, hn, h3, he, ?_, mtlName_mtllib mtlname, ?_⟩
    · rw [ht, head_text, getlines_putLines_append _ _
        (headLines_no_lf _ _ _ _ hnl hml)]
      apply List.mem_append_left
      simp [headLines]
    · intro st
      rw [readLine_mtllib ops st mtlname, mtlName_mtllib]
  refine ⟨key, ?_⟩
  intro nm filename ha hl ho hname
  obtain ⟨V, F, h0, h1⟩ := accepted_args args ha
  obtain ⟨body, hb⟩ := writeObj_writes ops host args V F nm filename ha h0 h1 hl ho
  have hm := mtlFileName_some filename ho.2.2.1 ho.2.2.2
  have hml : '\n' ∉ derivedName filename := mtlFileName_no_lf filename _ hm hname
  refine ⟨_, hb, ?_, mtlName_mtllib _, ?_⟩
  · rw [head_text, getlines_putLines_append _ _ (headLines_no_lf _ _ _ _ hname hml)]
    apply List.mem_append_left
    simp [headLines, derivedName]
  · intro st
    rw [readLine_mtllib ops st _, mtlName_mtllib]

/-- Witness of C28: the name `a ./b.obj`, with a blank and `./`, gives the
material library `a ./b.mtl`, and the read of a file with that line returns
that name; the call of five arguments with normals writes that line under
the same name. -/
theorem mtllib_name_read_back_witness :
    '\n' ∉ "a ./b.obj".toList
      ∧ mtlName "mtllib ./a ./b.mtl".toList = "a ./b.mtl".toList
      ∧ writeObj wholeOps freshHost
            [matrixArg [[0, 0, 0], [1, 0, 0], [0, 1, 0]] 3, matrixArg [[1, 2, 3]] 3,
             stringArg "a ./b.obj"] = WriteOutcome.written "a ./b.obj".toList spacedNameText
      ∧ (∃ filename mtlname, "a ./b.obj".toList = cstr filename ∧ 3 ≤ filename.length
          ∧ mtlname = filename.take (filename.length - 3) ++ "mtl".toList
          ∧ ("mtllib ./".toList ++ mtlname) ∈ getlines spacedNameText)
      ∧ readObj wholeOps 3 (some "mtllib ./a ./b.mtl\nv 0 0 0\nf 1 1 1\n".toList)
        = Except.ok [OctValue.coords [⟨some 0, some 0, some 0⟩], OctValue.faces [⟨1, 1, 1⟩],
            OctValue.str "a ./b.mtl".toList]
      ∧ ∃ text, writeObj wholeOps freshHost
            [matrixArg [[0, 0, 0], [1, 0, 0], [0, 1, 0]] 3, matrixArg [[1, 2, 3]] 3,
             matrixArg [[0, 0, 1]] 3, matrixArg [[1, 1, 1]] 3, stringArg "a ./b.obj"]
            = WriteOutcome.written "a ./b.obj".toList text
          ∧ "mtllib ./a ./b.mtl".toList ∈ getlines text :=
  have hname : '\n' ∉ "a ./b.obj".toList := by decide
  have h := (mtllib_name_read_back wholeOps freshHost
    [matrixArg [[0, 0, 0], [1, 0, 0], [0, 1, 0]] 3, matrixArg [[1, 2, 3]] 3,
     stringArg "a ./b.obj"]).1 "a ./b.obj".toList spacedNameText rfl hname
  have h5 := (mtllib_name_read_back wholeOps freshHost
    [matrixArg [[0, 0, 0], [1, 0, 0], [0, 1, 0]] 3, matrixArg [[1, 2, 3]] 3,
     matrixArg [[0, 0, 1]] 3, matrixArg [[1, 1, 1]] 3, stringArg "a ./b.obj"]).2
    (stringArg "a ./b.obj") "a ./b.obj".toList
    ⟨rfl, rfl, rfl, rfl, rfl, by decide, rfl, by decide, rfl, Or.inr rfl, rfl, rfl⟩ rfl
    ⟨rfl, rfl, by decide, by decide⟩ (by decide)
  ⟨hname, by decide, rfl,
    h.elim fun filename h => h.elim fun mtlname h =>
      ⟨filename, mtlname, h.1, h.2.1, h.2.2.1, h.2.2.2.1⟩, rfl,
    h5.elim fun text ht => ⟨text, ht.1, ht.2.1⟩⟩

/-- C29 fails: the file of the single line `f 1 2 3 4` has no vertex line,
and its read ends with the message that the mesh is not triangular, not with
that of the missing vertices: the face line is scanned before the number of
vertices is looked at. -/
theorem face_error_before_vertex_check :
    (∀ l ∈ getlines "f 1 2 3 4\n".toList, isVertexLine l = false)
      ∧ readMesh wholeOps (some "f 1 2 3 4\n".toList) = Except.error ReadError.notTriangular
      ∧ readObj wholeOps 2 (some "f 1 2 3 4\n".toList) = Except.error ReadError.notTriangular :=
  ⟨by decide, rfl, rfl⟩

/-- C29 as amended: the read of a file with no line that begins with `v `
fails whatever its face lines are, with the message that the mesh is not
triangular when a line that begins with `f ` fails classification, and with
the message that the mesh has no vertices when none does: the number of
vertices is looked at after all the lines are scanned. -/
theorem no_vertex_read_fails {D : Type} (ops : NumOps D) (content : Line)
    (hv : ∀ l ∈ getlines content, isVertexLine l = false) :
    ((∃ l ∈ getlines content, isFaceLine l = true
          ∧ (classifyFace l = FaceScan.quad ∨ classifyFace l = FaceScan.unrecognized)) →
        readMesh ops (some content) = Except.error ReadError.notTriangular)
      ∧ ((∀ l ∈ getlines content, isFaceLine l = true →
          classifyFace l ≠ FaceScan.quad ∧ classifyFace l ≠ FaceScan.unrecognized) →
        readMesh ops (some content) = Except.error ReadError.noVertices)
      ∧ (readMesh ops (some content) = Except.error ReadError.notTriangular
          ∨ readMesh ops (some content) = Except.error ReadError.noVertices)
      ∧ ∀ nargout : Int, ∃ e, readObj ops nargout (some content) = Except.error e := by
  have h1 : (∃ l ∈ getlines content, isFaceLine l = true
        ∧ (classifyFace l = FaceScan.quad ∨ classifyFace l = FaceScan.unrecognized)) →
      readMesh ops (some content) = Except.error ReadError.notTriangular := by
    rintro ⟨l, hl, hf, hc⟩
    refine readMesh_failed_face ops content ⟨l, hl, hf, ?_⟩
    rcases hc with e | e <;> rw [e] <;> rfl
  have h2 : (∀ l ∈ getlines content, isFaceLine l = true →
        classifyFace l ≠ FaceScan.quad ∧ classifyFace l ≠ FaceScan.unrecognized) →
      readMesh ops (some content) = Except.error ReadError.noVertices := by
    intro hf
    refine readMesh_no_vertex ops content ?_ hv
    intro l hl hfl
    obtain ⟨n1, n2⟩ := hf l hl hfl
    cases hs : classifyFace l <;> first | rfl | exact absurd hs n1 | exact absurd hs n2
  have h3 : readMesh ops (some content) = Except.error ReadError.notTriangular
      ∨ readMesh ops (some content) = Except.error ReadError.noVertices := by
    by_cases c : ∃ l ∈ getlines content, isFaceLine l = true
        ∧ (classifyFace l = FaceScan.quad ∨ classifyFace l = FaceScan.unrecognized)
    · exact Or.inl (h1 c)
    · refine Or.inr (h2 ?_)
      intro l hl hfl
      constructor
      · intro e; exact c ⟨l, hl, hfl, Or.inl e⟩
      · intro e; exact c ⟨l, hl, hfl, Or.inr e⟩
  refine ⟨h1, h2, h3, ?_⟩
  intro nargout
  rcases h3 with e | e
  · exact (readObj_of_mesh_error ops _ _ e).2 nargout
  · exact (readObj_of_mesh_error ops _ _ e).2 nargout

/-- Witness of C29 as amended: without a vertex line, the triangle `f 1 2 3`
gives the message of the missing vertices and the face `f 1 2 3 4` that of
the mesh that is not triangular. -/
theorem no_vertex_read_fails_witness :
    readMesh wholeOps (some "vn 0 0 1\nf 1 2 3\n".toList) = Except.error ReadError.noVertices
      ∧ readMesh wholeOps (some "vn 0 0 1\nf 1 2 3 4\n".toList)
          = Except.error ReadError.notTriangular :=
  ⟨(no_vertex_read_fails wholeOps "vn 0 0 1\nf 1 2 3\n".toList (by decide)).2.1 (by decide),
    (no_vertex_read_fails wholeOps "vn 0 0 1\nf 1 2 3 4\n".toList (by decide)).1
      ⟨"f 1 2 3 4".toList, by decide, rfl, Or.inl (by decide)⟩⟩

/-- C30: for a matrix of vertices of at least 3 rows and 3 columns and a
matrix of faces whose indices are all from 1 to the number of the vertices,
every index `meshBarycenter` takes is a row of the matrix of the vertices,
so every face has its three vertices and the call never reads outside the
matrix; a call that gives a point has divided by a number of faces that is
not zero; and when both arguments are matrices and the faces have at least
one row and 3 columns, the call gives a point. -/
theorem lookups_in_range {D : Type} (ops : BaryOps D) (nargout : Int) (V F : OctArg D)
    (k : Nat → Nat → Nat) (hr : 3 ≤ V.rows) (hc : V.columns = 3)
    (hk : HoldsIndices ops V F k) :
    (∀ i < F.rows, ∀ j < 3, ∃ idx : Int, ops.toIndex (F.array_value i j) = some idx
        ∧ 0 ≤ idx ∧ idx < V.rows ∧ (vertexAt ops V idx).isSome = true)
      ∧ (∀ i < F.rows, (faceVertices ops V F i).isSome = true)
      ∧ meshBarycenter ops nargout [V, F] ≠ BaryOutcome.undefined
      ∧ (∀ p, meshBarycenter ops nargout [V, F] = BaryOutcome.returned p
            ∨ meshBarycenter ops nargout [V, F] = BaryOutcome.printed p → F.rows ≠ 0)
      ∧ (V.is_matrix_type = true → F.is_matrix_type = true → 1 ≤ F.rows → F.columns = 3 →
          ∃ p, meshBarycenter ops nargout [V, F]
            = if nargout = 1 then BaryOutcome.returned p else BaryOutcome.printed p) := by
  refine ⟨?_, ?_, meshBarycenter_defined ops nargout V F k hk, ?_, ?_⟩
  · intro i hi j hj
    obtain ⟨a1, a2, a3⟩ := hk i hi j hj
    refine ⟨(k i j : Int) - 1, a3, by omega, by omega, ?_⟩
    rw [vertexAt_index ops V _ a1 a2]
    rfl
  · intro i hi
    rw [faceVertices_index ops V F k hk i hi]
    rfl
  · intro p hp h0
    obtain ⟨e, he⟩ := meshBarycenter_no_faces ops nargout V F h0
    rw [he] at hp
    rcases hp with hp | hp <;> exact BaryOutcome.noConfusion hp
  · intro hV hF hfr hfc
    exact ⟨_, meshBarycenter_valid ops nargout V F k hV hF hr hc hfr hfc hk⟩

/-- Witness of C30: the three vertices (0,0,0), (1,0,0), (0,1,0) and the
face (1, 2, 3). -/
theorem lookups_in_range_witness :
    (3 ≤ (ratArg [[0, 0, 0], [1, 0, 0], [0, 1, 0]] 3).rows)
      ∧ (faceVertices (floatOps 0) (ratArg [[0, 0, 0], [1, 0, 0], [0, 1, 0]] 3)
          (ratArg [[1, 2, 3]] 3) 0).isSome = true
      ∧ meshBarycenter (floatOps 0) 1
          [ratArg [[0, 0, 0], [1, 0, 0], [0, 1, 0]] 3, ratArg [[1, 2, 3]] 3]
        ≠ BaryOutcome.undefined := by
  have h := lookups_in_range (floatOps 0) 1 _ _ _ (by decide) rfl
    (holdsIndices_triangle 0 (ratArg [[0, 0, 0], [1, 0, 0], [0, 1, 0]] 3) (by decide))
  exact ⟨by decide, h.2.1 0 (by decide), h.2.2.1⟩

/-- C31: a face line of four references with strictly positive indices, the
first three in one syntax that is not the bare one and the fourth in another
syntax (`v/vt/vn` after three `v/vt` apart), passes the four checks for a
face of four vertices and is read as the triangle of its first three
references: their vertex indices are stored as one face and the fourth
reference is dropped.  So it is for `f 1/1 2/2 3/3 4` and for
`f 1/1/1 2/2/2 3/3/3 4//4`. -/
theorem fourth_reference_dropped {D : Type} (ops : NumOps D) (st : ReadState D)
    (r1 r2 r3 r4 : VRef) (h2 : r2.variant = r1.variant) (h3 : r3.variant = r1.variant)
    (h4 : r4.variant ≠ r1.variant) (hb : r1.variant ≠ Variant.bare)
    (ht : ¬ (r1.variant = Variant.tex ∧ r4.variant = Variant.texNorm))
    (p1 : r1.Positive) (p2 : r2.Positive) (p3 : r3.Positive) (p4 : r4.Positive) :
    quadScans (quadLine r1 r2 r3 r4) ≠ none
      ∧ classifyFace (quadLine r1 r2 r3 r4) = faceOfRefs r1 r2 r3
      ∧ (faceOfRefs r1 r2 r3).triple = some ⟨r1.vertex, r2.vertex, r3.vertex⟩
      ∧ ∃ st1, readLine ops st (quadLine r1 r2 r3 r4) = Except.ok st1
          ∧ st1.face = st.face ++ [⟨r1.vertex, r2.vertex, r3.vertex⟩]
          ∧ st1.face_counter = st.face_counter + 1 := by
  have hc := classify_mixed r1 r2 r3 r4 h2 h3 h4 hb ht p1 p2 p3 p4
  have htr := faceOfRefs_triple r1 r2 r3 h2 h3
  refine ⟨?_, hc, htr, ?_⟩
  · intro hq
    have : classifyFace (quadLine r1 r2 r3 r4) = FaceScan.quad := by
      simp only [classifyFace, hq]
    rw [this] at hc
    rw [← hc] at htr
    cases htr
  · exact readLine_triple ops st _ _ rfl (by rw [hc]; exact htr)

/-- Witness of C31: the lines `f 1/1 2/2 3/3 4` and `f 1/1/1 2/2/2 3/3/3 4//4`
are read as triangles, and a file of four vertices with the first of them is
read with the face (1, 2, 3). -/
theorem fourth_reference_dropped_witness :
    classifyFace "f 1/1 2/2 3/3 4".toList = FaceScan.tex ⟨1, 2, 3⟩ ⟨1, 2, 3⟩
      ∧ classifyFace "f 1/1/1 2/2/2 3/3/3 4//4".toList
          = FaceScan.texNorm ⟨1, 2, 3⟩ ⟨1, 2, 3⟩ ⟨1, 2, 3⟩
      ∧ readObj wholeOps 2 (some "v 0 0 0\nv 1 0 0\nv 1 1 0\nv 0 1 0\nf 1/1 2/2 3/3 4\n".toList)
          = Except.ok [OctValue.coords [⟨some 0, some 0, some 0⟩, ⟨some 1, some 0, some 0⟩,
              ⟨some 1, some 1, some 0⟩, ⟨some 0, some 1, some 0⟩], OctValue.faces [⟨1, 2, 3⟩]] :=
  have hp : ∀ i : Int, 0 < i → i < 5 → IsIndex i := fun i h0 h5 =>
    ⟨h0, lt_trans h5 (by decide)⟩
  ⟨(fourth_reference_dropped wholeOps {} (VRef.tex 1 1) (VRef.tex 2 2) (VRef.tex 3 3)
      (VRef.bare 4) rfl rfl (by decide) (by decide) (by decide)
      ⟨hp 1 (by decide) (by decide), hp 1 (by decide) (by decide)⟩
      ⟨hp 2 (by decide) (by decide), hp 2 (by decide) (by decide)⟩
      ⟨hp 3 (by decide) (by decide), hp 3 (by decide) (by decide)⟩
      (hp 4 (by decide) (by decide))).2.1,
    (fourth_reference_dropped wholeOps {} (VRef.texNorm 1 1 1) (VRef.texNorm 2 2 2)
      (VRef.texNorm 3 3 3) (VRef.norm 4 4) rfl rfl (by decide) (by decide) (by decide)
      ⟨hp 1 (by decide) (by decide), hp 1 (by decide) (by decide), hp 1 (by decide) (by decide)⟩
      ⟨hp 2 (by decide) (by decide), hp 2 (by decide) (by decide), hp 2 (by decide) (by decide)⟩
      ⟨hp 3 (by decide) (by decide), hp 3 (by decide) (by decide), hp 3 (by decide) (by decide)⟩
      ⟨hp 4 (by decide) (by decide), hp 4 (by decide) (by decide)⟩).2.1,
    rfl⟩

/-- C32 fails.  The line `f 4294967297 2 3/9` has strictly positive indices
and is read as the bare face (1, 2, 3), not (4294967297, 2, 3): an index goes
into an `int`.  And the leading part of the line `f 1 2 3 4/4` fully matches
the bare pattern, yet the line is not accepted as a bare face: the check for
four bare vertices fires on it. -/
theorem leading_match_not_kept :
    triLine (VRef.bare 4294967297) (VRef.bare 2) (VRef.tex 3 9) = "f 4294967297 2 3/9".toList
      ∧ classifyFace "f 4294967297 2 3/9".toList = FaceScan.bare ⟨1, 2, 3⟩
      ∧ fullMatch "f %d %d %d" 3 "f 1 2 3 4/4".toList = some [1, 2, 3]
      ∧ classifyFace "f 1 2 3 4/4".toList = FaceScan.quad :=
  ⟨by decide, by decide, by decide, by decide⟩

/-- C32 as amended: for strictly positive indices below 2^31, the values of
an `int`, the line `f a b c/t` is read as the bare face (a, b, c): the face
is stored and no texture face is, the `/t` after the third index having no
part in the result; and the line `f a/ta b/tb c/tc/nc` is read as the face
(a, b, c) with the texture face (ta, tb, tc): no normal face is stored, the
`/nc` at its end having no part in the result.  In general, a face line on
which no check for four vertices fires is accepted as the first of the four
patterns, in the order bare, `v/vt`, `v/vt/vn`, `v//vn`, that its leading
part fully matches, with the indices of that pattern; and the rest of the
line is ignored: a pattern that fully matches a line fully matches it, with
the same indices, with any text after it that does not begin with a digit. -/
theorem leading_match_accepted {D : Type} (ops : NumOps D) (st : ReadState D)
    (a b c t u tu v tv w tw nw : Int) (ha : IsIndex a) (hb : IsIndex b) (hc : IsIndex c)
    (ht : IsIndex t) (hu : IsIndex u) (htu : IsIndex tu) (hv : IsIndex v) (htv : IsIndex tv)
    (hw : IsIndex w) (htw : IsIndex tw) (hnw : IsIndex nw) :
    classifyFace (triLine (VRef.bare a) (VRef.bare b) (VRef.tex c t)) = FaceScan.bare ⟨a, b, c⟩
      ∧ readLine ops st (triLine (VRef.bare a) (VRef.bare b) (VRef.tex c t))
          = Except.ok { st with face_counter := st.face_counter + 1, face := st.face ++ [⟨a, b, c⟩] }
      ∧ classifyFace (triLine (VRef.tex u tu) (VRef.tex v tv) (VRef.texNorm w tw nw))
          = FaceScan.tex ⟨u, v, w⟩ ⟨tu, tv, tw⟩
      ∧ readLine ops st (triLine (VRef.tex u tu) (VRef.tex v tv) (VRef.texNorm w tw nw))
          = Except.ok { st with
              face_counter := st.face_counter + 1
              face := st.face ++ [⟨u, v, w⟩]
              face_texture := st.face_texture ++ [⟨tu, tv, tw⟩]
              faceT_counter := st.faceT_counter + 1 }
      ∧ (∀ (line : Line) (r : FaceScan), quadScans line ≠ none → firstMatch line = some r →
          classifyFace line = r)
      ∧ ∀ (fmt : String) (line extra : Line) (vals : List Int),
          (∀ x ∈ extra.head?, isdigit x = false) →
          fullMatch fmt (convCount (format fmt.toList)) line = some vals →
          fullMatch fmt (convCount (format fmt.toList)) (line ++ extra) = some vals := by
  have c1 := classify_bare_then_tex a b c t ha hb hc ht
  have c2 := classify_tex_then_texNorm u tu v tv w tw nw hu htu hv htv hw htw hnw
  refine ⟨c1, ?_, c2, ?_, ?_, fun fmt line extra vals hext hm =>
    fullMatch_append fmt line extra vals hext hm⟩
  · have h0 : charAt (triLine (VRef.bare a) (VRef.bare b) (VRef.tex c t)) 0 = 'f' := rfl
    have h1 : charAt (triLine (VRef.bare a) (VRef.bare b) (VRef.tex c t)) 1 = ' ' := rfl
    rw [readLine_face ops st _ h0 h1]
    simp [faceStep, h0, h1, c1]
  · have h0 : charAt (triLine (VRef.tex u tu) (VRef.tex v tv) (VRef.texNorm w tw nw)) 0 = 'f' := rfl
    have h1 : charAt (triLine (VRef.tex u tu) (VRef.tex v tv) (VRef.texNorm w tw nw)) 1 = ' ' := rfl
    rw [readLine_face ops st _ h0 h1]
    simp [faceStep, h0, h1, c2]
  · intro line r hq hm
    cases hs : quadScans line with
    | none => exact absurd hs hq
    | some s => exact classify_first_match line s r hs hm

/-- Witness of C32 as amended: the lines `f 1 2 3/7` and `f 1/4 2/5 3/6/9`,
a file with each of them after a texture coordinate and a normal, and the
bare pattern on `f 1 2 3` with `/7` after it. -/
theorem leading_match_accepted_witness :
    classifyFace "f 1 2 3/7".toList = FaceScan.bare ⟨1, 2, 3⟩
      ∧ classifyFace "f 1/4 2/5 3/6/9".toList = FaceScan.tex ⟨1, 2, 3⟩ ⟨4, 5, 6⟩
      ∧ readObj wholeOps 6 (some "v 0 0 0\nvt 0 0\nvn 0 0 1\nf 1 2 3/7\n".toList)
          = Except.ok [OctValue.coords [⟨some 0, some 0, some 0⟩], OctValue.faces [⟨1, 2, 3⟩],
              OctValue.tcoords [⟨some 0, some 0⟩], OctValue.faces [],
              OctValue.coords [⟨some 0, some 0, some 1⟩], OctValue.faces []]
      ∧ readObj wholeOps 6 (some "v 0 0 0\nvt 0 0\nvn 0 0 1\nf 1/4 2/5 3/6/9\n".toList)
          = Except.ok [OctValue.coords [⟨some 0, some 0, some 0⟩], OctValue.faces [⟨1, 2, 3⟩],
              OctValue.tcoords [⟨some 0, some 0⟩], OctValue.faces [⟨4, 5, 6⟩],
              OctValue.coords [⟨some 0, some 0, some 1⟩], OctValue.faces []]
      ∧ fullMatch "f %d %d %d" 3 ("f 1 2 3".toList ++ "/7".toList) = some [1, 2, 3] :=
  have hp : ∀ i : Int, 0 < i → i < 10 → IsIndex i := fun i h0 h5 =>
    ⟨h0, lt_trans h5 (by decide)⟩
  have h := leading_match_accepted wholeOps {} 1 2 3 7 1 4 2 5 3 6 9
    (hp 1 (by decide) (by decide)) (hp 2 (by decide) (by decide)) (hp 3 (by decide) (by decide))
    (hp 7 (by decide) (by decide)) (hp 1 (by decide) (by decide)) (hp 4 (by decide) (by decide))
    (hp 2 (by decide) (by decide)) (hp 5 (by decide) (by decide)) (hp 3 (by decide) (by decide))
    (hp 6 (by decide) (by decide)) (hp 9 (by decide) (by decide))
  ⟨h.1, h.2.2.1, rfl, rfl,
    h.2.2.2.2.2 "f %d %d %d" "f 1 2 3".toList "/7".toList [1, 2, 3] (by decide) (by decide)⟩

/-- C33: `writeObj` looks at no entry of the faces.  A call of three
arguments that writes a file writes one, under the same name, with any other
entries in the matrix of the faces; and when a face written has an index
that is zero or negative, the read of the text written fails as not
triangular, for every number of output arguments.  So it is with three
vertices and the face (0, 1, 2); the face (1, 2, 7), with an index beyond
the three vertices, is written as well. -/
theorem index_values_not_checked {D : Type} (ops : NumOps D) (host : Host) (V F nm : OctArg D)
    (name text : Line) (hw : writeObj ops host [V, F, nm] = WriteOutcome.written name text) :
    (∀ M : Nat → Nat → D, ∃ text1,
        writeObj ops host [V, { F with array_value := M }, nm] = WriteOutcome.written name text1)
      ∧ ∀ f ∈ stageFaces ops F.rows F.array_value,
          IntRange f.a → IntRange f.b → IntRange f.c → ¬ (0 < f.a ∧ 0 < f.b ∧ 0 < f.c) →
          faceLineBare f ∈ getlines text
            ∧ readMesh ops (some text) = Except.error ReadError.notTriangular
            ∧ ∀ nargout : Int, ∃ e, readObj ops nargout (some text) = Except.error e := by
  constructor
  · intro M
    have h3 := writeObj_three ops host V F nm name text hw
    obtain ⟨hv, hf, hfile⟩ := write3_written ops host V F nm name text h3
    obtain ⟨head, -, hb⟩ := writeFile_body host nm.string_value V.rows F.rows _
      (putLines ((stageCoords ops V.rows V.array_value).map (coordLine ops "v"))
        ++ putLines ((stageFaces ops F.rows M).map faceLineBare)) name text hfile
    refine ⟨head ++ (putLines ((stageCoords ops V.rows V.array_value).map (coordLine ops "v"))
        ++ putLines ((stageFaces ops F.rows M).map faceLineBare)), ?_⟩
    rw [← hb]
    unfold writeObj at hw ⊢
    simp only at hw ⊢
    by_cases c1 : (!nm.is_string) = true
    · rw [if_pos c1] at hw; cases hw
    rw [if_neg c1] at hw ⊢
    by_cases c2 : (!V.is_matrix_type || !F.is_matrix_type) = true
    · rw [if_pos c2] at hw; cases hw
    rw [if_neg c2] at hw ⊢
    unfold write3 at hw ⊢
    by_cases c3 : V.rows < 3
    · rw [if_pos c3] at hw; cases hw
    rw [if_neg c3] at hw ⊢
    by_cases c4 : V.columns ≠ 3
    · rw [if_pos c4] at hw; cases hw
    rw [if_neg c4] at hw ⊢
    by_cases c5 : F.rows < 1
    · rw [if_pos c5] at hw; cases hw
    rw [if_neg c5] at hw ⊢
    by_cases c6 : F.columns ≠ 3
    · rw [if_pos c6] at hw; cases hw
    rw [if_neg c6]
  · intro f hf ha hb hc hn
    have hmem := written3_face_lines ops host V F nm name text hw f hf
    have hm : readMesh ops (some text) = Except.error ReadError.notTriangular :=
      readMesh_failed_face ops text ⟨faceLineBare f, hmem, rfl, by
        rw [classify_bare_not_positive f ha hb hc hn]; rfl⟩
    exact ⟨hmem, hm, (readObj_of_mesh_error ops _ _ hm).2⟩

/-- Witness of C33: three vertices with the face (0, 1, 2) are written with
the line `f 0 1 2`, and the read of the file fails; with the face (1, 2, 7)
they are written with the line `f 1 2 7`. -/
theorem index_values_not_checked_witness :
    writeObj wholeOps freshHost
        [matrixArg [[0, 0, 0], [1, 0, 0], [0, 1, 0]] 3, matrixArg [[0, 1, 2]] 3, stringArg "m.obj"]
        = WriteOutcome.written "m.obj".toList (sampleTriangleText "f 0 1 2")
      ∧ readMesh wholeOps (some (sampleTriangleText "f 0 1 2"))
          = Except.error ReadError.notTriangular
      ∧ writeObj wholeOps freshHost
        [matrixArg [[0, 0, 0], [1, 0, 0], [0, 1, 0]] 3, matrixArg [[1, 2, 7]] 3, stringArg "m.obj"]
        = WriteOutcome.written "m.obj".toList (sampleTriangleText "f 1 2 7") :=
  ⟨rfl,
    ((index_values_not_checked wholeOps freshHost
      (matrixArg [[0, 0, 0], [1, 0, 0], [0, 1, 0]] 3) (matrixArg [[0, 1, 2]] 3) (stringArg "m.obj")
      "m.obj".toList (sampleTriangleText "f 0 1 2") rfl).2 ⟨0, 1, 2⟩ (by decide)
      ⟨by decide, by decide⟩ ⟨by decide, by decide⟩ ⟨by decide, by decide⟩ (by decide)).2.1,
    rfl⟩

/-- C34: on a line that begins with `mtl`, the name of the material library
`readObj` stores is the text after the first `./` of the line, whatever
comes after it, another `./` included, and whatever comes before it, a dot
included: the line `mtllib ../` followed by a text names that text, so
`mtllib ../textures/a.mtl` names `textures/a.mtl`. -/
theorem mtl_first_dot_slash {D : Type} (ops : NumOps D) (st : ReadState D) (pre post : Line)
    (hmtl : isMtlLine (pre ++ '.' :: '/' :: post) = true)
    (hfirst : ∀ pre1 post1 : Line, pre ++ '.' :: '/' :: post = pre1 ++ '.' :: '/' :: post1 →
      pre.length ≤ pre1.length) :
    mtlName (pre ++ '.' :: '/' :: post) = post
      ∧ readLine ops st (pre ++ '.' :: '/' :: post) = Except.ok { st with mtl_filename := post }
      ∧ (∀ rest : Line, mtlName ("mtllib ../".toList ++ rest) = rest)
      ∧ ∀ rest : Line, readLine ops st ("mtllib ../".toList ++ rest)
          = Except.ok { st with mtl_filename := rest } := by
  have hn := mtlName_first pre post hfirst
  have hd : ∀ rest : Line, mtlName ("mtllib ../".toList ++ rest) = rest := by
    intro rest
    simp [mtlName, find2, find2From]
  refine ⟨hn, ?_, hd, ?_⟩
  · rw [readLine_mtl ops st _ hmtl, hn]
  · intro rest
    rw [readLine_mtl ops st ("mtllib ../".toList ++ rest) rfl, hd]

/-- Witness of C34: the line `mtllib ./a/./b.mtl`, with `./` twice, names
`a/./b.mtl`; the line `mtllib ../textures/a.mtl` names `textures/a.mtl`, and
a file with that line is read with that name. -/
theorem mtl_first_dot_slash_witness :
    mtlName "mtllib ./a/./b.mtl".toList = "a/./b.mtl".toList
      ∧ mtlName "mtllib ../textures/a.mtl".toList = "textures/a.mtl".toList
      ∧ readObj wholeOps 3 (some "mtllib ../textures/a.mtl\nv 0 0 0\nf 1 1 1\n".toList)
          = Except.ok [OctValue.coords [⟨some 0, some 0, some 0⟩], OctValue.faces [⟨1, 1, 1⟩],
              OctValue.str "textures/a.mtl".toList] :=
  ⟨(mtl_first_dot_slash wholeOps {} "mtllib ".toList "a/./b.mtl".toList rfl (by
      intro pre1 post1 h
      by_contra hlt
      have hl : pre1.length < 7 := by simpa using hlt
      have e := congrArg (List.take 9) h
      match pre1, hl with
      | [], _ => simp at e
      | [_], _ => simp at e
      | [_, _], _ => simp at e
      | [_, _, _], _ => simp at e
      | [_, _, _, _], _ => simp at e
      | [_, _, _, _, _], _ => simp at e
      | [_, _, _, _, _, _], _ => simp at e
      | _ :: _ :: _ :: _ :: _ :: _ :: _ :: _, hl => simp at hl; omega)).1,
    (mtl_first_dot_slash wholeOps {} "mtllib .".toList "textures/a.mtl".toList rfl (by
      intro pre1 post1 h
      by_contra hlt
      have hl : pre1.length < 8 := by simpa using hlt
      have e := congrArg (List.take 10) h
      match pre1, hl with
      | [], _ => simp at e
      | [_], _ => simp at e
      | [_, _], _ => simp at e
      | [_, _, _], _ => simp at e
      | [_, _, _, _], _ => simp at e
      | [_, _, _, _, _], _ => simp at e
      | [_, _, _, _, _, _], _ => simp at e
      | [_, _, _, _, _, _, _], _ => simp at e
      | _ :: _ :: _ :: _ :: _ :: _ :: _ :: _ :: _, hl => simp at hl; omega)).1,
    rfl⟩

/-- C35: when the scan starts, and after every line it goes through, each of
the six counters is the length of its vector; the counters of the vertices,
the normals and the texture coordinates are so before the face of the line is
looked at as well.  Hence no read ends by reading a vector beyond its end,
and on every successful read each of the six copy loops takes exactly the
elements of its vector. -/
theorem counters_equal_lengths {D : Type} (ops : NumOps D) :
    CountersMatch ({} : ReadState D)
      ∧ (∀ (st : ReadState D) (line : Line), CountersMatch st →
          CountersMatch (preFace ops st line))
      ∧ (∀ (st st1 : ReadState D) (line : Line), CountersMatch st →
          readLine ops st line = Except.ok st1 → CountersMatch st1)
      ∧ (∀ (xs ys : List Line) (st : ReadState D), readLines ops {} (xs ++ ys) = Except.ok st →
          ∃ st1, readLines ops {} xs = Except.ok st1 ∧ CountersMatch st1)
      ∧ (∀ file : Option Line, readMesh ops file ≠ Except.error ReadError.outOfRange)
      ∧ ∀ (content : Line) (m : ObjData D), readMesh ops (some content) = Except.ok m →
          ∃ st, readLines ops {} (getlines content) = Except.ok st ∧ CountersMatch st
            ∧ copyRows st.vertex_counter st.vertex = some m.V
            ∧ copyRows st.texture_counter st.texture = some m.VT
            ∧ copyRows st.normals_counter st.normals = some m.VN
            ∧ copyRows st.face_counter st.face = some m.F
            ∧ copyRows st.faceT_counter st.face_texture = some m.FT
            ∧ copyRows st.faceN_counter st.face_normals = some m.FN := by
  have h0 : CountersMatch ({} : ReadState D) := ⟨rfl, rfl, rfl, rfl, rfl, rfl⟩
  have hall : ∀ (lines : List Line) (st : ReadState D),
      readLines ops {} lines = Except.ok st → CountersMatch st :=
    fun lines st h => (readLines_grows ops lines {} st h).counters _ _ _ _ _ _ _ _ h0
  refine ⟨h0, preFace_counters ops, ?_, ?_, ?_, ?_⟩
  · intro st st1 line h hl
    exact (readLine_grows ops st st1 line hl).counters _ _ _ _ _ _ _ _ h
  · intro xs ys st h
    rw [readLines_append] at h
    cases hx : readLines ops {} xs with
    | error e => rw [hx] at h; cases h
    | ok st1 => exact ⟨st1, rfl, hall xs st1 hx⟩
  · intro file
    cases file with
    | none => exact fun e => by cases e
    | some content =>
      cases hl : readLines ops {} (getlines content) with
      | error e =>
        have he := readLines_error ops _ _ e hl
        subst he
        simp only [readMesh, hl]
        exact fun e => by cases e
      | ok st =>
        simp only [readMesh, hl]
        exact toArrays_in_range st (hall _ st hl)
  · intro content m hm
    obtain ⟨c, st, hc, hst, -, -, -, hmm⟩ := readMesh_ok ops (some content) m hm
    cases hc
    have hcm := hall _ st hst
    obtain ⟨h1, h2, h3, h4, h5, h6⟩ := hcm
    refine ⟨st, hst, ⟨h1, h2, h3, h4, h5, h6⟩, ?_⟩
    subst hmm
    rw [h1, h2, h3, h4, h5, h6]
    simp only [copyRows_length, and_self]

/-- Witness of C35: after the lines `v 0 0 0` and `f 1/1/1 1/1/1 1/1/1` the
counters are the lengths of the vectors, one vertex and one face of each
kind, and the read of the file does not go beyond a vector. -/
theorem counters_equal_lengths_witness :
    (∃ st : ReadState Int,
        readLines wholeOps {} ["v 0 0 0".toList, "f 1/1/1 1/1/1 1/1/1".toList] = Except.ok st
          ∧ CountersMatch st ∧ st.vertex_counter = 1 ∧ st.face_counter = 1
          ∧ st.faceT_counter = 1 ∧ st.faceN_counter = 1)
      ∧ readMesh wholeOps (some "v 0 0 0\nf 1/1/1 1/1/1 1/1/1\n".toList)
          ≠ Except.error ReadError.outOfRange :=
  ⟨((counters_equal_lengths wholeOps).2.2.2.1 ["v 0 0 0".toList, "f 1/1/1 1/1/1 1/1/1".toList] []
      _ rfl).elim fun st h => ⟨st, h.1, h.2, by
        have e := h.1
        cases e
        exact ⟨rfl, rfl, rfl, rfl⟩⟩,
    (counters_equal_lengths wholeOps).2.2.2.2.1 _⟩

end WavefrontObj
